import Mathlib

/-!
# Verification development for the mapping cache layer

Shallow embedding of

* `src/mapping/cache/priv/cube.cpp` (Interval, Cube)
* `src/mapping/cache/priv/cache_stats.cpp` (wire-serialisable statistics records)
* `src/mapping/cache/priv/connection.cpp` (the four connection state machines)
* `src/mapping/datatypes/polygoncollection.cpp` (PolygonCollection)

Modelling conventions.

* A C++ `double` is modelled by a rational number: finite values, exact
  arithmetic, total order. `std::numeric_limits<double>::epsilon()` is `2^-52`.
* Where a property turns on an infinite or NaN value or on rounding, the code
  is embedded a second time on the type `Dbl`, which has the two infinities and
  NaN and rounds a result to the nearest double (namespace `IEEE`).
* A thrown C++ exception is the `Except.error` branch of the result.
* Unsigned machine integers are natural numbers together with an explicit range
  predicate where the width matters.
-/

namespace Mapping

/-- Exceptions thrown by the embedded code (declared in util/exceptions.h). -/
inductive Exn where
  | ArgumentException (msg : String)
  | NetworkException (msg : String)
  | IllegalStateException (msg : String)
  | FeatureException (msg : String)
  deriving DecidableEq, Repr

/-- Value of `std::numeric_limits<double>::epsilon()`. -/
def epsilon : ℚ := 1 / 2 ^ 52

/-! ## Interval (cube.cpp, lines 15-73) -/

/-- Interval with the two public members `a` and `b`; the constructor
`Interval(double a, double b)` stores its arguments unchecked. -/
structure Interval where
  a : ℚ
  b : ℚ
  deriving DecidableEq

namespace Interval

/-- Embeds `Interval::Interval()`. -/
def default : Interval := ⟨0, 0⟩

/-- Embeds `Interval::empty`. -/
def empty (i : Interval) : Bool :=
  decide (i.a = 0) && decide (i.b = 0)

/-- Embeds `Interval::intersects`. -/
def intersects (i other : Interval) : Bool :=
  !(decide (i.a > other.b) || decide (i.b < other.a))

/-- Embeds `Interval::contains(const Interval&)`. -/
def contains (i other : Interval) : Bool :=
  decide (i.a - epsilon ≤ other.a) && decide (i.b + epsilon ≥ other.b)

/-- Embeds `Interval::contains(double)`. -/
def containsValue (i : Interval) (value : ℚ) : Bool :=
  decide (i.a - epsilon ≤ value) && decide (i.b + epsilon ≥ value)

/-- Embeds `Interval::combine`. -/
def combine (i other : Interval) : Interval :=
  ⟨min i.a other.a, max i.b other.b⟩

/-- Embeds `Interval::intersect`. -/
def intersect (i other : Interval) : Except Exn Interval :=
  if !i.intersects other then
    Except.error (Exn.ArgumentException "Cannot intersect disjunct intervals")
  else
    Except.ok ⟨max i.a other.a, min i.b other.b⟩

/-- Embeds `Interval::distance`. -/
def distance (i : Interval) : ℚ := i.b - i.a

/-- Embeds `Interval::operator==`. -/
def opEq (i o : Interval) : Bool :=
  decide (|i.a - o.a| < epsilon) && decide (|i.b - o.b| < epsilon)

/-- Embeds `Interval::operator!=`. -/
def opNe (i o : Interval) : Bool := !(i.opEq o)

end Interval

/-! ## Cube (cube.cpp, lines 129-266) -/

/-- The class `Cube<DIM>`: its member `std::array<Interval,DIM> dims`. -/
structure Cube (DIM : Nat) where
  dims : Fin DIM → Interval

namespace Cube

variable {DIM : Nat}

/-- Embeds `Cube<DIM>::Cube()`. -/
def default : Cube DIM := ⟨fun _ => Interval.default⟩

/-- Embeds `Cube<DIM>::get_dimension`. -/
def get_dimension (c : Cube DIM) (dim : Int) : Except Exn Interval :=
  if h : dim < 0 ∨ dim ≥ DIM then
    Except.error (Exn.ArgumentException "Cannot get dimension")
  else
    Except.ok (c.dims ⟨dim.toNat, by omega⟩)

/-- Embeds `Cube<DIM>::set_dimension(int, double, double)`. -/
def set_dimension (c : Cube DIM) (dim : Int) (a b : ℚ) : Except Exn (Cube DIM) :=
  if h : dim < 0 ∨ dim ≥ DIM then
    Except.error (Exn.ArgumentException "Cannot set dimension")
  else
    Except.ok ⟨Function.update c.dims ⟨dim.toNat, by omega⟩ ⟨a, b⟩⟩

/-- Embeds `Cube<DIM>::empty`. -/
def empty (c : Cube DIM) : Bool :=
  (List.finRange DIM).foldl (fun res i => res && (c.dims i).empty) true

/-- Embeds `Cube<DIM>::intersects`. -/
def intersects (c other : Cube DIM) : Bool :=
  (List.finRange DIM).foldl (fun res i => res && (c.dims i).intersects (other.dims i)) true

/-- Embeds `Cube<DIM>::contains`. -/
def contains (c other : Cube DIM) : Bool :=
  (List.finRange DIM).foldl (fun res i => res && (c.dims i).contains (other.dims i)) true

/-- Embeds `Cube<DIM>::operator==`. -/
def opEq (c o : Cube DIM) : Bool :=
  (List.finRange DIM).foldl (fun res i => res && (c.dims i).opEq (o.dims i)) true

/-- Embeds `Cube<DIM>::volume`. -/
def volume (c : Cube DIM) : ℚ :=
  (List.finRange DIM).foldl (fun res i => res * (c.dims i).distance) 1

/-- One iteration of the loop of `Cube<DIM>::dissect_by` at axis `i`, on the
loop state `(work, res)`. -/
def dissectBody (fill : Cube DIM) (st : Cube DIM × List (Cube DIM)) (i : Fin DIM) :
    Except Exn (Cube DIM × List (Cube DIM)) := do
  let work := st.1
  let res := st.2
  let o_dim := fill.dims i
  -- Left
  let (work, res) ←
    if o_dim.a > (work.dims i).a then do
      let rem ← work.set_dimension (i.val : Int) (work.dims i).a o_dim.a
      pure ((⟨Function.update work.dims i ⟨o_dim.a, (work.dims i).b⟩⟩ : Cube DIM), res ++ [rem])
    else pure (work, res)
  -- Right
  if o_dim.b < (work.dims i).b then do
    let rem ← work.set_dimension (i.val : Int) o_dim.b (work.dims i).b
    pure ((⟨Function.update work.dims i ⟨(work.dims i).a, o_dim.b⟩⟩ : Cube DIM), res ++ [rem])
  else pure (work, res)

/-- Embeds `Cube<DIM>::dissect_by`. -/
def dissect_by (c fill : Cube DIM) : Except Exn (List (Cube DIM)) :=
  if fill.contains c then
    Except.ok []
  else if !c.intersects fill then
    Except.error (Exn.ArgumentException "Filling cube must intersect this cube for dissection")
  else do
    let st ← (List.finRange DIM).foldlM (dissectBody fill) (c, [])
    pure st.2

/-! ### Proof devices for `dissect_by` -/

/-- Exception-free form of the "Left" block of the loop body of `dissect_by`
(inside the loop the index is in range, so `set_dimension` cannot throw). -/
def dissectLeft (fill : Cube DIM) (st : Cube DIM × List (Cube DIM)) (i : Fin DIM) :
    Cube DIM × List (Cube DIM) :=
  if (fill.dims i).a > (st.1.dims i).a then
    (⟨Function.update st.1.dims i ⟨(fill.dims i).a, (st.1.dims i).b⟩⟩,
      st.2 ++ [⟨Function.update st.1.dims i ⟨(st.1.dims i).a, (fill.dims i).a⟩⟩])
  else st

/-- Exception-free form of the "Right" block of the loop body of `dissect_by`. -/
def dissectRight (fill : Cube DIM) (st : Cube DIM × List (Cube DIM)) (i : Fin DIM) :
    Cube DIM × List (Cube DIM) :=
  if (fill.dims i).b < (st.1.dims i).b then
    (⟨Function.update st.1.dims i ⟨(st.1.dims i).a, (fill.dims i).b⟩⟩,
      st.2 ++ [⟨Function.update st.1.dims i ⟨(fill.dims i).b, (st.1.dims i).b⟩⟩])
  else st

/-- Exception-free form of `dissectBody`. -/
def dissectStep (fill : Cube DIM) (st : Cube DIM × List (Cube DIM)) (i : Fin DIM) :
    Cube DIM × List (Cube DIM) :=
  dissectRight fill (dissectLeft fill st i) i

/-- Sum of the volumes of a list of cubes. -/
def sumVolume (l : List (Cube DIM)) : ℚ := (l.map volume).sum

/-- On every axis, `fill` is a well-formed interval lying inside `c`:
`c.lo <= fill.lo <= fill.hi <= c.hi`. -/
def Inside (fill c : Cube DIM) : Prop :=
  ∀ i, (c.dims i).a ≤ (fill.dims i).a ∧ (fill.dims i).a ≤ (fill.dims i).b ∧
    (fill.dims i).b ≤ (c.dims i).b

end Cube

/-- Two intervals share an interior point. -/
def Interval.shareInterior (x y : Interval) : Prop :=
  ∃ t : ℚ, x.a < t ∧ t < x.b ∧ y.a < t ∧ t < y.b

/-- Two cubes are disjoint up to shared boundaries: on some axis their
intervals share no interior point. -/
def Cube.InteriorDisjoint {DIM : Nat} (x y : Cube DIM) : Prop :=
  ∃ i, ¬ Interval.shareInterior (x.dims i) (y.dims i)

/-- Two intervals lie side by side: one ends where or before the other starts. -/
def Interval.Separated (x y : Interval) : Prop :=
  x.b ≤ y.a ∨ y.b ≤ x.a

/-- Interval `y` lies within interval `x`. -/
def Interval.Within (y x : Interval) : Prop :=
  x.a ≤ y.a ∧ y.b ≤ x.b

/-- Loop invariant of `dissect_by` used for disjointness: `fill` lies inside the
work cube, the remainders found so far are pairwise disjoint up to boundaries,
and each of them lies beside the work cube on some axis. -/
def Cube.SepInv {DIM : Nat} (fill : Cube DIM) (st : Cube DIM × List (Cube DIM)) : Prop :=
  Cube.Inside fill st.1 ∧ st.2.Pairwise Cube.InteriorDisjoint ∧
    ∀ r ∈ st.2, ∃ k, Interval.Separated (r.dims k) (st.1.dims k)

/-- Loop invariant of `dissect_by` for well-formed intersecting cubes: on every
axis the work cube is a well-formed interval lying within `c` that reaches
`fill` (neither ends before `fill` starts nor starts after `fill` ends). -/
def Cube.WorkInv {DIM : Nat} (c fill work : Cube DIM) : Prop :=
  ∀ k, (work.dims k).a ≤ (work.dims k).b ∧ Interval.Within (work.dims k) (c.dims k) ∧
    (work.dims k).a ≤ (fill.dims k).b ∧ (fill.dims k).a ≤ (work.dims k).b

/-- A remainder as `dissect_by` is meant to return it: well-formed and within
`c` on every axis, and of strictly positive extent on an axis where it ends at
the lower bound of `fill` or starts at the upper bound of `fill`. -/
def Cube.GoodRemainder {DIM : Nat} (c fill r : Cube DIM) : Prop :=
  (∀ k, (r.dims k).a ≤ (r.dims k).b ∧ Interval.Within (r.dims k) (c.dims k)) ∧
    ∃ i, (r.dims i).a < (r.dims i).b ∧
      ((r.dims i).b = (fill.dims i).a ∨ (r.dims i).a = (fill.dims i).b)

/-! ## Binary buffers

The classes `BinaryWriteBuffer` and `BinaryReadBuffer` (util/binarystream.h) are
not part of the sources. Their primitives are modelled below on byte lists. -/

/-- One byte of a binary buffer. -/
abbrev Byte := Fin 256

/-- Bytes written so far to a `BinaryWriteBuffer`. -/
abbrev BinaryWriteBuffer := List Byte

/-- Bytes not yet consumed from a `BinaryReadBuffer`. -/
abbrev BinaryReadBuffer := List Byte

/-- A reading operation on a `BinaryReadBuffer`: it consumes bytes from the
front of the buffer or throws. -/
abbrev Read (α : Type) := StateT BinaryReadBuffer (Except Exn) α

/-- Modelled from the spec: the fixed-width image of an unsigned integer (the
byte-level primitive of BinaryWriteBuffer is missing). The value, reduced modulo
`256^n`, is laid out in `n` bytes, least significant byte first, the same way in
the whole system. -/
def leBytes : Nat → Nat → List Byte
  | 0, _ => []
  | n + 1, v => ⟨v % 256, Nat.mod_lt v (by decide)⟩ :: leBytes n (v / 256)

/-- Modelled from the spec: the unsigned integer denoted by a little-endian
byte sequence (the byte-level primitive of BinaryReadBuffer is missing). -/
def leValue : List Byte → Nat
  | [] => 0
  | b :: bs => b.val + 256 * leValue bs

/-- Modelled from the spec: `BinaryWriteBuffer::write` (and `operator<<`) for an
unsigned integer type of `n` bytes, which is missing from the sources. -/
def writeUInt (buffer : BinaryWriteBuffer) (n : Nat) (v : Nat) : BinaryWriteBuffer :=
  buffer ++ leBytes n v

/-- Modelled from the spec: `BinaryReadBuffer::read<T>()` for an unsigned
integer type of `n` bytes, which is missing from the sources. It throws when
fewer than `n` bytes are left. -/
def readUInt (n : Nat) : Read Nat := fun buffer =>
  if buffer.length < n then
    Except.error (Exn.NetworkException "BinaryReadBuffer: not enough data to read")
  else
    Except.ok (leValue (buffer.take n), buffer.drop n)

/-- Modelled from the spec: `BinaryWriteBuffer::write(const std::string&)`, which
is missing from the sources: a uint64 count followed by the characters. -/
def writeString (buffer : BinaryWriteBuffer) (s : List Byte) : BinaryWriteBuffer :=
  writeUInt buffer 8 s.length ++ s

/-- Modelled from the spec: `BinaryReadBuffer::read(std::string*)`, which is
missing from the sources: a uint64 count followed by the characters. -/
def readString : Read (List Byte) := do
  let len ← readUInt 8
  fun buffer =>
    if buffer.length < len then
      Except.error (Exn.NetworkException "BinaryReadBuffer: not enough data to read")
    else
      Except.ok (buffer.take len, buffer.drop len)

/-- Modelled from the spec: the 8-byte image of a double. The buffer copies the
IEEE-754 representation, which the rational model of double does not carry, so
the correspondence between values and 64-bit patterns is a parameter: `bits x`
is the pattern stored for the double `x`, `value w` the double stored as the
pattern `w`. -/
structure DoubleCodec where
  bits : ℚ → Nat
  value : Nat → ℚ

/-- The rational `x` is a double of the codec: its 64-bit pattern denotes it. -/
def DoubleCodec.Representable (codec : DoubleCodec) (x : ℚ) : Prop :=
  codec.value (codec.bits x % 2 ^ 64) = x

/-- Modelled from the spec: `BinaryWriteBuffer::write` for a double. -/
def writeDouble (codec : DoubleCodec) (buffer : BinaryWriteBuffer) (x : ℚ) : BinaryWriteBuffer :=
  writeUInt buffer 8 (codec.bits x)

/-- Modelled from the spec: `BinaryReadBuffer::read<double>()`. -/
def readDouble (codec : DoubleCodec) : Read ℚ := do
  let w ← readUInt 8
  pure (codec.value w)

/-! ## Ordered maps -/

/-- A `std::map<K,V>`: its entries in iteration order, i.e. by ascending key. -/
abbrev StdMap (K V : Type) := List (K × V)

namespace StdMap

variable {K V : Type}

/-- Representation invariant of a `std::map`: keys strictly ascending. -/
def Ordered [LinearOrder K] (m : StdMap K V) : Prop :=
  (m.map Prod.fst).Pairwise (· < ·)

/-- Embeds `std::map::emplace(k, v)`: inserts the entry at its place in key
order unless the key is already present. -/
def emplace [LinearOrder K] : StdMap K V → K → V → StdMap K V
  | [], k, v => [(k, v)]
  | (k0, v0) :: t, k, v =>
    if k < k0 then (k, v) :: (k0, v0) :: t
    else if k = k0 then (k0, v0) :: t
    else (k0, v0) :: emplace t k v

end StdMap

/-! ## Statistics records (cache_stats.cpp)

The class declarations (cache_stats.h) are not part of the sources; the member
types are the types the binary constructors read. -/

/-- Members of `NodeEntryStats`: `uint64_t entry_id`, `uint64_t last_access`,
`uint32_t access_count`. -/
structure NodeEntryStats where
  entry_id : Nat
  last_access : Nat
  access_count : Nat
  deriving DecidableEq

namespace NodeEntryStats

/-- Every member is in the range of its machine type. -/
def InRange (e : NodeEntryStats) : Prop :=
  e.entry_id < 2 ^ 64 ∧ e.last_access < 2 ^ 64 ∧ e.access_count < 2 ^ 32

/-- Embeds `NodeEntryStats::NodeEntryStats(BinaryReadBuffer&)`. -/
def fromBuffer : Read NodeEntryStats := do
  let entry_id ← readUInt 8
  let last_access ← readUInt 8
  let access_count ← readUInt 4
  pure { entry_id := entry_id, last_access := last_access, access_count := access_count }

/-- Embeds `NodeEntryStats::serialize`. -/
def serialize (e : NodeEntryStats) (buffer : BinaryWriteBuffer) : BinaryWriteBuffer :=
  let buffer := writeUInt buffer 8 e.entry_id
  let buffer := writeUInt buffer 8 e.last_access
  let buffer := writeUInt buffer 4 e.access_count
  buffer

end NodeEntryStats

/-- Modelled from the spec: the cache type tag `CacheType`, an enumeration whose
declaration is missing from the sources; it is taken to be one byte wide. -/
abbrev CacheType := Byte

/-- Members of `CacheUsage`: `CacheType type`, `uint64_t capacity_total`,
`uint64_t capacity_used`. -/
structure CacheUsage where
  type : CacheType
  capacity_total : Nat
  capacity_used : Nat
  deriving DecidableEq

namespace CacheUsage

/-- Every member is in the range of its machine type. -/
def InRange (u : CacheUsage) : Prop :=
  u.capacity_total < 2 ^ 64 ∧ u.capacity_used < 2 ^ 64

/-- Embeds `CacheUsage::CacheUsage(BinaryReadBuffer&)`. -/
def fromBuffer : Read CacheUsage := do
  let type ← readUInt 1
  let capacity_total ← readUInt 8
  let capacity_used ← readUInt 8
  pure { type := Fin.ofNat type, capacity_total := capacity_total,
         capacity_used := capacity_used }

/-- Embeds `CacheUsage::serialize`. -/
def serialize (u : CacheUsage) (buffer : BinaryWriteBuffer) : BinaryWriteBuffer :=
  let buffer := writeUInt buffer 1 u.type.val
  let buffer := writeUInt buffer 8 u.capacity_total
  let buffer := writeUInt buffer 8 u.capacity_used
  buffer

/-- Embeds `CacheUsage::get_ratio`. -/
def get_ratio (u : CacheUsage) : ℚ :=
  if u.capacity_total ≠ 0 then (u.capacity_used : ℚ) / (u.capacity_total : ℚ) else 1

end CacheUsage

/-- Members of `CacheContent<T>`: the `CacheUsage` base and
`std::map<std::string, std::vector<T>> items`. -/
structure CacheContent (T : Type) extends CacheUsage where
  items : StdMap (List Byte) (List T)

namespace CacheContent

variable {T : Type}

/-- Inner loop of `CacheContent<T>::CacheContent(BinaryReadBuffer&)`: reads the
remaining `n` elements and appends them to `elems`. -/
def readElems (readT : Read T) : Nat → List T → Read (List T)
  | 0, elems => pure elems
  | n + 1, elems => do
    let x ← readT
    readElems readT n (elems ++ [x])

/-- Outer loop of `CacheContent<T>::CacheContent(BinaryReadBuffer&)`: reads the
remaining `n` map entries and emplaces them into `items`. -/
def readItems (readT : Read T) :
    Nat → StdMap (List Byte) (List T) → Read (StdMap (List Byte) (List T))
  | 0, items => pure items
  | n + 1, items => do
    let semantic_id ← readString
    let v_size ← readUInt 8
    let elems ← readElems readT v_size []
    readItems readT n (StdMap.emplace items semantic_id elems)

/-- Embeds `CacheContent<T>::CacheContent(BinaryReadBuffer&)`; `readT` is the
binary constructor of `T`. -/
def fromBuffer (readT : Read T) : Read (CacheContent T) := do
  let usage ← CacheUsage.fromBuffer
  let size ← readUInt 8
  let items ← readItems readT size []
  pure { toCacheUsage := usage, items := items }

/-- Embeds `CacheContent<T>::serialize`; `writeT` is `T::serialize`. -/
def serialize (writeT : T → BinaryWriteBuffer → BinaryWriteBuffer) (c : CacheContent T)
    (buffer : BinaryWriteBuffer) : BinaryWriteBuffer :=
  let buffer := c.toCacheUsage.serialize buffer
  let buffer := writeUInt buffer 8 c.items.length
  c.items.foldl (fun buffer e =>
    let buffer := writeString buffer e.1
    let buffer := writeUInt buffer 8 e.2.length
    e.2.foldl (fun buffer nes => writeT nes buffer) buffer) buffer

end CacheContent

/-- The class `CacheStats`, which is `CacheContent<NodeEntryStats>`. -/
abbrev CacheStats := CacheContent NodeEntryStats

namespace CacheStats

/-- Embeds `CacheStats::CacheStats(BinaryReadBuffer&)`. -/
def fromBuffer : Read CacheStats := CacheContent.fromBuffer NodeEntryStats.fromBuffer

/-- Embeds `CacheContent<NodeEntryStats>::serialize`. -/
def serialize (c : CacheStats) (buffer : BinaryWriteBuffer) : BinaryWriteBuffer :=
  CacheContent.serialize NodeEntryStats.serialize c buffer

/-- Every count and member fits its machine type and the map is a `std::map`:
at most `2^64 - 1` entries with strictly ascending keys, every key and every
entry sequence shorter than `2^64`, every entry in range. -/
def InRange (c : CacheStats) : Prop :=
  c.toCacheUsage.InRange ∧ c.items.length < 2 ^ 64 ∧ StdMap.Ordered c.items ∧
    ∀ e ∈ c.items, e.1.length < 2 ^ 64 ∧ e.2.length < 2 ^ 64 ∧
      ∀ x ∈ e.2, NodeEntryStats.InRange x

end CacheStats

/-- Members of `QueryStats`: seven `uint32_t` counters, `uint64_t result_bytes`,
`uint64_t queries`, `double ratios`. -/
structure QueryStats where
  single_local_hits : Nat
  multi_local_hits : Nat
  multi_local_partials : Nat
  single_remote_hits : Nat
  multi_remote_hits : Nat
  multi_remote_partials : Nat
  misses : Nat
  result_bytes : Nat
  queries : Nat
  ratios : ℚ
  deriving DecidableEq

namespace QueryStats

/-- Every member is in the range of its machine type. -/
def InRange (codec : DoubleCodec) (q : QueryStats) : Prop :=
  q.single_local_hits < 2 ^ 32 ∧ q.multi_local_hits < 2 ^ 32 ∧
    q.multi_local_partials < 2 ^ 32 ∧ q.single_remote_hits < 2 ^ 32 ∧
    q.multi_remote_hits < 2 ^ 32 ∧ q.multi_remote_partials < 2 ^ 32 ∧
    q.misses < 2 ^ 32 ∧ q.result_bytes < 2 ^ 64 ∧ q.queries < 2 ^ 64 ∧
    codec.Representable q.ratios

/-- Embeds `QueryStats::QueryStats()`. -/
def default : QueryStats :=
  { single_local_hits := 0, multi_local_hits := 0, multi_local_partials := 0,
    single_remote_hits := 0, multi_remote_hits := 0, multi_remote_partials := 0,
    misses := 0, result_bytes := 0, queries := 0, ratios := 0 }

/-- Embeds `QueryStats::QueryStats(BinaryReadBuffer&)`. -/
def fromBuffer (codec : DoubleCodec) : Read QueryStats := do
  let single_local_hits ← readUInt 4
  let multi_local_hits ← readUInt 4
  let multi_local_partials ← readUInt 4
  let single_remote_hits ← readUInt 4
  let multi_remote_hits ← readUInt 4
  let multi_remote_partials ← readUInt 4
  let misses ← readUInt 4
  let result_bytes ← readUInt 8
  let queries ← readUInt 8
  let ratios ← readDouble codec
  pure { single_local_hits := single_local_hits, multi_local_hits := multi_local_hits,
         multi_local_partials := multi_local_partials,
         single_remote_hits := single_remote_hits, multi_remote_hits := multi_remote_hits,
         multi_remote_partials := multi_remote_partials, misses := misses,
         result_bytes := result_bytes, queries := queries, ratios := ratios }

/-- Embeds `QueryStats::serialize`. -/
def serialize (codec : DoubleCodec) (q : QueryStats) (buffer : BinaryWriteBuffer) :
    BinaryWriteBuffer :=
  let buffer := writeUInt (writeUInt (writeUInt buffer 4 q.single_local_hits)
    4 q.multi_local_hits) 4 q.multi_local_partials
  let buffer := writeUInt (writeUInt (writeUInt buffer 4 q.single_remote_hits)
    4 q.multi_remote_hits) 4 q.multi_remote_partials
  let buffer := writeDouble codec (writeUInt (writeUInt (writeUInt buffer 4 q.misses)
    8 q.result_bytes) 8 q.queries) q.ratios
  buffer

/-- Embeds `QueryStats::add_query`; `queries` is a `uint64_t`. -/
def add_query (q : QueryStats) (ratio : ℚ) : QueryStats :=
  { q with ratios := q.ratios + ratio, queries := (q.queries + 1) % 2 ^ 64 }

/-- Embeds `QueryStats::get_hit_ratio`. -/
def get_hit_ratio (q : QueryStats) : ℚ :=
  if q.queries > 0 then q.ratios / (q.queries : ℚ) else 0

/-- Embeds `QueryStats::reset`. -/
def reset (q : QueryStats) : QueryStats :=
  { q with single_local_hits := 0, multi_local_hits := 0, multi_local_partials := 0,
           single_remote_hits := 0, multi_remote_hits := 0, multi_remote_partials := 0,
           misses := 0, result_bytes := 0, queries := 0, ratios := 0 }

end QueryStats

/-- Members of `SystemStats`: the `QueryStats` base, `uint32_t queries_issued`,
`uint32_t queries_scheduled`, `uint32_t query_counter`, the doubles
`avg_wait_time`, `avg_exec_time`, `avg_time`, and
`std::map<uint32_t,uint64_t> node_to_queries`. -/
structure SystemStats extends QueryStats where
  queries_issued : Nat
  queries_scheduled : Nat
  query_counter : Nat
  avg_wait_time : ℚ
  avg_exec_time : ℚ
  avg_time : ℚ
  node_to_queries : StdMap Nat Nat
  deriving DecidableEq

namespace SystemStats

/-- Every count and member fits its machine type and `node_to_queries` is a
`std::map`: fewer than `2^64` entries with strictly ascending keys. -/
def InRange (codec : DoubleCodec) (s : SystemStats) : Prop :=
  s.toQueryStats.InRange codec ∧ s.queries_issued < 2 ^ 32 ∧ s.queries_scheduled < 2 ^ 32 ∧
    s.query_counter < 2 ^ 32 ∧ codec.Representable s.avg_wait_time ∧
    codec.Representable s.avg_exec_time ∧ codec.Representable s.avg_time ∧
    s.node_to_queries.length < 2 ^ 64 ∧ StdMap.Ordered s.node_to_queries ∧
    ∀ p ∈ s.node_to_queries, p.1 < 2 ^ 32 ∧ p.2 < 2 ^ 64

/-- Loop of `SystemStats::SystemStats(BinaryReadBuffer&)`: reads the remaining
`n` map entries and emplaces them into `node_to_queries`. -/
def readMap : Nat → StdMap Nat Nat → Read (StdMap Nat Nat)
  | 0, node_to_queries => pure node_to_queries
  | n + 1, node_to_queries => do
    let k ← readUInt 4
    let v ← readUInt 8
    readMap n (StdMap.emplace node_to_queries k v)

/-- Embeds `SystemStats::SystemStats(BinaryReadBuffer&)`. -/
def fromBuffer (codec : DoubleCodec) : Read SystemStats := do
  let base ← QueryStats.fromBuffer codec
  let queries_issued ← readUInt 4
  let queries_scheduled ← readUInt 4
  let query_counter ← readUInt 4
  let avg_wait_time ← readDouble codec
  let avg_exec_time ← readDouble codec
  let avg_time ← readDouble codec
  let map_size ← readUInt 8
  let node_to_queries ← readMap map_size []
  pure { toQueryStats := base, queries_issued := queries_issued,
         queries_scheduled := queries_scheduled, query_counter := query_counter,
         avg_wait_time := avg_wait_time, avg_exec_time := avg_exec_time,
         avg_time := avg_time, node_to_queries := node_to_queries }

/-- Embeds `SystemStats::serialize`. -/
def serialize (codec : DoubleCodec) (s : SystemStats) (buffer : BinaryWriteBuffer) :
    BinaryWriteBuffer :=
  let buffer := QueryStats.serialize codec s.toQueryStats buffer
  let buffer := writeUInt (writeUInt (writeUInt buffer 4 s.queries_issued)
    4 s.queries_scheduled) 4 s.query_counter
  let buffer := writeDouble codec (writeDouble codec (writeDouble codec buffer
    s.avg_wait_time) s.avg_exec_time) s.avg_time
  let size := s.node_to_queries.length
  let buffer := writeUInt buffer 8 size
  s.node_to_queries.foldl (fun buffer p => writeUInt (writeUInt buffer 4 p.1) 8 p.2) buffer

/-- Embeds `SystemStats::SystemStats()`. -/
def default : SystemStats :=
  { toQueryStats := QueryStats.default, queries_issued := 0, queries_scheduled := 0,
    query_counter := 0, avg_wait_time := 0, avg_exec_time := 0, avg_time := 0,
    node_to_queries := [] }

/-- Difference of two `size_t` values as the machine computes it: modulo `2^64`. -/
def sizeSub (x y : Nat) : Nat := (x + 2 ^ 64 - y % 2 ^ 64) % 2 ^ 64

/-- Embeds `SystemStats::query_finished`. The arguments `time_created`,
`time_scheduled`, `time_finished` are `size_t`, `num_clients` and the member
`query_counter` are `uint32_t`, the averages are doubles. -/
def query_finished (s : SystemStats) (num_clients time_created time_scheduled
    time_finished : Nat) : SystemStats :=
  let avg_exec_time : ℚ :=
    ((s.avg_exec_time * (s.query_counter : ℚ)) + (sizeSub time_finished time_scheduled : ℚ))
      / (((s.query_counter + num_clients) % 2 ^ 32 : Nat) : ℚ)
  let avg_wait_time : ℚ :=
    ((s.avg_wait_time * (s.query_counter : ℚ)) + (sizeSub time_scheduled time_created : ℚ))
      / (((s.query_counter + num_clients) % 2 ^ 32 : Nat) : ℚ)
  let avg_time : ℚ := avg_exec_time + avg_wait_time
  { s with avg_exec_time := avg_exec_time, avg_wait_time := avg_wait_time,
           avg_time := avg_time,
           query_counter := (s.query_counter + num_clients) % 2 ^ 32 }

end SystemStats

/-- Successive calls of `query_finished` with `num_clients = 1`, one call for
every triple (time_created, time_scheduled, time_finished) of the list. -/
def SystemStats.finishAll (s : SystemStats) (calls : List (Nat × Nat × Nat)) : SystemStats :=
  calls.foldl (fun s t => s.query_finished 1 t.1 t.2.1 t.2.2) s

/-- Successive calls of `add_query`, one for every ratio of the list. -/
def QueryStats.addAll (q : QueryStats) (ratios : List ℚ) : QueryStats :=
  ratios.foldl QueryStats.add_query q

/-- The statement `it->second++` of `SystemStats::scheduled` for the iterator
`it` returned by `find(key)`: the count of the entry with that key is raised by
one, in the 64 bits of its type. -/
def StdMap.incrementAt : StdMap Nat Nat → Nat → StdMap Nat Nat
  | [], _ => []
  | (k0, v0) :: t, k =>
    if k = k0 then (k0, (v0 + 1) % 2 ^ 64) :: t else (k0, v0) :: StdMap.incrementAt t k

namespace SystemStats

/-- Embeds `SystemStats::issued`. -/
def issued (s : SystemStats) : SystemStats :=
  { s with queries_issued := (s.queries_issued + 1) % 2 ^ 32 }

/-- Embeds `SystemStats::scheduled`; `find` is the lookup of the key. -/
def scheduled (s : SystemStats) (node_id : Nat) : SystemStats :=
  let s := { s with queries_scheduled := (s.queries_scheduled + 1) % 2 ^ 32 }
  match s.node_to_queries.lookup node_id with
  | none => { s with node_to_queries := s.node_to_queries.emplace node_id 1 }
  | some _ => { s with node_to_queries := s.node_to_queries.incrementAt node_id }

/-- The inherited `QueryStats::add_query` on a `SystemStats`. -/
def add_query (s : SystemStats) (ratio : ℚ) : SystemStats :=
  { s with toQueryStats := s.toQueryStats.add_query ratio }

/-- Embeds `SystemStats::reset`. -/
def reset (s : SystemStats) : SystemStats :=
  { s with toQueryStats := s.toQueryStats.reset, queries_issued := 0, queries_scheduled := 0,
           query_counter := 0, avg_exec_time := 0, avg_wait_time := 0, avg_time := 0,
           node_to_queries := [] }

/-- A call of one of the methods that change a `SystemStats`, with its
arguments. -/
inductive Call where
  | issued
  | scheduled (node_id : Nat)
  | add_query (ratio : ℚ)
  | query_finished (num_clients time_created time_scheduled time_finished : Nat)
  | reset

/-- The method a call runs. -/
def Call.run (s : SystemStats) : Call → SystemStats
  | Call.issued => s.issued
  | Call.scheduled node_id => s.scheduled node_id
  | Call.add_query ratio => s.add_query ratio
  | Call.query_finished num_clients time_created time_scheduled time_finished =>
    s.query_finished num_clients time_created time_scheduled time_finished
  | Call.reset => s.reset

/-- Whether the call is a call of `scheduled`. -/
def Call.isScheduled : Call → Bool
  | Call.scheduled _ => true
  | _ => false

/-- The record left by a sequence of calls. -/
def runAll (s : SystemStats) (calls : List Call) : SystemStats :=
  calls.foldl Call.run s

/-- Sum of all counts in `node_to_queries`. -/
def countSum (s : SystemStats) : Nat := (s.node_to_queries.map Prod.snd).sum

end SystemStats

/-! ## Connections (connection.cpp)

The header connection.h and the non-blocking reader and writer classes are not
part of the sources. A method of a connection is a state transformer that may
throw: the connection keeps every change made before the exception. Every
attempt at non-blocking input or output has an outcome chosen by the
environment, which the embedded methods take as an argument. Calls to `Log` are
left out. -/

/-- Modelled from the spec: an object of a class whose declaration is missing
from the sources (BaseRequest, NodeCacheRef, NodeCacheKey, ReorgMoveResult,
NodeStats as read from a stream, CacheRef, PuzzleRequest, ReorgDescription,
GenericRaster). It is identified with the bytes it is built from; building one
from the stream of a finished reader does not throw. -/
structure Streamed where
  raw : BinaryReadBuffer
  deriving DecidableEq

/-- Members of `Node` used by the connections: id, host and port. -/
structure Node where
  id : Nat
  host : List Byte
  port : Nat
  deriving DecidableEq

/-- The value built by `DeliveryResponse(host, port, delivery_id)`. -/
structure DeliveryResponse where
  host : List Byte
  port : Nat
  delivery_id : Nat
  deriving DecidableEq

/-- Modelled from the spec: the non-blocking readers handed to `begin_read`
(their classes are missing from the sources); only the kind is kept. -/
inductive NBReader where
  | NBBaseRequestReader
  | NBFixedSizeReader (bytes : Nat)
  | NBNodeCacheRefReader
  | NBStringReader
  | NBReorgMoveResultReader
  | NBNodeStatsReader
  | NBNodeCacheKeyReader
  deriving DecidableEq

/-- Modelled from the spec: the one-byte codes placed in outgoing messages. The
constants are declared in connection.h, which is missing; their values are
implementation-defined. `command b` is a code passed in by the caller. -/
inductive WireCode where
  | RESP_OK
  | RESP_ERROR
  | RESP_QUERY_HIT
  | RESP_QUERY_PARTIAL
  | RESP_QUERY_MISS
  | RESP_DELIVERY_QTY
  | CMD_REORG
  | CMD_REORG_ITEM_OK
  | CMD_GET_STATS
  | command (b : Byte)
  deriving DecidableEq

/-- Modelled from the spec: the non-blocking writers handed to `begin_write`
(their classes are missing from the sources), with what they were built from. -/
inductive NBWriter where
  | NBMessageWriter (code : WireCode) (inner : NBWriter)
  | NBStreamableWriterDeliveryResponse (response : DeliveryResponse)
  | NBStreamableWriter (payload : Streamed)
  | NBErrorWriter (code : WireCode) (message : List Byte)
  | NBPrimitiveWriter (width : Nat) (value : WireCode)
  | NBPrimitiveWriterUInt (width : Nat) (value : Nat)
  | NBRasterWriter (raster : Streamed)
  deriving DecidableEq

/-- Modelled from the spec: outcome of `reader->read(fd)` as seen through
`is_finished()` and `has_error()`: the reader is finished and holds the bytes
`stream`, or it has an error, or it needs more input. -/
inductive ReadResult where
  | finished (stream : BinaryReadBuffer)
  | error
  | pending
  deriving DecidableEq

/-- Modelled from the spec: outcome of `writer->write(fd)` as seen through
`is_finished()` and `has_error()`. -/
inductive WriteResult where
  | finished
  | error
  | pending
  deriving DecidableEq

/-- Modelled from the spec: outcome of `stream.read(&cmd, true)` in
`BaseConnection::input`: a command byte was read (`byte cmd`, with the byte
already matched against the command constants of the connection kind), the peer
closed the connection (the call returns false), or the call threw. -/
inductive CommandResult (C : Type) where
  | byte (cmd : C)
  | closed
  | threw (e : Exn)
  deriving DecidableEq

/-- The class `BaseConnection` together with the members a subclass adds: the
subclass member `state : S` and its remaining members `data : D`. -/
structure Connection (S D : Type) where
  id : Nat
  writing : Bool
  reading : Bool
  faulty : Bool
  reader : Option NBReader
  writer : Option NBWriter
  state : S
  data : D
  deriving DecidableEq

/-- A method of a connection: it returns a value or throws, and in both cases
leaves a connection behind. -/
abbrev Op (S D α : Type) := ExceptT Exn (StateM (Connection S D)) α

namespace BaseConnection

variable {S D C : Type}

/-- The block guarded by `if (reading)` in `BaseConnection::input`;
`read_finished` is the virtual method of the subclass, applied to the stream of
the finished reader. -/
def input_reading (read_finished : BinaryReadBuffer → Op S D Unit) (rd : ReadResult) :
    Op S D Unit := do
  match rd with
  | ReadResult.finished stream =>
    modify fun c => { c with reading := false }
    read_finished stream
    modify fun c => { c with reader := none }
  | ReadResult.error =>
    modify fun c => { c with reading := false }
    modify fun c => { c with faulty := true }
    modify fun c => { c with reader := none }
  | ReadResult.pending => pure ()

/-- Embeds `BaseConnection::begin_read`. The call `input()` at its end finds
`reading` set and therefore runs the block `input_reading`. -/
def begin_read (read_finished : BinaryReadBuffer → Op S D Unit) (reader : NBReader)
    (rd : ReadResult) : Op S D Unit := do
  let c ← get
  if !c.writing && !c.reading then
    modify fun c => { c with reader := some reader }
    modify fun c => { c with reading := true }
    input_reading read_finished rd
  else
    throw (Exn.IllegalStateException
      "Cannot start nb-read. Another read or write action is in progress.")

/-- Embeds `BaseConnection::input`; `read_finished` and `process_command` are the
virtual methods of the subclass. `cmd` is the outcome of reading the command
byte, `rd` the outcome of the single `reader->read` the call can reach. -/
def input (read_finished : BinaryReadBuffer → Op S D Unit)
    (process_command : C → ReadResult → Op S D Unit)
    (cmd : CommandResult C) (rd : ReadResult) : Op S D Unit := do
  let c ← get
  if c.reading then
    input_reading read_finished rd
  else
    try
      match cmd with
      | CommandResult.byte b => process_command b rd
      | CommandResult.closed => modify fun c => { c with faulty := true }
      | CommandResult.threw e => throw e
    catch _ =>
      modify fun c => { c with faulty := true }

/-- Embeds `BaseConnection::output`; `write_finished` is the virtual method of
the subclass. -/
def output (write_finished : Op S D Unit) (wr : WriteResult) : Op S D Unit := do
  let c ← get
  if c.writing then
    match wr with
    | WriteResult.finished =>
      modify fun c => { c with writing := false }
      write_finished
      modify fun c => { c with writer := none }
    | WriteResult.error =>
      modify fun c => { c with writing := false }
      modify fun c => { c with faulty := true }
      modify fun c => { c with writer := none }
    | WriteResult.pending => pure ()
  else
    throw (Exn.IllegalStateException "Cannot trigger write while not in writing state.")

/-- Embeds `BaseConnection::begin_write`. -/
def begin_write (write_finished : Op S D Unit) (writer : NBWriter) (wr : WriteResult) :
    Op S D Unit := do
  let c ← get
  if !c.writing && !c.reading then
    modify fun c => { c with writer := some writer }
    modify fun c => { c with writing := true }
    output write_finished wr
  else
    throw (Exn.IllegalStateException
      "Cannot start nb-write. Another read or write action is in progress.")

/-- Runs a read on the stream of a finished reader inside a method: the value
read, or the exception thrown by the read. -/
def readStream {α : Type} (r : Read α) (stream : BinaryReadBuffer) : Op S D α :=
  match r stream with
  | Except.ok (x, _) => pure x
  | Except.error e => throw e

/-- Embeds `BaseConnection::is_reading`. -/
def is_reading (c : Connection S D) : Bool := c.reading

/-- Embeds `BaseConnection::is_writing`. -/
def is_writing (c : Connection S D) : Bool := c.writing

/-- Embeds `BaseConnection::is_faulty`. -/
def is_faulty (c : Connection S D) : Bool := c.faulty

/-- Embeds `BaseConnection::BaseConnection`: the flags are cleared and no
reader or writer is pending; `id` is the value taken from the static counter
`next_id`. The subclass constructor supplies `state` and `data`. -/
def construct (id : Nat) (state : S) (data : D) : Connection S D :=
  { id := id, writing := false, reading := false, faulty := false,
    reader := none, writer := none, state := state, data := data }

end BaseConnection

/-! ### ClientConnection -/

/-- The enumeration `ClientConnection::State`. -/
inductive ClientState where
  | IDLE
  | READING_REQUEST
  | AWAIT_RESPONSE
  | WRITING_RESPONSE
  deriving DecidableEq

/-- The enumeration `ClientConnection::RequestType`. -/
inductive RequestType where
  | NONE
  | RASTER
  deriving DecidableEq

/-- Modelled from the spec: a command byte received on a client connection,
matched against the constant `CMD_GET_RASTER` (declared in connection.h, which
is missing). -/
inductive ClientCommand where
  | CMD_GET_RASTER
  | unknown (cmd : Byte)
  deriving DecidableEq

/-- Members of `ClientConnection` besides `state`: `request_type` and the
pointer `request` (`none` when unset). -/
structure ClientData where
  request_type : RequestType
  request : Option Streamed
  deriving DecidableEq

/-- The class `ClientConnection`. -/
abbrev ClientConnection := Connection ClientState ClientData

namespace ClientConnection

/-- Embeds `ClientConnection::ClientConnection`. -/
def construct (id : Nat) : ClientConnection :=
  BaseConnection.construct id ClientState.IDLE { request_type := RequestType.NONE, request := none }

/-- Embeds `ClientConnection::reset`. -/
def reset : Op ClientState ClientData Unit := do
  modify fun c => { c with data := { c.data with request := none } }
  modify fun c => { c with data := { c.data with request_type := RequestType.NONE } }
  modify fun c => { c with state := ClientState.IDLE }

/-- Embeds `ClientConnection::read_finished`. -/
def read_finished (stream : BinaryReadBuffer) : Op ClientState ClientData Unit := do
  let c ← get
  match c.state with
  | ClientState.READING_REQUEST =>
    modify fun c => { c with data := { c.data with request := some ⟨stream⟩ } }
    modify fun c => { c with state := ClientState.AWAIT_RESPONSE }
  | _ => throw (Exn.IllegalStateException "Unexpected end of reading in ClientConnection")

/-- Embeds `ClientConnection::write_finished`. -/
def write_finished : Op ClientState ClientData Unit := do
  let c ← get
  match c.state with
  | ClientState.WRITING_RESPONSE => reset
  | _ => throw (Exn.IllegalStateException "Unexpected end of writing in ClientConnection")

/-- Embeds `ClientConnection::process_command`. -/
def process_command (cmd : ClientCommand) (rd : ReadResult) :
    Op ClientState ClientData Unit := do
  let c ← get
  if c.state ≠ ClientState.IDLE then
    throw (Exn.IllegalStateException "Can only accept input in state IDLE")
  else
    match cmd with
    | ClientCommand.CMD_GET_RASTER =>
      modify fun c => { c with data := { c.data with request_type := RequestType.RASTER } }
      modify fun c => { c with state := ClientState.READING_REQUEST }
      BaseConnection.begin_read read_finished NBReader.NBBaseRequestReader rd
    | ClientCommand.unknown _ =>
      throw (Exn.NetworkException "Unknown command on client connection")

/-- The inherited `input()` of a client connection. -/
def input (cmd : CommandResult ClientCommand) (rd : ReadResult) :
    Op ClientState ClientData Unit :=
  BaseConnection.input read_finished process_command cmd rd

/-- The inherited `output()` of a client connection. -/
def output (wr : WriteResult) : Op ClientState ClientData Unit :=
  BaseConnection.output write_finished wr

/-- The inherited `begin_read()` of a client connection. -/
def begin_read (reader : NBReader) (rd : ReadResult) : Op ClientState ClientData Unit :=
  BaseConnection.begin_read read_finished reader rd

/-- The inherited `begin_write()` of a client connection. -/
def begin_write (writer : NBWriter) (wr : WriteResult) : Op ClientState ClientData Unit :=
  BaseConnection.begin_write write_finished writer wr

/-- Embeds `ClientConnection::get_state`. -/
def get_state (c : ClientConnection) : ClientState := c.state

/-- Embeds `ClientConnection::send_response`. -/
def send_response (response : DeliveryResponse) (wr : WriteResult) :
    Op ClientState ClientData Unit := do
  let c ← get
  if c.state = ClientState.AWAIT_RESPONSE then
    modify fun c => { c with state := ClientState.WRITING_RESPONSE }
    begin_write (NBWriter.NBMessageWriter WireCode.RESP_OK
      (NBWriter.NBStreamableWriterDeliveryResponse response)) wr
  else
    throw (Exn.IllegalStateException "Can only send response in state: AWAIT_RESPONSE")

/-- Embeds `ClientConnection::send_error`. -/
def send_error (message : List Byte) (wr : WriteResult) : Op ClientState ClientData Unit := do
  let c ← get
  if c.state = ClientState.AWAIT_RESPONSE then
    modify fun c => { c with state := ClientState.WRITING_RESPONSE }
    begin_write (NBWriter.NBErrorWriter WireCode.RESP_ERROR message) wr
  else
    throw (Exn.IllegalStateException "Can only send error in state: AWAIT_RESPONSE")

/-- Embeds `ClientConnection::get_request_type`. -/
def get_request_type (c : ClientConnection) : Except Exn RequestType :=
  if c.state = ClientState.AWAIT_RESPONSE then
    Except.ok c.data.request_type
  else
    Except.error (Exn.IllegalStateException "Can only tell type in state AWAIT_RESPONSE")

/-- Embeds `ClientConnection::get_request`. The result is the pointer that the
method dereferences; `none` stands for an unset pointer. -/
def get_request (c : ClientConnection) : Except Exn (Option Streamed) :=
  if c.state = ClientState.AWAIT_RESPONSE ∧ c.data.request_type = RequestType.RASTER then
    Except.ok c.data.request
  else
    Except.error (Exn.IllegalStateException
      "Can only return raster_request in state AWAIT_RESPONSE and type was RASTER")

/-- A call of a public operation of a client connection, with its arguments
and the outcomes of the input and output attempts made during the call. -/
inductive Call where
  | input (cmd : CommandResult ClientCommand) (rd : ReadResult)
  | output (wr : WriteResult)
  | begin_read (reader : NBReader) (rd : ReadResult)
  | begin_write (writer : NBWriter) (wr : WriteResult)
  | send_response (response : DeliveryResponse) (wr : WriteResult)
  | send_error (message : List Byte) (wr : WriteResult)

/-- The method a call runs. -/
def Call.op : Call → Op ClientState ClientData Unit
  | Call.input cmd rd => ClientConnection.input cmd rd
  | Call.output wr => ClientConnection.output wr
  | Call.begin_read reader rd => ClientConnection.begin_read reader rd
  | Call.begin_write writer wr => ClientConnection.begin_write writer wr
  | Call.send_response response wr => ClientConnection.send_response response wr
  | Call.send_error message wr => ClientConnection.send_error message wr

end ClientConnection

/-! ### WorkerConnection -/

/-- The enumeration `WorkerConnection::State`. -/
inductive WorkerState where
  | IDLE
  | SENDING_REQUEST
  | PROCESSING
  | DONE
  | READING_DELIVERY_ID
  | READING_RASTER_QUERY
  | READING_RASTER_ENTRY
  | READING_ERROR
  | SENDING_QUERY_RESPONSE
  | SENDING_DELIVERY_QTY
  | WAITING_DELIVERY
  | DELIVERY_READY
  | RASTER_QUERY_REQUESTED
  | NEW_RASTER_ENTRY
  | ERROR
  deriving DecidableEq

/-- Modelled from the spec: a command byte received on a worker connection,
matched against the constants declared in connection.h (which is missing). -/
inductive WorkerCommand where
  | RESP_RESULT_READY
  | RESP_DELIVERY_READY
  | CMD_QUERY_RASTER_CACHE
  | RESP_NEW_RASTER_CACHE_ENTRY
  | RESP_ERROR
  | unknown (cmd : Byte)
  deriving DecidableEq

/-- Members of `WorkerConnection` besides `state`: `node`, `error_msg` and the
pointers `result`, `new_raster_entry`, `raster_query` (`none` when unset). -/
structure WorkerData where
  node : Node
  error_msg : List Byte
  result : Option DeliveryResponse
  new_raster_entry : Option Streamed
  raster_query : Option Streamed
  deriving DecidableEq

/-- The class `WorkerConnection`. -/
abbrev WorkerConnection := Connection WorkerState WorkerData

namespace WorkerConnection

/-- Embeds `WorkerConnection::WorkerConnection`. -/
def construct (id : Nat) (node : Node) : WorkerConnection :=
  BaseConnection.construct id WorkerState.IDLE
    { node := node, error_msg := [], result := none, new_raster_entry := none,
      raster_query := none }

/-- Embeds `WorkerConnection::get_state`. -/
def get_state (c : WorkerConnection) : WorkerState := c.state

/-- Embeds `WorkerConnection::reset`. -/
def reset : Op WorkerState WorkerData Unit := do
  modify fun c => { c with data := { c.data with error_msg := [] } }
  modify fun c => { c with data := { c.data with result := none } }
  modify fun c => { c with data := { c.data with new_raster_entry := none } }
  modify fun c => { c with data := { c.data with raster_query := none } }
  modify fun c => { c with state := WorkerState.IDLE }

/-- Embeds `WorkerConnection::read_finished`. -/
def read_finished (stream : BinaryReadBuffer) : Op WorkerState WorkerData Unit := do
  let c ← get
  match c.state with
  | WorkerState.READING_DELIVERY_ID =>
    let delivery_id ← BaseConnection.readStream (readUInt 8) stream
    modify fun c => { c with data := { c.data with
      result := some ⟨c.data.node.host, c.data.node.port, delivery_id⟩ } }
    modify fun c => { c with state := WorkerState.DELIVERY_READY }
  | WorkerState.READING_RASTER_QUERY =>
    modify fun c => { c with data := { c.data with raster_query := some ⟨stream⟩ } }
    modify fun c => { c with state := WorkerState.RASTER_QUERY_REQUESTED }
  | WorkerState.READING_RASTER_ENTRY =>
    modify fun c => { c with data := { c.data with new_raster_entry := some ⟨stream⟩ } }
    modify fun c => { c with state := WorkerState.NEW_RASTER_ENTRY }
  | WorkerState.READING_ERROR =>
    let error_msg ← BaseConnection.readStream readString stream
    modify fun c => { c with data := { c.data with error_msg := error_msg } }
    modify fun c => { c with state := WorkerState.ERROR }
  | _ => throw (Exn.IllegalStateException "Unexpected end of reading in WorkerConnection")

/-- Embeds `WorkerConnection::write_finished`. -/
def write_finished : Op WorkerState WorkerData Unit := do
  let c ← get
  match c.state with
  | WorkerState.SENDING_REQUEST =>
    modify fun c => { c with state := WorkerState.PROCESSING }
  | WorkerState.SENDING_QUERY_RESPONSE =>
    modify fun c => { c with state := WorkerState.PROCESSING }
  | WorkerState.SENDING_DELIVERY_QTY =>
    modify fun c => { c with state := WorkerState.WAITING_DELIVERY }
  | _ => throw (Exn.IllegalStateException "Unexpected end of writing in WorkerConnection")

/-- Embeds `WorkerConnection::process_command`. -/
def process_command (cmd : WorkerCommand) (rd : ReadResult) :
    Op WorkerState WorkerData Unit := do
  let c ← get
  if c.state ≠ WorkerState.PROCESSING ∧ c.state ≠ WorkerState.WAITING_DELIVERY then
    throw (Exn.IllegalStateException
      "Can only accept input in state PROCESSING or WAITING_DELIVERY.")
  else
    match cmd with
    | WorkerCommand.RESP_RESULT_READY =>
      modify fun c => { c with state := WorkerState.DONE }
    | WorkerCommand.RESP_DELIVERY_READY =>
      modify fun c => { c with state := WorkerState.READING_DELIVERY_ID }
      BaseConnection.begin_read read_finished (NBReader.NBFixedSizeReader 8) rd
    | WorkerCommand.CMD_QUERY_RASTER_CACHE =>
      modify fun c => { c with state := WorkerState.READING_RASTER_QUERY }
      BaseConnection.begin_read read_finished NBReader.NBBaseRequestReader rd
    | WorkerCommand.RESP_NEW_RASTER_CACHE_ENTRY =>
      modify fun c => { c with state := WorkerState.READING_RASTER_ENTRY }
      BaseConnection.begin_read read_finished NBReader.NBNodeCacheRefReader rd
    | WorkerCommand.RESP_ERROR =>
      modify fun c => { c with state := WorkerState.READING_ERROR }
      BaseConnection.begin_read read_finished NBReader.NBStringReader rd
    | WorkerCommand.unknown _ =>
      throw (Exn.NetworkException "Unknown response from worker")

/-- The inherited `input()` of a worker connection. -/
def input (cmd : CommandResult WorkerCommand) (rd : ReadResult) :
    Op WorkerState WorkerData Unit :=
  BaseConnection.input read_finished process_command cmd rd

/-- The inherited `output()` of a worker connection. -/
def output (wr : WriteResult) : Op WorkerState WorkerData Unit :=
  BaseConnection.output write_finished wr

/-- The inherited `begin_read()` of a worker connection. -/
def begin_read (reader : NBReader) (rd : ReadResult) : Op WorkerState WorkerData Unit :=
  BaseConnection.begin_read read_finished reader rd

/-- The inherited `begin_write()` of a worker connection. -/
def begin_write (writer : NBWriter) (wr : WriteResult) : Op WorkerState WorkerData Unit :=
  BaseConnection.begin_write write_finished writer wr

/-- Embeds `WorkerConnection::process_request`. -/
def process_request (command : Byte) (request : Streamed) (wr : WriteResult) :
    Op WorkerState WorkerData Unit := do
  let c ← get
  if c.state = WorkerState.IDLE then
    modify fun c => { c with state := WorkerState.SENDING_REQUEST }
    begin_write (NBWriter.NBMessageWriter (WireCode.command command)
      (NBWriter.NBStreamableWriter request)) wr
  else
    throw (Exn.IllegalStateException "Can only process requests when idle")

/-- Embeds `WorkerConnection::raster_cached`. -/
def raster_cached : Op WorkerState WorkerData Unit := do
  let c ← get
  if c.state = WorkerState.NEW_RASTER_ENTRY then
    modify fun c => { c with state := WorkerState.PROCESSING }
  else
    throw (Exn.IllegalStateException
      "Can only ack new raster entry in state NEW_RASTER_ENTRY")

/-- Embeds `WorkerConnection::send_hit`. -/
def send_hit (cr : Streamed) (wr : WriteResult) : Op WorkerState WorkerData Unit := do
  let c ← get
  if c.state = WorkerState.RASTER_QUERY_REQUESTED then
    modify fun c => { c with state := WorkerState.SENDING_QUERY_RESPONSE }
    begin_write (NBWriter.NBMessageWriter WireCode.RESP_QUERY_HIT
      (NBWriter.NBStreamableWriter cr)) wr
  else
    throw (Exn.IllegalStateException
      "Can only send raster query result in state RASTER_QUERY_REQUESTED")

/-- Embeds `WorkerConnection::send_partial_hit`. -/
def send_partial_hit (pr : Streamed) (wr : WriteResult) : Op WorkerState WorkerData Unit := do
  let c ← get
  if c.state = WorkerState.RASTER_QUERY_REQUESTED then
    modify fun c => { c with state := WorkerState.SENDING_QUERY_RESPONSE }
    begin_write (NBWriter.NBMessageWriter WireCode.RESP_QUERY_PARTIAL
      (NBWriter.NBStreamableWriter pr)) wr
  else
    throw (Exn.IllegalStateException
      "Can only send raster query result in state RASTER_QUERY_REQUESTED")

/-- Embeds `WorkerConnection::send_miss`. -/
def send_miss (wr : WriteResult) : Op WorkerState WorkerData Unit := do
  let c ← get
  if c.state = WorkerState.RASTER_QUERY_REQUESTED then
    modify fun c => { c with state := WorkerState.SENDING_QUERY_RESPONSE }
    begin_write (NBWriter.NBPrimitiveWriter 1 WireCode.RESP_QUERY_MISS) wr
  else
    throw (Exn.IllegalStateException
      "Can only send raster query result in state RASTER_QUERY_REQUESTED")

/-- Embeds `WorkerConnection::send_delivery_qty`. -/
def send_delivery_qty (qty : Nat) (wr : WriteResult) : Op WorkerState WorkerData Unit := do
  let c ← get
  if c.state = WorkerState.DONE then
    modify fun c => { c with state := WorkerState.SENDING_DELIVERY_QTY }
    begin_write (NBWriter.NBMessageWriter WireCode.RESP_DELIVERY_QTY
      (NBWriter.NBPrimitiveWriterUInt 4 qty)) wr
  else
    throw (Exn.IllegalStateException "Can only send delivery qty in state DONE")

/-- Embeds `WorkerConnection::release`. -/
def release : Op WorkerState WorkerData Unit := do
  let c ← get
  if c.state = WorkerState.DELIVERY_READY ∨ c.state = WorkerState.ERROR then
    reset
  else
    throw (Exn.IllegalStateException "Can only release worker in state DONE or ERROR")

/-- Embeds `WorkerConnection::get_new_raster_entry`. The result is the pointer
that the method dereferences; `none` stands for an unset pointer. -/
def get_new_raster_entry (c : WorkerConnection) : Except Exn (Option Streamed) :=
  if c.state = WorkerState.NEW_RASTER_ENTRY then
    Except.ok c.data.new_raster_entry
  else
    Except.error (Exn.IllegalStateException
      "Can only return new raster entry in state NEW_RASTER_ENTRY")

/-- Embeds `WorkerConnection::get_raster_query`. The result is the pointer that
the method dereferences; `none` stands for an unset pointer. -/
def get_raster_query (c : WorkerConnection) : Except Exn (Option Streamed) :=
  if c.state = WorkerState.RASTER_QUERY_REQUESTED then
    Except.ok c.data.raster_query
  else
    Except.error (Exn.IllegalStateException
      "Can only return raster query in state RASTER_QUERY_REQUESTED")

/-- Embeds `WorkerConnection::get_result`. The result is the pointer that the
method dereferences; `none` stands for an unset pointer. -/
def get_result (c : WorkerConnection) : Except Exn (Option DeliveryResponse) :=
  if c.state = WorkerState.DELIVERY_READY then
    Except.ok c.data.result
  else
    Except.error (Exn.IllegalStateException "Can only return result in state DELIVERY_READY")

/-- Embeds `WorkerConnection::get_error_message`. -/
def get_error_message (c : WorkerConnection) : Except Exn (List Byte) :=
  if c.state = WorkerState.ERROR then
    Except.ok c.data.error_msg
  else
    Except.error (Exn.IllegalStateException "Can only return error-message in state ERROR")

/-- A call of a public operation of a worker connection, with its arguments
and the outcomes of the input and output attempts made during the call. -/
inductive Call where
  | input (cmd : CommandResult WorkerCommand) (rd : ReadResult)
  | output (wr : WriteResult)
  | begin_read (reader : NBReader) (rd : ReadResult)
  | begin_write (writer : NBWriter) (wr : WriteResult)
  | process_request (command : Byte) (request : Streamed) (wr : WriteResult)
  | raster_cached
  | send_hit (cr : Streamed) (wr : WriteResult)
  | send_partial_hit (pr : Streamed) (wr : WriteResult)
  | send_miss (wr : WriteResult)
  | send_delivery_qty (qty : Nat) (wr : WriteResult)
  | release

/-- The method a call runs. -/
def Call.op : Call → Op WorkerState WorkerData Unit
  | Call.input cmd rd => WorkerConnection.input cmd rd
  | Call.output wr => WorkerConnection.output wr
  | Call.begin_read reader rd => WorkerConnection.begin_read reader rd
  | Call.begin_write writer wr => WorkerConnection.begin_write writer wr
  | Call.process_request command request wr =>
    WorkerConnection.process_request command request wr
  | Call.raster_cached => WorkerConnection.raster_cached
  | Call.send_hit cr wr => WorkerConnection.send_hit cr wr
  | Call.send_partial_hit pr wr => WorkerConnection.send_partial_hit pr wr
  | Call.send_miss wr => WorkerConnection.send_miss wr
  | Call.send_delivery_qty qty wr => WorkerConnection.send_delivery_qty qty wr
  | Call.release => WorkerConnection.release

end WorkerConnection

/-! ### ControlConnection -/

/-- The enumeration `ControlConnection::State`. -/
inductive ControlState where
  | IDLE
  | SENDING_REORG
  | REORGANIZING
  | READING_REORG_RESULT
  | REORG_RESULT_READ
  | SENDING_REORG_CONFIRM
  | REORG_FINISHED
  | SENDING_STATS_REQUEST
  | STATS_REQUESTED
  | READING_STATS
  | STATS_RECEIVED
  deriving DecidableEq

/-- Modelled from the spec: a command byte received on a control connection,
matched against the constants declared in connection.h (which is missing). -/
inductive ControlCommand where
  | RESP_REORG_ITEM_MOVED
  | RESP_REORG_DONE
  | RESP_STATS
  | unknown (cmd : Byte)
  deriving DecidableEq

/-- Members of `ControlConnection` besides `state`: `node` and the pointers
`reorg_result` and `stats` (`none` when unset). -/
structure ControlData where
  node : Node
  reorg_result : Option Streamed
  stats : Option Streamed
  deriving DecidableEq

/-- The class `ControlConnection`. -/
abbrev ControlConnection := Connection ControlState ControlData

namespace ControlConnection

/-- Embeds `ControlConnection::ControlConnection`. -/
def construct (id : Nat) (node : Node) : ControlConnection :=
  BaseConnection.construct id ControlState.IDLE
    { node := node, reorg_result := none, stats := none }

/-- Embeds `ControlConnection::get_state`. -/
def get_state (c : ControlConnection) : ControlState := c.state

/-- Embeds `ControlConnection::reset`. -/
def reset : Op ControlState ControlData Unit := do
  modify fun c => { c with data := { c.data with reorg_result := none } }
  modify fun c => { c with data := { c.data with stats := none } }
  modify fun c => { c with state := ControlState.IDLE }

/-- Embeds `ControlConnection::read_finished`. -/
def read_finished (stream : BinaryReadBuffer) : Op ControlState ControlData Unit := do
  let c ← get
  match c.state with
  | ControlState.READING_REORG_RESULT =>
    modify fun c => { c with data := { c.data with reorg_result := some ⟨stream⟩ } }
    modify fun c => { c with state := ControlState.REORG_RESULT_READ }
  | ControlState.READING_STATS =>
    modify fun c => { c with data := { c.data with stats := some ⟨stream⟩ } }
    modify fun c => { c with state := ControlState.STATS_RECEIVED }
  | _ => throw (Exn.IllegalStateException "Unexpected end of reading in ControlConnection")

/-- Embeds `ControlConnection::write_finished`. -/
def write_finished : Op ControlState ControlData Unit := do
  let c ← get
  match c.state with
  | ControlState.SENDING_REORG =>
    modify fun c => { c with state := ControlState.REORGANIZING }
  | ControlState.SENDING_REORG_CONFIRM =>
    modify fun c => { c with state := ControlState.REORGANIZING }
  | ControlState.SENDING_STATS_REQUEST =>
    modify fun c => { c with state := ControlState.STATS_REQUESTED }
  | _ => throw (Exn.IllegalStateException "Unexpected end of reading in ControlConnection")

/-- Embeds `ControlConnection::process_command`. -/
def process_command (cmd : ControlCommand) (rd : ReadResult) :
    Op ControlState ControlData Unit := do
  let c ← get
  if c.state ≠ ControlState.IDLE ∧ c.state ≠ ControlState.REORGANIZING ∧
      c.state ≠ ControlState.STATS_REQUESTED then
    throw (Exn.IllegalStateException
      "Can only accept input in state IDLE, REORGANIZING or STATS_REQUESTED")
  else
    match cmd with
    | ControlCommand.RESP_REORG_ITEM_MOVED =>
      modify fun c => { c with state := ControlState.READING_REORG_RESULT }
      BaseConnection.begin_read read_finished NBReader.NBReorgMoveResultReader rd
    | ControlCommand.RESP_REORG_DONE =>
      modify fun c => { c with state := ControlState.REORG_FINISHED }
    | ControlCommand.RESP_STATS =>
      modify fun c => { c with state := ControlState.READING_STATS }
      BaseConnection.begin_read read_finished NBReader.NBNodeStatsReader rd
    | ControlCommand.unknown _ =>
      throw (Exn.NetworkException
        "Received illegal command on control-connection for node")

/-- The inherited `input()` of a control connection. -/
def input (cmd : CommandResult ControlCommand) (rd : ReadResult) :
    Op ControlState ControlData Unit :=
  BaseConnection.input read_finished process_command cmd rd

/-- The inherited `output()` of a control connection. -/
def output (wr : WriteResult) : Op ControlState ControlData Unit :=
  BaseConnection.output write_finished wr

/-- The inherited `begin_read()` of a control connection. -/
def begin_read (reader : NBReader) (rd : ReadResult) : Op ControlState ControlData Unit :=
  BaseConnection.begin_read read_finished reader rd

/-- The inherited `begin_write()` of a control connection. -/
def begin_write (writer : NBWriter) (wr : WriteResult) : Op ControlState ControlData Unit :=
  BaseConnection.begin_write write_finished writer wr

/-- Embeds `ControlConnection::send_reorg`. -/
def send_reorg (desc : Streamed) (wr : WriteResult) : Op ControlState ControlData Unit := do
  let c ← get
  if c.state = ControlState.IDLE then
    modify fun c => { c with state := ControlState.SENDING_REORG }
    begin_write (NBWriter.NBMessageWriter WireCode.CMD_REORG
      (NBWriter.NBStreamableWriter desc)) wr
  else
    throw (Exn.IllegalStateException "Can only trigger reorg in state IDLE")

/-- Embeds `ControlConnection::confirm_reorg`. -/
def confirm_reorg (wr : WriteResult) : Op ControlState ControlData Unit := do
  let c ← get
  if c.state = ControlState.REORG_RESULT_READ then
    modify fun c => { c with state := ControlState.SENDING_REORG_CONFIRM }
    begin_write (NBWriter.NBPrimitiveWriter 1 WireCode.CMD_REORG_ITEM_OK) wr
  else
    throw (Exn.IllegalStateException
      "Can only send raster query result in state REORG_RESULT_READ")

/-- Embeds `ControlConnection::send_get_stats`. -/
def send_get_stats (wr : WriteResult) : Op ControlState ControlData Unit := do
  let c ← get
  if c.state = ControlState.IDLE then
    modify fun c => { c with state := ControlState.SENDING_STATS_REQUEST }
    begin_write (NBWriter.NBPrimitiveWriter 1 WireCode.CMD_GET_STATS) wr
  else
    throw (Exn.IllegalStateException "Can only request statistics in state IDLE")

/-- Embeds `ControlConnection::release`. -/
def release : Op ControlState ControlData Unit := do
  let c ← get
  if c.state = ControlState.REORG_FINISHED ∨ c.state = ControlState.STATS_RECEIVED then
    reset
  else
    throw (Exn.IllegalStateException
      "Can only release control-connection in state REORG_FINISHED, STATS_RECEIVED or ERROR")

/-- Embeds `ControlConnection::get_result`. The result is the pointer that the
method dereferences; `none` stands for an unset pointer. -/
def get_result (c : ControlConnection) : Except Exn (Option Streamed) :=
  if c.state = ControlState.REORG_RESULT_READ then
    Except.ok c.data.reorg_result
  else
    Except.error (Exn.IllegalStateException
      "Can only return ReorgResult in state REORG_RESULT_READ")

/-- Embeds `ControlConnection::get_stats`. The result is the pointer that the
method dereferences; `none` stands for an unset pointer. -/
def get_stats (c : ControlConnection) : Except Exn (Option Streamed) :=
  if c.state = ControlState.STATS_RECEIVED then
    Except.ok c.data.stats
  else
    Except.error (Exn.IllegalStateException
      "Can only return ReorgResult in state REORG_RESULT_READ")

/-- A call of a public operation of a control connection, with its arguments
and the outcomes of the input and output attempts made during the call. -/
inductive Call where
  | input (cmd : CommandResult ControlCommand) (rd : ReadResult)
  | output (wr : WriteResult)
  | begin_read (reader : NBReader) (rd : ReadResult)
  | begin_write (writer : NBWriter) (wr : WriteResult)
  | send_reorg (desc : Streamed) (wr : WriteResult)
  | confirm_reorg (wr : WriteResult)
  | send_get_stats (wr : WriteResult)
  | release

/-- The method a call runs. -/
def Call.op : Call → Op ControlState ControlData Unit
  | Call.input cmd rd => ControlConnection.input cmd rd
  | Call.output wr => ControlConnection.output wr
  | Call.begin_read reader rd => ControlConnection.begin_read reader rd
  | Call.begin_write writer wr => ControlConnection.begin_write writer wr
  | Call.send_reorg desc wr => ControlConnection.send_reorg desc wr
  | Call.confirm_reorg wr => ControlConnection.confirm_reorg wr
  | Call.send_get_stats wr => ControlConnection.send_get_stats wr
  | Call.release => ControlConnection.release

end ControlConnection

/-! ### DeliveryConnection -/

/-- The enumeration `DeliveryConnection::State`. -/
inductive DeliveryState where
  | IDLE
  | READING_DELIVERY_REQUEST
  | DELIVERY_REQUEST_READ
  | READING_RASTER_CACHE_REQUEST
  | RASTER_CACHE_REQUEST_READ
  | READING_RASTER_MOVE_REQUEST
  | RASTER_MOVE_REQUEST_READ
  | SENDING_RASTER
  | SENDING_RASTER_MOVE
  | AWAITING_MOVE_CONFIRM
  | MOVE_DONE
  | SENDING_ERROR
  deriving DecidableEq

/-- Modelled from the spec: a command byte received on a delivery connection,
matched against the constants declared in connection.h (which is missing). -/
inductive DeliveryCommand where
  | CMD_GET
  | CMD_GET_CACHED_RASTER
  | CMD_MOVE_RASTER
  | CMD_MOVE_DONE
  | unknown (cmd : Byte)
  deriving DecidableEq

/-- Members of `DeliveryConnection` besides `state`: `uint64_t delivery_id` and
`NodeCacheKey cache_key`. -/
structure DeliveryData where
  delivery_id : Nat
  cache_key : Streamed
  deriving DecidableEq

/-- The class `DeliveryConnection`. -/
abbrev DeliveryConnection := Connection DeliveryState DeliveryData

namespace DeliveryConnection

/-- Embeds `DeliveryConnection::DeliveryConnection`; the initial
`cache_key("", 0)` is the key built from no bytes. -/
def construct (id : Nat) : DeliveryConnection :=
  BaseConnection.construct id DeliveryState.IDLE { delivery_id := 0, cache_key := ⟨[]⟩ }

/-- Embeds `DeliveryConnection::read_finished`. -/
def read_finished (stream : BinaryReadBuffer) : Op DeliveryState DeliveryData Unit := do
  let c ← get
  match c.state with
  | DeliveryState.READING_DELIVERY_REQUEST =>
    let delivery_id ← BaseConnection.readStream (readUInt 8) stream
    modify fun c => { c with data := { c.data with delivery_id := delivery_id } }
    modify fun c => { c with state := DeliveryState.DELIVERY_REQUEST_READ }
  | DeliveryState.READING_RASTER_CACHE_REQUEST =>
    modify fun c => { c with data := { c.data with cache_key := ⟨stream⟩ } }
    modify fun c => { c with state := DeliveryState.RASTER_CACHE_REQUEST_READ }
  | DeliveryState.READING_RASTER_MOVE_REQUEST =>
    modify fun c => { c with data := { c.data with cache_key := ⟨stream⟩ } }
    modify fun c => { c with state := DeliveryState.RASTER_MOVE_REQUEST_READ }
  | _ => throw (Exn.IllegalStateException "Unexpected end of reading in DeliveryConnection")

/-- Embeds `DeliveryConnection::write_finished`. -/
def write_finished : Op DeliveryState DeliveryData Unit := do
  let c ← get
  match c.state with
  | DeliveryState.SENDING_RASTER =>
    modify fun c => { c with state := DeliveryState.IDLE }
  | DeliveryState.SENDING_RASTER_MOVE =>
    modify fun c => { c with state := DeliveryState.AWAITING_MOVE_CONFIRM }
  | DeliveryState.SENDING_ERROR =>
    modify fun c => { c with state := DeliveryState.IDLE }
  | _ => throw (Exn.IllegalStateException "Unexpected end of writing in DeliveryConnection")

/-- Embeds `DeliveryConnection::process_command`. -/
def process_command (cmd : DeliveryCommand) (rd : ReadResult) :
    Op DeliveryState DeliveryData Unit := do
  let c ← get
  if c.state ≠ DeliveryState.IDLE ∧ c.state ≠ DeliveryState.AWAITING_MOVE_CONFIRM then
    throw (Exn.IllegalStateException
      "Can only read from socket in state IDLE and AWAITING_MOVE_CONFIRM")
  else
    match cmd with
    | DeliveryCommand.CMD_GET =>
      modify fun c => { c with state := DeliveryState.READING_DELIVERY_REQUEST }
      BaseConnection.begin_read read_finished (NBReader.NBFixedSizeReader 8) rd
    | DeliveryCommand.CMD_GET_CACHED_RASTER =>
      modify fun c => { c with state := DeliveryState.READING_RASTER_CACHE_REQUEST }
      BaseConnection.begin_read read_finished NBReader.NBNodeCacheKeyReader rd
    | DeliveryCommand.CMD_MOVE_RASTER =>
      modify fun c => { c with state := DeliveryState.READING_RASTER_MOVE_REQUEST }
      BaseConnection.begin_read read_finished NBReader.NBNodeCacheKeyReader rd
    | DeliveryCommand.CMD_MOVE_DONE =>
      modify fun c => { c with state := DeliveryState.MOVE_DONE }
    | DeliveryCommand.unknown _ =>
      throw (Exn.NetworkException "Unknown command on delivery connection")

/-- The inherited `input()` of a delivery connection. -/
def input (cmd : CommandResult DeliveryCommand) (rd : ReadResult) :
    Op DeliveryState DeliveryData Unit :=
  BaseConnection.input read_finished process_command cmd rd

/-- The inherited `output()` of a delivery connection. -/
def output (wr : WriteResult) : Op DeliveryState DeliveryData Unit :=
  BaseConnection.output write_finished wr

/-- The inherited `begin_read()` of a delivery connection. -/
def begin_read (reader : NBReader) (rd : ReadResult) : Op DeliveryState DeliveryData Unit :=
  BaseConnection.begin_read read_finished reader rd

/-- The inherited `begin_write()` of a delivery connection. -/
def begin_write (writer : NBWriter) (wr : WriteResult) : Op DeliveryState DeliveryData Unit :=
  BaseConnection.begin_write write_finished writer wr

/-- Embeds `DeliveryConnection::get_state`. -/
def get_state (c : DeliveryConnection) : DeliveryState := c.state

/-- Embeds `DeliveryConnection::get_key`. -/
def get_key (c : DeliveryConnection) : Except Exn Streamed :=
  if c.state = DeliveryState.RASTER_CACHE_REQUEST_READ ∨
      c.state = DeliveryState.RASTER_MOVE_REQUEST_READ ∨
      c.state = DeliveryState.AWAITING_MOVE_CONFIRM ∨ c.state = DeliveryState.MOVE_DONE then
    Except.ok c.data.cache_key
  else
    Except.error (Exn.IllegalStateException
      "Can only return cache-key if in state RASTER_CACHE_REQUEST_READ")

/-- Embeds `DeliveryConnection::get_delivery_id`. -/
def get_delivery_id (c : DeliveryConnection) : Except Exn Nat :=
  if c.state = DeliveryState.DELIVERY_REQUEST_READ then
    Except.ok c.data.delivery_id
  else
    Except.error (Exn.IllegalStateException
      "Can only return cache-key if in state DELIVERY_REQUEST_READ")

/-- Embeds `DeliveryConnection::send_raster`. -/
def send_raster (raster : Streamed) (wr : WriteResult) :
    Op DeliveryState DeliveryData Unit := do
  let c ← get
  if c.state = DeliveryState.RASTER_CACHE_REQUEST_READ ∨
      c.state = DeliveryState.DELIVERY_REQUEST_READ then
    modify fun c => { c with state := DeliveryState.SENDING_RASTER }
    begin_write (NBWriter.NBMessageWriter WireCode.RESP_OK (NBWriter.NBRasterWriter raster)) wr
  else
    throw (Exn.IllegalStateException
      "Can only send raster in state DELIVERY_REQUEST_READ or RASTER_CACHE_REQUEST_READ")

/-- Embeds `DeliveryConnection::send_error`. -/
def send_error (msg : List Byte) (wr : WriteResult) : Op DeliveryState DeliveryData Unit := do
  let c ← get
  if c.state = DeliveryState.RASTER_CACHE_REQUEST_READ ∨
      c.state = DeliveryState.DELIVERY_REQUEST_READ ∨
      c.state = DeliveryState.RASTER_MOVE_REQUEST_READ ∨
      c.state = DeliveryState.SENDING_RASTER ∨
      c.state = DeliveryState.SENDING_RASTER_MOVE then
    modify fun c => { c with state := DeliveryState.SENDING_ERROR }
    begin_write (NBWriter.NBErrorWriter WireCode.RESP_ERROR msg) wr
  else
    throw (Exn.IllegalStateException
      "Can only send error in state DELIVERY_REQUEST_READ or RASTER_CACHE_REQUEST_READ")

/-- Embeds `DeliveryConnection::send_raster_move`. -/
def send_raster_move (raster : Streamed) (wr : WriteResult) :
    Op DeliveryState DeliveryData Unit := do
  let c ← get
  if c.state = DeliveryState.RASTER_MOVE_REQUEST_READ then
    modify fun c => { c with state := DeliveryState.SENDING_RASTER_MOVE }
    begin_write (NBWriter.NBMessageWriter WireCode.RESP_OK (NBWriter.NBRasterWriter raster)) wr
  else
    throw (Exn.IllegalStateException "Can only move raster in state RASTER_MOVE_REQUEST_READ")

/-- Embeds `DeliveryConnection::release`. -/
def release : Op DeliveryState DeliveryData Unit := do
  let c ← get
  if c.state = DeliveryState.MOVE_DONE then
    modify fun c => { c with state := DeliveryState.IDLE }
  else
    throw (Exn.IllegalStateException "Can only release connection in state MOVE_DONE")

/-- A call of a public operation of a delivery connection, with its arguments
and the outcomes of the input and output attempts made during the call. -/
inductive Call where
  | input (cmd : CommandResult DeliveryCommand) (rd : ReadResult)
  | output (wr : WriteResult)
  | begin_read (reader : NBReader) (rd : ReadResult)
  | begin_write (writer : NBWriter) (wr : WriteResult)
  | send_raster (raster : Streamed) (wr : WriteResult)
  | send_error (msg : List Byte) (wr : WriteResult)
  | send_raster_move (raster : Streamed) (wr : WriteResult)
  | release

/-- The method a call runs. -/
def Call.op : Call → Op DeliveryState DeliveryData Unit
  | Call.input cmd rd => DeliveryConnection.input cmd rd
  | Call.output wr => DeliveryConnection.output wr
  | Call.begin_read reader rd => DeliveryConnection.begin_read reader rd
  | Call.begin_write writer wr => DeliveryConnection.begin_write writer wr
  | Call.send_raster raster wr => DeliveryConnection.send_raster raster wr
  | Call.send_error msg wr => DeliveryConnection.send_error msg wr
  | Call.send_raster_move raster wr => DeliveryConnection.send_raster_move raster wr
  | Call.release => DeliveryConnection.release

end DeliveryConnection

/-- The connection left behind by a sequence of calls: each call runs on the
connection the previous one left, whether it returned or threw. -/
def runCalls {S D K : Type} (op : K → Op S D Unit) (calls : List K) (c : Connection S D) :
    Connection S D :=
  calls.foldl (fun c call => (op call c).2) c

/-- Outcome of the first attempt of a write that completes after `n` incomplete
attempts. -/
def startWrite (n : Nat) : WriteResult :=
  if n = 0 then WriteResult.finished else WriteResult.pending

/-- Outcome of the first attempt of a read that completes, with the bytes
`stream`, after `n` incomplete attempts. -/
def startRead (n : Nat) (stream : BinaryReadBuffer) : ReadResult :=
  if n = 0 then ReadResult.finished stream else ReadResult.pending

/-- The calls of `output()` that follow the first attempt of a write completing
after `n` incomplete attempts: none if `n = 0`, otherwise `n - 1` calls that
stay incomplete and one that finishes. -/
def laterWrites {K : Type} (output : WriteResult → K) : Nat → List K
  | 0 => []
  | n + 1 => List.replicate n (output WriteResult.pending) ++ [output WriteResult.finished]

/-- The calls of `input()` that follow the first attempt of a read completing
after `n` incomplete attempts. -/
def laterReads {K : Type} (input : ReadResult → K) (stream : BinaryReadBuffer) : Nat → List K
  | 0 => []
  | n + 1 =>
    List.replicate n (input ReadResult.pending) ++ [input (ReadResult.finished stream)]

/-- The outcome of every call of a sequence, each with the connection it left. -/
def traceCalls {S D K : Type} (op : K → Op S D Unit) :
    List K → Connection S D → List (Except Exn Unit × Connection S D)
  | [], _ => []
  | call :: calls, c => op call c :: traceCalls op calls (op call c).2

/-- The normal flow of a worker connection: `process_request`, completion of
the request write, the byte `RESP_RESULT_READY`, `send_delivery_qty`, completion
of the quantity write, the byte `RESP_DELIVERY_READY` and completion of the read
of the delivery id with the bytes `stream`. The three transfers complete after
`n1`, `n2` and `n3` incomplete attempts. `cmdAny` and `rdAny` are outcomes the
calls never look at. -/
def WorkerConnection.normalFlow (command : Byte) (request : Streamed) (qty : Nat)
    (cmdAny : CommandResult WorkerCommand) (rdAny : ReadResult) (stream : BinaryReadBuffer)
    (n1 n2 n3 : Nat) : List WorkerConnection.Call :=
  (WorkerConnection.Call.process_request command request (startWrite n1)
      :: laterWrites WorkerConnection.Call.output n1)
    ++ (WorkerConnection.Call.input (CommandResult.byte WorkerCommand.RESP_RESULT_READY) rdAny
      :: WorkerConnection.Call.send_delivery_qty qty (startWrite n2)
      :: laterWrites WorkerConnection.Call.output n2)
    ++ (WorkerConnection.Call.input (CommandResult.byte WorkerCommand.RESP_DELIVERY_READY)
        (startRead n3 stream)
      :: laterReads (WorkerConnection.Call.input cmdAny) stream n3)

/-- The calls by which a client connection receives CMD_GET_RASTER and reads the
request `stream`, the read completing after `n` incomplete attempts. `cmdAny` is
an outcome the later calls never look at. -/
def ClientConnection.requestCalls (cmdAny : CommandResult ClientCommand)
    (stream : BinaryReadBuffer) (n : Nat) : List ClientConnection.Call :=
  ClientConnection.Call.input (CommandResult.byte ClientCommand.CMD_GET_RASTER)
      (startRead n stream)
    :: laterReads (ClientConnection.Call.input cmdAny) stream n

/-- The calls by which the answer started by `act` (`send_response` or
`send_error` with its argument) is written, the write completing after `n`
incomplete attempts. -/
def ClientConnection.answerCalls (act : WriteResult → ClientConnection.Call) (n : Nat) :
    List ClientConnection.Call :=
  act (startWrite n) :: laterWrites ClientConnection.Call.output n

/-- The method leaves the flags `reading` and `writing` as they are. -/
def KeepsFlags {S D α : Type} (m : Op S D α) : Prop :=
  ∀ c, (m c).2.reading = c.reading ∧ (m c).2.writing = c.writing

/-- The method keeps the property `P` of a connection, whether it returns or
throws. -/
def Preserves {S D α : Type} (P : Connection S D → Prop) (m : Op S D α) : Prop :=
  ∀ c, P c → P (m c).2

/-- The method leaves the flag `faulty` as it is. -/
def KeepsFaulty {S D α : Type} (m : Op S D α) : Prop :=
  ∀ c, (m c).2.faulty = c.faulty

/-- Both flags of a connection are set. -/
def Connection.bothFlags {S D : Type} (c : Connection S D) : Prop :=
  c.reading = true ∧ c.writing = true

/-- The reader `r` consumes exactly `bytes` from the front of every buffer that
starts with them, and yields `x`. -/
def Decodes {α : Type} (r : Read α) (bytes : List Byte) (x : α) : Prop :=
  ∀ rest, r (bytes ++ rest) = Except.ok (x, rest)

/-- The call is one of the actions of a client connection. -/
def ClientConnection.Call.isAction : ClientConnection.Call → Bool
  | ClientConnection.Call.send_response _ _ => true
  | ClientConnection.Call.send_error _ _ => true
  | _ => false

/-- The call is one of the actions of a worker connection. -/
def WorkerConnection.Call.isAction : WorkerConnection.Call → Bool
  | WorkerConnection.Call.input _ _ => false
  | WorkerConnection.Call.output _ => false
  | WorkerConnection.Call.begin_read _ _ => false
  | WorkerConnection.Call.begin_write _ _ => false
  | _ => true

/-- The call is one of the actions of a control connection. -/
def ControlConnection.Call.isAction : ControlConnection.Call → Bool
  | ControlConnection.Call.input _ _ => false
  | ControlConnection.Call.output _ => false
  | ControlConnection.Call.begin_read _ _ => false
  | ControlConnection.Call.begin_write _ _ => false
  | _ => true

/-- The call is one of the actions of a delivery connection. -/
def DeliveryConnection.Call.isAction : DeliveryConnection.Call → Bool
  | DeliveryConnection.Call.input _ _ => false
  | DeliveryConnection.Call.output _ => false
  | DeliveryConnection.Call.begin_read _ _ => false
  | DeliveryConnection.Call.begin_write _ _ => false
  | _ => true

/-- The property `P` of a connection depends on its protocol state and on its
payloads only. -/
def OnStateData {S D : Type} (P : Connection S D → Prop) : Prop :=
  ∀ c c1 : Connection S D, c1.state = c.state → c1.data = c.data → P c → P c1

/-- The payloads the getters of a client connection hand out are there: in
AWAIT_RESPONSE a request is stored and the request type is RASTER; while the
request is read the type is RASTER already. -/
def ClientConnection.PayloadPresent (c : ClientConnection) : Prop :=
  (c.state = ClientState.AWAIT_RESPONSE →
    c.data.request.isSome = true ∧ c.data.request_type = RequestType.RASTER) ∧
  (c.state = ClientState.READING_REQUEST → c.data.request_type = RequestType.RASTER)

/-- The payloads the getters of a worker connection hand out are there. -/
def WorkerConnection.PayloadPresent (c : WorkerConnection) : Prop :=
  (c.state = WorkerState.DELIVERY_READY → c.data.result.isSome = true) ∧
  (c.state = WorkerState.RASTER_QUERY_REQUESTED → c.data.raster_query.isSome = true) ∧
  (c.state = WorkerState.NEW_RASTER_ENTRY → c.data.new_raster_entry.isSome = true)

/-- The payloads the getters of a control connection hand out are there. -/
def ControlConnection.PayloadPresent (c : ControlConnection) : Prop :=
  (c.state = ControlState.REORG_RESULT_READ → c.data.reorg_result.isSome = true) ∧
  (c.state = ControlState.STATS_RECEIVED → c.data.stats.isSome = true)

/-- The flags of a connection agree with its protocol state: `reading` is set
only in the states `isReading` marks, `writing` only in those `isSending` marks. -/
def FlagsFollowState {S D : Type} (isReading isSending : S → Bool) (c : Connection S D) :
    Prop :=
  (c.reading = true → isReading c.state = true) ∧ (c.writing = true → isSending c.state = true)

/-- The states of a client connection in which a read is in progress. -/
def ClientState.isReading : ClientState → Bool
  | ClientState.READING_REQUEST => true
  | _ => false

/-- The states of a client connection in which a write is in progress. -/
def ClientState.isSending : ClientState → Bool
  | ClientState.WRITING_RESPONSE => true
  | _ => false

/-- The call runs the helper `begin_read` or `begin_write` directly, outside an
action and outside `input()`. -/
def ClientConnection.Call.direct : ClientConnection.Call → Bool
  | ClientConnection.Call.begin_read _ _ => true
  | ClientConnection.Call.begin_write _ _ => true
  | _ => false

/-- The states of a worker connection in which a read is in progress. -/
def WorkerState.isReading : WorkerState → Bool
  | WorkerState.READING_DELIVERY_ID => true
  | WorkerState.READING_RASTER_QUERY => true
  | WorkerState.READING_RASTER_ENTRY => true
  | WorkerState.READING_ERROR => true
  | _ => false

/-- The states of a worker connection in which a write is in progress. -/
def WorkerState.isSending : WorkerState → Bool
  | WorkerState.SENDING_REQUEST => true
  | WorkerState.SENDING_QUERY_RESPONSE => true
  | WorkerState.SENDING_DELIVERY_QTY => true
  | _ => false

/-- The call runs the helper `begin_read` or `begin_write` directly, outside an
action and outside `input()`. -/
def WorkerConnection.Call.direct : WorkerConnection.Call → Bool
  | WorkerConnection.Call.begin_read _ _ => true
  | WorkerConnection.Call.begin_write _ _ => true
  | _ => false

/-- The states of a control connection in which a read is in progress. -/
def ControlState.isReading : ControlState → Bool
  | ControlState.READING_REORG_RESULT => true
  | ControlState.READING_STATS => true
  | _ => false

/-- The states of a control connection in which a write is in progress. -/
def ControlState.isSending : ControlState → Bool
  | ControlState.SENDING_REORG => true
  | ControlState.SENDING_REORG_CONFIRM => true
  | ControlState.SENDING_STATS_REQUEST => true
  | _ => false

/-- The call runs the helper `begin_read` or `begin_write` directly, outside an
action and outside `input()`. -/
def ControlConnection.Call.direct : ControlConnection.Call → Bool
  | ControlConnection.Call.begin_read _ _ => true
  | ControlConnection.Call.begin_write _ _ => true
  | _ => false

/-- The states of a delivery connection in which a read is in progress. -/
def DeliveryState.isReading : DeliveryState → Bool
  | DeliveryState.READING_DELIVERY_REQUEST => true
  | DeliveryState.READING_RASTER_CACHE_REQUEST => true
  | DeliveryState.READING_RASTER_MOVE_REQUEST => true
  | _ => false

/-- The states of a delivery connection in which a write is in progress. -/
def DeliveryState.isSending : DeliveryState → Bool
  | DeliveryState.SENDING_RASTER => true
  | DeliveryState.SENDING_RASTER_MOVE => true
  | DeliveryState.SENDING_ERROR => true
  | _ => false

/-- The call runs the helper `begin_read` or `begin_write` directly, outside an
action and outside `input()`. -/
def DeliveryConnection.Call.direct : DeliveryConnection.Call → Bool
  | DeliveryConnection.Call.begin_read _ _ => true
  | DeliveryConnection.Call.begin_write _ _ => true
  | _ => false

/-! ## PolygonCollection (polygoncollection.cpp)

The headers polygoncollection.h and simplefeaturecollection.h are not part of
the sources. The members used by polygoncollection.cpp are kept; an index vector
holds natural numbers. -/

/-- Modelled from the spec: the class `Coordinate` (declared in a header that is
missing): a point with the doubles `x` and `y`; two coordinates are equal when
both members are. -/
structure Coordinate where
  x : ℚ
  y : ℚ
  deriving DecidableEq

/-- A ring as a feature iterator yields it: its coordinates in order. -/
abbrev Ring := List Coordinate

/-- A polygon as a feature iterator yields it: its rings in order. -/
abbrev Polygon := List Ring

/-- A feature as a collection iterator yields it: its polygons in order. -/
abbrev Feature := List Polygon

/-- Members of `PolygonCollection` used by polygoncollection.cpp: the
spatio-temporal reference, the coordinates, the index vectors `start_ring`,
`start_polygon` and `start_feature`, the time arrays, and the global and local
metadata (a local metadata array maps a key to a vector with one value per
feature). -/
structure PolygonCollection where
  stref : Streamed
  coordinates : List Coordinate
  start_ring : List Nat
  start_polygon : List Nat
  start_feature : List Nat
  time_start : List ℚ
  time_end : List ℚ
  global_md_string : List (String × String)
  global_md_value : List (String × ℚ)
  local_md_string : List (String × List String)
  local_md_value : List (String × List ℚ)
  deriving DecidableEq

namespace PolygonCollection

/-- Modelled from the spec: the constructor `PolygonCollection(stref)`, which is
declared in the missing header. Each index vector starts with the entry 0, as in
the constructor of the sibling `PointCollection` (pointcollection.h) and as
`finishPolygon` assumes when it takes `start_ring.size() == 1` for "no ring yet";
there are no coordinates, no time values and no metadata. -/
def construct (stref : Streamed) : PolygonCollection :=
  { stref := stref, coordinates := [], start_ring := [0], start_polygon := [0],
    start_feature := [0], time_start := [], time_end := [], global_md_string := [],
    global_md_value := [], local_md_string := [], local_md_value := [] }

/-- Modelled from the spec: `getFeatureCount()`, defined in the missing header
as for `PointCollection`: `start_feature.size() - 1`. -/
def getFeatureCount (pc : PolygonCollection) : Nat := pc.start_feature.length - 1

/-- Modelled from the spec: `hasTime()`, defined in a missing source file: the
collection holds one start time per feature. -/
def hasTime (pc : PolygonCollection) : Bool := pc.time_start.length == pc.getFeatureCount

/-- The parts of `xs` delimited by an index vector: for every two consecutive
entries `s`, `e` of `starts` the part of `xs` from index `s` up to, not
including, index `e`. -/
def slices {α : Type} (starts : List Nat) (xs : List α) : List (List α) :=
  (starts.zip starts.tail).map fun se => (xs.drop se.1).take (se.2 - se.1)

/-- Modelled from the spec: the rings the iterators (missing header) range over:
ring `r` holds the coordinates `start_ring[r]` up to `start_ring[r+1] - 1`. -/
def rings (pc : PolygonCollection) : List Ring := slices pc.start_ring pc.coordinates

/-- Modelled from the spec: the polygons the iterators range over: polygon `p`
holds the rings `start_polygon[p]` up to `start_polygon[p+1] - 1`. -/
def polygons (pc : PolygonCollection) : List Polygon := slices pc.start_polygon pc.rings

/-- Modelled from the spec: the features `for (auto feature : collection)`
ranges over: feature `f` holds the polygons `start_feature[f]` up to
`start_feature[f+1] - 1`. -/
def features (pc : PolygonCollection) : List Feature := slices pc.start_feature pc.polygons

/-- Embeds `PolygonCollection::addCoordinate`. -/
def addCoordinate (pc : PolygonCollection) (x y : ℚ) : PolygonCollection :=
  { pc with coordinates := pc.coordinates ++ [⟨x, y⟩] }

/-- Embeds `PolygonCollection::finishRing`: the collection left and the index
returned, or the exception thrown. `start_ring.back()` does not exceed
`coordinates.size()` in a collection built by these methods. -/
def finishRing (pc : PolygonCollection) : Except Exn (Nat × PolygonCollection) :=
  if pc.coordinates.length - pc.start_ring.getLastD 0 < 4 then
    Except.error (Exn.FeatureException
      "Tried to finish ring with less than 3 vertices (4 coordinates)")
  else if ¬ (pc.coordinates[pc.coordinates.length - 1]?
      = pc.coordinates[pc.start_ring.getLastD 0]?) then
    Except.error (Exn.FeatureException "Last coordinate of ring is not equal to the first one")
  else
    Except.ok ((pc.start_ring ++ [pc.coordinates.length]).length - 2,
      { pc with start_ring := pc.start_ring ++ [pc.coordinates.length] })

/-- Embeds `PolygonCollection::finishPolygon`. -/
def finishPolygon (pc : PolygonCollection) : Except Exn (Nat × PolygonCollection) :=
  if pc.start_ring.length = 1 ∨ pc.start_polygon.getLastD 0 ≥ pc.start_ring.length then
    Except.error (Exn.FeatureException "Tried to finish polygon with 0 rings")
  else
    Except.ok ((pc.start_polygon ++ [pc.start_ring.length - 1]).length - 2,
      { pc with start_polygon := pc.start_polygon ++ [pc.start_ring.length - 1] })

/-- Embeds `PolygonCollection::finishFeature`. -/
def finishFeature (pc : PolygonCollection) : Except Exn (Nat × PolygonCollection) :=
  if pc.start_polygon.length = 1 ∨ pc.start_feature.getLastD 0 ≥ pc.start_polygon.length then
    Except.error (Exn.FeatureException "Tried to finish feature with 0 polygons")
  else
    Except.ok ((pc.start_feature ++ [pc.start_polygon.length - 1]).length - 2,
      { pc with start_feature := pc.start_feature ++ [pc.start_polygon.length - 1] })

/-- The loop `for (auto & c : ring) out->addCoordinate(c.x, c.y);` of `filter`
followed by `out->finishRing()`. -/
def copyRing (out : PolygonCollection) (ring : Ring) : Except Exn PolygonCollection := do
  let out := ring.foldl (fun o c => o.addCoordinate c.x c.y) out
  let r ← out.finishRing
  pure r.2

/-- The loop `for (auto ring : polygon)` of `filter` followed by
`out->finishPolygon()`. -/
def copyPolygon (out : PolygonCollection) (polygon : Polygon) : Except Exn PolygonCollection := do
  let out ← polygon.foldlM copyRing out
  let r ← out.finishPolygon
  pure r.2

/-- The loop `for (auto polygon : feature)` of `filter` followed by
`out->finishFeature()`. -/
def copyFeature (out : PolygonCollection) (feature : Feature) : Except Exn PolygonCollection := do
  let out ← feature.foldlM copyPolygon out
  let r ← out.finishFeature
  pure r.2

/-- The loop `for (idx = 0; idx < count; idx++) if (keep[idx])
vec_out.push_back(vec_in[idx]);` of `filter`. The vector `vec_in` has an entry
for every index below `count` in a collection whose metadata is complete. -/
def keepValues {α : Type} (count : Nat) (keep : List Bool) (vec_in : List α) : List α :=
  (List.range count).foldl
    (fun vec_out idx =>
      if keep.getD idx false then
        match vec_in[idx]? with
        | some v => vec_out ++ [v]
        | none => vec_out
      else vec_out) []

/-- The doubled loop of `filter` over the time arrays: for every `i` below
`count`, every index `idx` below `count` with `keep[idx]` appends
`time[idx]`. -/
def keepTimes (count : Nat) (keep : List Bool) (time : List ℚ) : List ℚ :=
  (List.range count).foldl
    (fun acc _ =>
      (List.range count).foldl
        (fun acc idx =>
          if keep.getD idx false then
            match time[idx]? with
            | some t => acc ++ [t]
            | none => acc
          else acc) acc) []

/-- Embeds the template function `filter` of polygoncollection.cpp, which both
overloads of `PolygonCollection::filter` call; an entry of `keep` holds whether
the `bool` or `char` of the vector counts as true. The calls of `reserve` have no
effect on the result and are left out. -/
def filter (pc : PolygonCollection) (keep : List Bool) : Except Exn PolygonCollection :=
  let count := pc.getFeatureCount
  if keep.length ≠ count then
    Except.error (Exn.ArgumentException
      ("PolygonCollection::filter(): size of filter does not match ("
        ++ toString keep.length ++ " != " ++ toString count ++ ")"))
  else do
    let out : PolygonCollection :=
      { construct pc.stref with
        global_md_string := pc.global_md_string, global_md_value := pc.global_md_value }
    let out ← pc.features.enum.foldlM
      (fun out feature =>
        if keep.getD feature.1 false then copyFeature out feature.2 else pure out) out
    let out := { out with
      local_md_string := pc.local_md_string.map
        (fun (keyValue : String × List String) =>
          (keyValue.1, keepValues count keep keyValue.2)) }
    let out := { out with
      local_md_value := pc.local_md_value.map
        (fun (keyValue : String × List ℚ) =>
          (keyValue.1, keepValues count keep keyValue.2)) }
    if pc.hasTime then
      pure { out with
        time_start := keepTimes count keep pc.time_start,
        time_end := keepTimes count keep pc.time_end }
    else
      pure out

/-- Running totals of a list of lengths, from `o` on. -/
def offsets : Nat → List Nat → List Nat
  | o, [] => [o]
  | o, l :: ls => o :: offsets (o + l) ls

/-- The collection with the members of `base` in which the index vectors and
the coordinates hold the rings `rs`, polygons of `pl` rings each and features of
`fl` polygons each. -/
def shaped (base : PolygonCollection) (rs : List Ring) (pl fl : List Nat) : PolygonCollection :=
  { base with
    coordinates := rs.flatten, start_ring := offsets 0 (rs.map List.length),
    start_polygon := offsets 0 pl, start_feature := offsets 0 fl }

/-- The collection with the members of `base` that holds the features `fs`. -/
def ofFeatures (base : PolygonCollection) (fs : List Feature) : PolygonCollection :=
  shaped base fs.flatten.flatten (fs.flatten.map List.length) (fs.map List.length)

/-- A ring the collection accepts: at least 4 coordinates, the last equal to
the first. -/
def ValidRing (ring : Ring) : Prop :=
  4 ≤ ring.length ∧ ring.getLast? = ring.head?

/-- A feature the collection is meant to hold: at least one polygon, every
polygon with at least one ring, every ring valid. -/
def ValidFeature (feature : Feature) : Prop :=
  feature ≠ [] ∧ ∀ polygon ∈ feature, polygon ≠ [] ∧ ∀ ring ∈ polygon, ValidRing ring

/-- The features of `fs` whose entry of `keep` is true, in their order. -/
def keptOf {α : Type} (keep : List Bool) (fs : List α) : List α :=
  (fs.zip keep).filterMap fun p => if p.2 then some p.1 else none

end PolygonCollection

namespace PolygonCollection

/-- Difference `x - y` of two `size_t` values as the machine computes it; both
are below `2^64`. When `y` exceeds `x` the difference wraps around to
`x + 2^64 - y`. -/
def sizeDiff (x y : Nat) : Nat := if y ≤ x then x - y else x + 2 ^ 64 - y

/-- The element `coordinates[idx]`. The methods below read inside the vector
when they are given a ring of the collection; an index outside it (undefined
behaviour in C++) reads the coordinate (0, 0). -/
def coordinateAt (pc : PolygonCollection) (idx : Nat) : Coordinate :=
  pc.coordinates.getD idx ⟨0, 0⟩

/-- The body of the loop of `PolygonCollection::pointInRing` for the loop
variables `i` and `j`: the new value of `oddNodes`. The index sums are `size_t`.
The division is reached only when `c_i.y` and `c_j.y` differ. -/
def pointInRingStep (pc : PolygonCollection) (coordinate : Coordinate)
    (coordinateIndexStart : Nat) (oddNodes : Bool) (i j : Nat) : Bool :=
  let c_i := pc.coordinateAt ((coordinateIndexStart + i) % 2 ^ 64)
  let c_j := pc.coordinateAt ((coordinateIndexStart + j) % 2 ^ 64)
  if (c_i.y < coordinate.y ∧ c_j.y ≥ coordinate.y)
      ∨ (c_j.y < coordinate.y ∧ c_i.y ≥ coordinate.y) then
    if c_i.x + (coordinate.y - c_i.y) / (c_j.y - c_i.y) * (c_j.x - c_i.x) < coordinate.x then
      !oddNodes
    else oddNodes
  else oddNodes

/-- Embeds `PolygonCollection::pointInRing`: the loop runs `i` from 0 up to
`numberOfCorners - 1`, carrying `oddNodes` and `j`, and sets `j = i` after each
pass. The differences are `size_t`. -/
def pointInRing (pc : PolygonCollection) (coordinate : Coordinate)
    (coordinateIndexStart coordinateIndexStop : Nat) : Bool :=
  let numberOfCorners := sizeDiff (sizeDiff coordinateIndexStop coordinateIndexStart) 1
  ((List.range numberOfCorners).foldl
    (fun (s : Bool × Nat) i =>
      (pointInRingStep pc coordinate coordinateIndexStart s.1 i s.2, i))
    (false, sizeDiff numberOfCorners 1)).1

/-- Modelled from the spec: the members of the nested class
`PointInCollectionBulkTester` (declared in the missing header): the collection
tested and the vectors `constants` and `multiples`. The code reserves capacity
for one entry per coordinate and then writes and reads the entries by index, so
each vector is kept as the value found under every index. -/
structure PointInCollectionBulkTester where
  polygonCollection : PolygonCollection
  constants : Nat → ℚ
  multiples : Nat → ℚ

namespace PointInCollectionBulkTester

/-- The body of the loop of `PointInCollectionBulkTester::precalculateRing` for
the loop variables `i` and `j`: the tester after the two assignments. -/
def precalculateRingStep (t : PointInCollectionBulkTester) (coordinateIndexStart : Nat)
    (i j : Nat) : PointInCollectionBulkTester :=
  let c_i := t.polygonCollection.coordinateAt ((coordinateIndexStart + i) % 2 ^ 64)
  let c_j := t.polygonCollection.coordinateAt ((coordinateIndexStart + j) % 2 ^ 64)
  if c_j.y = c_i.y then
    { t with
      constants := Function.update t.constants ((coordinateIndexStart + i) % 2 ^ 64) c_i.x,
      multiples := Function.update t.multiples ((coordinateIndexStart + i) % 2 ^ 64) 0 }
  else
    { t with
      constants := Function.update t.constants ((coordinateIndexStart + i) % 2 ^ 64)
        (c_i.x - (c_i.y * c_j.x) / (c_j.y - c_i.y) + (c_i.y * c_i.x) / (c_j.y - c_i.y)),
      multiples := Function.update t.multiples ((coordinateIndexStart + i) % 2 ^ 64)
        ((c_j.x - c_i.x) / (c_j.y - c_i.y)) }

/-- Embeds `PointInCollectionBulkTester::precalculateRing`. -/
def precalculateRing (t : PointInCollectionBulkTester)
    (coordinateIndexStart coordinateIndexStop : Nat) : PointInCollectionBulkTester :=
  let numberOfCorners := sizeDiff (sizeDiff coordinateIndexStop coordinateIndexStart) 1
  ((List.range numberOfCorners).foldl
    (fun (s : PointInCollectionBulkTester × Nat) i =>
      (precalculateRingStep s.1 coordinateIndexStart i s.2, i))
    (t, sizeDiff numberOfCorners 1)).1

/-- The body of the loop of `PointInCollectionBulkTester::pointInRing` for the
loop variables `i` and `j`: the new value of `oddNodes`. -/
def pointInRingStep (t : PointInCollectionBulkTester) (coordinate : Coordinate)
    (coordinateIndexStart : Nat) (oddNodes : Bool) (i j : Nat) : Bool :=
  let c_i := t.polygonCollection.coordinateAt ((coordinateIndexStart + i) % 2 ^ 64)
  let c_j := t.polygonCollection.coordinateAt ((coordinateIndexStart + j) % 2 ^ 64)
  if (c_i.y < coordinate.y ∧ c_j.y ≥ coordinate.y)
      ∨ (c_j.y < coordinate.y ∧ c_i.y ≥ coordinate.y) then
    Bool.xor oddNodes
      (decide (coordinate.y * t.multiples ((coordinateIndexStart + i) % 2 ^ 64)
        + t.constants ((coordinateIndexStart + i) % 2 ^ 64) < coordinate.x))
  else oddNodes

/-- Embeds `PointInCollectionBulkTester::pointInRing`. -/
def pointInRing (t : PointInCollectionBulkTester) (coordinate : Coordinate)
    (coordinateIndexStart coordinateIndexStop : Nat) : Bool :=
  let numberOfCorners := sizeDiff (sizeDiff coordinateIndexStop coordinateIndexStart) 1
  ((List.range numberOfCorners).foldl
    (fun (s : Bool × Nat) i =>
      (pointInRingStep t coordinate coordinateIndexStart s.1 i s.2, i))
    (false, sizeDiff numberOfCorners 1)).1

/-- The value `precalculateRing` stores in `constants[coordinateIndexStart + i]`
when the loop variables are `i` and `j`. -/
def ringConstant (pc : PolygonCollection) (coordinateIndexStart i j : Nat) : ℚ :=
  let c_i := pc.coordinateAt ((coordinateIndexStart + i) % 2 ^ 64)
  let c_j := pc.coordinateAt ((coordinateIndexStart + j) % 2 ^ 64)
  if c_j.y = c_i.y then c_i.x
  else c_i.x - (c_i.y * c_j.x) / (c_j.y - c_i.y) + (c_i.y * c_i.x) / (c_j.y - c_i.y)

/-- The value `precalculateRing` stores in `multiples[coordinateIndexStart + i]`
when the loop variables are `i` and `j`. -/
def ringMultiple (pc : PolygonCollection) (coordinateIndexStart i j : Nat) : ℚ :=
  let c_i := pc.coordinateAt ((coordinateIndexStart + i) % 2 ^ 64)
  let c_j := pc.coordinateAt ((coordinateIndexStart + j) % 2 ^ 64)
  if c_j.y = c_i.y then 0 else (c_j.x - c_i.x) / (c_j.y - c_i.y)

/-- The value of the loop variable `j` in the pass with loop variable `i`, when
it starts at `j0`. -/
def loopPrev (j0 i : Nat) : Nat := if i = 0 then j0 else i - 1

end PointInCollectionBulkTester

end PolygonCollection

/-! ## Doubles with their special values

The embedding of cube.cpp above keeps a `double` as a rational number. The
definitions of this section repeat the methods of `Interval` and
`Cube<DIM>::dissect_by` on doubles that may also be infinite or NaN. -/

/-- A C++ `double` with the special values of IEEE 754: a finite value, plus or
minus infinity, or NaN. A finite value is kept as a rational number, and the
sign of a zero is not kept. The operations `add`, `sub`, `mul` and `div` give
the exact result on finite values; `Dbl.round` rounds a result to the nearest
double. -/
inductive Dbl where
  | fin (q : ℚ)
  | posInf
  | negInf
  | nan
  deriving DecidableEq

namespace Dbl

/-- The value is NaN. -/
def isNaN : Dbl → Bool
  | nan => true
  | _ => false

/-- The value is finite. -/
def isFinite : Dbl → Bool
  | fin _ => true
  | _ => false

/-- The comparison `x < y` of two doubles; it is false when an operand is NaN. -/
def lt : Dbl → Dbl → Bool
  | fin x, fin y => decide (x < y)
  | fin _, posInf => true
  | negInf, fin _ => true
  | negInf, posInf => true
  | _, _ => false

/-- The comparison `x <= y` of two doubles; it is false when an operand is
NaN. -/
def le : Dbl → Dbl → Bool
  | fin x, fin y => decide (x ≤ y)
  | fin _, posInf => true
  | negInf, fin _ => true
  | negInf, posInf => true
  | negInf, negInf => true
  | posInf, posInf => true
  | _, _ => false

/-- The difference `x - y` of two doubles: NaN when an operand is NaN and for
the difference of two infinities of the same sign. -/
def sub : Dbl → Dbl → Dbl
  | fin x, fin y => fin (x - y)
  | fin _, posInf => negInf
  | fin _, negInf => posInf
  | posInf, fin _ => posInf
  | posInf, negInf => posInf
  | negInf, fin _ => negInf
  | negInf, posInf => negInf
  | _, _ => nan

/-- The sum `x + y` of two doubles: NaN when an operand is NaN and for the sum
of two infinities of opposite sign. -/
def add : Dbl → Dbl → Dbl
  | fin x, fin y => fin (x + y)
  | fin _, posInf => posInf
  | fin _, negInf => negInf
  | posInf, fin _ => posInf
  | posInf, posInf => posInf
  | negInf, fin _ => negInf
  | negInf, negInf => negInf
  | _, _ => nan

/-- Embeds `std::abs` on doubles. -/
def abs : Dbl → Dbl
  | fin x => fin |x|
  | posInf => posInf
  | negInf => posInf
  | nan => nan

/-- Embeds `std::min(a, b)`, which returns `(b < a) ? b : a`. -/
def min (a b : Dbl) : Dbl := if lt b a then b else a

/-- Embeds `std::max(a, b)`, which returns `(a < b) ? b : a`. -/
def max (a b : Dbl) : Dbl := if lt a b then b else a

/-- The double `std::numeric_limits<double>::epsilon()`. -/
def epsilon : Dbl := fin Mapping.epsilon

end Dbl

namespace IEEE

/-- The class `Interval` with bounds that may be infinite or NaN. -/
structure Interval where
  a : Dbl
  b : Dbl
  deriving DecidableEq

namespace Interval

/-- Embeds `Interval::intersects`: `!(a > other.b || b < other.a)`. -/
def intersects (i other : Interval) : Bool :=
  !(Dbl.lt other.b i.a || Dbl.lt i.b other.a)

/-- Embeds `Interval::contains(const Interval&)`:
`a - epsilon <= other.a && b + epsilon >= other.b`; the difference and the sum
are taken without rounding. -/
def contains (i other : Interval) : Bool :=
  Dbl.le (Dbl.sub i.a Dbl.epsilon) other.a && Dbl.le other.b (Dbl.add i.b Dbl.epsilon)

/-- Embeds `Interval::combine`. -/
def combine (i other : Interval) : Interval :=
  ⟨Dbl.min i.a other.a, Dbl.max i.b other.b⟩

/-- Embeds `Interval::intersect`. -/
def intersect (i other : Interval) : Except Exn Interval :=
  if !i.intersects other then
    Except.error (Exn.ArgumentException "Cannot intersect disjunct intervals")
  else
    Except.ok ⟨Dbl.max i.a other.a, Dbl.min i.b other.b⟩

/-- Embeds `Interval::operator==`:
`std::abs(a - o.a) < epsilon && std::abs(b - o.b) < epsilon`; the differences
are taken without rounding. -/
def opEq (i o : Interval) : Bool :=
  Dbl.lt (Dbl.abs (Dbl.sub i.a o.a)) Dbl.epsilon
    && Dbl.lt (Dbl.abs (Dbl.sub i.b o.b)) Dbl.epsilon

end Interval

/-- The class `Cube<DIM>` with bounds that may be infinite or NaN. -/
structure Cube (DIM : Nat) where
  dims : Fin DIM → Interval

namespace Cube

variable {DIM : Nat}

/-- Embeds `Cube<DIM>::set_dimension(int, double, double)`. -/
def set_dimension (c : Cube DIM) (dim : Int) (a b : Dbl) : Except Exn (Cube DIM) :=
  if h : dim < 0 ∨ dim ≥ DIM then
    Except.error (Exn.ArgumentException "Cannot set dimension")
  else
    Except.ok ⟨Function.update c.dims ⟨dim.toNat, by omega⟩ ⟨a, b⟩⟩

/-- Embeds `Cube<DIM>::intersects`. -/
def intersects (c other : Cube DIM) : Bool :=
  (List.finRange DIM).foldl (fun res i => res && (c.dims i).intersects (other.dims i)) true

/-- Embeds `Cube<DIM>::contains`. -/
def contains (c other : Cube DIM) : Bool :=
  (List.finRange DIM).foldl (fun res i => res && (c.dims i).contains (other.dims i)) true

/-- One iteration of the loop of `Cube<DIM>::dissect_by` at axis `i`, on the
loop state `(work, res)`. -/
def dissectBody (fill : Cube DIM) (st : Cube DIM × List (Cube DIM)) (i : Fin DIM) :
    Except Exn (Cube DIM × List (Cube DIM)) := do
  let work := st.1
  let res := st.2
  let o_dim := fill.dims i
  -- Left
  let (work, res) ←
    if Dbl.lt (work.dims i).a o_dim.a then do
      let rem ← work.set_dimension (i.val : Int) (work.dims i).a o_dim.a
      pure ((⟨Function.update work.dims i ⟨o_dim.a, (work.dims i).b⟩⟩ : Cube DIM), res ++ [rem])
    else pure (work, res)
  -- Right
  if Dbl.lt o_dim.b (work.dims i).b then do
    let rem ← work.set_dimension (i.val : Int) o_dim.b (work.dims i).b
    pure ((⟨Function.update work.dims i ⟨(work.dims i).a, o_dim.b⟩⟩ : Cube DIM), res ++ [rem])
  else pure (work, res)

/-- Embeds `Cube<DIM>::dissect_by`. -/
def dissect_by (c fill : Cube DIM) : Except Exn (List (Cube DIM)) :=
  if fill.contains c then
    Except.ok []
  else if !c.intersects fill then
    Except.error (Exn.ArgumentException "Filling cube must intersect this cube for dissection")
  else do
    let st ← (List.finRange DIM).foldlM (dissectBody fill) (c, [])
    pure st.2

/-- Exception-free form of `dissectBody`: inside the loop the index is in range,
so `set_dimension` cannot throw. -/
def dissectStep (fill : Cube DIM) (st : Cube DIM × List (Cube DIM)) (i : Fin DIM) :
    Cube DIM × List (Cube DIM) :=
  let st1 : Cube DIM × List (Cube DIM) :=
    if Dbl.lt (st.1.dims i).a (fill.dims i).a then
      (⟨Function.update st.1.dims i ⟨(fill.dims i).a, (st.1.dims i).b⟩⟩,
        st.2 ++ [⟨Function.update st.1.dims i ⟨(st.1.dims i).a, (fill.dims i).a⟩⟩])
    else st
  if Dbl.lt (fill.dims i).b (st1.1.dims i).b then
    (⟨Function.update st1.1.dims i ⟨(st1.1.dims i).a, (fill.dims i).b⟩⟩,
      st1.2 ++ [⟨Function.update st1.1.dims i ⟨(fill.dims i).b, (st1.1.dims i).b⟩⟩])
  else st1

/-- None of the bounds of the cube is NaN. -/
def NoNaN (c : Cube DIM) : Prop :=
  ∀ k, (c.dims k).a.isNaN = false ∧ (c.dims k).b.isNaN = false

end Cube

end IEEE

/-! ## Rounding to double

The statistics of cache_stats.cpp accumulate doubles. The definitions of this
section round the result of every operation to the nearest double, as the
machine does, and repeat `QueryStats::add_query`, `QueryStats::get_hit_ratio`
and `SystemStats::query_finished` on such doubles. -/

/-- The integer nearest to `x`; of two integers equally near, the even one. -/
def roundHalfEven (x : ℚ) : ℤ :=
  if x - ⌊x⌋ < 1 / 2 then ⌊x⌋
  else if 1 / 2 < x - ⌊x⌋ then ⌊x⌋ + 1
  else if ⌊x⌋ % 2 = 0 then ⌊x⌋
  else ⌊x⌋ + 1

namespace Dbl

/-- The binary exponent of the last place of the double nearest to `q` (for
`q` other than 0): a double has a significand of 53 bits, and below `2^-1022`
(subnormal numbers) the last place stays at `2^-1074`. -/
def ulpExponent (q : ℚ) : ℤ := Max.max (Int.log 2 |q| - 52) (-1074)

/-- The double nearest to the rational number `q` (round to nearest, ties to
even, the rounding the machine applies to the result of an operation and to the
conversion of an integer): a result of magnitude `2^1024` or more is an
infinity. -/
def ofRat (q : ℚ) : Dbl :=
  if q = 0 then fin 0
  else if 2 ^ 1024 ≤ |(roundHalfEven (q / 2 ^ ulpExponent q) : ℚ) * 2 ^ ulpExponent q| then
    (if 0 < q then posInf else negInf)
  else fin ((roundHalfEven (q / 2 ^ ulpExponent q) : ℚ) * 2 ^ ulpExponent q)

/-- Rounds the exact result of an operation to a double; infinities and NaN
stay. -/
def round : Dbl → Dbl
  | fin q => ofRat q
  | d => d

/-- The exact product `x * y` of two doubles: NaN when an operand is NaN and for
the product of 0 and an infinity. -/
def mul : Dbl → Dbl → Dbl
  | fin x, fin y => fin (x * y)
  | nan, _ => nan
  | _, nan => nan
  | fin x, posInf => if 0 < x then posInf else if x < 0 then negInf else nan
  | fin x, negInf => if 0 < x then negInf else if x < 0 then posInf else nan
  | posInf, fin y => if 0 < y then posInf else if y < 0 then negInf else nan
  | negInf, fin y => if 0 < y then negInf else if y < 0 then posInf else nan
  | posInf, posInf => posInf
  | posInf, negInf => negInf
  | negInf, posInf => negInf
  | negInf, negInf => posInf

/-- The exact quotient `x / y` of two doubles: NaN when an operand is NaN, for
`0 / 0` and for the quotient of two infinities. The sign of a zero is not kept:
a zero divisor counts as `+0`, which is what the conversion of an unsigned count
gives. -/
def div : Dbl → Dbl → Dbl
  | fin x, fin y =>
    if y = 0 then (if 0 < x then posInf else if x < 0 then negInf else nan) else fin (x / y)
  | nan, _ => nan
  | _, nan => nan
  | fin _, posInf => fin 0
  | fin _, negInf => fin 0
  | posInf, fin y => if y < 0 then negInf else posInf
  | negInf, fin y => if y < 0 then posInf else negInf
  | posInf, posInf => nan
  | posInf, negInf => nan
  | negInf, posInf => nan
  | negInf, negInf => nan

/-- The rational number `q` is a double: rounding leaves it as it is. -/
def isDouble (q : ℚ) : Bool := decide (ofRat q = fin q)

end Dbl

namespace IEEE

/-- Members of `QueryStats` with the member `ratios` as a double. -/
structure QueryStats where
  single_local_hits : Nat
  multi_local_hits : Nat
  multi_local_partials : Nat
  single_remote_hits : Nat
  multi_remote_hits : Nat
  multi_remote_partials : Nat
  misses : Nat
  result_bytes : Nat
  queries : Nat
  ratios : Dbl
  deriving DecidableEq

namespace QueryStats

/-- Embeds `QueryStats::QueryStats()`. -/
def default : QueryStats :=
  { single_local_hits := 0, multi_local_hits := 0, multi_local_partials := 0,
    single_remote_hits := 0, multi_remote_hits := 0, multi_remote_partials := 0,
    misses := 0, result_bytes := 0, queries := 0, ratios := Dbl.fin 0 }

/-- Embeds `QueryStats::add_query`: `ratios += ratio; queries++;` with the sum
rounded to double; `queries` is a `uint64_t`. -/
def add_query (q : QueryStats) (ratio : Dbl) : QueryStats :=
  { q with ratios := Dbl.round (Dbl.add q.ratios ratio), queries := (q.queries + 1) % 2 ^ 64 }

/-- Embeds `QueryStats::get_hit_ratio`: `(queries > 0) ? (ratios/queries) : 0`;
the count is converted to double and the quotient rounded. -/
def get_hit_ratio (q : QueryStats) : Dbl :=
  if q.queries > 0 then Dbl.round (Dbl.div q.ratios (Dbl.ofRat (q.queries : ℚ))) else Dbl.fin 0

/-- Successive calls of `add_query`, one for every ratio of the list. -/
def addAll (q : QueryStats) (ratios : List Dbl) : QueryStats :=
  ratios.foldl add_query q

end QueryStats

/-- Members of `SystemStats` with the averages as doubles. -/
structure SystemStats extends QueryStats where
  queries_issued : Nat
  queries_scheduled : Nat
  query_counter : Nat
  avg_wait_time : Dbl
  avg_exec_time : Dbl
  avg_time : Dbl
  node_to_queries : StdMap Nat Nat
  deriving DecidableEq

namespace SystemStats

/-- Embeds `SystemStats::SystemStats()`. -/
def default : SystemStats :=
  { toQueryStats := QueryStats.default, queries_issued := 0, queries_scheduled := 0,
    query_counter := 0, avg_wait_time := Dbl.fin 0, avg_exec_time := Dbl.fin 0,
    avg_time := Dbl.fin 0, node_to_queries := [] }

/-- Embeds `SystemStats::query_finished`. The timestamps are `size_t`: their
difference is taken modulo `2^64` and then converted to double; `num_clients`
and `query_counter` are `uint32_t`; every product, sum and quotient is rounded
to double. -/
def query_finished (s : SystemStats) (num_clients time_created time_scheduled
    time_finished : Nat) : SystemStats :=
  let avg_exec_time : Dbl :=
    Dbl.round (Dbl.div
      (Dbl.round (Dbl.add
        (Dbl.round (Dbl.mul s.avg_exec_time (Dbl.ofRat (s.query_counter : ℚ))))
        (Dbl.ofRat (Mapping.SystemStats.sizeSub time_finished time_scheduled : ℚ))))
      (Dbl.ofRat (((s.query_counter + num_clients) % 2 ^ 32 : Nat) : ℚ)))
  let avg_wait_time : Dbl :=
    Dbl.round (Dbl.div
      (Dbl.round (Dbl.add
        (Dbl.round (Dbl.mul s.avg_wait_time (Dbl.ofRat (s.query_counter : ℚ))))
        (Dbl.ofRat (Mapping.SystemStats.sizeSub time_scheduled time_created : ℚ))))
      (Dbl.ofRat (((s.query_counter + num_clients) % 2 ^ 32 : Nat) : ℚ)))
  let avg_time : Dbl := Dbl.round (Dbl.add avg_exec_time avg_wait_time)
  { s with avg_exec_time := avg_exec_time, avg_wait_time := avg_wait_time,
           avg_time := avg_time,
           query_counter := (s.query_counter + num_clients) % 2 ^ 32 }

end SystemStats

end IEEE

/-! ## Example values -/

/-- The unit square. -/
def unitSquare : Cube 2 := ⟨![⟨0, 1⟩, ⟨0, 1⟩]⟩

/-- The unit square with a strip of width epsilon removed on the left. -/
def nearUnitSquare : Cube 2 := ⟨![⟨epsilon, 1⟩, ⟨0, 1⟩]⟩

/-- The left half of the unit square. -/
def leftHalf : Cube 2 := ⟨![⟨0, 1 / 2⟩, ⟨0, 1⟩]⟩

/-- A thin strip just right of `leftHalf`, closer to it than epsilon. -/
def thinStrip : Cube 2 := ⟨![⟨1 / 2 + epsilon / 2, 1 / 2 + epsilon⟩, ⟨0, 1⟩]⟩

/-- A square in the middle of the unit square. -/
def innerSquare : Cube 2 := ⟨![⟨1 / 4, 3 / 4⟩, ⟨1 / 4, 3 / 4⟩]⟩

/-- A square far away from the unit square. -/
def farSquare : Cube 2 := ⟨![⟨5, 6⟩, ⟨5, 6⟩]⟩

/-- The rational denoted by a 64-bit pattern read as an IEEE-754 binary64
number (finite patterns). -/
def ieeeValue (w : Nat) : ℚ :=
  let sign : ℚ := if w / 2 ^ 63 % 2 = 1 then -1 else 1
  let e : Nat := w / 2 ^ 52 % 2 ^ 11
  let m : Nat := w % 2 ^ 52
  if e = 0 then sign * (m : ℚ) / 2 ^ 1074 else sign * (2 ^ 52 + (m : ℚ)) * 2 ^ e / 2 ^ 1075

/-- The IEEE-754 binary64 patterns of the doubles 1/2, 1 and 2 (0 elsewhere). -/
def sampleBits (x : ℚ) : Nat :=
  if x = 1 / 2 then 0x3FE0000000000000
  else if x = 1 then 0x3FF0000000000000
  else if x = 2 then 0x4000000000000000
  else 0

/-- An example codec: binary64 decoding, and the encoding of a few doubles. -/
def sampleCodec : DoubleCodec := ⟨sampleBits, ieeeValue⟩

/-- An example `QueryStats` record. -/
def sampleQueryStats : QueryStats :=
  { single_local_hits := 1, multi_local_hits := 2, multi_local_partials := 3,
    single_remote_hits := 4, multi_remote_hits := 5, multi_remote_partials := 6,
    misses := 7, result_bytes := 5000000000, queries := 2, ratios := 1 }

/-- An example `SystemStats` record with two nodes. -/
def sampleSystemStats : SystemStats :=
  { toQueryStats := sampleQueryStats, queries_issued := 3, queries_scheduled := 3,
    query_counter := 2, avg_wait_time := 1, avg_exec_time := 1, avg_time := 2,
    node_to_queries := [(1, 2), (7, 1)] }

/-- An example `CacheStats` record with two semantic ids. -/
def sampleCacheStats : CacheStats :=
  { type := 0, capacity_total := 1000, capacity_used := 10,
    items := [([97], [⟨1, 100, 3⟩, ⟨2, 200, 1⟩]), ([98, 99], [⟨3, 5, 0⟩])] }

/-- An example node. -/
def sampleNode : Node := ⟨7, [], 80⟩

/-- A client connection that received CMD_GET_RASTER and whose read of the
request is incomplete. -/
def readingClient : ClientConnection :=
  (ClientConnection.input (CommandResult.byte ClientCommand.CMD_GET_RASTER)
    ReadResult.pending (ClientConnection.construct 1)).2

/-- A worker connection in state PROCESSING with no transfer pending. -/
def processingWorker : WorkerConnection :=
  { WorkerConnection.construct 1 sampleNode with state := WorkerState.PROCESSING }

/-- A delivery connection in state DELIVERY_REQUEST_READ with no transfer
pending. -/
def requestReadDelivery : DeliveryConnection :=
  { DeliveryConnection.construct 1 with
    state := DeliveryState.DELIVERY_REQUEST_READ,
    data := { delivery_id := 42, cache_key := ⟨[]⟩ } }

/-- A control connection in state REORG_RESULT_READ that holds a move result
and has no transfer pending. -/
def resultReadControl : ControlConnection :=
  { ControlConnection.construct 1 sampleNode with
    state := ControlState.REORG_RESULT_READ,
    data := { node := sampleNode, reorg_result := some ⟨[1, 2, 3]⟩, stats := none } }

/-- A closed ring of four coordinates: a triangle. -/
def triangleRing : Ring := [⟨1, 2⟩, ⟨1, 3⟩, ⟨2, 3⟩, ⟨1, 2⟩]

/-- A second closed ring of four coordinates. -/
def otherRing : Ring := [⟨5, 8⟩, ⟨2, 3⟩, ⟨7, 6⟩, ⟨5, 8⟩]

/-- The collection built by the calls `addCoordinate` (four times, the ring
`triangleRing`), `finishRing`, `finishPolygon`, `finishFeature`, `finishPolygon`,
`finishFeature`: its second feature has one polygon, which has no ring. -/
def emptyPolygonCollection : PolygonCollection :=
  { PolygonCollection.construct ⟨[]⟩ with
    coordinates := triangleRing, start_ring := [0, 4], start_polygon := [0, 1, 1],
    start_feature := [0, 1, 2] }

/-- Four features as in the unit test of `filter`: the first and the last hold
one polygon, the other two hold two polygons, every polygon one ring. -/
def sampleFeatures : List Feature :=
  [[[triangleRing]], [[triangleRing], [otherRing]], [[otherRing], [triangleRing]],
    [[triangleRing]]]

/-- The collection holding `sampleFeatures`, with the local metadata array
"test" as in the unit test of `filter`. -/
def sampleCollection : PolygonCollection :=
  PolygonCollection.ofFeatures
    { PolygonCollection.construct ⟨[]⟩ with
      local_md_value := [("test", [51 / 10, 41 / 10, 31 / 10, 21 / 10])] }
    sampleFeatures

/-- A delivery connection in the middle of sending a raster: the byte
CMD_GET_CACHED_RASTER arrived, the key was read at once, and `send_raster` began
a write that is not complete yet. -/
def sendingDelivery : DeliveryConnection :=
  runCalls DeliveryConnection.Call.op
    [DeliveryConnection.Call.input (CommandResult.byte DeliveryCommand.CMD_GET_CACHED_RASTER)
        (ReadResult.finished []),
      DeliveryConnection.Call.send_raster ⟨[]⟩ WriteResult.pending]
    (DeliveryConnection.construct 1)

/-- The collection `sampleCollection` with a validity interval for each of its
four features. -/
def timedCollection : PolygonCollection :=
  { sampleCollection with time_start := [1, 2, 3, 4], time_end := [5, 6, 7, 8] }

/-- A collection that holds the ring `triangleRing` as its only feature. -/
def triangleCollection : PolygonCollection :=
  PolygonCollection.ofFeatures (PolygonCollection.construct ⟨[]⟩) [[[triangleRing]]]

/-- The cube [NaN, NaN] x [0, 1]. -/
def IEEE.nanSquare : IEEE.Cube 2 :=
  ⟨fun k => if k = 0 then ⟨Dbl.nan, Dbl.nan⟩ else ⟨Dbl.fin 0, Dbl.fin 1⟩⟩

/-- The cube [0, 1] x [0, 1]. -/
def IEEE.unitSquare : IEEE.Cube 2 := ⟨fun _ => ⟨Dbl.fin 0, Dbl.fin 1⟩⟩

/-- The cube [0, 1/2] x [0, 1]. -/
def IEEE.leftHalf : IEEE.Cube 2 :=
  ⟨fun k => if k = 0 then ⟨Dbl.fin 0, Dbl.fin (1 / 2)⟩ else ⟨Dbl.fin 0, Dbl.fin 1⟩⟩

/-- The double written `0.1`: `3602879701896397 / 2^55`. -/
def Dbl.tenth : ℚ := 3602879701896397 / 2 ^ 55

/-! # Theorems -/

section Helpers

theorem foldl_and_eq_all {ι : Type} (p : ι → Bool) (l : List ι) (b : Bool) :
    l.foldl (fun res i => res && p i) b = (b && l.all p) := by
  induction l generalizing b with
  | nil => simp
  | cons x xs ih => simp [ih, Bool.and_assoc]

theorem foldl_invariant {σ ι : Type} (f : σ → ι → σ) (P : σ → Prop)
    (hstep : ∀ s i, P s → P (f s i)) (l : List ι) (s : σ) (hs : P s) :
    P (l.foldl f s) := by
  induction l generalizing s with
  | nil => simpa using hs
  | cons x xs ih => exact ih _ (hstep s x hs)

theorem foldlM_ok {σ ι : Type} (f : σ → ι → Except Exn σ) (g : σ → ι → σ)
    (h : ∀ s i, f s i = Except.ok (g s i)) (l : List ι) (s : σ) :
    l.foldlM f s = Except.ok (l.foldl g s) := by
  induction l generalizing s with
  | nil => rfl
  | cons x xs ih =>
    rw [List.foldlM_cons, h, List.foldl_cons]
    exact ih _

end Helpers

namespace Cube

variable {DIM : Nat}

theorem intersects_iff (c o : Cube DIM) :
    c.intersects o = true ↔ ∀ i, (c.dims i).intersects (o.dims i) = true := by
  simp [intersects, foldl_and_eq_all]

theorem contains_iff (c o : Cube DIM) :
    c.contains o = true ↔ ∀ i, (c.dims i).contains (o.dims i) = true := by
  simp [contains, foldl_and_eq_all]

theorem opEq_iff (c o : Cube DIM) :
    c.opEq o = true ↔ ∀ i, (c.dims i).opEq (o.dims i) = true := by
  simp [opEq, foldl_and_eq_all]

theorem set_dimension_fin (c : Cube DIM) (i : Fin DIM) (a b : ℚ) :
    c.set_dimension (i.val : Int) a b = Except.ok ⟨Function.update c.dims i ⟨a, b⟩⟩ := by
  have h : ¬ (((i.val : Int) < 0) ∨ ((i.val : Int) ≥ DIM)) := by
    have := i.isLt
    omega
  simp [set_dimension, h]

theorem dissectBody_eq (fill : Cube DIM) (st : Cube DIM × List (Cube DIM)) (i : Fin DIM) :
    dissectBody fill st i = Except.ok (dissectStep fill st i) := by
  unfold dissectBody dissectStep dissectLeft dissectRight
  by_cases h1 : (fill.dims i).a > (st.1.dims i).a
  · by_cases h2 : (fill.dims i).b < (st.1.dims i).b
    · simp [h1, h2, set_dimension_fin, bind, Except.bind, pure, Except.pure]
    · simp [h1, h2, set_dimension_fin, bind, Except.bind, pure, Except.pure]
  · by_cases h2 : (fill.dims i).b < (st.1.dims i).b
    · simp [h1, h2, set_dimension_fin, bind, Except.bind, pure, Except.pure]
    · simp [h1, h2, set_dimension_fin, bind, Except.bind, pure, Except.pure]

theorem dissect_by_eq (c fill : Cube DIM) :
    c.dissect_by fill =
      if fill.contains c then Except.ok []
      else if !c.intersects fill then
        Except.error (Exn.ArgumentException "Filling cube must intersect this cube for dissection")
      else Except.ok ((List.finRange DIM).foldl (dissectStep fill) (c, [])).2 := by
  unfold dissect_by
  rw [foldlM_ok (dissectBody fill) (dissectStep fill) (dissectBody_eq fill)]
  rfl

theorem volume_eq_prod (c : Cube DIM) : c.volume = ∏ i, (c.dims i).distance := by
  have h : ∀ (l : List (Fin DIM)) (r : ℚ),
      l.foldl (fun res i => res * (c.dims i).distance) r
        = r * (l.map fun i => (c.dims i).distance).prod := by
    intro l
    induction l with
    | nil => intro r; simp
    | cons x xs ih => intro r; simp [ih, mul_assoc]
  rw [volume, h, one_mul, Fin.prod_univ_def]

theorem volume_update (c : Cube DIM) (i : Fin DIM) (v : Interval) :
    volume ⟨Function.update c.dims i v⟩
      = v.distance * ∏ j ∈ Finset.univ \ {i}, (c.dims j).distance := by
  rw [volume_eq_prod]
  have h : ∀ j, (Function.update c.dims i v j).distance
      = Function.update (fun k => (c.dims k).distance) i v.distance j := by
    intro j
    exact Function.apply_update (fun _ (x : Interval) => x.distance) c.dims i v j
  simp only [h]
  rw [Finset.prod_update_of_mem (Finset.mem_univ i)]

theorem volume_split (c : Cube DIM) (i : Fin DIM) :
    c.volume = (c.dims i).distance * ∏ j ∈ Finset.univ \ {i}, (c.dims j).distance := by
  have h := volume_update c i (c.dims i)
  rw [Function.update_eq_self] at h
  exact h

theorem Inside_update (fill c : Cube DIM) (i : Fin DIM) (h : Inside fill c) :
    Inside fill ⟨Function.update c.dims i (fill.dims i)⟩ := by
  intro j
  by_cases hj : j = i
  · subst hj
    have := h j
    simp only [Function.update_same]
    exact ⟨le_refl _, this.2.1, le_refl _⟩
  · simp only [Function.update_noteq hj]
    exact h j

/-- Under `Inside`, one loop iteration narrows axis `i` of the work cube to the
axis of `fill`. -/
theorem dissectStep_work (fill : Cube DIM) (st : Cube DIM × List (Cube DIM)) (i : Fin DIM)
    (h : Inside fill st.1) :
    (dissectStep fill st i).1 = ⟨Function.update st.1.dims i (fill.dims i)⟩ := by
  obtain ⟨h1, _, h3⟩ := h i
  unfold dissectStep dissectLeft dissectRight
  by_cases c1 : (fill.dims i).a > (st.1.dims i).a
  · by_cases c2 : (fill.dims i).b < (st.1.dims i).b
    · simp [c1, c2]
    · have e : (st.1.dims i).b = (fill.dims i).b := le_antisymm (not_lt.mp c2) h3
      simp [c1, c2, e]
  · have e1 : (st.1.dims i).a = (fill.dims i).a := le_antisymm h1 (not_lt.mp c1)
    by_cases c2 : (fill.dims i).b < (st.1.dims i).b
    · simp [c1, c2, e1]
    · have e : (st.1.dims i).b = (fill.dims i).b := le_antisymm (not_lt.mp c2) h3
      have e3 : st.1.dims i = fill.dims i := by
        cases hx : st.1.dims i
        cases hy : fill.dims i
        simp_all
      simp only [c1, c2, if_false]
      rw [← e3, Function.update_eq_self]

theorem dissectStep_Inside (fill : Cube DIM) (st : Cube DIM × List (Cube DIM)) (i : Fin DIM)
    (h : Inside fill st.1) : Inside fill (dissectStep fill st i).1 := by
  rw [dissectStep_work fill st i h]
  exact Inside_update fill st.1 i h

/-- One loop iteration keeps the total volume of work cube plus remainders. -/
theorem dissectStep_volume (fill : Cube DIM) (st : Cube DIM × List (Cube DIM)) (i : Fin DIM) :
    sumVolume (dissectStep fill st i).2 + (dissectStep fill st i).1.volume
      = sumVolume st.2 + st.1.volume := by
  have hv := volume_split st.1 i
  unfold dissectStep dissectLeft dissectRight
  by_cases c1 : (fill.dims i).a > (st.1.dims i).a
  · by_cases c2 : (fill.dims i).b < (st.1.dims i).b
    · simp only [c1, c2, if_true, Function.update_same, Function.update_idem]
      simp only [sumVolume, List.map_append, List.sum_append, List.map_cons, List.map_nil,
        List.sum_cons, List.sum_nil, volume_update, Interval.distance, hv]
      ring
    · simp only [c1, c2, if_true, if_false, Function.update_same]
      simp only [sumVolume, List.map_append, List.sum_append, List.map_cons, List.map_nil,
        List.sum_cons, List.sum_nil, volume_update, Interval.distance, hv]
      ring
  · by_cases c2 : (fill.dims i).b < (st.1.dims i).b
    · simp only [c1, c2, if_true, if_false]
      simp only [sumVolume, List.map_append, List.sum_append, List.map_cons, List.map_nil,
        List.sum_cons, List.sum_nil, volume_update, Interval.distance, hv]
      ring
    · simp only [c1, c2, if_false]

theorem dissectLoop_volume (fill : Cube DIM) (l : List (Fin DIM))
    (st : Cube DIM × List (Cube DIM)) :
    sumVolume (l.foldl (dissectStep fill) st).2 + (l.foldl (dissectStep fill) st).1.volume
      = sumVolume st.2 + st.1.volume := by
  induction l generalizing st with
  | nil => rfl
  | cons x xs ih =>
    rw [List.foldl_cons, ih, dissectStep_volume]

theorem dissectLoop_work (fill : Cube DIM) (l : List (Fin DIM))
    (st : Cube DIM × List (Cube DIM)) (h : Inside fill st.1) (j : Fin DIM) :
    (l.foldl (dissectStep fill) st).1.dims j
      = if j ∈ l then fill.dims j else st.1.dims j := by
  induction l generalizing st with
  | nil => simp
  | cons x xs ih =>
    rw [List.foldl_cons, ih _ (dissectStep_Inside fill st x h), dissectStep_work fill st x h]
    by_cases hx : j ∈ xs
    · simp [hx]
    · by_cases hj : j = x
      · subst hj
        simp [hx]
      · simp [hx, hj, Function.update_noteq hj]

theorem dissectLoop_final (fill c : Cube DIM) (h : Inside fill c) :
    ((List.finRange DIM).foldl (dissectStep fill) (c, [])).1 = fill := by
  have hd : ∀ j, ((List.finRange DIM).foldl (dissectStep fill) (c, [])).1.dims j = fill.dims j := by
    intro j
    rw [dissectLoop_work fill _ (c, []) h j]
    simp [List.mem_finRange]
  cases hw : ((List.finRange DIM).foldl (dissectStep fill) (c, [])).1 with
  | mk d =>
    cases fill with
    | mk f =>
      rw [hw] at hd
      simp only at hd
      congr
      funext j
      exact hd j

end Cube

theorem Interval.Separated.not_shareInterior {x y : Interval} (h : Interval.Separated x y) :
    ¬ Interval.shareInterior x y := by
  rintro ⟨t, h1, h2, h3, h4⟩
  rcases h with h | h
  · linarith
  · linarith

theorem Interval.Separated.mono {r x y : Interval} (h : Interval.Separated r x)
    (hw : Interval.Within y x) : Interval.Separated r y := by
  rcases h with h | h
  · exact Or.inl (le_trans h hw.1)
  · exact Or.inr (le_trans hw.2 h)

namespace Cube

variable {DIM : Nat}

/-- Cutting the work cube along axis `i` into a new work interval `w` and a
remainder interval `r` lying beside it keeps the disjointness invariant. -/
theorem SepInv_cut (fill work : Cube DIM) (res : List (Cube DIM)) (i : Fin DIM)
    (w r : Interval) (hinv : SepInv fill (work, res))
    (hw : Interval.Within w (work.dims i)) (hr : Interval.Within r (work.dims i))
    (hs : Interval.Separated r w)
    (hf : w.a ≤ (fill.dims i).a ∧ (fill.dims i).b ≤ w.b) :
    SepInv fill (⟨Function.update work.dims i w⟩, res ++ [⟨Function.update work.dims i r⟩]) := by
  obtain ⟨hin, hpw, hsep⟩ := hinv
  simp only at hin hpw hsep
  refine ⟨?_, ?_, ?_⟩
  · intro j
    by_cases hj : j = i
    · subst hj
      simp only [Function.update_same]
      exact ⟨hf.1, (hin j).2.1, hf.2⟩
    · simp only [Function.update_noteq hj]
      exact hin j
  · simp only
    rw [List.pairwise_append]
    refine ⟨hpw, List.pairwise_singleton _ _, ?_⟩
    intro x hx y hy
    rw [List.mem_singleton] at hy
    subst hy
    obtain ⟨k, hk⟩ := hsep x hx
    refine ⟨k, Interval.Separated.not_shareInterior ?_⟩
    by_cases hki : k = i
    · subst hki
      simp only [Function.update_same]
      exact hk.mono hr
    · simp only [Function.update_noteq hki]
      exact hk
  · intro x hx
    simp only [List.mem_append, List.mem_singleton] at hx
    rcases hx with hx | hx
    · obtain ⟨k, hk⟩ := hsep x hx
      refine ⟨k, ?_⟩
      by_cases hki : k = i
      · subst hki
        simp only [Function.update_same]
        exact hk.mono hw
      · simp only [Function.update_noteq hki]
        exact hk
    · subst hx
      refine ⟨i, ?_⟩
      simp only [Function.update_same]
      exact hs

theorem dissectLeft_SepInv (fill : Cube DIM) (st : Cube DIM × List (Cube DIM)) (i : Fin DIM)
    (h : SepInv fill st) : SepInv fill (dissectLeft fill st i) := by
  obtain ⟨h1, h2, h3⟩ := h.1 i
  unfold dissectLeft
  by_cases c1 : (fill.dims i).a > (st.1.dims i).a
  · simp only [c1, if_true]
    refine SepInv_cut fill st.1 st.2 i _ _ h ?_ ?_ ?_ ?_
    · exact ⟨h1, le_refl _⟩
    · exact ⟨le_refl _, le_trans h2 h3⟩
    · exact Or.inl (le_refl _)
    · exact ⟨le_refl _, h3⟩
  · simp only [c1, if_false]
    exact h

theorem dissectRight_SepInv (fill : Cube DIM) (st : Cube DIM × List (Cube DIM)) (i : Fin DIM)
    (h : SepInv fill st) : SepInv fill (dissectRight fill st i) := by
  obtain ⟨h1, h2, h3⟩ := h.1 i
  unfold dissectRight
  by_cases c1 : (fill.dims i).b < (st.1.dims i).b
  · simp only [c1, if_true]
    refine SepInv_cut fill st.1 st.2 i _ _ h ?_ ?_ ?_ ?_
    · exact ⟨le_refl _, h3⟩
    · exact ⟨le_trans h1 h2, le_refl _⟩
    · exact Or.inr (le_refl _)
    · exact ⟨h1, le_refl _⟩
  · simp only [c1, if_false]
    exact h

theorem dissectLoop_SepInv (fill : Cube DIM) (l : List (Fin DIM))
    (st : Cube DIM × List (Cube DIM)) (h : SepInv fill st) :
    SepInv fill (l.foldl (dissectStep fill) st) :=
  foldl_invariant (dissectStep fill) (SepInv fill)
    (fun s i hs => dissectRight_SepInv fill _ i (dissectLeft_SepInv fill s i hs)) l st h

theorem intersects_of_Inside {fill c : Cube DIM} (h : Inside fill c) :
    c.intersects fill = true := by
  rw [intersects_iff]
  intro i
  obtain ⟨h1, h2, h3⟩ := h i
  simp only [Interval.intersects, Bool.not_eq_true', Bool.or_eq_false_iff, decide_eq_false_iff_not,
    not_lt, gt_iff_lt]
  exact ⟨le_trans h1 h2, le_trans h2 h3⟩

end Cube

/-! ## Claims on Interval and Cube -/

namespace Cube

variable {DIM : Nat}

/-- C1 (as stated, refuted): the unit square `a = [0,1] x [0,1]` and
`b = [epsilon,1] x [0,1]` satisfy `a.lo <= b.lo <= b.hi <= a.hi` on both axes, yet
`a.dissect_by(b)` returns the empty list (because `b.contains(a)` holds within
the epsilon tolerance) while `a.volume() - b.volume()` is not zero. -/
theorem dissect_by_volume_counterexample :
    (∀ i, (unitSquare.dims i).a ≤ (nearUnitSquare.dims i).a ∧
        (nearUnitSquare.dims i).a ≤ (nearUnitSquare.dims i).b ∧
        (nearUnitSquare.dims i).b ≤ (unitSquare.dims i).b) ∧
      unitSquare.dissect_by nearUnitSquare = Except.ok [] ∧
      (([] : List (Cube 2)).map volume).sum ≠ unitSquare.volume - nearUnitSquare.volume := by
  refine ⟨?_, ?_, ?_⟩
  · simp [Fin.forall_fin_two, nearUnitSquare, unitSquare, epsilon]
    norm_num
  · have h : nearUnitSquare.contains unitSquare = true := by
      simp [Cube.contains, List.finRange, nearUnitSquare, unitSquare, Interval.contains, epsilon]
    simp [Cube.dissect_by, h]
  · simp [Cube.volume, List.finRange, nearUnitSquare, unitSquare, Interval.distance, epsilon]
    norm_num

/-- C1 (amended): for cubes `a` and `b` with `a.lo <= b.lo <= b.hi <= a.hi` on
every axis, and `b.contains(a)` false, `a.dissect_by(b)` returns a list of cubes
whose volumes sum to exactly `a.volume() - b.volume()`. -/
theorem dissect_by_volume (a b : Cube DIM)
    (hin : ∀ i, (a.dims i).a ≤ (b.dims i).a ∧ (b.dims i).a ≤ (b.dims i).b ∧
      (b.dims i).b ≤ (a.dims i).b)
    (hnc : b.contains a = false) :
    ∃ rems, a.dissect_by b = Except.ok rems ∧
      (rems.map volume).sum = a.volume - b.volume := by
  have hint : a.intersects b = true := intersects_of_Inside hin
  refine ⟨((List.finRange DIM).foldl (dissectStep b) (a, [])).2, ?_, ?_⟩
  · rw [dissect_by_eq]
    simp [hnc, hint]
  · have h := dissectLoop_volume b (List.finRange DIM) (a, [])
    rw [dissectLoop_final b a hin] at h
    simp only [sumVolume, List.map_nil, List.sum_nil, zero_add] at h
    linarith

/-- Witness for C1 (amended): the unit square dissected by a square in its middle. -/
theorem dissect_by_volume_witness :
    (∀ i, (unitSquare.dims i).a ≤ (innerSquare.dims i).a ∧
        (innerSquare.dims i).a ≤ (innerSquare.dims i).b ∧
        (innerSquare.dims i).b ≤ (unitSquare.dims i).b) ∧
      innerSquare.contains unitSquare = false ∧
      ∃ rems, unitSquare.dissect_by innerSquare = Except.ok rems ∧
        (rems.map volume).sum = unitSquare.volume - innerSquare.volume :=
  have h1 : ∀ i, (unitSquare.dims i).a ≤ (innerSquare.dims i).a ∧
        (innerSquare.dims i).a ≤ (innerSquare.dims i).b ∧
        (innerSquare.dims i).b ≤ (unitSquare.dims i).b := by
    simp [Fin.forall_fin_two, innerSquare, unitSquare]
    norm_num
  have h2 : innerSquare.contains unitSquare = false := by
    simp [Cube.contains, List.finRange, innerSquare, unitSquare, Interval.contains, epsilon]
    norm_num
  ⟨h1, h2, dissect_by_volume unitSquare innerSquare h1 h2⟩

/-- C2: for cubes `a` and `b` with `a.lo <= b.lo <= b.hi <= a.hi` on every axis,
`a.dissect_by(b)` returns a list whose cubes are pairwise disjoint up to shared
boundaries (two remainders at different positions have an axis on which their
intervals share no interior point), and each of them is likewise disjoint
from `b`. -/
theorem dissect_by_disjoint (a b : Cube DIM)
    (hin : ∀ i, (a.dims i).a ≤ (b.dims i).a ∧ (b.dims i).a ≤ (b.dims i).b ∧
      (b.dims i).b ≤ (a.dims i).b) :
    ∃ rems, a.dissect_by b = Except.ok rems ∧
      rems.Pairwise (fun x y => ∃ i, ¬ Interval.shareInterior (x.dims i) (y.dims i)) ∧
      ∀ r ∈ rems, ∃ i, ¬ Interval.shareInterior (r.dims i) (b.dims i) := by
  have hint : a.intersects b = true := intersects_of_Inside hin
  have hinv : SepInv b (a, []) := ⟨hin, List.Pairwise.nil, by simp⟩
  have hfin := dissectLoop_SepInv b (List.finRange DIM) (a, []) hinv
  rw [dissect_by_eq]
  by_cases hc : b.contains a = true
  · exact ⟨[], by simp [hc], List.Pairwise.nil, by simp⟩
  · refine ⟨_, by simp [hc, hint], hfin.2.1, ?_⟩
    intro r hr
    obtain ⟨k, hk⟩ := hfin.2.2 r hr
    exact ⟨k, (hk.mono ⟨(hfin.1 k).1, (hfin.1 k).2.2⟩).not_shareInterior⟩

/-- Witness for C2: the unit square dissected by a square in its middle. -/
theorem dissect_by_disjoint_witness :
    (∀ i, (unitSquare.dims i).a ≤ (innerSquare.dims i).a ∧
        (innerSquare.dims i).a ≤ (innerSquare.dims i).b ∧
        (innerSquare.dims i).b ≤ (unitSquare.dims i).b) ∧
      ∃ rems, unitSquare.dissect_by innerSquare = Except.ok rems ∧
        rems.Pairwise (fun x y => ∃ i, ¬ Interval.shareInterior (x.dims i) (y.dims i)) ∧
        ∀ r ∈ rems, ∃ i, ¬ Interval.shareInterior (r.dims i) (innerSquare.dims i) :=
  have h1 : ∀ i, (unitSquare.dims i).a ≤ (innerSquare.dims i).a ∧
        (innerSquare.dims i).a ≤ (innerSquare.dims i).b ∧
        (innerSquare.dims i).b ≤ (unitSquare.dims i).b := by
    simp [Fin.forall_fin_two, innerSquare, unitSquare]
    norm_num
  ⟨h1, dissect_by_disjoint unitSquare innerSquare h1⟩

/-- C3 (as stated, refuted): `thinStrip = [1/2 + epsilon/2, 1/2 + epsilon] x [0,1]`
does not intersect `leftHalf = [0, 1/2] x [0,1]`, yet
`thinStrip.dissect_by(leftHalf)` returns the empty list instead of failing,
because `leftHalf.contains(thinStrip)` holds within the epsilon tolerance and is
tested first. -/
theorem dissect_by_not_intersecting_counterexample :
    thinStrip.intersects leftHalf = false ∧
      thinStrip.dissect_by leftHalf = Except.ok [] := by
  refine ⟨?_, ?_⟩
  · simp [Cube.intersects, List.finRange, thinStrip, leftHalf, Interval.intersects, epsilon]
  · have h : leftHalf.contains thinStrip = true := by
      simp [Cube.contains, List.finRange, thinStrip, leftHalf, Interval.contains, epsilon]
      positivity
    simp [Cube.dissect_by, h]

/-- C3 (amended): if `this.intersects(fill)` is false and `fill.contains(this)` is
false, `this.dissect_by(fill)` fails with an ArgumentException and returns no
list. -/
theorem dissect_by_not_intersecting (c fill : Cube DIM)
    (hni : c.intersects fill = false) (hnc : fill.contains c = false) :
    c.dissect_by fill = Except.error
      (Exn.ArgumentException "Filling cube must intersect this cube for dissection") := by
  rw [dissect_by_eq]
  simp [hni, hnc]

/-- Witness for C3 (amended): the unit square and a square far away from it. -/
theorem dissect_by_not_intersecting_witness :
    unitSquare.intersects farSquare = false ∧ farSquare.contains unitSquare = false ∧
      unitSquare.dissect_by farSquare = Except.error
        (Exn.ArgumentException "Filling cube must intersect this cube for dissection") :=
  have h1 : unitSquare.intersects farSquare = false := by
    simp [Cube.intersects, List.finRange, farSquare, unitSquare, Interval.intersects]
  have h2 : farSquare.contains unitSquare = false := by
    simp [Cube.contains, List.finRange, farSquare, unitSquare, Interval.contains, epsilon]
    norm_num
  ⟨h1, h2, dissect_by_not_intersecting unitSquare farSquare h1 h2⟩

/-- C4: whenever `fill.contains(this)` holds, `this.dissect_by(fill)` returns the
empty list; in particular this is so when `fill == this` under `operator==`, and
when `fill` is `this` itself. -/
theorem dissect_by_contained (c fill : Cube DIM) :
    (fill.contains c = true → c.dissect_by fill = Except.ok []) ∧
      (fill.opEq c = true → c.dissect_by fill = Except.ok []) ∧
      c.dissect_by c = Except.ok [] := by
  have key : ∀ f : Cube DIM, f.contains c = true → c.dissect_by f = Except.ok [] := by
    intro f hf
    rw [dissect_by_eq]
    simp [hf]
  have heq : ∀ f : Cube DIM, f.opEq c = true → f.contains c = true := by
    intro f hf
    rw [opEq_iff] at hf
    rw [contains_iff]
    intro i
    have hi := hf i
    simp only [Interval.opEq, Bool.and_eq_true, decide_eq_true_eq] at hi
    simp only [Interval.contains, Bool.and_eq_true, decide_eq_true_eq, ge_iff_le]
    have h1 := abs_lt.mp hi.1
    have h2 := abs_lt.mp hi.2
    constructor <;> linarith
  refine ⟨key fill, fun h => key fill (heq fill h), key c (heq c ?_)⟩
  rw [opEq_iff]
  intro i
  simp [Interval.opEq, epsilon]

/-- Witness for C4: `[epsilon,1] x [0,1]` contains the unit square within the
tolerance, and dissecting the unit square by it gives the empty list. -/
theorem dissect_by_contained_witness :
    nearUnitSquare.contains unitSquare = true ∧
      unitSquare.dissect_by nearUnitSquare = Except.ok [] :=
  have h : nearUnitSquare.contains unitSquare = true := by
    simp [Cube.contains, List.finRange, nearUnitSquare, unitSquare, Interval.contains, epsilon]
  ⟨h, (dissect_by_contained unitSquare nearUnitSquare).1 h⟩

end Cube

namespace Interval

/-- C7: for every two Intervals `i` and `j` with `i.a > j.b` or `i.b < j.a`,
`i.intersect(j)` fails with an ArgumentException and returns no interval. -/
theorem intersect_disjoint (i j : Interval) (h : i.a > j.b ∨ i.b < j.a) :
    i.intersect j =
      Except.error (Exn.ArgumentException "Cannot intersect disjunct intervals") := by
  have hi : i.intersects j = false := by
    simp only [Interval.intersects, Bool.not_eq_false', Bool.or_eq_true, decide_eq_true_eq]
    exact h
  simp [Interval.intersect, hi]

/-- Witness for C7: the intervals `[0, 1]` and `[2, 3]`. -/
theorem intersect_disjoint_witness :
    ((0 : ℚ) > 3 ∨ (1 : ℚ) < 2) ∧
      Interval.intersect ⟨0, 1⟩ ⟨2, 3⟩ =
        Except.error (Exn.ArgumentException "Cannot intersect disjunct intervals") :=
  ⟨Or.inr (by norm_num), intersect_disjoint ⟨0, 1⟩ ⟨2, 3⟩ (Or.inr (by norm_num))⟩

end Interval

/-! ## Binary round trips -/

theorem leValue_leBytes (n v : Nat) : leValue (leBytes n v) = v % 256 ^ n := by
  induction n generalizing v with
  | zero => simp [leBytes, leValue, Nat.mod_one]
  | succ n ih =>
    simp only [leBytes, leValue, ih]
    rw [pow_succ', Nat.mod_mul]

theorem leBytes_mod (n v : Nat) : leBytes n (v % 256 ^ n) = leBytes n v := by
  induction n generalizing v with
  | zero => rfl
  | succ n ih =>
    have h1 : v % 256 ^ (n + 1) % 256 = v % 256 :=
      Nat.mod_mod_of_dvd v (Dvd.intro_left (256 ^ n) rfl)
    have h2 : v % 256 ^ (n + 1) / 256 = v / 256 % 256 ^ n := by
      rw [pow_succ', Nat.mod_mul_right_div_self]
    simp only [leBytes, h1, h2, ih]

theorem length_leBytes (n v : Nat) : (leBytes n v).length = n := by
  induction n generalizing v with
  | zero => rfl
  | succ n ih => simp [leBytes, ih]

theorem Decodes_pure {α : Type} (x : α) : Decodes (pure x : Read α) [] x := by
  intro rest
  rfl

theorem Decodes_bind {α β : Type} {r : Read α} {f : α → Read β} {b1 b2 : List Byte}
    {x : α} {y : β} (h1 : Decodes r b1 x) (h2 : Decodes (f x) b2 y) :
    Decodes (r >>= f) (b1 ++ b2) y := by
  intro rest
  show (StateT.bind r f) (b1 ++ b2 ++ rest) = _
  unfold StateT.bind
  rw [List.append_assoc, h1 (b2 ++ rest)]
  exact h2 rest

theorem Decodes_readUInt (n v : Nat) (h : v < 256 ^ n) :
    Decodes (readUInt n) (leBytes n v) v := by
  intro rest
  unfold readUInt
  have hl : ¬ (leBytes n v ++ rest).length < n := by
    simp [length_leBytes]
  rw [if_neg hl]
  have ht : (leBytes n v ++ rest).take n = leBytes n v := by
    rw [List.take_append_of_le_length (by simp [length_leBytes])]
    rw [List.take_of_length_le (by simp [length_leBytes])]
  have hd : (leBytes n v ++ rest).drop n = rest := by
    rw [List.drop_append_of_le_length (by simp [length_leBytes])]
    rw [List.drop_of_length_le (by simp [length_leBytes])]
    rfl
  rw [ht, hd, leValue_leBytes, Nat.mod_eq_of_lt h]

theorem Decodes_readDouble (codec : DoubleCodec) (x : ℚ) (h : codec.Representable x) :
    Decodes (readDouble codec) (leBytes 8 (codec.bits x)) x := by
  intro rest
  unfold readDouble
  show (StateT.bind (readUInt 8) _) _ = _
  unfold StateT.bind
  have h8 : Decodes (readUInt 8) (leBytes 8 (codec.bits x % 2 ^ 64)) (codec.bits x % 2 ^ 64) :=
    Decodes_readUInt 8 _ (Nat.mod_lt _ (by norm_num))
  have e : leBytes 8 (codec.bits x % 2 ^ 64) = leBytes 8 (codec.bits x) := by
    have := leBytes_mod 8 (codec.bits x)
    norm_num at this ⊢
    exact this
  rw [e] at h8
  rw [h8 rest]
  show Except.ok (codec.value (codec.bits x % 2 ^ 64), rest) = _
  rw [h]

theorem QueryStats_decodes (codec : DoubleCodec) (q : QueryStats) (h : q.InRange codec) :
    Decodes (QueryStats.fromBuffer codec) (q.serialize codec []) q := by
  obtain ⟨h1, h2, h3, h4, h5, h6, h7, h8, h9, h10⟩ := h
  have e : q.serialize codec [] =
      leBytes 4 q.single_local_hits ++ (leBytes 4 q.multi_local_hits ++
      (leBytes 4 q.multi_local_partials ++ (leBytes 4 q.single_remote_hits ++
      (leBytes 4 q.multi_remote_hits ++ (leBytes 4 q.multi_remote_partials ++
      (leBytes 4 q.misses ++ (leBytes 8 q.result_bytes ++ (leBytes 8 q.queries ++
      (leBytes 8 (codec.bits q.ratios) ++ []))))))))) := by
    simp [QueryStats.serialize, writeUInt, writeDouble]
  rw [e]
  unfold QueryStats.fromBuffer
  refine Decodes_bind (Decodes_readUInt 4 _ h1) ?_
  refine Decodes_bind (Decodes_readUInt 4 _ h2) ?_
  refine Decodes_bind (Decodes_readUInt 4 _ h3) ?_
  refine Decodes_bind (Decodes_readUInt 4 _ h4) ?_
  refine Decodes_bind (Decodes_readUInt 4 _ h5) ?_
  refine Decodes_bind (Decodes_readUInt 4 _ h6) ?_
  refine Decodes_bind (Decodes_readUInt 4 _ h7) ?_
  refine Decodes_bind (Decodes_readUInt 8 _ h8) ?_
  refine Decodes_bind (Decodes_readUInt 8 _ h9) ?_
  refine Decodes_bind (Decodes_readDouble codec _ h10) ?_
  exact Decodes_pure q


theorem foldl_write {ι : Type} (f : BinaryWriteBuffer → ι → BinaryWriteBuffer)
    (hf : ∀ b x, f b x = b ++ f [] x) (l : List ι) (b : BinaryWriteBuffer) :
    l.foldl f b = b ++ l.foldl f [] := by
  induction l generalizing b with
  | nil => simp
  | cons x xs ih =>
    rw [List.foldl_cons, List.foldl_cons, ih (f b x), ih (f [] x), hf b x, List.append_assoc]

namespace StdMap

variable {K V : Type} [LinearOrder K]

theorem emplace_of_lt (m : StdMap K V) (k : K) (v : V) (h : ∀ p ∈ m, p.1 < k) :
    emplace m k v = m ++ [(k, v)] := by
  induction m with
  | nil => rfl
  | cons p t ih =>
    obtain ⟨k0, v0⟩ := p
    have h0 : k0 < k := h (k0, v0) (List.mem_cons_self _ _)
    have ht : ∀ p ∈ t, p.1 < k := fun p hp => h p (List.mem_cons_of_mem _ hp)
    simp only [emplace, if_neg (not_lt_of_gt h0), if_neg (ne_of_gt h0), ih ht, List.cons_append]

theorem foldl_emplace (l acc : StdMap K V) (h : Ordered (acc ++ l)) :
    l.foldl (fun m p => emplace m p.1 p.2) acc = acc ++ l := by
  induction l generalizing acc with
  | nil => simp
  | cons p ps ih =>
    have hlt : ∀ q ∈ acc, q.1 < p.1 := by
      intro q hq
      unfold Ordered at h
      rw [List.map_append, List.pairwise_append] at h
      exact h.2.2 q.1 (List.mem_map_of_mem _ hq) p.1 (by simp)
    rw [List.foldl_cons, emplace_of_lt acc p.1 p.2 hlt]
    have h2 : Ordered ((acc ++ [(p.1, p.2)]) ++ ps) := by
      simpa using h
    rw [ih _ h2]
    simp

end StdMap

theorem SystemStats_decodes_readMap (l acc : StdMap Nat Nat)
    (hr : ∀ p ∈ l, p.1 < 2 ^ 32 ∧ p.2 < 2 ^ 64) :
    Decodes (SystemStats.readMap l.length acc)
      (l.foldl (fun buffer p => writeUInt (writeUInt buffer 4 p.1) 8 p.2) [])
      (l.foldl (fun m p => StdMap.emplace m p.1 p.2) acc) := by
  induction l generalizing acc with
  | nil => exact Decodes_pure acc
  | cons p ps ih =>
    have hp := hr p (List.mem_cons_self _ _)
    have hps : ∀ q ∈ ps, q.1 < 2 ^ 32 ∧ q.2 < 2 ^ 64 :=
      fun q hq => hr q (List.mem_cons_of_mem _ hq)
    rw [List.foldl_cons, List.foldl_cons,
      foldl_write _ (fun b x => by simp [writeUInt]) ps]
    have e : writeUInt (writeUInt [] 4 p.1) 8 p.2 = leBytes 4 p.1 ++ leBytes 8 p.2 := by
      simp [writeUInt]
    rw [e, List.append_assoc]
    simp only [List.length_cons, SystemStats.readMap]
    refine Decodes_bind (Decodes_readUInt 4 _ (by norm_num; exact hp.1)) ?_
    refine Decodes_bind (Decodes_readUInt 8 _ (by norm_num; exact hp.2)) ?_
    exact ih _ hps

theorem SystemStats_decodes (codec : DoubleCodec) (s : SystemStats) (h : s.InRange codec) :
    Decodes (SystemStats.fromBuffer codec) (s.serialize codec []) s := by
  obtain ⟨hq, h1, h2, h3, h4, h5, h6, h7, h8, h9⟩ := h
  have e : s.serialize codec [] =
      s.toQueryStats.serialize codec [] ++ (leBytes 4 s.queries_issued ++
      (leBytes 4 s.queries_scheduled ++ (leBytes 4 s.query_counter ++
      (leBytes 8 (codec.bits s.avg_wait_time) ++ (leBytes 8 (codec.bits s.avg_exec_time) ++
      (leBytes 8 (codec.bits s.avg_time) ++ (leBytes 8 s.node_to_queries.length ++
      (s.node_to_queries.foldl
        (fun buffer p => writeUInt (writeUInt buffer 4 p.1) 8 p.2) [] ++ [])))))))) := by
    simp only [SystemStats.serialize]
    rw [foldl_write _ (fun b x => by simp [writeUInt])]
    simp [writeUInt, writeDouble]
  rw [e]
  unfold SystemStats.fromBuffer
  refine Decodes_bind (QueryStats_decodes codec _ hq) ?_
  refine Decodes_bind (Decodes_readUInt 4 _ h1) ?_
  refine Decodes_bind (Decodes_readUInt 4 _ h2) ?_
  refine Decodes_bind (Decodes_readUInt 4 _ h3) ?_
  refine Decodes_bind (Decodes_readDouble codec _ h4) ?_
  refine Decodes_bind (Decodes_readDouble codec _ h5) ?_
  refine Decodes_bind (Decodes_readDouble codec _ h6) ?_
  refine Decodes_bind (Decodes_readUInt 8 _ (by norm_num; exact h7)) ?_
  refine Decodes_bind (SystemStats_decodes_readMap _ [] h9) ?_
  rw [StdMap.foldl_emplace _ [] (by simpa using h8)]
  exact Decodes_pure s


theorem Decodes_readString (s : List Byte) (h : s.length < 2 ^ 64) :
    Decodes readString (writeString [] s) s := by
  have e : writeString [] s = leBytes 8 s.length ++ s := by
    simp [writeString, writeUInt]
  rw [e]
  unfold readString
  refine Decodes_bind (Decodes_readUInt 8 _ (by norm_num; exact h)) ?_
  intro rest
  simp

theorem NodeEntryStats_decodes (e : NodeEntryStats) (h : e.InRange) :
    Decodes NodeEntryStats.fromBuffer (e.serialize []) e := by
  obtain ⟨h1, h2, h3⟩ := h
  have hs : e.serialize [] =
      leBytes 8 e.entry_id ++ (leBytes 8 e.last_access ++ (leBytes 4 e.access_count ++ [])) := by
    simp [NodeEntryStats.serialize, writeUInt]
  rw [hs]
  unfold NodeEntryStats.fromBuffer
  refine Decodes_bind (Decodes_readUInt 8 _ (by norm_num; exact h1)) ?_
  refine Decodes_bind (Decodes_readUInt 8 _ (by norm_num; exact h2)) ?_
  refine Decodes_bind (Decodes_readUInt 4 _ (by norm_num; exact h3)) ?_
  exact Decodes_pure e

theorem NodeEntryStats_serialize_append (e : NodeEntryStats) (b : BinaryWriteBuffer) :
    e.serialize b = b ++ e.serialize [] := by
  simp [NodeEntryStats.serialize, writeUInt]

theorem CacheUsage_decodes (u : CacheUsage) (h : u.InRange) :
    Decodes CacheUsage.fromBuffer (u.serialize []) u := by
  obtain ⟨h1, h2⟩ := h
  have hs : u.serialize [] =
      leBytes 1 u.type.val ++ (leBytes 8 u.capacity_total ++ (leBytes 8 u.capacity_used ++ [])) := by
    simp [CacheUsage.serialize, writeUInt]
  rw [hs]
  unfold CacheUsage.fromBuffer
  refine Decodes_bind (Decodes_readUInt 1 _ (by norm_num)) ?_
  refine Decodes_bind (Decodes_readUInt 8 _ (by norm_num; exact h1)) ?_
  refine Decodes_bind (Decodes_readUInt 8 _ (by norm_num; exact h2)) ?_
  have ht : (Fin.ofNat u.type.val : Fin 256) = u.type := by
    apply Fin.ext
    simp [Fin.ofNat, Nat.mod_eq_of_lt u.type.isLt]
  rw [ht]
  exact Decodes_pure u

namespace CacheContent

variable {T : Type}

theorem decodes_readElems (readT : Read T) (writeT : T → BinaryWriteBuffer → BinaryWriteBuffer)
    (happ : ∀ x b, writeT x b = b ++ writeT x [])
    (l acc : List T) (hl : ∀ x ∈ l, Decodes readT (writeT x []) x) :
    Decodes (readElems readT l.length acc) (l.foldl (fun b x => writeT x b) []) (acc ++ l) := by
  induction l generalizing acc with
  | nil =>
    simp only [List.length_nil, readElems, List.foldl_nil, List.append_nil]
    exact Decodes_pure acc
  | cons x xs ih =>
    rw [List.foldl_cons, foldl_write _ (fun b x => happ x b) xs]
    simp only [List.length_cons, readElems]
    refine Decodes_bind (hl x (List.mem_cons_self _ _)) ?_
    have := ih (acc ++ [x]) (fun y hy => hl y (List.mem_cons_of_mem _ hy))
    simpa using this

theorem writeItem_append (writeT : T → BinaryWriteBuffer → BinaryWriteBuffer)
    (happ : ∀ x b, writeT x b = b ++ writeT x []) (b : BinaryWriteBuffer)
    (e : List Byte × List T) :
    List.foldl (fun b x => writeT x b) (writeUInt (writeString b e.1) 8 e.2.length) e.2
      = b ++ List.foldl (fun b x => writeT x b) (writeUInt (writeString [] e.1) 8 e.2.length) e.2 := by
  rw [foldl_write _ (fun b x => happ x b) e.2 (writeUInt (writeString b e.1) 8 e.2.length),
    foldl_write _ (fun b x => happ x b) e.2 (writeUInt (writeString [] e.1) 8 e.2.length)]
  simp [writeUInt, writeString]

theorem decodes_readItems (readT : Read T) (writeT : T → BinaryWriteBuffer → BinaryWriteBuffer)
    (happ : ∀ x b, writeT x b = b ++ writeT x [])
    (l acc : StdMap (List Byte) (List T))
    (hl : ∀ e ∈ l, e.1.length < 2 ^ 64 ∧ e.2.length < 2 ^ 64 ∧
      ∀ x ∈ e.2, Decodes readT (writeT x []) x) :
    Decodes (readItems readT l.length acc)
      (l.foldl (fun buffer e =>
        let buffer := writeString buffer e.1
        let buffer := writeUInt buffer 8 e.2.length
        e.2.foldl (fun buffer nes => writeT nes buffer) buffer) [])
      (l.foldl (fun m e => StdMap.emplace m e.1 e.2) acc) := by
  induction l generalizing acc with
  | nil => exact Decodes_pure acc
  | cons e es ih =>
    obtain ⟨h1, h2, h3⟩ := hl e (List.mem_cons_self _ _)
    rw [List.foldl_cons, List.foldl_cons,
      foldl_write _ (fun b x => writeItem_append writeT happ b x) es]
    simp only [List.length_cons, readItems]
    rw [foldl_write _ (fun b x => happ x b) e.2]
    have e1 : writeUInt (writeString [] e.1) 8 e.2.length
        = writeString [] e.1 ++ leBytes 8 e.2.length := by
      simp [writeUInt]
    rw [e1, List.append_assoc, List.append_assoc]
    refine Decodes_bind (Decodes_readString e.1 h1) ?_
    refine Decodes_bind (Decodes_readUInt 8 _ (by norm_num; exact h2)) ?_
    refine Decodes_bind (decodes_readElems readT writeT happ e.2 [] h3) ?_
    have := ih (StdMap.emplace acc e.1 ([] ++ e.2))
      (fun y hy => hl y (List.mem_cons_of_mem _ hy))
    exact this

end CacheContent

theorem CacheStats_decodes (c : CacheStats) (h : c.InRange) :
    Decodes CacheStats.fromBuffer (c.serialize []) c := by
  obtain ⟨hu, hn, hord, hitems⟩ := h
  have happ : ∀ (x : NodeEntryStats) b, x.serialize b = b ++ x.serialize [] :=
    NodeEntryStats_serialize_append
  have e : c.serialize [] =
      c.toCacheUsage.serialize [] ++ (leBytes 8 c.items.length ++
      (c.items.foldl (fun buffer e =>
        let buffer := writeString buffer e.1
        let buffer := writeUInt buffer 8 e.2.length
        e.2.foldl (fun buffer nes => NodeEntryStats.serialize nes buffer) buffer) [] ++ [])) := by
    simp only [CacheStats.serialize, CacheContent.serialize]
    rw [foldl_write _ (fun b x => CacheContent.writeItem_append NodeEntryStats.serialize happ b x)]
    simp [writeUInt]
  rw [e]
  unfold CacheStats.fromBuffer CacheContent.fromBuffer
  refine Decodes_bind (CacheUsage_decodes _ hu) ?_
  refine Decodes_bind (Decodes_readUInt 8 _ (by norm_num; exact hn)) ?_
  refine Decodes_bind (CacheContent.decodes_readItems NodeEntryStats.fromBuffer
    NodeEntryStats.serialize happ c.items []
    (fun e he => ⟨(hitems e he).1, (hitems e he).2.1,
      fun x hx => NodeEntryStats_decodes x ((hitems e he).2.2 x hx)⟩)) ?_
  rw [StdMap.foldl_emplace _ [] (by simpa using hord)]
  exact Decodes_pure c

theorem sampleCodec_one : sampleCodec.Representable 1 := by
  simp [DoubleCodec.Representable, sampleCodec, sampleBits, ieeeValue]
  norm_num

theorem sampleCodec_two : sampleCodec.Representable 2 := by
  simp [DoubleCodec.Representable, sampleCodec, sampleBits, ieeeValue]
  norm_num

/-! ## Claims on the statistics records -/

/-- C8: for every QueryStats value `q` (members in the range of their machine
types), the binary constructor applied to the bytes written by `q.serialize`
consumes exactly these bytes and yields a record equal to `q` in all ten
members: the seven hit and miss counters, `result_bytes`, `queries` and
`ratios`. -/
theorem QueryStats_roundtrip (codec : DoubleCodec) (q : QueryStats) (h : q.InRange codec)
    (rest : BinaryReadBuffer) :
    QueryStats.fromBuffer codec (q.serialize codec [] ++ rest) = Except.ok (q, rest) := by
  have hd : Decodes (QueryStats.fromBuffer codec) (q.serialize codec []) q :=
    QueryStats_decodes codec q h
  exact hd rest

/-- Witness for C8: the example record `sampleQueryStats`. -/
theorem QueryStats_roundtrip_witness :
    sampleQueryStats.InRange sampleCodec ∧
      QueryStats.fromBuffer sampleCodec (sampleQueryStats.serialize sampleCodec [] ++ [])
        = Except.ok (sampleQueryStats, []) :=
  have h : sampleQueryStats.InRange sampleCodec := by
    simp [QueryStats.InRange, sampleQueryStats, sampleCodec_one]
  ⟨h, QueryStats_roundtrip sampleCodec sampleQueryStats h []⟩

/-- C9: for every SystemStats value `s` (members in the range of their machine
types), the binary constructor applied to the bytes written by `s.serialize`
consumes exactly these bytes and yields a record with the same QueryStats
members, the same `queries_issued`, `queries_scheduled` and `query_counter`, the
same three averages and the same `node_to_queries` map. -/
theorem SystemStats_roundtrip (codec : DoubleCodec) (s : SystemStats) (h : s.InRange codec)
    (rest : BinaryReadBuffer) :
    SystemStats.fromBuffer codec (s.serialize codec [] ++ rest) = Except.ok (s, rest) := by
  have hd : Decodes (SystemStats.fromBuffer codec) (s.serialize codec []) s :=
    SystemStats_decodes codec s h
  exact hd rest

/-- Witness for C9: the example record `sampleSystemStats`. -/
theorem SystemStats_roundtrip_witness :
    sampleSystemStats.InRange sampleCodec ∧
      SystemStats.fromBuffer sampleCodec (sampleSystemStats.serialize sampleCodec [] ++ [])
        = Except.ok (sampleSystemStats, []) :=
  have h : sampleSystemStats.InRange sampleCodec := by
    simp [SystemStats.InRange, QueryStats.InRange, sampleSystemStats, sampleQueryStats,
      StdMap.Ordered, sampleCodec_one, sampleCodec_two]
  ⟨h, SystemStats_roundtrip sampleCodec sampleSystemStats h []⟩

/-- C10: for every CacheStats value `c`, i.e. `CacheContent<NodeEntryStats>`
(counts and members in the range of their machine types), the binary
constructor applied to the bytes written by `c.serialize` consumes exactly these
bytes and yields the same cache type, `capacity_total` and `capacity_used` and
the same map from semantic id to entry sequence, every sequence in its original
order with the `entry_id`, `last_access` and `access_count` of every entry. -/
theorem CacheStats_roundtrip (c : CacheStats) (h : c.InRange) (rest : BinaryReadBuffer) :
    CacheStats.fromBuffer (c.serialize [] ++ rest) = Except.ok (c, rest) := by
  have hd : Decodes CacheStats.fromBuffer (c.serialize []) c := CacheStats_decodes c h
  exact hd rest

/-- Witness for C10: the example record `sampleCacheStats`. -/
theorem CacheStats_roundtrip_witness :
    sampleCacheStats.InRange ∧
      CacheStats.fromBuffer (sampleCacheStats.serialize [] ++ [])
        = Except.ok (sampleCacheStats, []) :=
  have h : sampleCacheStats.InRange := by
    simp [CacheStats.InRange, CacheUsage.InRange, NodeEntryStats.InRange, sampleCacheStats,
      StdMap.Ordered]
    decide
  ⟨h, CacheStats_roundtrip sampleCacheStats h []⟩

section OpLemmas
variable {S D α β : Type}

theorem Op.run_pure (a : α) (c : Connection S D) : (pure a : Op S D α) c = (Except.ok a, c) := rfl

theorem Op.run_throw (e : Exn) (c : Connection S D) :
    (throw e : Op S D α) c = (Except.error e, c) := rfl

theorem Op.run_get (c : Connection S D) :
    (get : Op S D (Connection S D)) c = (Except.ok c, c) := rfl

theorem Op.run_modify (f : Connection S D → Connection S D) (c : Connection S D) :
    (modify f : Op S D PUnit) c = (Except.ok PUnit.unit, f c) := rfl

theorem Op.run_bind (m : Op S D α) (f : α → Op S D β) (c : Connection S D) :
    (m >>= f) c = match m c with
      | (Except.ok a, c1) => f a c1
      | (Except.error e, c1) => (Except.error e, c1) := by
  show (ExceptT.bind m f) c = _
  unfold ExceptT.bind ExceptT.mk ExceptT.bindCont
  show (StateT.bind m _) c = _
  unfold StateT.bind
  rcases hm : m c with ⟨r, c1⟩
  cases r <;> rfl

theorem Op.run_tryCatch (m : Op S D α) (h : Exn → Op S D α) (c : Connection S D) :
    (tryCatch m h) c = match m c with
      | (Except.ok a, c1) => (Except.ok a, c1)
      | (Except.error e, c1) => h e c1 := by
  show (ExceptT.tryCatch m h) c = _
  unfold ExceptT.tryCatch ExceptT.mk
  show (StateT.bind m _) c = _
  unfold StateT.bind
  rcases hm : m c with ⟨r, c1⟩
  cases r <;> rfl

end OpLemmas

namespace BaseConnection
variable {S D C : Type}

theorem input_reading_flags (rf : BinaryReadBuffer → Op S D Unit) (hrf : ∀ s, KeepsFlags (rf s))
    (rd : ReadResult) (c : Connection S D) :
    ((input_reading rf rd c).2.reading = true → c.reading = true) ∧
      (input_reading rf rd c).2.writing = c.writing := by
  cases rd with
  | finished stream =>
    simp only [input_reading, Op.run_bind, Op.run_modify]
    have h := hrf stream { c with reading := false }
    rcases hr : rf stream { c with reading := false } with ⟨r, c1⟩
    rw [hr] at h
    cases r <;> simp_all [Op.run_modify]
  | error =>
    simp [input_reading, Op.run_bind, Op.run_modify]
  | pending =>
    simp [input_reading, Op.run_pure]


theorem output_flags (wf : Op S D Unit) (hwf : KeepsFlags wf) (wr : WriteResult)
    (c : Connection S D) :
    (output wf wr c).2.reading = c.reading ∧
      ((output wf wr c).2.writing = true → c.writing = true) := by
  by_cases hw : c.writing = true
  · cases wr with
    | finished =>
      simp only [output, Op.run_bind, Op.run_get, hw, if_true, Op.run_modify]
      have h := hwf { c with writing := false }
      rcases hr : wf { c with writing := false } with ⟨r, c1⟩
      rw [hr] at h
      cases r <;> simp_all [Op.run_modify]
    | error => simp [output, Op.run_bind, Op.run_get, hw, Op.run_modify]
    | pending => simp [output, Op.run_bind, Op.run_get, hw, Op.run_pure]
  · simp [output, Op.run_bind, Op.run_get, hw, Op.run_throw]

theorem begin_read_noBoth (rf : BinaryReadBuffer → Op S D Unit) (hrf : ∀ s, KeepsFlags (rf s))
    (reader : NBReader) (rd : ReadResult) :
    Preserves (fun c => ¬ c.bothFlags) (begin_read rf reader rd) := by
  intro c hc
  by_cases hg : (!c.writing && !c.reading) = true
  · simp only [begin_read, Op.run_bind, Op.run_get, hg, if_true, Op.run_modify]
    have h := input_reading_flags rf hrf rd
      { c with reader := some reader, reading := true }
    simp only [Bool.and_eq_true, Bool.not_eq_true'] at hg
    rintro ⟨_, h2⟩
    rw [h.2] at h2
    simp [hg.1] at h2
  · simp only [begin_read, Op.run_bind, Op.run_get, hg, Op.run_throw]
    exact hc

theorem begin_write_noBoth (wf : Op S D Unit) (hwf : KeepsFlags wf)
    (writer : NBWriter) (wr : WriteResult) :
    Preserves (fun c => ¬ c.bothFlags) (begin_write wf writer wr) := by
  intro c hc
  by_cases hg : (!c.writing && !c.reading) = true
  · simp only [begin_write, Op.run_bind, Op.run_get, hg, if_true, Op.run_modify]
    have h := output_flags wf hwf wr
      { c with writer := some writer, writing := true }
    simp only [Bool.and_eq_true, Bool.not_eq_true'] at hg
    rintro ⟨h1, _⟩
    rw [h.1] at h1
    simp [hg.2] at h1
  · simp only [begin_write, Op.run_bind, Op.run_get, hg, Op.run_throw]
    exact hc

theorem output_noBoth (wf : Op S D Unit) (hwf : KeepsFlags wf) (wr : WriteResult) :
    Preserves (fun c => ¬ c.bothFlags) (output wf wr) := by
  intro c hc
  have h := output_flags wf hwf wr c
  rintro ⟨h1, h2⟩
  exact hc ⟨h.1 ▸ h1, h.2 h2⟩

theorem input_noBoth (rf : BinaryReadBuffer → Op S D Unit) (hrf : ∀ s, KeepsFlags (rf s))
    (pc : C → ReadResult → Op S D Unit)
    (hpc : ∀ b rd, Preserves (fun c => ¬ c.bothFlags) (pc b rd))
    (cmd : CommandResult C) (rd : ReadResult) :
    Preserves (fun c => ¬ c.bothFlags) (input rf pc cmd rd) := by
  intro c hc
  by_cases hr : c.reading = true
  · simp only [input, Op.run_bind, Op.run_get, hr, if_true]
    have h := input_reading_flags rf hrf rd c
    rintro ⟨h1, h2⟩
    exact hc ⟨h.1 h1, h.2 ▸ h2⟩
  · have hr2 : c.reading = false := by simpa using hr
    simp only [input, Op.run_bind, Op.run_get, hr2, Bool.false_eq_true, ↓reduceIte]
    cases cmd with
    | byte b =>
      have h := hpc b rd c hc
      rcases hm : pc b rd c with ⟨r, c1⟩
      rw [hm] at h
      erw [Op.run_tryCatch]
      dsimp only
      rw [hm]
      cases r with
      | ok a => simpa using h
      | error e => simpa [Op.run_modify, Connection.bothFlags] using h
    | closed =>
      erw [Op.run_tryCatch]
      simpa [Op.run_modify, Connection.bothFlags] using hc
    | threw e =>
      erw [Op.run_tryCatch]
      simpa [Op.run_throw, Op.run_modify, Connection.bothFlags] using hc

end BaseConnection

namespace ClientConnection

theorem read_finished_keepsFlags_client (stream : BinaryReadBuffer) :
    KeepsFlags (read_finished stream) := by
  intro c
  obtain ⟨id, w, r, f, rdr, wtr, st, d⟩ := c
  cases st <;> simp [read_finished, Op.run_bind, Op.run_get, Op.run_modify, Op.run_throw]

theorem write_finished_keepsFlags_client : KeepsFlags write_finished := by
  intro c
  obtain ⟨id, w, r, f, rdr, wtr, st, d⟩ := c
  cases st <;> simp [write_finished, reset, Op.run_bind, Op.run_get, Op.run_modify, Op.run_throw]

theorem process_command_noBoth_client (cmd : ClientCommand) (rd : ReadResult) :
    Preserves (fun c => ¬ c.bothFlags) (process_command cmd rd) := by
  intro c hc
  by_cases hs : c.state = ClientState.IDLE
  · cases cmd with
    | CMD_GET_RASTER =>
      simp only [process_command, Op.run_bind, Op.run_get, hs, ne_eq, not_true_eq_false,
        if_false, Op.run_modify]
      exact BaseConnection.begin_read_noBoth read_finished read_finished_keepsFlags_client _ rd _ hc
    | unknown b =>
      simpa [process_command, Op.run_bind, Op.run_get, hs, Op.run_throw] using hc
  · simpa [process_command, Op.run_bind, Op.run_get, hs, Op.run_throw] using hc

theorem send_response_noBoth_client (response : DeliveryResponse) (wr : WriteResult) :
    Preserves (fun c => ¬ c.bothFlags) (send_response response wr) := by
  intro c hc
  by_cases hs : c.state = ClientState.AWAIT_RESPONSE
  · simp only [send_response, Op.run_bind, Op.run_get, hs, if_true, Op.run_modify]
    exact BaseConnection.begin_write_noBoth write_finished write_finished_keepsFlags_client _ wr _ hc
  · simpa [send_response, Op.run_bind, Op.run_get, hs, Op.run_throw] using hc

theorem send_error_noBoth_client (message : List Byte) (wr : WriteResult) :
    Preserves (fun c => ¬ c.bothFlags) (send_error message wr) := by
  intro c hc
  by_cases hs : c.state = ClientState.AWAIT_RESPONSE
  · simp only [send_error, Op.run_bind, Op.run_get, hs, if_true, Op.run_modify]
    exact BaseConnection.begin_write_noBoth write_finished write_finished_keepsFlags_client _ wr _ hc
  · simpa [send_error, Op.run_bind, Op.run_get, hs, Op.run_throw] using hc

theorem call_noBoth_client (call : Call) : Preserves (fun c => ¬ c.bothFlags) call.op := by
  cases call with
  | input cmd rd =>
    exact BaseConnection.input_noBoth _ read_finished_keepsFlags_client _ process_command_noBoth_client cmd rd
  | output wr => exact BaseConnection.output_noBoth _ write_finished_keepsFlags_client wr
  | begin_read reader rd =>
    exact BaseConnection.begin_read_noBoth _ read_finished_keepsFlags_client reader rd
  | begin_write writer wr =>
    exact BaseConnection.begin_write_noBoth _ write_finished_keepsFlags_client writer wr
  | send_response response wr => exact send_response_noBoth_client response wr
  | send_error message wr => exact send_error_noBoth_client message wr

end ClientConnection

theorem readStream_run {S D α : Type} (r : Read α) (stream : BinaryReadBuffer)
    (c : Connection S D) :
    (∃ x, (BaseConnection.readStream r stream : Op S D α) c = (Except.ok x, c)) ∨
      (∃ e, (BaseConnection.readStream r stream : Op S D α) c = (Except.error e, c)) := by
  unfold BaseConnection.readStream
  rcases hr : r stream with e | ⟨x, rest⟩
  · exact Or.inr ⟨e, rfl⟩
  · exact Or.inl ⟨x, rfl⟩

namespace WorkerConnection

theorem read_finished_keepsFlags_worker (stream : BinaryReadBuffer) :
    KeepsFlags (read_finished stream) := by
  intro c
  obtain ⟨id, w, r, f, rdr, wtr, st, d⟩ := c
  cases st
  case READING_DELIVERY_ID =>
    simp only [read_finished, Op.run_bind, Op.run_get]
    rcases readStream_run (readUInt 8) stream
      (⟨id, w, r, f, rdr, wtr, WorkerState.READING_DELIVERY_ID, d⟩ : WorkerConnection)
      with ⟨x, hx⟩ | ⟨e, he⟩
    · rw [hx]; simp [Op.run_modify]
    · rw [he]; simp
  case READING_ERROR =>
    simp only [read_finished, Op.run_bind, Op.run_get]
    rcases readStream_run readString stream
      (⟨id, w, r, f, rdr, wtr, WorkerState.READING_ERROR, d⟩ : WorkerConnection)
      with ⟨x, hx⟩ | ⟨e, he⟩
    · rw [hx]; simp [Op.run_modify]
    · rw [he]; simp
  all_goals simp [read_finished, Op.run_bind, Op.run_get, Op.run_modify, Op.run_throw]

theorem write_finished_keepsFlags_worker : KeepsFlags write_finished := by
  intro c
  obtain ⟨id, w, r, f, rdr, wtr, st, d⟩ := c
  cases st <;> simp [write_finished, Op.run_bind, Op.run_get, Op.run_modify, Op.run_throw]

theorem process_command_noBoth_worker (cmd : WorkerCommand) (rd : ReadResult) :
    Preserves (fun c => ¬ c.bothFlags) (process_command cmd rd) := by
  intro c hc
  by_cases hs : c.state ≠ WorkerState.PROCESSING ∧ c.state ≠ WorkerState.WAITING_DELIVERY
  · simpa [process_command, Op.run_bind, Op.run_get, hs, Op.run_throw] using hc
  · cases cmd <;>
      simp only [process_command, Op.run_bind, Op.run_get, hs, if_false, Op.run_modify,
        Op.run_throw] <;>
      first
      | exact hc
      | exact BaseConnection.begin_read_noBoth read_finished read_finished_keepsFlags_worker _ rd _ hc

theorem process_request_noBoth_worker (command : Byte) (request : Streamed) (wr : WriteResult) :
    Preserves (fun c => ¬ c.bothFlags) (process_request command request wr) := by
  intro c hc
  by_cases hs : c.state = WorkerState.IDLE
  · simp only [process_request, Op.run_bind, Op.run_get, hs, if_true, Op.run_modify]
    exact BaseConnection.begin_write_noBoth write_finished write_finished_keepsFlags_worker _ wr _ hc
  · simpa [process_request, Op.run_bind, Op.run_get, hs, Op.run_throw] using hc

theorem raster_cached_noBoth_worker :
    Preserves (fun c => ¬ c.bothFlags) raster_cached := by
  intro c hc
  by_cases hs : c.state = WorkerState.NEW_RASTER_ENTRY
  · simpa [raster_cached, Op.run_bind, Op.run_get, hs, Op.run_modify, Connection.bothFlags]
      using hc
  · simpa [raster_cached, Op.run_bind, Op.run_get, hs, Op.run_throw] using hc

theorem send_hit_noBoth_worker (cr : Streamed) (wr : WriteResult) :
    Preserves (fun c => ¬ c.bothFlags) (send_hit cr wr) := by
  intro c hc
  by_cases hs : c.state = WorkerState.RASTER_QUERY_REQUESTED
  · simp only [send_hit, Op.run_bind, Op.run_get, hs, if_true, Op.run_modify]
    exact BaseConnection.begin_write_noBoth write_finished write_finished_keepsFlags_worker _ wr _ hc
  · simpa [send_hit, Op.run_bind, Op.run_get, hs, Op.run_throw] using hc

theorem send_partial_hit_noBoth_worker (pr : Streamed) (wr : WriteResult) :
    Preserves (fun c => ¬ c.bothFlags) (send_partial_hit pr wr) := by
  intro c hc
  by_cases hs : c.state = WorkerState.RASTER_QUERY_REQUESTED
  · simp only [send_partial_hit, Op.run_bind, Op.run_get, hs, if_true, Op.run_modify]
    exact BaseConnection.begin_write_noBoth write_finished write_finished_keepsFlags_worker _ wr _ hc
  · simpa [send_partial_hit, Op.run_bind, Op.run_get, hs, Op.run_throw] using hc

theorem send_miss_noBoth_worker (wr : WriteResult) :
    Preserves (fun c => ¬ c.bothFlags) (send_miss wr) := by
  intro c hc
  by_cases hs : c.state = WorkerState.RASTER_QUERY_REQUESTED
  · simp only [send_miss, Op.run_bind, Op.run_get, hs, if_true, Op.run_modify]
    exact BaseConnection.begin_write_noBoth write_finished write_finished_keepsFlags_worker _ wr _ hc
  · simpa [send_miss, Op.run_bind, Op.run_get, hs, Op.run_throw] using hc

theorem send_delivery_qty_noBoth_worker (qty : Nat) (wr : WriteResult) :
    Preserves (fun c => ¬ c.bothFlags) (send_delivery_qty qty wr) := by
  intro c hc
  by_cases hs : c.state = WorkerState.DONE
  · simp only [send_delivery_qty, Op.run_bind, Op.run_get, hs, if_true, Op.run_modify]
    exact BaseConnection.begin_write_noBoth write_finished write_finished_keepsFlags_worker _ wr _ hc
  · simpa [send_delivery_qty, Op.run_bind, Op.run_get, hs, Op.run_throw] using hc

theorem release_noBoth_worker :
    Preserves (fun c => ¬ c.bothFlags) release := by
  intro c hc
  by_cases hs : c.state = WorkerState.DELIVERY_READY ∨ c.state = WorkerState.ERROR
  · simpa [release, reset, Op.run_bind, Op.run_get, hs, Op.run_modify, Connection.bothFlags]
      using hc
  · simpa [release, Op.run_bind, Op.run_get, hs, Op.run_throw] using hc

theorem call_noBoth_worker (call : Call) : Preserves (fun c => ¬ c.bothFlags) call.op := by
  cases call with
  | input cmd rd =>
    exact BaseConnection.input_noBoth _ read_finished_keepsFlags_worker _ process_command_noBoth_worker cmd rd
  | output wr => exact BaseConnection.output_noBoth _ write_finished_keepsFlags_worker wr
  | begin_read reader rd =>
    exact BaseConnection.begin_read_noBoth _ read_finished_keepsFlags_worker reader rd
  | begin_write writer wr =>
    exact BaseConnection.begin_write_noBoth _ write_finished_keepsFlags_worker writer wr
  | process_request command request wr => exact process_request_noBoth_worker command request wr
  | raster_cached => exact raster_cached_noBoth_worker
  | send_hit cr wr => exact send_hit_noBoth_worker cr wr
  | send_partial_hit pr wr => exact send_partial_hit_noBoth_worker pr wr
  | send_miss wr => exact send_miss_noBoth_worker wr
  | send_delivery_qty qty wr => exact send_delivery_qty_noBoth_worker qty wr
  | release => exact release_noBoth_worker

end WorkerConnection

namespace ControlConnection

theorem read_finished_keepsFlags_control (stream : BinaryReadBuffer) :
    KeepsFlags (read_finished stream) := by
  intro c
  obtain ⟨id, w, r, f, rdr, wtr, st, d⟩ := c
  cases st
  all_goals simp [read_finished, Op.run_bind, Op.run_get, Op.run_modify, Op.run_throw]

theorem write_finished_keepsFlags_control : KeepsFlags write_finished := by
  intro c
  obtain ⟨id, w, r, f, rdr, wtr, st, d⟩ := c
  cases st <;> simp [write_finished, Op.run_bind, Op.run_get, Op.run_modify, Op.run_throw]

theorem process_command_noBoth_control (cmd : ControlCommand) (rd : ReadResult) :
    Preserves (fun c => ¬ c.bothFlags) (process_command cmd rd) := by
  intro c hc
  by_cases hs : c.state ≠ ControlState.IDLE ∧ c.state ≠ ControlState.REORGANIZING ∧
      c.state ≠ ControlState.STATS_REQUESTED
  · simpa [process_command, Op.run_bind, Op.run_get, hs, Op.run_throw] using hc
  · cases cmd <;>
      simp only [process_command, Op.run_bind, Op.run_get, hs, if_false, Op.run_modify,
        Op.run_throw] <;>
      first
      | exact hc
      | exact BaseConnection.begin_read_noBoth read_finished read_finished_keepsFlags_control _ rd _ hc

theorem send_reorg_noBoth_control (desc : Streamed) (wr : WriteResult) :
    Preserves (fun c => ¬ c.bothFlags) (send_reorg desc wr) := by
  intro c hc
  by_cases hs : c.state = ControlState.IDLE
  · simp only [send_reorg, Op.run_bind, Op.run_get, hs, if_true, Op.run_modify]
    exact BaseConnection.begin_write_noBoth write_finished write_finished_keepsFlags_control _ wr _ hc
  · simpa [send_reorg, Op.run_bind, Op.run_get, hs, Op.run_throw] using hc

theorem confirm_reorg_noBoth_control (wr : WriteResult) :
    Preserves (fun c => ¬ c.bothFlags) (confirm_reorg wr) := by
  intro c hc
  by_cases hs : c.state = ControlState.REORG_RESULT_READ
  · simp only [confirm_reorg, Op.run_bind, Op.run_get, hs, if_true, Op.run_modify]
    exact BaseConnection.begin_write_noBoth write_finished write_finished_keepsFlags_control _ wr _ hc
  · simpa [confirm_reorg, Op.run_bind, Op.run_get, hs, Op.run_throw] using hc

theorem send_get_stats_noBoth_control (wr : WriteResult) :
    Preserves (fun c => ¬ c.bothFlags) (send_get_stats wr) := by
  intro c hc
  by_cases hs : c.state = ControlState.IDLE
  · simp only [send_get_stats, Op.run_bind, Op.run_get, hs, if_true, Op.run_modify]
    exact BaseConnection.begin_write_noBoth write_finished write_finished_keepsFlags_control _ wr _ hc
  · simpa [send_get_stats, Op.run_bind, Op.run_get, hs, Op.run_throw] using hc

theorem release_noBoth_control :
    Preserves (fun c => ¬ c.bothFlags) release := by
  intro c hc
  by_cases hs : c.state = ControlState.REORG_FINISHED ∨ c.state = ControlState.STATS_RECEIVED
  · simpa [release, reset, Op.run_bind, Op.run_get, hs, Op.run_modify, Connection.bothFlags]
      using hc
  · simpa [release, Op.run_bind, Op.run_get, hs, Op.run_throw] using hc

theorem call_noBoth_control (call : Call) : Preserves (fun c => ¬ c.bothFlags) call.op := by
  cases call with
  | input cmd rd =>
    exact BaseConnection.input_noBoth _ read_finished_keepsFlags_control _ process_command_noBoth_control cmd rd
  | output wr => exact BaseConnection.output_noBoth _ write_finished_keepsFlags_control wr
  | begin_read reader rd =>
    exact BaseConnection.begin_read_noBoth _ read_finished_keepsFlags_control reader rd
  | begin_write writer wr =>
    exact BaseConnection.begin_write_noBoth _ write_finished_keepsFlags_control writer wr
  | send_reorg desc wr => exact send_reorg_noBoth_control desc wr
  | confirm_reorg wr => exact confirm_reorg_noBoth_control wr
  | send_get_stats wr => exact send_get_stats_noBoth_control wr
  | release => exact release_noBoth_control

end ControlConnection

namespace DeliveryConnection

theorem read_finished_keepsFlags_delivery (stream : BinaryReadBuffer) :
    KeepsFlags (read_finished stream) := by
  intro c
  obtain ⟨id, w, r, f, rdr, wtr, st, d⟩ := c
  cases st
  case READING_DELIVERY_REQUEST =>
    simp only [read_finished, Op.run_bind, Op.run_get]
    rcases readStream_run (readUInt 8) stream
      (⟨id, w, r, f, rdr, wtr, DeliveryState.READING_DELIVERY_REQUEST, d⟩ : DeliveryConnection)
      with ⟨x, hx⟩ | ⟨e, he⟩
    · rw [hx]; simp [Op.run_modify]
    · rw [he]; simp
  all_goals simp [read_finished, Op.run_bind, Op.run_get, Op.run_modify, Op.run_throw]

theorem write_finished_keepsFlags_delivery : KeepsFlags write_finished := by
  intro c
  obtain ⟨id, w, r, f, rdr, wtr, st, d⟩ := c
  cases st <;> simp [write_finished, Op.run_bind, Op.run_get, Op.run_modify, Op.run_throw]

theorem process_command_noBoth_delivery (cmd : DeliveryCommand) (rd : ReadResult) :
    Preserves (fun c => ¬ c.bothFlags) (process_command cmd rd) := by
  intro c hc
  by_cases hs : c.state ≠ DeliveryState.IDLE ∧ c.state ≠ DeliveryState.AWAITING_MOVE_CONFIRM
  · simpa [process_command, Op.run_bind, Op.run_get, hs, Op.run_throw] using hc
  · cases cmd <;>
      simp only [process_command, Op.run_bind, Op.run_get, hs, if_false, Op.run_modify,
        Op.run_throw] <;>
      first
      | exact hc
      | exact BaseConnection.begin_read_noBoth read_finished read_finished_keepsFlags_delivery _ rd _ hc

theorem send_raster_noBoth_delivery (raster : Streamed) (wr : WriteResult) :
    Preserves (fun c => ¬ c.bothFlags) (send_raster raster wr) := by
  intro c hc
  by_cases hs : c.state = DeliveryState.RASTER_CACHE_REQUEST_READ ∨
      c.state = DeliveryState.DELIVERY_REQUEST_READ
  · simp only [send_raster, Op.run_bind, Op.run_get, hs, if_true, Op.run_modify]
    exact BaseConnection.begin_write_noBoth write_finished write_finished_keepsFlags_delivery _ wr _ hc
  · simpa [send_raster, Op.run_bind, Op.run_get, hs, Op.run_throw] using hc

theorem send_error_noBoth_delivery (msg : List Byte) (wr : WriteResult) :
    Preserves (fun c => ¬ c.bothFlags) (send_error msg wr) := by
  intro c hc
  by_cases hs : c.state = DeliveryState.RASTER_CACHE_REQUEST_READ ∨
      c.state = DeliveryState.DELIVERY_REQUEST_READ ∨
      c.state = DeliveryState.RASTER_MOVE_REQUEST_READ ∨
      c.state = DeliveryState.SENDING_RASTER ∨
      c.state = DeliveryState.SENDING_RASTER_MOVE
  · simp only [send_error, Op.run_bind, Op.run_get, hs, if_true, Op.run_modify]
    exact BaseConnection.begin_write_noBoth write_finished write_finished_keepsFlags_delivery _ wr _ hc
  · simpa [send_error, Op.run_bind, Op.run_get, hs, Op.run_throw] using hc

theorem send_raster_move_noBoth_delivery (raster : Streamed) (wr : WriteResult) :
    Preserves (fun c => ¬ c.bothFlags) (send_raster_move raster wr) := by
  intro c hc
  by_cases hs : c.state = DeliveryState.RASTER_MOVE_REQUEST_READ
  · simp only [send_raster_move, Op.run_bind, Op.run_get, hs, if_true, Op.run_modify]
    exact BaseConnection.begin_write_noBoth write_finished write_finished_keepsFlags_delivery _ wr _ hc
  · simpa [send_raster_move, Op.run_bind, Op.run_get, hs, Op.run_throw] using hc

theorem release_noBoth_delivery :
    Preserves (fun c => ¬ c.bothFlags) release := by
  intro c hc
  by_cases hs : c.state = DeliveryState.MOVE_DONE
  · simpa [release, Op.run_bind, Op.run_get, hs, Op.run_modify, Connection.bothFlags]
      using hc
  · simpa [release, Op.run_bind, Op.run_get, hs, Op.run_throw] using hc

theorem call_noBoth_delivery (call : Call) : Preserves (fun c => ¬ c.bothFlags) call.op := by
  cases call with
  | input cmd rd =>
    exact BaseConnection.input_noBoth _ read_finished_keepsFlags_delivery _ process_command_noBoth_delivery cmd rd
  | output wr => exact BaseConnection.output_noBoth _ write_finished_keepsFlags_delivery wr
  | begin_read reader rd =>
    exact BaseConnection.begin_read_noBoth _ read_finished_keepsFlags_delivery reader rd
  | begin_write writer wr =>
    exact BaseConnection.begin_write_noBoth _ write_finished_keepsFlags_delivery writer wr
  | send_raster raster wr => exact send_raster_noBoth_delivery raster wr
  | send_error msg wr => exact send_error_noBoth_delivery msg wr
  | send_raster_move raster wr => exact send_raster_move_noBoth_delivery raster wr
  | release => exact release_noBoth_delivery

end DeliveryConnection

theorem runCalls_preserves {S D K : Type} (op : K → Op S D Unit) (P : Connection S D → Prop)
    (h : ∀ k, Preserves P (op k)) (calls : List K) (c : Connection S D) (hc : P c) :
    P (runCalls op calls c) := by
  unfold runCalls
  exact foldl_invariant (fun c call => (op call c).2) P (fun s k hs => h k s hs) calls c hc

/-- C14: in every state of a client, worker, control or delivery connection
reached from its constructor by any sequence of calls of `input`, `output`,
`begin_read`, `begin_write` and the actions of its kind (whatever the outcomes of
the transfers, and whether the calls return or throw), the flags `reading` and
`writing` are not both set. -/
theorem flags_never_both_set :
    (∀ (id : Nat) (calls : List ClientConnection.Call),
      ¬ (runCalls ClientConnection.Call.op calls (ClientConnection.construct id)).bothFlags) ∧
    (∀ (id : Nat) (node : Node) (calls : List WorkerConnection.Call),
      ¬ (runCalls WorkerConnection.Call.op calls
        (WorkerConnection.construct id node)).bothFlags) ∧
    (∀ (id : Nat) (node : Node) (calls : List ControlConnection.Call),
      ¬ (runCalls ControlConnection.Call.op calls
        (ControlConnection.construct id node)).bothFlags) ∧
    (∀ (id : Nat) (calls : List DeliveryConnection.Call),
      ¬ (runCalls DeliveryConnection.Call.op calls
        (DeliveryConnection.construct id)).bothFlags) := by
  refine ⟨?_, ?_, ?_, ?_⟩
  · intro id calls
    exact runCalls_preserves _ _ ClientConnection.call_noBoth_client calls _
      (by simp [Connection.bothFlags, ClientConnection.construct, BaseConnection.construct])
  · intro id node calls
    exact runCalls_preserves _ _ WorkerConnection.call_noBoth_worker calls _
      (by simp [Connection.bothFlags, WorkerConnection.construct, BaseConnection.construct])
  · intro id node calls
    exact runCalls_preserves _ _ ControlConnection.call_noBoth_control calls _
      (by simp [Connection.bothFlags, ControlConnection.construct, BaseConnection.construct])
  · intro id calls
    exact runCalls_preserves _ _ DeliveryConnection.call_noBoth_delivery calls _
      (by simp [Connection.bothFlags, DeliveryConnection.construct, BaseConnection.construct])


/-! ## Claims on the statistics arithmetic -/

/-- C11: for every CacheUsage, `get_ratio()` returns exactly 1 when
`capacity_total` is 0, whatever `capacity_used` is, and
`capacity_used / capacity_total` otherwise. -/
theorem get_ratio_cases (u : CacheUsage) :
    (u.capacity_total = 0 → u.get_ratio = 1) ∧
      (u.capacity_total ≠ 0 → u.get_ratio = (u.capacity_used : ℚ) / (u.capacity_total : ℚ)) := by
  constructor
  · intro h
    simp [CacheUsage.get_ratio, h]
  · intro h
    simp [CacheUsage.get_ratio, h]

/-- Witness for C11: a cache of capacity 0 with 5 bytes in use. -/
theorem get_ratio_cases_witness :
    (⟨0, 0, 5⟩ : CacheUsage).capacity_total = 0 ∧ (⟨0, 0, 5⟩ : CacheUsage).get_ratio = 1 :=
  ⟨rfl, (get_ratio_cases ⟨0, 0, 5⟩).1 rfl⟩

/-- C12: for every QueryStats, `get_hit_ratio()` returns 0 when `queries` is 0, in
particular on a freshly constructed and on a reset instance, and
`ratios / queries` otherwise, where the divisor is not zero. -/
theorem get_hit_ratio_cases (q : QueryStats) :
    (q.queries = 0 → q.get_hit_ratio = 0) ∧
      (q.queries ≠ 0 → q.get_hit_ratio = q.ratios / (q.queries : ℚ) ∧ (q.queries : ℚ) ≠ 0) ∧
      QueryStats.default.get_hit_ratio = 0 ∧ q.reset.get_hit_ratio = 0 := by
  refine ⟨?_, ?_, ?_, ?_⟩
  · intro h
    simp [QueryStats.get_hit_ratio, h]
  · intro h
    have hp : q.queries > 0 := Nat.pos_of_ne_zero h
    refine ⟨by simp [QueryStats.get_hit_ratio, hp], ?_⟩
    exact_mod_cast h
  · simp [QueryStats.get_hit_ratio, QueryStats.default]
  · simp [QueryStats.get_hit_ratio, QueryStats.reset]

/-- Witness for C12: the example record `sampleQueryStats` with two queries. -/
theorem get_hit_ratio_cases_witness :
    sampleQueryStats.queries ≠ 0 ∧
      sampleQueryStats.get_hit_ratio
        = sampleQueryStats.ratios / (sampleQueryStats.queries : ℚ) :=
  have h : sampleQueryStats.queries ≠ 0 := by decide
  ⟨h, ((get_hit_ratio_cases sampleQueryStats).2.1 h).1⟩

theorem sizeSub_of_le (x y : Nat) (hx : x < 2 ^ 64) (h : y ≤ x) :
    (SystemStats.sizeSub x y : ℚ) = (x : ℚ) - (y : ℚ) := by
  have hy : y % 2 ^ 64 = y := Nat.mod_eq_of_lt (lt_of_le_of_lt h hx)
  have e : SystemStats.sizeSub x y = x - y := by
    unfold SystemStats.sizeSub
    rw [hy]
    omega
  rw [e, Nat.cast_sub h]

/-! ## Claims on the connections -/

/-- C16: on a ClientConnection in any state other than AWAIT_RESPONSE,
`send_response`, `send_error`, `get_request` and `get_request_type` each fail
with an IllegalStateException, and the failed call leaves the connection
unchanged. -/
theorem client_outside_await_response (c : ClientConnection)
    (h : c.state ≠ ClientState.AWAIT_RESPONSE) (response : DeliveryResponse)
    (message : List Byte) (wr : WriteResult) :
    ClientConnection.send_response response wr c = (Except.error (Exn.IllegalStateException
        "Can only send response in state: AWAIT_RESPONSE"), c) ∧
      ClientConnection.send_error message wr c = (Except.error (Exn.IllegalStateException
        "Can only send error in state: AWAIT_RESPONSE"), c) ∧
      ClientConnection.get_request c = Except.error (Exn.IllegalStateException
        "Can only return raster_request in state AWAIT_RESPONSE and type was RASTER") ∧
      ClientConnection.get_request_type c = Except.error (Exn.IllegalStateException
        "Can only tell type in state AWAIT_RESPONSE") := by
  refine ⟨?_, ?_, ?_, ?_⟩
  · simp [ClientConnection.send_response, Op.run_bind, Op.run_get, h, Op.run_throw]
  · simp [ClientConnection.send_error, Op.run_bind, Op.run_get, h, Op.run_throw]
  · simp [ClientConnection.get_request, h]
  · simp [ClientConnection.get_request_type, h]

/-- Witness for C16: a freshly constructed client connection, in state IDLE. -/
theorem client_outside_await_response_witness :
    (ClientConnection.construct 1).state ≠ ClientState.AWAIT_RESPONSE ∧
      ClientConnection.send_response ⟨[], 80, 42⟩ WriteResult.pending
          (ClientConnection.construct 1)
        = (Except.error (Exn.IllegalStateException
            "Can only send response in state: AWAIT_RESPONSE"), ClientConnection.construct 1) :=
  have h : (ClientConnection.construct 1).state ≠ ClientState.AWAIT_RESPONSE := by decide
  ⟨h, (client_outside_await_response (ClientConnection.construct 1) h ⟨[], 80, 42⟩ []
    WriteResult.pending).1⟩


/-- C17: on a WorkerConnection every action and getter fails with an
IllegalStateException outside its designated state, leaving the connection
unchanged: `get_result` outside DELIVERY_READY, `get_error_message` outside
ERROR, `get_raster_query`, `send_hit`, `send_partial_hit`, `send_miss` outside
RASTER_QUERY_REQUESTED, `get_new_raster_entry` and `raster_cached` outside
NEW_RASTER_ENTRY, `process_request` outside IDLE, `send_delivery_qty` outside
DONE, `release` outside DELIVERY_READY and ERROR. -/
theorem worker_outside_designated_state (c : WorkerConnection) (command : Byte)
    (request cr pr : Streamed) (qty : Nat) (wr : WriteResult) :
    (c.state ≠ WorkerState.DELIVERY_READY →
      WorkerConnection.get_result c = Except.error (Exn.IllegalStateException
        "Can only return result in state DELIVERY_READY")) ∧
    (c.state ≠ WorkerState.ERROR →
      WorkerConnection.get_error_message c = Except.error (Exn.IllegalStateException
        "Can only return error-message in state ERROR")) ∧
    (c.state ≠ WorkerState.RASTER_QUERY_REQUESTED →
      WorkerConnection.get_raster_query c = Except.error (Exn.IllegalStateException
        "Can only return raster query in state RASTER_QUERY_REQUESTED") ∧
      WorkerConnection.send_hit cr wr c = (Except.error (Exn.IllegalStateException
        "Can only send raster query result in state RASTER_QUERY_REQUESTED"), c) ∧
      WorkerConnection.send_partial_hit pr wr c = (Except.error (Exn.IllegalStateException
        "Can only send raster query result in state RASTER_QUERY_REQUESTED"), c) ∧
      WorkerConnection.send_miss wr c = (Except.error (Exn.IllegalStateException
        "Can only send raster query result in state RASTER_QUERY_REQUESTED"), c)) ∧
    (c.state ≠ WorkerState.NEW_RASTER_ENTRY →
      WorkerConnection.get_new_raster_entry c = Except.error (Exn.IllegalStateException
        "Can only return new raster entry in state NEW_RASTER_ENTRY") ∧
      WorkerConnection.raster_cached c = (Except.error (Exn.IllegalStateException
        "Can only ack new raster entry in state NEW_RASTER_ENTRY"), c)) ∧
    (c.state ≠ WorkerState.IDLE →
      WorkerConnection.process_request command request wr c =
        (Except.error (Exn.IllegalStateException "Can only process requests when idle"), c)) ∧
    (c.state ≠ WorkerState.DONE →
      WorkerConnection.send_delivery_qty qty wr c =
        (Except.error (Exn.IllegalStateException "Can only send delivery qty in state DONE"), c)) ∧
    (c.state ≠ WorkerState.DELIVERY_READY ∧ c.state ≠ WorkerState.ERROR →
      WorkerConnection.release c = (Except.error (Exn.IllegalStateException
        "Can only release worker in state DONE or ERROR"), c)) := by
  refine ⟨?_, ?_, ?_, ?_, ?_, ?_, ?_⟩
  · intro h
    simp [WorkerConnection.get_result, h]
  · intro h
    simp [WorkerConnection.get_error_message, h]
  · intro h
    refine ⟨?_, ?_, ?_, ?_⟩
    · simp [WorkerConnection.get_raster_query, h]
    · simp [WorkerConnection.send_hit, Op.run_bind, Op.run_get, h, Op.run_throw]
    · simp [WorkerConnection.send_partial_hit, Op.run_bind, Op.run_get, h, Op.run_throw]
    · simp [WorkerConnection.send_miss, Op.run_bind, Op.run_get, h, Op.run_throw]
  · intro h
    refine ⟨?_, ?_⟩
    · simp [WorkerConnection.get_new_raster_entry, h]
    · simp [WorkerConnection.raster_cached, Op.run_bind, Op.run_get, h, Op.run_throw]
  · intro h
    simp [WorkerConnection.process_request, Op.run_bind, Op.run_get, h, Op.run_throw]
  · intro h
    simp [WorkerConnection.send_delivery_qty, Op.run_bind, Op.run_get, h, Op.run_throw]
  · intro h
    simp [WorkerConnection.release, Op.run_bind, Op.run_get, h, Op.run_throw]

/-- Witness for C17: a freshly constructed worker connection, in state IDLE. -/
theorem worker_outside_designated_state_witness :
    (WorkerConnection.construct 1 sampleNode).state ≠ WorkerState.DELIVERY_READY ∧
      WorkerConnection.get_result (WorkerConnection.construct 1 sampleNode)
        = Except.error (Exn.IllegalStateException
            "Can only return result in state DELIVERY_READY") :=
  have h : (WorkerConnection.construct 1 sampleNode).state ≠ WorkerState.DELIVERY_READY := by
    decide
  ⟨h, (worker_outside_designated_state (WorkerConnection.construct 1 sampleNode) 0 ⟨[]⟩ ⟨[]⟩
    ⟨[]⟩ 0 WriteResult.pending).1 h⟩


theorem traceCalls_append {S D K : Type} (op : K → Op S D Unit) (l1 l2 : List K)
    (c : Connection S D) :
    traceCalls op (l1 ++ l2) c = traceCalls op l1 c ++ traceCalls op l2 (runCalls op l1 c) := by
  induction l1 generalizing c with
  | nil => rfl
  | cons k ks ih =>
    show op k c :: traceCalls op (ks ++ l2) (op k c).2 = _
    rw [ih]
    rfl

theorem runCalls_append {S D K : Type} (op : K → Op S D Unit) (l1 l2 : List K)
    (c : Connection S D) :
    runCalls op (l1 ++ l2) c = runCalls op l2 (runCalls op l1 c) := by
  simp [runCalls, List.foldl_append]

theorem traceCalls_replicate {S D K : Type} (op : K → Op S D Unit) (k : K)
    (c : Connection S D) (h : op k c = (Except.ok (), c)) (n : Nat) :
    traceCalls op (List.replicate n k) c = List.replicate n (Except.ok (), c) ∧
      runCalls op (List.replicate n k) c = c := by
  induction n with
  | zero => exact ⟨rfl, rfl⟩
  | succ n ih =>
    simp only [List.replicate_succ, traceCalls, runCalls, List.foldl_cons, h]
    exact ⟨by rw [ih.1], ih.2⟩

namespace WorkerConnection

theorem output_pending_worker (c : WorkerConnection) (h : c.writing = true) :
    Call.op (Call.output WriteResult.pending) c = (Except.ok (), c) := by
  simp [Call.op, WorkerConnection.output, BaseConnection.output, Op.run_bind, Op.run_get, h,
    Op.run_pure]

theorem input_pending_worker (c : WorkerConnection) (h : c.reading = true)
    (cmd : CommandResult WorkerCommand) :
    Call.op (Call.input cmd ReadResult.pending) c = (Except.ok (), c) := by
  simp [Call.op, WorkerConnection.input, BaseConnection.input, BaseConnection.input_reading,
    Op.run_bind, Op.run_get, h, Op.run_pure]

end WorkerConnection


theorem writePhase {S D K : Type} (op : K → Op S D Unit) (act later : WriteResult → K)
    (c cs ce : Connection S D)
    (h1 : op (act WriteResult.finished) c = (Except.ok (), ce))
    (h2 : op (act WriteResult.pending) c = (Except.ok (), cs))
    (h3 : op (later WriteResult.pending) cs = (Except.ok (), cs))
    (h4 : op (later WriteResult.finished) cs = (Except.ok (), ce)) (n : Nat) :
    traceCalls op (act (startWrite n) :: laterWrites later n) c
        = List.replicate n (Except.ok (), cs) ++ [(Except.ok (), ce)] ∧
      runCalls op (act (startWrite n) :: laterWrites later n) c = ce := by
  cases n with
  | zero => simp [startWrite, laterWrites, traceCalls, runCalls, h1]
  | succ m =>
    have hr := traceCalls_replicate op (later WriteResult.pending) cs h3 m
    constructor
    · simp only [startWrite, laterWrites, traceCalls, h2, Nat.succ_ne_zero, if_false,
        traceCalls_append, hr.1, hr.2, h4, List.replicate_succ, List.cons_append]
    · show runCalls op (laterWrites later (m + 1)) (op (act (startWrite (m + 1))) c).2 = ce
      simp only [startWrite, laterWrites, h2, Nat.succ_ne_zero, if_false, runCalls_append, hr.2]
      simp [runCalls, h4]

theorem readPhase {S D K : Type} (op : K → Op S D Unit) (act later : ReadResult → K)
    (stream : BinaryReadBuffer) (c cs ce : Connection S D)
    (h1 : op (act (ReadResult.finished stream)) c = (Except.ok (), ce))
    (h2 : op (act ReadResult.pending) c = (Except.ok (), cs))
    (h3 : op (later ReadResult.pending) cs = (Except.ok (), cs))
    (h4 : op (later (ReadResult.finished stream)) cs = (Except.ok (), ce)) (n : Nat) :
    traceCalls op (act (startRead n stream) :: laterReads later stream n) c
        = List.replicate n (Except.ok (), cs) ++ [(Except.ok (), ce)] ∧
      runCalls op (act (startRead n stream) :: laterReads later stream n) c = ce := by
  cases n with
  | zero => simp [startRead, laterReads, traceCalls, runCalls, h1]
  | succ m =>
    have hr := traceCalls_replicate op (later ReadResult.pending) cs h3 m
    constructor
    · simp only [startRead, laterReads, traceCalls, h2, Nat.succ_ne_zero, if_false,
        traceCalls_append, hr.1, hr.2, h4, List.replicate_succ, List.cons_append]
    · show runCalls op (laterReads later stream (m + 1)) (op (act (startRead (m + 1) stream)) c).2
        = ce
      simp only [startRead, laterReads, h2, Nat.succ_ne_zero, if_false, runCalls_append, hr.2]
      simp [runCalls, h4]


theorem input_command {S D C : Type} (rf : BinaryReadBuffer → Op S D Unit)
    (pc : C → ReadResult → Op S D Unit) (b : C) (rd : ReadResult) (c : Connection S D)
    (hr : c.reading = false) :
    BaseConnection.input rf pc (CommandResult.byte b) rd c =
      match pc b rd c with
      | (Except.ok a, c1) => (Except.ok a, c1)
      | (Except.error _, c1) => (Except.ok (), { c1 with faulty := true }) := by
  simp only [BaseConnection.input, Op.run_bind, Op.run_get, hr, Bool.false_eq_true, ↓reduceIte]
  erw [Op.run_tryCatch]
  rcases hm : pc b rd c with ⟨r, c1⟩
  cases r <;> rfl

/-- The call `input()` at the end of `begin_read` is the call of
`BaseConnection::input`: with `reading` set, `input` runs `input_reading`
whatever `process_command` and the command outcome are. -/
theorem begin_read_runs_input {S D C : Type} (rf : BinaryReadBuffer → Op S D Unit)
    (pc : C → ReadResult → Op S D Unit) (cmd : CommandResult C) (reader : NBReader)
    (rd : ReadResult) (c : Connection S D) :
    BaseConnection.begin_read rf reader rd c =
      if (!c.writing && !c.reading) = true then
        BaseConnection.input rf pc cmd rd { c with reader := some reader, reading := true }
      else
        (Except.error (Exn.IllegalStateException
          "Cannot start nb-read. Another read or write action is in progress."), c) := by
  by_cases hg : (!c.writing && !c.reading) = true
  · simp only [BaseConnection.begin_read, BaseConnection.input, Op.run_bind, Op.run_get, hg,
      if_true, Op.run_modify]
  · simp only [BaseConnection.begin_read, Op.run_bind, Op.run_get, hg, Op.run_throw]
    rfl

theorem input_while_reading {S D C : Type} (rf : BinaryReadBuffer → Op S D Unit)
    (pc : C → ReadResult → Op S D Unit) (cmd : CommandResult C) (rd : ReadResult)
    (c : Connection S D) (hr : c.reading = true) :
    BaseConnection.input rf pc cmd rd c = BaseConnection.input_reading rf rd c := by
  simp only [BaseConnection.input, Op.run_bind, Op.run_get, hr, ↓reduceIte]

theorem readStream_decodes {S D α : Type} (r : Read α) (bytes : List Byte) (x : α)
    (h : Decodes r bytes x) (c : Connection S D) :
    (BaseConnection.readStream r bytes : Op S D α) c = (Except.ok x, c) := by
  have h2 := h []
  rw [List.append_nil] at h2
  simp [BaseConnection.readStream, h2, Op.run_pure]

namespace WorkerConnection

/-- C18: for every delivery id `d`, a WorkerConnection in state IDLE with no read
or write pending that is driven through the normal flow (whatever the number of
incomplete attempts of each transfer) never throws, shows after its calls the
states SENDING_REQUEST (while the request write is incomplete), PROCESSING,
DONE, SENDING_DELIVERY_QTY (while the quantity write is incomplete),
WAITING_DELIVERY, READING_DELIVERY_ID (while the read is incomplete) and
DELIVERY_READY, and `get_result()` then returns the DeliveryResponse with the
host and port of the node and the delivery id `d`. -/
theorem worker_normal_flow (c0 : WorkerConnection) (hs : c0.state = WorkerState.IDLE)
    (hr : c0.reading = false) (hw : c0.writing = false)
    (command : Byte) (request : Streamed) (qty : Nat)
    (cmdAny : CommandResult WorkerCommand) (rdAny : ReadResult)
    (d : Nat) (hd : d < 2 ^ 64) (n1 n2 n3 : Nat) :
    (∀ x ∈ traceCalls Call.op
        (normalFlow command request qty cmdAny rdAny (leBytes 8 d) n1 n2 n3) c0,
      x.1 = Except.ok ()) ∧
    (traceCalls Call.op
        (normalFlow command request qty cmdAny rdAny (leBytes 8 d) n1 n2 n3) c0).map
        (fun x => x.2.state)
      = List.replicate n1 WorkerState.SENDING_REQUEST
        ++ [WorkerState.PROCESSING, WorkerState.DONE]
        ++ List.replicate n2 WorkerState.SENDING_DELIVERY_QTY
        ++ [WorkerState.WAITING_DELIVERY]
        ++ List.replicate n3 WorkerState.READING_DELIVERY_ID
        ++ [WorkerState.DELIVERY_READY] ∧
    get_result (runCalls Call.op
        (normalFlow command request qty cmdAny rdAny (leBytes 8 d) n1 n2 n3) c0)
      = Except.ok (some ⟨c0.data.node.host, c0.data.node.port, d⟩) := by
  obtain ⟨id, w, r, f, rdr, wtr, st, dat⟩ := c0
  simp only at hs hr hw
  subst hs hr hw
  have hdec : ∀ c : WorkerConnection,
      (BaseConnection.readStream (readUInt 8) (leBytes 8 d) : Op _ _ Nat) c = (Except.ok d, c) :=
    readStream_decodes _ _ _ (Decodes_readUInt 8 d (by norm_num; exact hd))
  have p1 := writePhase Call.op (Call.process_request command request) Call.output
    (⟨id, false, false, f, rdr, wtr, WorkerState.IDLE, dat⟩ : WorkerConnection)
    ⟨id, true, false, f, rdr, some (NBWriter.NBMessageWriter (WireCode.command command)
      (NBWriter.NBStreamableWriter request)), WorkerState.SENDING_REQUEST, dat⟩
    ⟨id, false, false, f, rdr, none, WorkerState.PROCESSING, dat⟩
    (by simp [Call.op, process_request, begin_write, BaseConnection.begin_write, output,
      BaseConnection.output, write_finished, Op.run_bind, Op.run_get, Op.run_modify, Op.run_pure])
    (by simp [Call.op, process_request, begin_write, BaseConnection.begin_write, output,
      BaseConnection.output, write_finished, Op.run_bind, Op.run_get, Op.run_modify, Op.run_pure])
    (by simp [Call.op, process_request, begin_write, BaseConnection.begin_write, output,
      BaseConnection.output, write_finished, Op.run_bind, Op.run_get, Op.run_modify, Op.run_pure])
    (by simp [Call.op, process_request, begin_write, BaseConnection.begin_write, output,
      BaseConnection.output, write_finished, Op.run_bind, Op.run_get, Op.run_modify, Op.run_pure])
    n1
  have hsimp2 := writePhase Call.op (Call.send_delivery_qty qty) Call.output
    (⟨id, false, false, f, rdr, none, WorkerState.DONE, dat⟩ : WorkerConnection)
    ⟨id, true, false, f, rdr, some (NBWriter.NBMessageWriter WireCode.RESP_DELIVERY_QTY
      (NBWriter.NBPrimitiveWriterUInt 4 qty)), WorkerState.SENDING_DELIVERY_QTY, dat⟩
    ⟨id, false, false, f, rdr, none, WorkerState.WAITING_DELIVERY, dat⟩
    (by simp [Call.op, send_delivery_qty, begin_write, BaseConnection.begin_write, output,
      BaseConnection.output, write_finished, Op.run_bind, Op.run_get, Op.run_modify, Op.run_pure])
    (by simp [Call.op, send_delivery_qty, begin_write, BaseConnection.begin_write, output,
      BaseConnection.output, write_finished, Op.run_bind, Op.run_get, Op.run_modify, Op.run_pure])
    (by simp [Call.op, send_delivery_qty, begin_write, BaseConnection.begin_write, output,
      BaseConnection.output, write_finished, Op.run_bind, Op.run_get, Op.run_modify, Op.run_pure])
    (by simp [Call.op, send_delivery_qty, begin_write, BaseConnection.begin_write, output,
      BaseConnection.output, write_finished, Op.run_bind, Op.run_get, Op.run_modify, Op.run_pure])
    n2
  have hstep : Call.op (Call.input (CommandResult.byte WorkerCommand.RESP_RESULT_READY) rdAny)
      (⟨id, false, false, f, rdr, none, WorkerState.PROCESSING, dat⟩ : WorkerConnection)
      = (Except.ok (), ⟨id, false, false, f, rdr, none, WorkerState.DONE, dat⟩) := by
    simp [Call.op, input, input_command, process_command, Op.run_bind, Op.run_get,
      Op.run_modify]
  have p3 := readPhase Call.op
    (fun rd => Call.input (CommandResult.byte WorkerCommand.RESP_DELIVERY_READY) rd)
    (Call.input cmdAny) (leBytes 8 d)
    (⟨id, false, false, f, rdr, none, WorkerState.WAITING_DELIVERY, dat⟩ : WorkerConnection)
    ⟨id, false, true, f, some (NBReader.NBFixedSizeReader 8), none,
      WorkerState.READING_DELIVERY_ID, dat⟩
    ⟨id, false, false, f, none, none, WorkerState.DELIVERY_READY,
      { dat with result := some ⟨dat.node.host, dat.node.port, d⟩ }⟩
    (by simp [Call.op, input, input_command, process_command, BaseConnection.begin_read,
      BaseConnection.input_reading, read_finished, hdec, Op.run_bind, Op.run_get,
      Op.run_modify, Op.run_pure])
    (by simp [Call.op, input, input_command, process_command, BaseConnection.begin_read,
      BaseConnection.input_reading, read_finished, hdec, Op.run_bind, Op.run_get,
      Op.run_modify, Op.run_pure])
    (by simp [Call.op, input, input_while_reading,
      BaseConnection.input_reading, read_finished, hdec, Op.run_bind, Op.run_get,
      Op.run_modify, Op.run_pure])
    (by simp [Call.op, input, input_while_reading,
      BaseConnection.input_reading, read_finished, hdec, Op.run_bind, Op.run_get,
      Op.run_modify, Op.run_pure])
    n3
  have htrace : traceCalls Call.op
      (normalFlow command request qty cmdAny rdAny (leBytes 8 d) n1 n2 n3)
      (⟨id, false, false, f, rdr, wtr, WorkerState.IDLE, dat⟩ : WorkerConnection)
      = (List.replicate n1 (Except.ok (), (⟨id, true, false, f, rdr,
            some (NBWriter.NBMessageWriter (WireCode.command command)
              (NBWriter.NBStreamableWriter request)),
            WorkerState.SENDING_REQUEST, dat⟩ : WorkerConnection))
          ++ [(Except.ok (), ⟨id, false, false, f, rdr, none, WorkerState.PROCESSING, dat⟩)]
          ++ ((Except.ok (), ⟨id, false, false, f, rdr, none, WorkerState.DONE, dat⟩)
            :: (List.replicate n2 (Except.ok (), ⟨id, true, false, f, rdr,
                some (NBWriter.NBMessageWriter WireCode.RESP_DELIVERY_QTY
                  (NBWriter.NBPrimitiveWriterUInt 4 qty)),
                WorkerState.SENDING_DELIVERY_QTY, dat⟩)
              ++ [(Except.ok (),
                ⟨id, false, false, f, rdr, none, WorkerState.WAITING_DELIVERY, dat⟩)])))
        ++ (List.replicate n3 (Except.ok (), ⟨id, false, true, f,
              some (NBReader.NBFixedSizeReader 8), none,
              WorkerState.READING_DELIVERY_ID, dat⟩)
          ++ [(Except.ok (), ⟨id, false, false, f, none, none, WorkerState.DELIVERY_READY,
              { dat with result := some ⟨dat.node.host, dat.node.port, d⟩ }⟩)]) := by
    unfold normalFlow
    rw [traceCalls_append, traceCalls_append, runCalls_append, p1.1, p1.2]
    have hB : ∀ (l : List Call) (c : WorkerConnection),
        traceCalls Call.op
          (Call.input (CommandResult.byte WorkerCommand.RESP_RESULT_READY) rdAny :: l) c
        = Call.op (Call.input (CommandResult.byte WorkerCommand.RESP_RESULT_READY) rdAny) c
          :: traceCalls Call.op l
            (Call.op (Call.input (CommandResult.byte WorkerCommand.RESP_RESULT_READY) rdAny)
              c).2 := fun l c => rfl
    have hB2 : ∀ (l : List Call) (c : WorkerConnection),
        runCalls Call.op
          (Call.input (CommandResult.byte WorkerCommand.RESP_RESULT_READY) rdAny :: l) c
        = runCalls Call.op l
            (Call.op (Call.input (CommandResult.byte WorkerCommand.RESP_RESULT_READY) rdAny)
              c).2 := fun l c => rfl
    rw [hB, hB2, hstep, hsimp2.1, hsimp2.2, p3.1]
  have hrun : runCalls Call.op
      (normalFlow command request qty cmdAny rdAny (leBytes 8 d) n1 n2 n3)
      (⟨id, false, false, f, rdr, wtr, WorkerState.IDLE, dat⟩ : WorkerConnection)
      = ⟨id, false, false, f, none, none, WorkerState.DELIVERY_READY,
          { dat with result := some ⟨dat.node.host, dat.node.port, d⟩ }⟩ := by
    unfold normalFlow
    rw [runCalls_append, runCalls_append, p1.2]
    have hB2 : ∀ (l : List Call) (c : WorkerConnection),
        runCalls Call.op
          (Call.input (CommandResult.byte WorkerCommand.RESP_RESULT_READY) rdAny :: l) c
        = runCalls Call.op l
            (Call.op (Call.input (CommandResult.byte WorkerCommand.RESP_RESULT_READY) rdAny)
              c).2 := fun l c => rfl
    rw [hB2, hstep, hsimp2.2, p3.2]
  refine ⟨?_, ?_, ?_⟩
  · intro x hx
    rw [htrace] at hx
    simp only [List.mem_append, List.mem_cons, List.mem_replicate, List.mem_singleton,
      List.not_mem_nil, or_false] at hx
    rcases hx with ((⟨_, h⟩ | h) | (h | ⟨_, h⟩ | h)) | (⟨_, h⟩ | h) <;> rw [h]
  · rw [htrace]
    simp [List.map_append, List.map_replicate]
  · rw [hrun]
    simp [get_result]

/-- Witness for C18: a freshly constructed worker connection, delivery id 42,
every transfer completing after one incomplete attempt. -/
theorem worker_normal_flow_witness :
    (WorkerConnection.construct 1 sampleNode).state = WorkerState.IDLE ∧
      (WorkerConnection.construct 1 sampleNode).reading = false ∧
      (WorkerConnection.construct 1 sampleNode).writing = false ∧ 42 < 2 ^ 64 ∧
      get_result (runCalls Call.op
          (normalFlow 0 ⟨[]⟩ 1 CommandResult.closed ReadResult.pending (leBytes 8 42) 1 1 1)
          (WorkerConnection.construct 1 sampleNode))
        = Except.ok (some ⟨(WorkerConnection.construct 1 sampleNode).data.node.host,
            (WorkerConnection.construct 1 sampleNode).data.node.port, 42⟩) :=
  ⟨rfl, rfl, rfl, by norm_num,
    (worker_normal_flow (WorkerConnection.construct 1 sampleNode) rfl rfl rfl 0 ⟨[]⟩ 1
      CommandResult.closed ReadResult.pending 42 (by norm_num) 1 1 1).2.2⟩

end WorkerConnection


namespace WorkerConnection

/-- C19 (as stated, refuted): on a freshly constructed worker connection (state
IDLE) the byte RESP_ERROR followed by a message does not lead to state ERROR:
`process_command` throws, `input` marks the connection faulty, the state stays
IDLE and `get_error_message()` fails. -/
theorem worker_error_report_counterexample :
    (WorkerConnection.input (CommandResult.byte WorkerCommand.RESP_ERROR)
        (ReadResult.finished (writeString [] [104, 105]))
        (WorkerConnection.construct 1 ⟨1, [], 80⟩)).2.state = WorkerState.IDLE ∧
      (WorkerConnection.input (CommandResult.byte WorkerCommand.RESP_ERROR)
        (ReadResult.finished (writeString [] [104, 105]))
        (WorkerConnection.construct 1 ⟨1, [], 80⟩)).2.faulty = true ∧
      get_error_message (WorkerConnection.input (CommandResult.byte WorkerCommand.RESP_ERROR)
        (ReadResult.finished (writeString [] [104, 105]))
        (WorkerConnection.construct 1 ⟨1, [], 80⟩)).2
        = Except.error (Exn.IllegalStateException
            "Can only return error-message in state ERROR") := by
  refine ⟨rfl, rfl, rfl⟩

/-- C19 (amended): from state PROCESSING or WAITING_DELIVERY with no read or
write pending, when the byte RESP_ERROR followed by a message string arrives on
input (the read completing after any number of incomplete attempts), the
connection ends in state ERROR, `get_error_message()` returns that message, and
`release()` succeeds and returns the connection to IDLE. In every other state
with no read pending, `process_command` rejects the byte and `input()` leaves
the connection as it was except that `faulty` is set. -/
theorem worker_error_report (c : WorkerConnection)
    (msg : List Byte) (hm : msg.length < 2 ^ 64)
    (cmdAny : CommandResult WorkerCommand) (n : Nat) :
    (c.state = WorkerState.PROCESSING ∨ c.state = WorkerState.WAITING_DELIVERY →
      c.reading = false → c.writing = false →
      (runCalls Call.op
          (Call.input (CommandResult.byte WorkerCommand.RESP_ERROR)
              (startRead n (writeString [] msg))
            :: laterReads (Call.input cmdAny) (writeString [] msg) n) c).state
          = WorkerState.ERROR ∧
        get_error_message (runCalls Call.op
          (Call.input (CommandResult.byte WorkerCommand.RESP_ERROR)
              (startRead n (writeString [] msg))
            :: laterReads (Call.input cmdAny) (writeString [] msg) n) c) = Except.ok msg ∧
        (release (runCalls Call.op
          (Call.input (CommandResult.byte WorkerCommand.RESP_ERROR)
              (startRead n (writeString [] msg))
            :: laterReads (Call.input cmdAny) (writeString [] msg) n) c)).1 = Except.ok () ∧
        (release (runCalls Call.op
          (Call.input (CommandResult.byte WorkerCommand.RESP_ERROR)
              (startRead n (writeString [] msg))
            :: laterReads (Call.input cmdAny) (writeString [] msg) n) c)).2.state
          = WorkerState.IDLE) ∧
    (c.state ≠ WorkerState.PROCESSING ∧ c.state ≠ WorkerState.WAITING_DELIVERY →
      c.reading = false →
      ∀ rd : ReadResult,
        WorkerConnection.input (CommandResult.byte WorkerCommand.RESP_ERROR) rd c
          = (Except.ok (), { c with faulty := true })) := by
  constructor
  · intro hs hr hw
    obtain ⟨id, w, r, f, rdr, wtr, st, dat⟩ := c
    simp only at hs hr hw
    subst hr hw
    have hdec : ∀ c : WorkerConnection,
        (BaseConnection.readStream readString (writeString [] msg) : Op _ _ (List Byte)) c
          = (Except.ok msg, c) :=
      readStream_decodes _ _ _ (Decodes_readString msg hm)
    have p := readPhase Call.op
      (fun rd => Call.input (CommandResult.byte WorkerCommand.RESP_ERROR) rd)
      (Call.input cmdAny) (writeString [] msg)
      (⟨id, false, false, f, rdr, wtr, st, dat⟩ : WorkerConnection)
      ⟨id, false, true, f, some NBReader.NBStringReader, wtr, WorkerState.READING_ERROR, dat⟩
      ⟨id, false, false, f, none, wtr, WorkerState.ERROR, { dat with error_msg := msg }⟩
      (by rcases hs with hs | hs <;> subst hs <;>
        simp [Call.op, input, input_command, process_command, BaseConnection.begin_read,
          BaseConnection.input_reading, read_finished, hdec, Op.run_bind, Op.run_get,
          Op.run_modify, Op.run_pure])
      (by rcases hs with hs | hs <;> subst hs <;>
        simp [Call.op, input, input_command, process_command, BaseConnection.begin_read,
          BaseConnection.input_reading, read_finished, hdec, Op.run_bind, Op.run_get,
          Op.run_modify, Op.run_pure])
      (by simp [Call.op, input, input_while_reading,
        BaseConnection.input_reading, read_finished, hdec, Op.run_bind, Op.run_get,
        Op.run_modify, Op.run_pure])
      (by simp [Call.op, input, input_while_reading,
        BaseConnection.input_reading, read_finished, hdec, Op.run_bind, Op.run_get,
        Op.run_modify, Op.run_pure])
      n
    rw [p.2]
    simp [get_error_message, release, reset, Op.run_bind, Op.run_get, Op.run_modify]
  · intro hs hr rd
    rw [WorkerConnection.input, input_command _ _ WorkerCommand.RESP_ERROR rd c hr]
    simp [WorkerConnection.process_command, Op.run_bind, Op.run_get, hs, Op.run_throw]

/-- Witness for C19 (amended): a worker connection in state PROCESSING, the
message "hi", the read completing at once. -/
theorem worker_error_report_witness :
    (processingWorker.state = WorkerState.PROCESSING ∨
        processingWorker.state = WorkerState.WAITING_DELIVERY) ∧
      processingWorker.reading = false ∧ processingWorker.writing = false ∧
      ([104, 105] : List Byte).length < 2 ^ 64 ∧
      (runCalls Call.op
        (Call.input (CommandResult.byte WorkerCommand.RESP_ERROR)
            (startRead 0 (writeString [] [104, 105]))
          :: laterReads (Call.input CommandResult.closed) (writeString [] [104, 105]) 0)
        processingWorker).state = WorkerState.ERROR :=
  ⟨Or.inl rfl, rfl, rfl, by decide,
    ((worker_error_report processingWorker [104, 105] (by decide)
      CommandResult.closed 0).1 (Or.inl rfl) rfl rfl).1⟩

end WorkerConnection

namespace DeliveryConnection

/-- C20 (as stated, refuted): a fresh delivery connection that received CMD_GET
and whose read is incomplete is in state READING_DELIVERY_REQUEST; there
`send_error` fails with an IllegalStateException and the state is unchanged. -/
theorem delivery_send_error_counterexample :
    (DeliveryConnection.input (CommandResult.byte DeliveryCommand.CMD_GET) ReadResult.pending
        (DeliveryConnection.construct 1)).2.state = DeliveryState.READING_DELIVERY_REQUEST ∧
      (send_error [] WriteResult.pending
        (DeliveryConnection.input (CommandResult.byte DeliveryCommand.CMD_GET)
          ReadResult.pending (DeliveryConnection.construct 1)).2).1
        = Except.error (Exn.IllegalStateException
          "Can only send error in state DELIVERY_REQUEST_READ or RASTER_CACHE_REQUEST_READ") ∧
      (send_error [] WriteResult.pending
        (DeliveryConnection.input (CommandResult.byte DeliveryCommand.CMD_GET)
          ReadResult.pending (DeliveryConnection.construct 1)).2).2.state
        = DeliveryState.READING_DELIVERY_REQUEST := by
  refine ⟨rfl, rfl, rfl⟩

/-- C20 (amended): on a DeliveryConnection in state DELIVERY_REQUEST_READ,
RASTER_CACHE_REQUEST_READ or RASTER_MOVE_REQUEST_READ with no read or write
pending, `send_error(msg)` succeeds; the connection is in SENDING_ERROR as long
as the write is incomplete and in IDLE once it has completed. -/
theorem delivery_send_error (c : DeliveryConnection)
    (hs : c.state = DeliveryState.DELIVERY_REQUEST_READ ∨
      c.state = DeliveryState.RASTER_CACHE_REQUEST_READ ∨
      c.state = DeliveryState.RASTER_MOVE_REQUEST_READ)
    (hr : c.reading = false) (hw : c.writing = false) (msg : List Byte) (n : Nat) :
    (∀ x ∈ traceCalls Call.op (Call.send_error msg (startWrite n) :: laterWrites Call.output n) c,
      x.1 = Except.ok ()) ∧
    (traceCalls Call.op (Call.send_error msg (startWrite n) :: laterWrites Call.output n) c).map
        (fun x => x.2.state)
      = List.replicate n DeliveryState.SENDING_ERROR ++ [DeliveryState.IDLE] := by
  obtain ⟨id, w, r, f, rdr, wtr, st, dat⟩ := c
  simp only at hs hr hw
  subst hr hw
  have p := writePhase Call.op (Call.send_error msg) Call.output
    (⟨id, false, false, f, rdr, wtr, st, dat⟩ : DeliveryConnection)
    ⟨id, true, false, f, rdr, some (NBWriter.NBErrorWriter WireCode.RESP_ERROR msg),
      DeliveryState.SENDING_ERROR, dat⟩
    ⟨id, false, false, f, rdr, none, DeliveryState.IDLE, dat⟩
    (by rcases hs with hs | hs | hs <;> subst hs <;>
      simp [Call.op, send_error, begin_write, BaseConnection.begin_write, output,
        BaseConnection.output, write_finished, Op.run_bind, Op.run_get, Op.run_modify,
        Op.run_pure])
    (by rcases hs with hs | hs | hs <;> subst hs <;>
      simp [Call.op, send_error, begin_write, BaseConnection.begin_write, output,
        BaseConnection.output, write_finished, Op.run_bind, Op.run_get, Op.run_modify,
        Op.run_pure])
    (by simp [Call.op, output, BaseConnection.output, write_finished, Op.run_bind, Op.run_get,
      Op.run_modify, Op.run_pure])
    (by simp [Call.op, output, BaseConnection.output, write_finished, Op.run_bind, Op.run_get,
      Op.run_modify, Op.run_pure])
    n
  rw [p.1]
  constructor
  · intro x hx
    simp only [List.mem_append, List.mem_replicate, List.mem_singleton] at hx
    rcases hx with ⟨_, h⟩ | h <;> rw [h]
  · simp [List.map_append, List.map_replicate]

/-- Witness for C20 (amended): a delivery connection in state
DELIVERY_REQUEST_READ, the write completing after two incomplete attempts. -/
theorem delivery_send_error_witness :
    (requestReadDelivery.state = DeliveryState.DELIVERY_REQUEST_READ ∨
        requestReadDelivery.state = DeliveryState.RASTER_CACHE_REQUEST_READ ∨
        requestReadDelivery.state = DeliveryState.RASTER_MOVE_REQUEST_READ) ∧
      requestReadDelivery.reading = false ∧ requestReadDelivery.writing = false ∧
      (traceCalls Call.op (Call.send_error [] (startWrite 2) :: laterWrites Call.output 2)
          requestReadDelivery).map (fun x => x.2.state)
        = List.replicate 2 DeliveryState.SENDING_ERROR ++ [DeliveryState.IDLE] :=
  ⟨Or.inl rfl, rfl, rfl,
    (delivery_send_error requestReadDelivery (Or.inl rfl) rfl rfl [] 2).2⟩

end DeliveryConnection

/-! ## Claims on the protocol flows of the connections -/

namespace BaseConnection
variable {S D C : Type}

theorem input_reading_state (rf : BinaryReadBuffer → Op S D Unit) (X : S)
    (hrf : ∀ s c, (rf s c).2.state = X → c.state = X) (rd : ReadResult) (c : Connection S D)
    (h : (input_reading rf rd c).2.state = X) : c.state = X := by
  cases rd with
  | finished stream =>
    simp only [input_reading, Op.run_bind, Op.run_modify] at h
    have h2 := hrf stream { c with reading := false }
    rcases hr : rf stream { c with reading := false } with ⟨r, c1⟩
    rw [hr] at h h2
    cases r <;> simp_all [Op.run_modify]
  | error => simpa [input_reading, Op.run_bind, Op.run_modify] using h
  | pending => simpa [input_reading, Op.run_pure] using h

theorem begin_read_state (rf : BinaryReadBuffer → Op S D Unit) (X : S)
    (hrf : ∀ s c, (rf s c).2.state = X → c.state = X) (reader : NBReader) (rd : ReadResult)
    (c : Connection S D) (h : (begin_read rf reader rd c).2.state = X) : c.state = X := by
  by_cases hg : (!c.writing && !c.reading) = true
  · simp only [begin_read, Op.run_bind, Op.run_get, hg, if_true, Op.run_modify] at h
    have h3 := input_reading_state rf X hrf rd _ h
    exact h3
  · simpa only [begin_read, Op.run_bind, Op.run_get, hg, Op.run_throw] using h

theorem output_state (wf : Op S D Unit) (X : S)
    (hwf : ∀ c, (wf c).2.state = X → c.state = X) (wr : WriteResult)
    (c : Connection S D) (h : (output wf wr c).2.state = X) : c.state = X := by
  by_cases hw : c.writing = true
  · cases wr with
    | finished =>
      simp only [output, Op.run_bind, Op.run_get, hw, if_true, Op.run_modify] at h
      have h2 := hwf { c with writing := false }
      rcases hr : wf { c with writing := false } with ⟨r, c1⟩
      rw [hr] at h h2
      cases r <;> simp_all [Op.run_modify]
    | error => simpa [output, Op.run_bind, Op.run_get, hw, Op.run_modify] using h
    | pending => simpa [output, Op.run_bind, Op.run_get, hw, Op.run_pure] using h
  · simpa [output, Op.run_bind, Op.run_get, hw, Op.run_throw] using h

theorem begin_write_state (wf : Op S D Unit) (X : S)
    (hwf : ∀ c, (wf c).2.state = X → c.state = X) (writer : NBWriter) (wr : WriteResult)
    (c : Connection S D) (h : (begin_write wf writer wr c).2.state = X) : c.state = X := by
  by_cases hg : (!c.writing && !c.reading) = true
  · simp only [begin_write, Op.run_bind, Op.run_get, hg, if_true, Op.run_modify] at h
    have h3 := output_state wf X hwf wr _ h
    exact h3
  · simpa only [begin_write, Op.run_bind, Op.run_get, hg, Op.run_throw] using h

theorem input_command_state (rf : BinaryReadBuffer → Op S D Unit)
    (pc : C → ReadResult → Op S D Unit) (b : C) (rd : ReadResult) (c : Connection S D)
    (hr : c.reading = false) :
    (input rf pc (CommandResult.byte b) rd c).2.state = (pc b rd c).2.state ∧
      (input rf pc (CommandResult.byte b) rd c).2.data = (pc b rd c).2.data := by
  rw [input_command rf pc b rd c hr]
  rcases hm : pc b rd c with ⟨r, c1⟩
  cases r <;> simp

theorem input_no_command (rf : BinaryReadBuffer → Op S D Unit)
    (pc : C → ReadResult → Op S D Unit) (cmd : CommandResult C) (rd : ReadResult)
    (c : Connection S D) (hr : c.reading = false) (hc : ∀ b, cmd ≠ CommandResult.byte b) :
    input rf pc cmd rd c = (Except.ok (), { c with faulty := true }) := by
  obtain ⟨id, w, r, f, rdr, wtr, st, d⟩ := c
  simp only at hr
  subst hr
  simp only [input, Op.run_bind, Op.run_get, Bool.false_eq_true, ↓reduceIte]
  erw [Op.run_tryCatch]
  cases cmd with
  | byte b => exact absurd rfl (hc b)
  | closed => rfl
  | threw e => rfl

end BaseConnection

namespace DeliveryConnection

theorem read_finished_state_delivery (X : DeliveryState)
    (hX : X ≠ DeliveryState.DELIVERY_REQUEST_READ ∧ X ≠ DeliveryState.RASTER_CACHE_REQUEST_READ ∧
      X ≠ DeliveryState.RASTER_MOVE_REQUEST_READ)
    (stream : BinaryReadBuffer) (c : DeliveryConnection)
    (h : (read_finished stream c).2.state = X) : c.state = X := by
  obtain ⟨id, w, r, f, rdr, wtr, st, d⟩ := c
  obtain ⟨h1, h2, h3⟩ := hX
  cases st
  case READING_DELIVERY_REQUEST =>
    simp only [read_finished, Op.run_bind, Op.run_get] at h
    rcases readStream_run (readUInt 8) stream
      (⟨id, w, r, f, rdr, wtr, DeliveryState.READING_DELIVERY_REQUEST, d⟩ : DeliveryConnection)
      with ⟨x, hx⟩ | ⟨e, he⟩
    · rw [hx] at h
      simp [Op.run_modify] at h
      exact absurd h.symm h1
    · rw [he] at h
      simpa using h
  all_goals
    simp [read_finished, Op.run_bind, Op.run_get, Op.run_modify, Op.run_throw] at h
    first
    | exact absurd h.symm h2
    | exact absurd h.symm h3
    | simpa using h

theorem write_finished_state_delivery (X : DeliveryState)
    (hX : X ≠ DeliveryState.IDLE ∧ X ≠ DeliveryState.AWAITING_MOVE_CONFIRM)
    (c : DeliveryConnection)
    (h : (write_finished c).2.state = X) : c.state = X := by
  obtain ⟨id, w, r, f, rdr, wtr, st, d⟩ := c
  obtain ⟨h1, h2⟩ := hX
  cases st
  all_goals
    simp [write_finished, Op.run_bind, Op.run_get, Op.run_modify, Op.run_throw] at h
    first
    | exact absurd h.symm h1
    | exact absurd h.symm h2
    | simpa using h

/-- C21 (amended): a call of a public operation leaves a DeliveryConnection in
state MOVE_DONE only if it was in MOVE_DONE before the call, or if the call is
`input()` receiving the byte CMD_MOVE_DONE while no read is in progress and the
state is IDLE or AWAITING_MOVE_CONFIRM; in each of these two states that byte
leads to MOVE_DONE; and `release()` succeeds exactly in state MOVE_DONE. -/
theorem delivery_move_done (c : DeliveryConnection) :
    (∀ call : Call, (call.op c).2.state = DeliveryState.MOVE_DONE →
      c.state = DeliveryState.MOVE_DONE ∨
        ((c.state = DeliveryState.IDLE ∨ c.state = DeliveryState.AWAITING_MOVE_CONFIRM) ∧
          c.reading = false ∧
          ∃ rd, call = Call.input (CommandResult.byte DeliveryCommand.CMD_MOVE_DONE) rd)) ∧
    (c.state = DeliveryState.IDLE ∨ c.state = DeliveryState.AWAITING_MOVE_CONFIRM →
      c.reading = false → ∀ rd,
        DeliveryConnection.input (CommandResult.byte DeliveryCommand.CMD_MOVE_DONE) rd c
          = (Except.ok (), { c with state := DeliveryState.MOVE_DONE })) ∧
    ((release c).1 = Except.ok () ↔ c.state = DeliveryState.MOVE_DONE) := by
  have hrf := read_finished_state_delivery DeliveryState.MOVE_DONE (by decide)
  have hwf := write_finished_state_delivery DeliveryState.MOVE_DONE (by decide)
  refine ⟨?_, ?_, ?_⟩
  · intro call h
    cases call with
    | input cmd rd =>
      by_cases hr : c.reading = true
      · left
        simp only [Call.op, DeliveryConnection.input, input_while_reading _ _ _ _ _ hr] at h
        exact BaseConnection.input_reading_state _ _ hrf rd c h
      · have hr2 : c.reading = false := by simpa using hr
        cases cmd with
        | byte b =>
          simp only [Call.op, DeliveryConnection.input] at h
          rw [(BaseConnection.input_command_state _ _ b rd c hr2).1] at h
          by_cases hs : c.state ≠ DeliveryState.IDLE ∧
              c.state ≠ DeliveryState.AWAITING_MOVE_CONFIRM
          · left
            simpa [process_command, Op.run_bind, Op.run_get, hs, Op.run_throw] using h
          · cases b with
            | CMD_MOVE_DONE =>
              right
              refine ⟨?_, hr2, rd, rfl⟩
              by_contra hc
              exact hs ⟨fun h1 => hc (Or.inl h1), fun h2 => hc (Or.inr h2)⟩
            | unknown x =>
              left
              simpa [process_command, Op.run_bind, Op.run_get, hs, Op.run_throw] using h
            | _ =>
              simp only [process_command, Op.run_bind, Op.run_get, hs, if_false,
                Op.run_modify] at h
              have h3 := BaseConnection.begin_read_state _ _ hrf _ rd _ h
              simp at h3
        | closed =>
          left
          simp only [Call.op, DeliveryConnection.input] at h
          rw [BaseConnection.input_no_command _ _ _ rd c hr2 (by simp)] at h
          exact h
        | threw e =>
          left
          simp only [Call.op, DeliveryConnection.input] at h
          rw [BaseConnection.input_no_command _ _ _ rd c hr2 (by simp)] at h
          exact h
    | output wr => exact Or.inl (BaseConnection.output_state _ _ hwf wr c h)
    | begin_read reader rd => exact Or.inl (BaseConnection.begin_read_state _ _ hrf reader rd c h)
    | begin_write writer wr =>
      exact Or.inl (BaseConnection.begin_write_state _ _ hwf writer wr c h)
    | send_raster raster wr =>
      left
      by_cases hs : c.state = DeliveryState.RASTER_CACHE_REQUEST_READ ∨
          c.state = DeliveryState.DELIVERY_REQUEST_READ
      · simp only [Call.op, send_raster, Op.run_bind, Op.run_get, hs, if_true, Op.run_modify] at h
        have h3 := BaseConnection.begin_write_state _ _ hwf _ wr _ h
        simp at h3
      · simpa [Call.op, send_raster, Op.run_bind, Op.run_get, hs, Op.run_throw] using h
    | send_error msg wr =>
      left
      by_cases hs : c.state = DeliveryState.RASTER_CACHE_REQUEST_READ ∨
          c.state = DeliveryState.DELIVERY_REQUEST_READ ∨
          c.state = DeliveryState.RASTER_MOVE_REQUEST_READ ∨
          c.state = DeliveryState.SENDING_RASTER ∨
          c.state = DeliveryState.SENDING_RASTER_MOVE
      · simp only [Call.op, send_error, Op.run_bind, Op.run_get, hs, if_true, Op.run_modify] at h
        have h3 := BaseConnection.begin_write_state _ _ hwf _ wr _ h
        simp at h3
      · simpa [Call.op, send_error, Op.run_bind, Op.run_get, hs, Op.run_throw] using h
    | send_raster_move raster wr =>
      left
      by_cases hs : c.state = DeliveryState.RASTER_MOVE_REQUEST_READ
      · simp only [Call.op, send_raster_move, Op.run_bind, Op.run_get, hs, if_true,
          Op.run_modify] at h
        have h3 := BaseConnection.begin_write_state _ _ hwf _ wr _ h
        simp at h3
      · simpa [Call.op, send_raster_move, Op.run_bind, Op.run_get, hs, Op.run_throw] using h
    | release =>
      left
      by_cases hs : c.state = DeliveryState.MOVE_DONE
      · exact hs
      · simp [Call.op, release, Op.run_bind, Op.run_get, hs, Op.run_throw] at h
  · intro hs hr rd
    obtain ⟨id, w, r, f, rdr, wtr, st, d⟩ := c
    simp only at hs hr
    subst hr
    rcases hs with hs | hs <;> subst hs <;>
      simp [DeliveryConnection.input, input_command, process_command, Op.run_bind, Op.run_get,
        Op.run_modify]
  · by_cases hs : c.state = DeliveryState.MOVE_DONE
    · simp [release, Op.run_bind, Op.run_get, hs, Op.run_modify]
    · simp [release, Op.run_bind, Op.run_get, hs, Op.run_throw]

/-- C21 (as stated, refuted): a freshly constructed delivery connection (state
IDLE: no move request was read and no raster was sent) that receives the byte
CMD_MOVE_DONE goes to state MOVE_DONE, and `release()` then succeeds. -/
theorem delivery_move_done_counterexample :
    (DeliveryConnection.construct 1).state = DeliveryState.IDLE ∧
      (DeliveryConnection.input (CommandResult.byte DeliveryCommand.CMD_MOVE_DONE)
        ReadResult.pending (DeliveryConnection.construct 1)).1 = Except.ok () ∧
      (DeliveryConnection.input (CommandResult.byte DeliveryCommand.CMD_MOVE_DONE)
        ReadResult.pending (DeliveryConnection.construct 1)).2.state = DeliveryState.MOVE_DONE ∧
      (release (DeliveryConnection.input (CommandResult.byte DeliveryCommand.CMD_MOVE_DONE)
        ReadResult.pending (DeliveryConnection.construct 1)).2).1 = Except.ok () := by
  refine ⟨rfl, rfl, rfl, rfl⟩

/-- Witness for C21 (amended): a freshly constructed delivery connection, in
state IDLE with no read in progress. -/
theorem delivery_move_done_witness :
    (DeliveryConnection.construct 1).state = DeliveryState.IDLE ∧
      (DeliveryConnection.construct 1).reading = false ∧
      DeliveryConnection.input (CommandResult.byte DeliveryCommand.CMD_MOVE_DONE)
          ReadResult.pending (DeliveryConnection.construct 1)
        = (Except.ok (),
            { DeliveryConnection.construct 1 with state := DeliveryState.MOVE_DONE }) :=
  ⟨rfl, rfl, (delivery_move_done (DeliveryConnection.construct 1)).2.1 (Or.inl rfl) rfl
    ReadResult.pending⟩

end DeliveryConnection

namespace ControlConnection

theorem read_finished_state_control (X : ControlState)
    (hX : X ≠ ControlState.REORG_RESULT_READ ∧ X ≠ ControlState.STATS_RECEIVED)
    (stream : BinaryReadBuffer) (c : ControlConnection)
    (h : (read_finished stream c).2.state = X) : c.state = X := by
  obtain ⟨id, w, r, f, rdr, wtr, st, d⟩ := c
  obtain ⟨h1, h2⟩ := hX
  cases st
  all_goals
    simp [read_finished, Op.run_bind, Op.run_get, Op.run_modify, Op.run_throw] at h
    first
    | exact absurd h.symm h1
    | exact absurd h.symm h2
    | simpa using h

theorem write_finished_state_control (X : ControlState)
    (hX : X ≠ ControlState.REORGANIZING ∧ X ≠ ControlState.STATS_REQUESTED)
    (c : ControlConnection)
    (h : (write_finished c).2.state = X) : c.state = X := by
  obtain ⟨id, w, r, f, rdr, wtr, st, d⟩ := c
  obtain ⟨h1, h2⟩ := hX
  cases st
  all_goals
    simp [write_finished, Op.run_bind, Op.run_get, Op.run_modify, Op.run_throw] at h
    first
    | exact absurd h.symm h1
    | exact absurd h.symm h2
    | simpa using h

theorem enters_control (X : ControlState)
    (hX : X = ControlState.READING_STATS ∨ X = ControlState.READING_REORG_RESULT ∨
      X = ControlState.REORG_FINISHED)
    (c : ControlConnection) (call : Call) (h : (call.op c).2.state = X) :
    c.state = X ∨
      ((c.state = ControlState.IDLE ∨ c.state = ControlState.REORGANIZING ∨
          c.state = ControlState.STATS_REQUESTED) ∧ c.reading = false ∧
        ∃ b rd, call = Call.input (CommandResult.byte b) rd ∧
          ((b = ControlCommand.RESP_STATS ∧ X = ControlState.READING_STATS) ∨
            (b = ControlCommand.RESP_REORG_ITEM_MOVED ∧ X = ControlState.READING_REORG_RESULT) ∨
            (b = ControlCommand.RESP_REORG_DONE ∧ X = ControlState.REORG_FINISHED))) := by
  have hrf := read_finished_state_control X (by rcases hX with h | h | h <;> subst h <;> decide)
  have hwf := write_finished_state_control X (by rcases hX with h | h | h <;> subst h <;> decide)
  have hne : X ≠ ControlState.SENDING_REORG ∧ X ≠ ControlState.SENDING_REORG_CONFIRM ∧
      X ≠ ControlState.SENDING_STATS_REQUEST ∧ X ≠ ControlState.IDLE := by
    rcases hX with h | h | h <;> subst h <;> decide
  cases call with
  | input cmd rd =>
    by_cases hr : c.reading = true
    · left
      simp only [Call.op, ControlConnection.input, input_while_reading _ _ _ _ _ hr] at h
      exact BaseConnection.input_reading_state _ _ hrf rd c h
    · have hr2 : c.reading = false := by simpa using hr
      cases cmd with
      | byte b =>
        simp only [Call.op, ControlConnection.input] at h
        rw [(BaseConnection.input_command_state _ _ b rd c hr2).1] at h
        by_cases hs : c.state ≠ ControlState.IDLE ∧ c.state ≠ ControlState.REORGANIZING ∧
            c.state ≠ ControlState.STATS_REQUESTED
        · left
          simpa [process_command, Op.run_bind, Op.run_get, hs, Op.run_throw] using h
        · have hacc : c.state = ControlState.IDLE ∨ c.state = ControlState.REORGANIZING ∨
              c.state = ControlState.STATS_REQUESTED := by
            by_contra hc
            exact hs ⟨fun h1 => hc (Or.inl h1), fun h2 => hc (Or.inr (Or.inl h2)),
              fun h3 => hc (Or.inr (Or.inr h3))⟩
          cases b with
          | RESP_REORG_ITEM_MOVED =>
            right
            simp only [process_command, Op.run_bind, Op.run_get, hs, if_false,
              Op.run_modify] at h
            have h3 := BaseConnection.begin_read_state _ _ hrf _ rd _ h
            exact ⟨hacc, hr2, _, rd, rfl, Or.inr (Or.inl ⟨rfl, h3.symm⟩)⟩
          | RESP_REORG_DONE =>
            right
            simp only [process_command, Op.run_bind, Op.run_get, hs, if_false,
              Op.run_modify] at h
            exact ⟨hacc, hr2, _, rd, rfl, Or.inr (Or.inr ⟨rfl, h.symm⟩)⟩
          | RESP_STATS =>
            right
            simp only [process_command, Op.run_bind, Op.run_get, hs, if_false,
              Op.run_modify] at h
            have h3 := BaseConnection.begin_read_state _ _ hrf _ rd _ h
            exact ⟨hacc, hr2, _, rd, rfl, Or.inl ⟨rfl, h3.symm⟩⟩
          | unknown x =>
            left
            simpa [process_command, Op.run_bind, Op.run_get, hs, Op.run_throw] using h
      | closed =>
        left
        simp only [Call.op, ControlConnection.input] at h
        rw [BaseConnection.input_no_command _ _ _ rd c hr2 (by simp)] at h
        exact h
      | threw e =>
        left
        simp only [Call.op, ControlConnection.input] at h
        rw [BaseConnection.input_no_command _ _ _ rd c hr2 (by simp)] at h
        exact h
  | output wr => exact Or.inl (BaseConnection.output_state _ _ hwf wr c h)
  | begin_read reader rd => exact Or.inl (BaseConnection.begin_read_state _ _ hrf reader rd c h)
  | begin_write writer wr =>
    exact Or.inl (BaseConnection.begin_write_state _ _ hwf writer wr c h)
  | send_reorg desc wr =>
    left
    by_cases hs : c.state = ControlState.IDLE
    · simp only [Call.op, send_reorg, Op.run_bind, Op.run_get, hs, if_true, Op.run_modify] at h
      have h3 := BaseConnection.begin_write_state _ _ hwf _ wr _ h
      exact absurd h3.symm hne.1
    · simpa [Call.op, send_reorg, Op.run_bind, Op.run_get, hs, Op.run_throw] using h
  | confirm_reorg wr =>
    left
    by_cases hs : c.state = ControlState.REORG_RESULT_READ
    · simp only [Call.op, confirm_reorg, Op.run_bind, Op.run_get, hs, if_true,
        Op.run_modify] at h
      have h3 := BaseConnection.begin_write_state _ _ hwf _ wr _ h
      exact absurd h3.symm hne.2.1
    · simpa [Call.op, confirm_reorg, Op.run_bind, Op.run_get, hs, Op.run_throw] using h
  | send_get_stats wr =>
    left
    by_cases hs : c.state = ControlState.IDLE
    · simp only [Call.op, send_get_stats, Op.run_bind, Op.run_get, hs, if_true,
        Op.run_modify] at h
      have h3 := BaseConnection.begin_write_state _ _ hwf _ wr _ h
      exact absurd h3.symm hne.2.2.1
    · simpa [Call.op, send_get_stats, Op.run_bind, Op.run_get, hs, Op.run_throw] using h
  | release =>
    left
    by_cases hs : c.state = ControlState.REORG_FINISHED ∨ c.state = ControlState.STATS_RECEIVED
    · simp [Call.op, release, reset, Op.run_bind, Op.run_get, hs, Op.run_modify] at h
      exact absurd h.symm hne.2.2.2
    · simpa [Call.op, release, Op.run_bind, Op.run_get, hs, Op.run_throw] using h

theorem rejected_command_control (c : ControlConnection)
    (hs : c.state ≠ ControlState.IDLE ∧ c.state ≠ ControlState.REORGANIZING ∧
      c.state ≠ ControlState.STATS_REQUESTED) (hr : c.reading = false)
    (b : ControlCommand) (rd : ReadResult) :
    ControlConnection.input (CommandResult.byte b) rd c
      = (Except.ok (), { c with faulty := true }) := by
  rw [ControlConnection.input, input_command _ _ b rd c hr]
  simp [process_command, Op.run_bind, Op.run_get, hs, Op.run_throw]

end ControlConnection

namespace ControlConnection

/-- C29 (as stated, refuted): a freshly constructed control connection (state
IDLE: neither `send_get_stats()` nor `send_reorg()` was called) that receives the
byte RESP_STATS goes to READING_STATS; likewise RESP_REORG_ITEM_MOVED leads to
READING_REORG_RESULT and RESP_REORG_DONE to REORG_FINISHED. -/
theorem control_flow_entry_counterexample :
    (ControlConnection.construct 1 sampleNode).state = ControlState.IDLE ∧
      (ControlConnection.input (CommandResult.byte ControlCommand.RESP_STATS) ReadResult.pending
        (ControlConnection.construct 1 sampleNode)).1 = Except.ok () ∧
      (ControlConnection.input (CommandResult.byte ControlCommand.RESP_STATS) ReadResult.pending
        (ControlConnection.construct 1 sampleNode)).2.state = ControlState.READING_STATS ∧
      (ControlConnection.input (CommandResult.byte ControlCommand.RESP_REORG_ITEM_MOVED)
        ReadResult.pending (ControlConnection.construct 1 sampleNode)).2.state
        = ControlState.READING_REORG_RESULT ∧
      (ControlConnection.input (CommandResult.byte ControlCommand.RESP_REORG_DONE)
        ReadResult.pending (ControlConnection.construct 1 sampleNode)).2.state
        = ControlState.REORG_FINISHED := by
  refine ⟨rfl, rfl, rfl, rfl, rfl⟩

/-- C29 (amended): a call of a public operation leaves a ControlConnection in
state READING_STATS, READING_REORG_RESULT or REORG_FINISHED only if it was in
that state before the call, or if the call is `input()` receiving the byte
RESP_STATS, RESP_REORG_ITEM_MOVED or RESP_REORG_DONE respectively while no read
is in progress and the state is IDLE, REORGANIZING or STATS_REQUESTED; in each of
these three states (no transfer pending) each byte starts its flow; in every
other state a command byte only marks the connection faulty. -/
theorem control_flow_entry (c : ControlConnection) :
    (∀ call : Call, (call.op c).2.state = ControlState.READING_STATS →
      c.state = ControlState.READING_STATS ∨
        ((c.state = ControlState.IDLE ∨ c.state = ControlState.REORGANIZING ∨
            c.state = ControlState.STATS_REQUESTED) ∧ c.reading = false ∧
          ∃ rd, call = Call.input (CommandResult.byte ControlCommand.RESP_STATS) rd)) ∧
    (∀ call : Call, (call.op c).2.state = ControlState.READING_REORG_RESULT →
      c.state = ControlState.READING_REORG_RESULT ∨
        ((c.state = ControlState.IDLE ∨ c.state = ControlState.REORGANIZING ∨
            c.state = ControlState.STATS_REQUESTED) ∧ c.reading = false ∧
          ∃ rd, call = Call.input (CommandResult.byte ControlCommand.RESP_REORG_ITEM_MOVED) rd)) ∧
    (∀ call : Call, (call.op c).2.state = ControlState.REORG_FINISHED →
      c.state = ControlState.REORG_FINISHED ∨
        ((c.state = ControlState.IDLE ∨ c.state = ControlState.REORGANIZING ∨
            c.state = ControlState.STATS_REQUESTED) ∧ c.reading = false ∧
          ∃ rd, call = Call.input (CommandResult.byte ControlCommand.RESP_REORG_DONE) rd)) ∧
    (c.state = ControlState.IDLE ∨ c.state = ControlState.REORGANIZING ∨
        c.state = ControlState.STATS_REQUESTED → c.reading = false → c.writing = false →
      (ControlConnection.input (CommandResult.byte ControlCommand.RESP_STATS)
          ReadResult.pending c).2.state = ControlState.READING_STATS ∧
        (ControlConnection.input (CommandResult.byte ControlCommand.RESP_REORG_ITEM_MOVED)
          ReadResult.pending c).2.state = ControlState.READING_REORG_RESULT ∧
        (ControlConnection.input (CommandResult.byte ControlCommand.RESP_REORG_DONE)
          ReadResult.pending c).2.state = ControlState.REORG_FINISHED) ∧
    (c.state ≠ ControlState.IDLE ∧ c.state ≠ ControlState.REORGANIZING ∧
        c.state ≠ ControlState.STATS_REQUESTED → c.reading = false →
      ∀ (b : ControlCommand) (rd : ReadResult),
        ControlConnection.input (CommandResult.byte b) rd c
          = (Except.ok (), { c with faulty := true })) := by
  refine ⟨?_, ?_, ?_, ?_, ?_⟩
  · intro call h
    rcases enters_control _ (Or.inl rfl) c call h with h1 | ⟨ha, hr, b, rd, hc, hb⟩
    · exact Or.inl h1
    · rcases hb with ⟨hb, _⟩ | ⟨_, hx⟩ | ⟨_, hx⟩
      · subst hb
        exact Or.inr ⟨ha, hr, rd, hc⟩
      · exact absurd hx (by decide)
      · exact absurd hx (by decide)
  · intro call h
    rcases enters_control _ (Or.inr (Or.inl rfl)) c call h with h1 | ⟨ha, hr, b, rd, hc, hb⟩
    · exact Or.inl h1
    · rcases hb with ⟨_, hx⟩ | ⟨hb, _⟩ | ⟨_, hx⟩
      · exact absurd hx (by decide)
      · subst hb
        exact Or.inr ⟨ha, hr, rd, hc⟩
      · exact absurd hx (by decide)
  · intro call h
    rcases enters_control _ (Or.inr (Or.inr rfl)) c call h with h1 | ⟨ha, hr, b, rd, hc, hb⟩
    · exact Or.inl h1
    · rcases hb with ⟨_, hx⟩ | ⟨_, hx⟩ | ⟨hb, _⟩
      · exact absurd hx (by decide)
      · exact absurd hx (by decide)
      · subst hb
        exact Or.inr ⟨ha, hr, rd, hc⟩
  · intro hs hr hw
    obtain ⟨id, w, r, f, rdr, wtr, st, d⟩ := c
    simp only at hs hr hw
    subst hr hw
    rcases hs with hs | hs | hs <;> subst hs <;>
      simp [ControlConnection.input, input_command, process_command,
        BaseConnection.begin_read, BaseConnection.input_reading, Op.run_bind, Op.run_get,
        Op.run_modify, Op.run_pure]
  · intro hs hr b rd
    exact rejected_command_control c hs hr b rd

/-- Witness for C29 (amended): a freshly constructed control connection. -/
theorem control_flow_entry_witness :
    (ControlConnection.construct 1 sampleNode).state = ControlState.IDLE ∧
      (ControlConnection.construct 1 sampleNode).reading = false ∧
      (ControlConnection.construct 1 sampleNode).writing = false ∧
      (ControlConnection.input (CommandResult.byte ControlCommand.RESP_STATS)
          ReadResult.pending (ControlConnection.construct 1 sampleNode)).2.state
        = ControlState.READING_STATS :=
  ⟨rfl, rfl, rfl,
    ((control_flow_entry (ControlConnection.construct 1 sampleNode)).2.2.2.1
      (Or.inl rfl) rfl rfl).1⟩

/-- C22: on a ControlConnection in state REORG_RESULT_READ, or in
SENDING_REORG_CONFIRM while the write started by `confirm_reorg()` is not
complete, a call of `input()` changes neither the protocol state nor the stored
members (among them the move result); a command byte received there is not
accepted and only marks the connection faulty. From REORG_RESULT_READ with no
transfer pending, `confirm_reorg()` and the completion of its write lead through
SENDING_REORG_CONFIRM back to REORGANIZING, the stored members unchanged. -/
theorem control_result_held (c : ControlConnection)
    (hs : c.state = ControlState.REORG_RESULT_READ ∨
      c.state = ControlState.SENDING_REORG_CONFIRM) :
    (∀ (cmd : CommandResult ControlCommand) (rd : ReadResult),
      (ControlConnection.input cmd rd c).2.state = c.state ∧
        (ControlConnection.input cmd rd c).2.data = c.data) ∧
    (c.reading = false → ∀ (b : ControlCommand) (rd : ReadResult),
      ControlConnection.input (CommandResult.byte b) rd c
        = (Except.ok (), { c with faulty := true })) ∧
    (c.state = ControlState.REORG_RESULT_READ → c.reading = false → c.writing = false →
      ∀ n : Nat,
        (traceCalls Call.op (Call.confirm_reorg (startWrite n) :: laterWrites Call.output n)
            c).map (fun x => (x.1, x.2.state, x.2.data))
          = List.replicate n (Except.ok (), ControlState.SENDING_REORG_CONFIRM, c.data)
            ++ [(Except.ok (), ControlState.REORGANIZING, c.data)]) := by
  have hne : c.state ≠ ControlState.IDLE ∧ c.state ≠ ControlState.REORGANIZING ∧
      c.state ≠ ControlState.STATS_REQUESTED := by
    rcases hs with h | h <;> rw [h] <;> decide
  refine ⟨?_, ?_, ?_⟩
  · intro cmd rd
    by_cases hr : c.reading = true
    · rw [ControlConnection.input, input_while_reading _ _ _ _ _ hr]
      obtain ⟨id, w, r, f, rdr, wtr, st, d⟩ := c
      simp only at hs
      cases rd <;> rcases hs with hs | hs <;> subst hs <;>
        simp [BaseConnection.input_reading, read_finished, Op.run_bind, Op.run_get,
          Op.run_modify, Op.run_throw, Op.run_pure]
    · have hr2 : c.reading = false := by simpa using hr
      cases cmd with
      | byte b => rw [rejected_command_control c hne hr2 b rd]; exact ⟨rfl, rfl⟩
      | closed =>
        rw [ControlConnection.input, BaseConnection.input_no_command _ _ _ rd c hr2 (by simp)]
        exact ⟨rfl, rfl⟩
      | threw e =>
        rw [ControlConnection.input, BaseConnection.input_no_command _ _ _ rd c hr2 (by simp)]
        exact ⟨rfl, rfl⟩
  · intro hr b rd
    exact rejected_command_control c hne hr b rd
  · intro hst hr hw n
    obtain ⟨id, w, r, f, rdr, wtr, st, d⟩ := c
    simp only at hst hr hw
    subst hst hr hw
    have p := writePhase Call.op Call.confirm_reorg Call.output
      (⟨id, false, false, f, rdr, wtr, ControlState.REORG_RESULT_READ, d⟩ : ControlConnection)
      ⟨id, true, false, f, rdr, some (NBWriter.NBPrimitiveWriter 1 WireCode.CMD_REORG_ITEM_OK),
        ControlState.SENDING_REORG_CONFIRM, d⟩
      ⟨id, false, false, f, rdr, none, ControlState.REORGANIZING, d⟩
      (by simp [Call.op, confirm_reorg, begin_write, BaseConnection.begin_write, output,
        BaseConnection.output, write_finished, Op.run_bind, Op.run_get, Op.run_modify,
        Op.run_pure])
      (by simp [Call.op, confirm_reorg, begin_write, BaseConnection.begin_write, output,
        BaseConnection.output, write_finished, Op.run_bind, Op.run_get, Op.run_modify,
        Op.run_pure])
      (by simp [Call.op, output, BaseConnection.output, write_finished, Op.run_bind, Op.run_get,
        Op.run_modify, Op.run_pure])
      (by simp [Call.op, output, BaseConnection.output, write_finished, Op.run_bind, Op.run_get,
        Op.run_modify, Op.run_pure])
      n
    rw [p.1]
    simp [List.map_append, List.map_replicate]

end ControlConnection

namespace ControlConnection

/-- Witness for C22: the connection `resultReadControl`, which holds a move
result, receives the byte RESP_REORG_ITEM_MOVED. -/
theorem control_result_held_witness :
    (resultReadControl.state = ControlState.REORG_RESULT_READ ∨
        resultReadControl.state = ControlState.SENDING_REORG_CONFIRM) ∧
      (ControlConnection.input (CommandResult.byte ControlCommand.RESP_REORG_ITEM_MOVED)
        (ReadResult.finished [9]) resultReadControl).2.state = resultReadControl.state ∧
      (ControlConnection.input (CommandResult.byte ControlCommand.RESP_REORG_ITEM_MOVED)
        (ReadResult.finished [9]) resultReadControl).2.data = resultReadControl.data :=
  ⟨Or.inl rfl, (control_result_held resultReadControl (Or.inl rfl)).1
    (CommandResult.byte ControlCommand.RESP_REORG_ITEM_MOVED) (ReadResult.finished [9])⟩

end ControlConnection

namespace BaseConnection
variable {S D C : Type}

theorem input_reading_faulty (rf : BinaryReadBuffer → Op S D Unit)
    (hrf : ∀ s, KeepsFaulty (rf s)) (rd : ReadResult) :
    Preserves (fun c => c.faulty = true) (input_reading rf rd) := by
  intro c hc
  cases rd with
  | finished stream =>
    simp only [input_reading, Op.run_bind, Op.run_modify]
    have h := hrf stream { c with reading := false }
    rcases hr : rf stream { c with reading := false } with ⟨r, c1⟩
    rw [hr] at h
    cases r <;> simp_all [Op.run_modify]
  | error => simp [input_reading, Op.run_bind, Op.run_modify]
  | pending => simpa [input_reading, Op.run_pure] using hc

theorem output_faulty (wf : Op S D Unit) (hwf : KeepsFaulty wf) (wr : WriteResult) :
    Preserves (fun c => c.faulty = true) (output wf wr) := by
  intro c hc
  by_cases hw : c.writing = true
  · cases wr with
    | finished =>
      simp only [output, Op.run_bind, Op.run_get, hw, if_true, Op.run_modify]
      have h := hwf { c with writing := false }
      rcases hr : wf { c with writing := false } with ⟨r, c1⟩
      rw [hr] at h
      cases r <;> simp_all [Op.run_modify]
    | error => simp [output, Op.run_bind, Op.run_get, hw, Op.run_modify]
    | pending => simpa [output, Op.run_bind, Op.run_get, hw, Op.run_pure] using hc
  · simpa [output, Op.run_bind, Op.run_get, hw, Op.run_throw] using hc

theorem begin_read_faulty (rf : BinaryReadBuffer → Op S D Unit) (hrf : ∀ s, KeepsFaulty (rf s))
    (reader : NBReader) (rd : ReadResult) :
    Preserves (fun c => c.faulty = true) (begin_read rf reader rd) := by
  intro c hc
  by_cases hg : (!c.writing && !c.reading) = true
  · simp only [begin_read, Op.run_bind, Op.run_get, hg, if_true, Op.run_modify]
    exact input_reading_faulty rf hrf rd _ hc
  · simp only [begin_read, Op.run_bind, Op.run_get, hg, Op.run_throw]
    exact hc

theorem begin_write_faulty (wf : Op S D Unit) (hwf : KeepsFaulty wf)
    (writer : NBWriter) (wr : WriteResult) :
    Preserves (fun c => c.faulty = true) (begin_write wf writer wr) := by
  intro c hc
  by_cases hg : (!c.writing && !c.reading) = true
  · simp only [begin_write, Op.run_bind, Op.run_get, hg, if_true, Op.run_modify]
    exact output_faulty wf hwf wr _ hc
  · simp only [begin_write, Op.run_bind, Op.run_get, hg, Op.run_throw]
    exact hc

theorem input_faulty (rf : BinaryReadBuffer → Op S D Unit) (hrf : ∀ s, KeepsFaulty (rf s))
    (pc : C → ReadResult → Op S D Unit)
    (hpc : ∀ b rd, Preserves (fun c => c.faulty = true) (pc b rd))
    (cmd : CommandResult C) (rd : ReadResult) :
    Preserves (fun c => c.faulty = true) (input rf pc cmd rd) := by
  intro c hc
  by_cases hr : c.reading = true
  · rw [input_while_reading rf pc cmd rd c hr]
    exact input_reading_faulty rf hrf rd c hc
  · have hr2 : c.reading = false := by simpa using hr
    cases cmd with
    | byte b =>
      rw [input_command rf pc b rd c hr2]
      have h := hpc b rd c hc
      rcases hm : pc b rd c with ⟨r, c1⟩
      rw [hm] at h
      cases r with
      | ok a => exact h
      | error e => rfl
    | closed => rw [input_no_command rf pc _ rd c hr2 (by simp)]
    | threw e => rw [input_no_command rf pc _ rd c hr2 (by simp)]

end BaseConnection

namespace ClientConnection

theorem read_finished_keepsFaulty_client (stream : BinaryReadBuffer) :
    KeepsFaulty (read_finished stream) := by
  intro c
  obtain ⟨id, w, r, f, rdr, wtr, st, d⟩ := c
  cases st <;> simp [read_finished, Op.run_bind, Op.run_get, Op.run_modify, Op.run_throw]

theorem write_finished_keepsFaulty_client : KeepsFaulty write_finished := by
  intro c
  obtain ⟨id, w, r, f, rdr, wtr, st, d⟩ := c
  cases st <;> simp [write_finished, reset, Op.run_bind, Op.run_get, Op.run_modify, Op.run_throw]

theorem process_command_faulty_client (cmd : ClientCommand) (rd : ReadResult) :
    Preserves (fun c => c.faulty = true) (process_command cmd rd) := by
  intro c hc
  by_cases hs : c.state = ClientState.IDLE
  · cases cmd with
    | CMD_GET_RASTER =>
      simp only [process_command, Op.run_bind, Op.run_get, hs, ne_eq, not_true_eq_false,
        if_false, Op.run_modify]
      exact BaseConnection.begin_read_faulty read_finished read_finished_keepsFaulty_client _ rd _ hc
    | unknown b =>
      simpa [process_command, Op.run_bind, Op.run_get, hs, Op.run_throw] using hc
  · simpa [process_command, Op.run_bind, Op.run_get, hs, Op.run_throw] using hc

theorem send_response_faulty_client (response : DeliveryResponse) (wr : WriteResult) :
    Preserves (fun c => c.faulty = true) (send_response response wr) := by
  intro c hc
  by_cases hs : c.state = ClientState.AWAIT_RESPONSE
  · simp only [send_response, Op.run_bind, Op.run_get, hs, if_true, Op.run_modify]
    exact BaseConnection.begin_write_faulty write_finished write_finished_keepsFaulty_client _ wr _ hc
  · simpa [send_response, Op.run_bind, Op.run_get, hs, Op.run_throw] using hc

theorem send_error_faulty_client (message : List Byte) (wr : WriteResult) :
    Preserves (fun c => c.faulty = true) (send_error message wr) := by
  intro c hc
  by_cases hs : c.state = ClientState.AWAIT_RESPONSE
  · simp only [send_error, Op.run_bind, Op.run_get, hs, if_true, Op.run_modify]
    exact BaseConnection.begin_write_faulty write_finished write_finished_keepsFaulty_client _ wr _ hc
  · simpa [send_error, Op.run_bind, Op.run_get, hs, Op.run_throw] using hc

theorem call_faulty_client (call : Call) : Preserves (fun c => c.faulty = true) call.op := by
  cases call with
  | input cmd rd =>
    exact BaseConnection.input_faulty _ read_finished_keepsFaulty_client _ process_command_faulty_client cmd rd
  | output wr => exact BaseConnection.output_faulty _ write_finished_keepsFaulty_client wr
  | begin_read reader rd =>
    exact BaseConnection.begin_read_faulty _ read_finished_keepsFaulty_client reader rd
  | begin_write writer wr =>
    exact BaseConnection.begin_write_faulty _ write_finished_keepsFaulty_client writer wr
  | send_response response wr => exact send_response_faulty_client response wr
  | send_error message wr => exact send_error_faulty_client message wr

end ClientConnection

namespace WorkerConnection

theorem read_finished_keepsFaulty_worker (stream : BinaryReadBuffer) :
    KeepsFaulty (read_finished stream) := by
  intro c
  obtain ⟨id, w, r, f, rdr, wtr, st, d⟩ := c
  cases st
  case READING_DELIVERY_ID =>
    simp only [read_finished, Op.run_bind, Op.run_get]
    rcases readStream_run (readUInt 8) stream
      (⟨id, w, r, f, rdr, wtr, WorkerState.READING_DELIVERY_ID, d⟩ : WorkerConnection)
      with ⟨x, hx⟩ | ⟨e, he⟩
    · rw [hx]; simp [Op.run_modify]
    · rw [he]
  case READING_ERROR =>
    simp only [read_finished, Op.run_bind, Op.run_get]
    rcases readStream_run readString stream
      (⟨id, w, r, f, rdr, wtr, WorkerState.READING_ERROR, d⟩ : WorkerConnection)
      with ⟨x, hx⟩ | ⟨e, he⟩
    · rw [hx]; simp [Op.run_modify]
    · rw [he]
  all_goals simp [read_finished, Op.run_bind, Op.run_get, Op.run_modify, Op.run_throw]

theorem write_finished_keepsFaulty_worker : KeepsFaulty write_finished := by
  intro c
  obtain ⟨id, w, r, f, rdr, wtr, st, d⟩ := c
  cases st <;> simp [write_finished, Op.run_bind, Op.run_get, Op.run_modify, Op.run_throw]

theorem process_command_faulty_worker (cmd : WorkerCommand) (rd : ReadResult) :
    Preserves (fun c => c.faulty = true) (process_command cmd rd) := by
  intro c hc
  by_cases hs : c.state ≠ WorkerState.PROCESSING ∧ c.state ≠ WorkerState.WAITING_DELIVERY
  · simpa [process_command, Op.run_bind, Op.run_get, hs, Op.run_throw] using hc
  · cases cmd <;>
      simp only [process_command, Op.run_bind, Op.run_get, hs, if_false, Op.run_modify,
        Op.run_throw] <;>
      first
      | exact hc
      | exact BaseConnection.begin_read_faulty read_finished read_finished_keepsFaulty_worker _ rd _ hc

theorem process_request_faulty_worker (command : Byte) (request : Streamed) (wr : WriteResult) :
    Preserves (fun c => c.faulty = true) (process_request command request wr) := by
  intro c hc
  by_cases hs : c.state = WorkerState.IDLE
  · simp only [process_request, Op.run_bind, Op.run_get, hs, if_true, Op.run_modify]
    exact BaseConnection.begin_write_faulty write_finished write_finished_keepsFaulty_worker _ wr _ hc
  · simpa [process_request, Op.run_bind, Op.run_get, hs, Op.run_throw] using hc

theorem raster_cached_faulty_worker :
    Preserves (fun c => c.faulty = true) raster_cached := by
  intro c hc
  by_cases hs : c.state = WorkerState.NEW_RASTER_ENTRY
  · simpa [raster_cached, Op.run_bind, Op.run_get, hs, Op.run_modify]
      using hc
  · simpa [raster_cached, Op.run_bind, Op.run_get, hs, Op.run_throw] using hc

theorem send_hit_faulty_worker (cr : Streamed) (wr : WriteResult) :
    Preserves (fun c => c.faulty = true) (send_hit cr wr) := by
  intro c hc
  by_cases hs : c.state = WorkerState.RASTER_QUERY_REQUESTED
  · simp only [send_hit, Op.run_bind, Op.run_get, hs, if_true, Op.run_modify]
    exact BaseConnection.begin_write_faulty write_finished write_finished_keepsFaulty_worker _ wr _ hc
  · simpa [send_hit, Op.run_bind, Op.run_get, hs, Op.run_throw] using hc

theorem send_partial_hit_faulty_worker (pr : Streamed) (wr : WriteResult) :
    Preserves (fun c => c.faulty = true) (send_partial_hit pr wr) := by
  intro c hc
  by_cases hs : c.state = WorkerState.RASTER_QUERY_REQUESTED
  · simp only [send_partial_hit, Op.run_bind, Op.run_get, hs, if_true, Op.run_modify]
    exact BaseConnection.begin_write_faulty write_finished write_finished_keepsFaulty_worker _ wr _ hc
  · simpa [send_partial_hit, Op.run_bind, Op.run_get, hs, Op.run_throw] using hc

theorem send_miss_faulty_worker (wr : WriteResult) :
    Preserves (fun c => c.faulty = true) (send_miss wr) := by
  intro c hc
  by_cases hs : c.state = WorkerState.RASTER_QUERY_REQUESTED
  · simp only [send_miss, Op.run_bind, Op.run_get, hs, if_true, Op.run_modify]
    exact BaseConnection.begin_write_faulty write_finished write_finished_keepsFaulty_worker _ wr _ hc
  · simpa [send_miss, Op.run_bind, Op.run_get, hs, Op.run_throw] using hc

theorem send_delivery_qty_faulty_worker (qty : Nat) (wr : WriteResult) :
    Preserves (fun c => c.faulty = true) (send_delivery_qty qty wr) := by
  intro c hc
  by_cases hs : c.state = WorkerState.DONE
  · simp only [send_delivery_qty, Op.run_bind, Op.run_get, hs, if_true, Op.run_modify]
    exact BaseConnection.begin_write_faulty write_finished write_finished_keepsFaulty_worker _ wr _ hc
  · simpa [send_delivery_qty, Op.run_bind, Op.run_get, hs, Op.run_throw] using hc

theorem release_faulty_worker :
    Preserves (fun c => c.faulty = true) release := by
  intro c hc
  by_cases hs : c.state = WorkerState.DELIVERY_READY ∨ c.state = WorkerState.ERROR
  · simpa [release, reset, Op.run_bind, Op.run_get, hs, Op.run_modify]
      using hc
  · simpa [release, Op.run_bind, Op.run_get, hs, Op.run_throw] using hc

theorem call_faulty_worker (call : Call) : Preserves (fun c => c.faulty = true) call.op := by
  cases call with
  | input cmd rd =>
    exact BaseConnection.input_faulty _ read_finished_keepsFaulty_worker _ process_command_faulty_worker cmd rd
  | output wr => exact BaseConnection.output_faulty _ write_finished_keepsFaulty_worker wr
  | begin_read reader rd =>
    exact BaseConnection.begin_read_faulty _ read_finished_keepsFaulty_worker reader rd
  | begin_write writer wr =>
    exact BaseConnection.begin_write_faulty _ write_finished_keepsFaulty_worker writer wr
  | process_request command request wr => exact process_request_faulty_worker command request wr
  | raster_cached => exact raster_cached_faulty_worker
  | send_hit cr wr => exact send_hit_faulty_worker cr wr
  | send_partial_hit pr wr => exact send_partial_hit_faulty_worker pr wr
  | send_miss wr => exact send_miss_faulty_worker wr
  | send_delivery_qty qty wr => exact send_delivery_qty_faulty_worker qty wr
  | release => exact release_faulty_worker

end WorkerConnection

namespace ControlConnection

theorem read_finished_keepsFaulty_control (stream : BinaryReadBuffer) :
    KeepsFaulty (read_finished stream) := by
  intro c
  obtain ⟨id, w, r, f, rdr, wtr, st, d⟩ := c
  cases st
  all_goals simp [read_finished, Op.run_bind, Op.run_get, Op.run_modify, Op.run_throw]

theorem write_finished_keepsFaulty_control : KeepsFaulty write_finished := by
  intro c
  obtain ⟨id, w, r, f, rdr, wtr, st, d⟩ := c
  cases st <;> simp [write_finished, Op.run_bind, Op.run_get, Op.run_modify, Op.run_throw]

theorem process_command_faulty_control (cmd : ControlCommand) (rd : ReadResult) :
    Preserves (fun c => c.faulty = true) (process_command cmd rd) := by
  intro c hc
  by_cases hs : c.state ≠ ControlState.IDLE ∧ c.state ≠ ControlState.REORGANIZING ∧
      c.state ≠ ControlState.STATS_REQUESTED
  · simpa [process_command, Op.run_bind, Op.run_get, hs, Op.run_throw] using hc
  · cases cmd <;>
      simp only [process_command, Op.run_bind, Op.run_get, hs, if_false, Op.run_modify,
        Op.run_throw] <;>
      first
      | exact hc
      | exact BaseConnection.begin_read_faulty read_finished read_finished_keepsFaulty_control _ rd _ hc

theorem send_reorg_faulty_control (desc : Streamed) (wr : WriteResult) :
    Preserves (fun c => c.faulty = true) (send_reorg desc wr) := by
  intro c hc
  by_cases hs : c.state = ControlState.IDLE
  · simp only [send_reorg, Op.run_bind, Op.run_get, hs, if_true, Op.run_modify]
    exact BaseConnection.begin_write_faulty write_finished write_finished_keepsFaulty_control _ wr _ hc
  · simpa [send_reorg, Op.run_bind, Op.run_get, hs, Op.run_throw] using hc

theorem confirm_reorg_faulty_control (wr : WriteResult) :
    Preserves (fun c => c.faulty = true) (confirm_reorg wr) := by
  intro c hc
  by_cases hs : c.state = ControlState.REORG_RESULT_READ
  · simp only [confirm_reorg, Op.run_bind, Op.run_get, hs, if_true, Op.run_modify]
    exact BaseConnection.begin_write_faulty write_finished write_finished_keepsFaulty_control _ wr _ hc
  · simpa [confirm_reorg, Op.run_bind, Op.run_get, hs, Op.run_throw] using hc

theorem send_get_stats_faulty_control (wr : WriteResult) :
    Preserves (fun c => c.faulty = true) (send_get_stats wr) := by
  intro c hc
  by_cases hs : c.state = ControlState.IDLE
  · simp only [send_get_stats, Op.run_bind, Op.run_get, hs, if_true, Op.run_modify]
    exact BaseConnection.begin_write_faulty write_finished write_finished_keepsFaulty_control _ wr _ hc
  · simpa [send_get_stats, Op.run_bind, Op.run_get, hs, Op.run_throw] using hc

theorem release_faulty_control :
    Preserves (fun c => c.faulty = true) release := by
  intro c hc
  by_cases hs : c.state = ControlState.REORG_FINISHED ∨ c.state = ControlState.STATS_RECEIVED
  · simpa [release, reset, Op.run_bind, Op.run_get, hs, Op.run_modify]
      using hc
  · simpa [release, Op.run_bind, Op.run_get, hs, Op.run_throw] using hc

theorem call_faulty_control (call : Call) : Preserves (fun c => c.faulty = true) call.op := by
  cases call with
  | input cmd rd =>
    exact BaseConnection.input_faulty _ read_finished_keepsFaulty_control _ process_command_faulty_control cmd rd
  | output wr => exact BaseConnection.output_faulty _ write_finished_keepsFaulty_control wr
  | begin_read reader rd =>
    exact BaseConnection.begin_read_faulty _ read_finished_keepsFaulty_control reader rd
  | begin_write writer wr =>
    exact BaseConnection.begin_write_faulty _ write_finished_keepsFaulty_control writer wr
  | send_reorg desc wr => exact send_reorg_faulty_control desc wr
  | confirm_reorg wr => exact confirm_reorg_faulty_control wr
  | send_get_stats wr => exact send_get_stats_faulty_control wr
  | release => exact release_faulty_control

end ControlConnection

namespace DeliveryConnection

theorem read_finished_keepsFaulty_delivery (stream : BinaryReadBuffer) :
    KeepsFaulty (read_finished stream) := by
  intro c
  obtain ⟨id, w, r, f, rdr, wtr, st, d⟩ := c
  cases st
  case READING_DELIVERY_REQUEST =>
    simp only [read_finished, Op.run_bind, Op.run_get]
    rcases readStream_run (readUInt 8) stream
      (⟨id, w, r, f, rdr, wtr, DeliveryState.READING_DELIVERY_REQUEST, d⟩ : DeliveryConnection)
      with ⟨x, hx⟩ | ⟨e, he⟩
    · rw [hx]; simp [Op.run_modify]
    · rw [he]
  all_goals simp [read_finished, Op.run_bind, Op.run_get, Op.run_modify, Op.run_throw]

theorem write_finished_keepsFaulty_delivery : KeepsFaulty write_finished := by
  intro c
  obtain ⟨id, w, r, f, rdr, wtr, st, d⟩ := c
  cases st <;> simp [write_finished, Op.run_bind, Op.run_get, Op.run_modify, Op.run_throw]

theorem process_command_faulty_delivery (cmd : DeliveryCommand) (rd : ReadResult) :
    Preserves (fun c => c.faulty = true) (process_command cmd rd) := by
  intro c hc
  by_cases hs : c.state ≠ DeliveryState.IDLE ∧ c.state ≠ DeliveryState.AWAITING_MOVE_CONFIRM
  · simpa [process_command, Op.run_bind, Op.run_get, hs, Op.run_throw] using hc
  · cases cmd <;>
      simp only [process_command, Op.run_bind, Op.run_get, hs, if_false, Op.run_modify,
        Op.run_throw] <;>
      first
      | exact hc
      | exact BaseConnection.begin_read_faulty read_finished read_finished_keepsFaulty_delivery _ rd _ hc

theorem send_raster_faulty_delivery (raster : Streamed) (wr : WriteResult) :
    Preserves (fun c => c.faulty = true) (send_raster raster wr) := by
  intro c hc
  by_cases hs : c.state = DeliveryState.RASTER_CACHE_REQUEST_READ ∨
      c.state = DeliveryState.DELIVERY_REQUEST_READ
  · simp only [send_raster, Op.run_bind, Op.run_get, hs, if_true, Op.run_modify]
    exact BaseConnection.begin_write_faulty write_finished write_finished_keepsFaulty_delivery _ wr _ hc
  · simpa [send_raster, Op.run_bind, Op.run_get, hs, Op.run_throw] using hc

theorem send_error_faulty_delivery (msg : List Byte) (wr : WriteResult) :
    Preserves (fun c => c.faulty = true) (send_error msg wr) := by
  intro c hc
  by_cases hs : c.state = DeliveryState.RASTER_CACHE_REQUEST_READ ∨
      c.state = DeliveryState.DELIVERY_REQUEST_READ ∨
      c.state = DeliveryState.RASTER_MOVE_REQUEST_READ ∨
      c.state = DeliveryState.SENDING_RASTER ∨
      c.state = DeliveryState.SENDING_RASTER_MOVE
  · simp only [send_error, Op.run_bind, Op.run_get, hs, if_true, Op.run_modify]
    exact BaseConnection.begin_write_faulty write_finished write_finished_keepsFaulty_delivery _ wr _ hc
  · simpa [send_error, Op.run_bind, Op.run_get, hs, Op.run_throw] using hc

theorem send_raster_move_faulty_delivery (raster : Streamed) (wr : WriteResult) :
    Preserves (fun c => c.faulty = true) (send_raster_move raster wr) := by
  intro c hc
  by_cases hs : c.state = DeliveryState.RASTER_MOVE_REQUEST_READ
  · simp only [send_raster_move, Op.run_bind, Op.run_get, hs, if_true, Op.run_modify]
    exact BaseConnection.begin_write_faulty write_finished write_finished_keepsFaulty_delivery _ wr _ hc
  · simpa [send_raster_move, Op.run_bind, Op.run_get, hs, Op.run_throw] using hc

theorem release_faulty_delivery :
    Preserves (fun c => c.faulty = true) release := by
  intro c hc
  by_cases hs : c.state = DeliveryState.MOVE_DONE
  · simpa [release, Op.run_bind, Op.run_get, hs, Op.run_modify]
      using hc
  · simpa [release, Op.run_bind, Op.run_get, hs, Op.run_throw] using hc

theorem call_faulty_delivery (call : Call) : Preserves (fun c => c.faulty = true) call.op := by
  cases call with
  | input cmd rd =>
    exact BaseConnection.input_faulty _ read_finished_keepsFaulty_delivery _ process_command_faulty_delivery cmd rd
  | output wr => exact BaseConnection.output_faulty _ write_finished_keepsFaulty_delivery wr
  | begin_read reader rd =>
    exact BaseConnection.begin_read_faulty _ read_finished_keepsFaulty_delivery reader rd
  | begin_write writer wr =>
    exact BaseConnection.begin_write_faulty _ write_finished_keepsFaulty_delivery writer wr
  | send_raster raster wr => exact send_raster_faulty_delivery raster wr
  | send_error msg wr => exact send_error_faulty_delivery msg wr
  | send_raster_move raster wr => exact send_raster_move_faulty_delivery raster wr
  | release => exact release_faulty_delivery

end DeliveryConnection

/-- C23: on every connection kind a reader error in `input()` (while a read is
in progress) sets `faulty` and clears `reading`, a writer error in `output()`
(while a write is in progress) sets `faulty` and clears `writing`; and for every
sequence of calls of public operations on a client, worker, control or delivery
connection, whatever their outcomes, a connection that is faulty stays faulty. -/
theorem faulty_is_terminal :
    (∀ (S D C : Type) (rf : BinaryReadBuffer → Op S D Unit)
        (pc : C → ReadResult → Op S D Unit) (cmd : CommandResult C) (c : Connection S D),
      c.reading = true →
        BaseConnection.input rf pc cmd ReadResult.error c
          = (Except.ok (), { c with reading := false, faulty := true, reader := none })) ∧
    (∀ (S D : Type) (wf : Op S D Unit) (c : Connection S D),
      c.writing = true →
        BaseConnection.output wf WriteResult.error c
          = (Except.ok (), { c with writing := false, faulty := true, writer := none })) ∧
    (∀ (calls : List ClientConnection.Call) (c : ClientConnection), c.faulty = true →
      (runCalls ClientConnection.Call.op calls c).faulty = true) ∧
    (∀ (calls : List WorkerConnection.Call) (c : WorkerConnection), c.faulty = true →
      (runCalls WorkerConnection.Call.op calls c).faulty = true) ∧
    (∀ (calls : List ControlConnection.Call) (c : ControlConnection), c.faulty = true →
      (runCalls ControlConnection.Call.op calls c).faulty = true) ∧
    (∀ (calls : List DeliveryConnection.Call) (c : DeliveryConnection), c.faulty = true →
      (runCalls DeliveryConnection.Call.op calls c).faulty = true) := by
  refine ⟨?_, ?_, ?_, ?_, ?_, ?_⟩
  · intro S D C rf pc cmd c hr
    rw [input_while_reading rf pc cmd _ c hr]
    simp [BaseConnection.input_reading, Op.run_bind, Op.run_modify]
  · intro S D wf c hw
    simp [BaseConnection.output, Op.run_bind, Op.run_get, hw, Op.run_modify]
  · intro calls c hc
    exact runCalls_preserves _ _ ClientConnection.call_faulty_client calls c hc
  · intro calls c hc
    exact runCalls_preserves _ _ WorkerConnection.call_faulty_worker calls c hc
  · intro calls c hc
    exact runCalls_preserves _ _ ControlConnection.call_faulty_control calls c hc
  · intro calls c hc
    exact runCalls_preserves _ _ DeliveryConnection.call_faulty_delivery calls c hc

/-- Witness for C23: the client connection `readingClient`, whose read fails;
afterwards `send_error` and a further command byte leave it faulty. -/
theorem faulty_is_terminal_witness :
    readingClient.reading = true ∧
      ClientConnection.input CommandResult.closed ReadResult.error readingClient
        = (Except.ok (), { readingClient with
            reading := false, faulty := true, reader := none }) ∧
      (runCalls ClientConnection.Call.op
        [ClientConnection.Call.input CommandResult.closed ReadResult.error,
          ClientConnection.Call.send_error [] WriteResult.finished,
          ClientConnection.Call.input (CommandResult.byte ClientCommand.CMD_GET_RASTER)
            ReadResult.pending]
        readingClient).faulty = true :=
  ⟨rfl, faulty_is_terminal.1 _ _ _ _ _ CommandResult.closed readingClient rfl,
    faulty_is_terminal.2.2.1
      [ClientConnection.Call.send_error [] WriteResult.finished,
        ClientConnection.Call.input (CommandResult.byte ClientCommand.CMD_GET_RASTER)
          ReadResult.pending]
      (ClientConnection.input CommandResult.closed ReadResult.error readingClient).2 rfl⟩

namespace ClientConnection

/-- C28: a ClientConnection in state IDLE with no transfer pending that
receives CMD_GET_RASTER is in READING_REQUEST while the read of the request is
incomplete and in AWAIT_RESPONSE once it completed; there `get_request_type()`
returns RASTER and `get_request()` the request that was read. After
`send_response` or `send_error` it is in WRITING_RESPONSE while the write is
incomplete and in IDLE once it completed, with the request cleared, the request
type NONE and no transfer pending; no call of the cycle throws. -/
theorem client_request_cycle (c0 : ClientConnection) (hs : c0.state = ClientState.IDLE)
    (hr : c0.reading = false) (hw : c0.writing = false)
    (cmdAny : CommandResult ClientCommand) (stream : BinaryReadBuffer)
    (response : DeliveryResponse) (message : List Byte) (n1 n2 : Nat) :
    (traceCalls Call.op (requestCalls cmdAny stream n1) c0).map (fun x => (x.1, x.2.state))
        = List.replicate n1 (Except.ok (), ClientState.READING_REQUEST)
          ++ [(Except.ok (), ClientState.AWAIT_RESPONSE)] ∧
      get_request_type (runCalls Call.op (requestCalls cmdAny stream n1) c0)
        = Except.ok RequestType.RASTER ∧
      get_request (runCalls Call.op (requestCalls cmdAny stream n1) c0)
        = Except.ok (some ⟨stream⟩) ∧
      (∀ act : WriteResult → Call,
        act = Call.send_response response ∨ act = Call.send_error message →
        (traceCalls Call.op (answerCalls act n2)
            (runCalls Call.op (requestCalls cmdAny stream n1) c0)).map
            (fun x => (x.1, x.2.state))
          = List.replicate n2 (Except.ok (), ClientState.WRITING_RESPONSE)
            ++ [(Except.ok (), ClientState.IDLE)] ∧
        runCalls Call.op (requestCalls cmdAny stream n1 ++ answerCalls act n2) c0
          = { c0 with reader := none, writer := none,
                      data := { request_type := RequestType.NONE, request := none } }) := by
  obtain ⟨id, w, r, f, rdr, wtr, st, dat⟩ := c0
  simp only at hs hr hw
  subst hs hr hw
  have p1 := readPhase Call.op
    (fun rd => Call.input (CommandResult.byte ClientCommand.CMD_GET_RASTER) rd)
    (Call.input cmdAny) stream
    (⟨id, false, false, f, rdr, wtr, ClientState.IDLE, dat⟩ : ClientConnection)
    ⟨id, false, true, f, some NBReader.NBBaseRequestReader, wtr, ClientState.READING_REQUEST,
      { dat with request_type := RequestType.RASTER }⟩
    ⟨id, false, false, f, none, wtr, ClientState.AWAIT_RESPONSE,
      { request_type := RequestType.RASTER, request := some ⟨stream⟩ }⟩
    (by simp [Call.op, input, input_command, process_command, BaseConnection.begin_read,
      BaseConnection.input_reading, read_finished, Op.run_bind, Op.run_get,
      Op.run_modify, Op.run_pure])
    (by simp [Call.op, input, input_command, process_command, BaseConnection.begin_read,
      BaseConnection.input_reading, read_finished, Op.run_bind, Op.run_get,
      Op.run_modify, Op.run_pure])
    (by simp [Call.op, input, input_while_reading,
      BaseConnection.input_reading, read_finished, Op.run_bind, Op.run_get,
      Op.run_modify, Op.run_pure])
    (by simp [Call.op, input, input_while_reading,
      BaseConnection.input_reading, read_finished, Op.run_bind, Op.run_get,
      Op.run_modify, Op.run_pure])
    n1
  have htrace : traceCalls Call.op (requestCalls cmdAny stream n1)
      (⟨id, false, false, f, rdr, wtr, ClientState.IDLE, dat⟩ : ClientConnection) = _ := p1.1
  have hrun : runCalls Call.op (requestCalls cmdAny stream n1)
      (⟨id, false, false, f, rdr, wtr, ClientState.IDLE, dat⟩ : ClientConnection) = _ := p1.2
  rw [htrace, hrun]
  refine ⟨by simp [List.map_append, List.map_replicate], by simp [get_request_type],
    by simp [get_request], ?_⟩
  intro act hact
  have p2 : ∀ w0 : NBWriter,
      (∀ wr, Call.op (act wr)
          (⟨id, false, false, f, none, wtr, ClientState.AWAIT_RESPONSE,
            { request_type := RequestType.RASTER, request := some ⟨stream⟩ }⟩ : ClientConnection)
        = BaseConnection.begin_write write_finished w0 wr
          ⟨id, false, false, f, none, wtr, ClientState.WRITING_RESPONSE,
            { request_type := RequestType.RASTER, request := some ⟨stream⟩ }⟩) →
      traceCalls Call.op (answerCalls act n2)
          (⟨id, false, false, f, none, wtr, ClientState.AWAIT_RESPONSE,
            { request_type := RequestType.RASTER, request := some ⟨stream⟩ }⟩ : ClientConnection)
        = List.replicate n2 (Except.ok (), (⟨id, true, false, f, none, some w0,
            ClientState.WRITING_RESPONSE,
            { request_type := RequestType.RASTER, request := some ⟨stream⟩ }⟩ : ClientConnection))
          ++ [(Except.ok (), ⟨id, false, false, f, none, none, ClientState.IDLE,
            { request_type := RequestType.NONE, request := none }⟩)] ∧
      runCalls Call.op (answerCalls act n2)
          (⟨id, false, false, f, none, wtr, ClientState.AWAIT_RESPONSE,
            { request_type := RequestType.RASTER, request := some ⟨stream⟩ }⟩ : ClientConnection)
        = ⟨id, false, false, f, none, none, ClientState.IDLE,
            { request_type := RequestType.NONE, request := none }⟩ := by
    intro w0 hact2
    exact writePhase Call.op act Call.output _ _ _
      (by rw [hact2]; simp [BaseConnection.begin_write, BaseConnection.output, write_finished,
        reset, Op.run_bind, Op.run_get, Op.run_modify, Op.run_pure])
      (by rw [hact2]; simp [BaseConnection.begin_write, BaseConnection.output, write_finished,
        reset, Op.run_bind, Op.run_get, Op.run_modify, Op.run_pure])
      (by simp [Call.op, output, BaseConnection.output, write_finished, reset, Op.run_bind,
        Op.run_get, Op.run_modify, Op.run_pure])
      (by simp [Call.op, output, BaseConnection.output, write_finished, reset, Op.run_bind,
        Op.run_get, Op.run_modify, Op.run_pure])
      n2
  rw [runCalls_append, hrun]
  rcases hact with h | h <;> subst h
  · have q := p2 (NBWriter.NBMessageWriter WireCode.RESP_OK
        (NBWriter.NBStreamableWriterDeliveryResponse response)) (fun wr => by
      simp [Call.op, send_response, begin_write, Op.run_bind, Op.run_get, Op.run_modify])
    rw [q.1, q.2]
    simp [List.map_append, List.map_replicate]
  · have q := p2 (NBWriter.NBErrorWriter WireCode.RESP_ERROR message) (fun wr => by
      simp [Call.op, send_error, begin_write, Op.run_bind, Op.run_get, Op.run_modify])
    rw [q.1, q.2]
    simp [List.map_append, List.map_replicate]

end ClientConnection

namespace ClientConnection

/-- Witness for C28: a freshly constructed client connection, the request bytes
[1, 2], both transfers completing after one incomplete attempt. -/
theorem client_request_cycle_witness :
    (ClientConnection.construct 1).state = ClientState.IDLE ∧
      (ClientConnection.construct 1).reading = false ∧
      (ClientConnection.construct 1).writing = false ∧
      get_request (runCalls Call.op (requestCalls CommandResult.closed [1, 2] 1)
        (ClientConnection.construct 1)) = Except.ok (some ⟨[1, 2]⟩) :=
  ⟨rfl, rfl, rfl,
    (client_request_cycle (ClientConnection.construct 1) rfl rfl rfl CommandResult.closed [1, 2]
      ⟨[], 80, 42⟩ [] 1 1).2.2.1⟩

end ClientConnection

/-! ## Claims on running statistics and on the interval operations -/

theorem finishAll_append (s : SystemStats) (l1 l2 : List (Nat × Nat × Nat)) :
    s.finishAll (l1 ++ l2) = (s.finishAll l1).finishAll l2 := by
  simp [SystemStats.finishAll, List.foldl_append]

theorem finishAll_invariant (calls : List (Nat × Nat × Nat)) (hk : calls.length < 2 ^ 32)
    (ht : ∀ t ∈ calls, t.1 ≤ t.2.1 ∧ t.2.1 ≤ t.2.2 ∧ t.2.2 < 2 ^ 64) :
    (SystemStats.default.finishAll calls).query_counter = calls.length ∧
      (SystemStats.default.finishAll calls).avg_exec_time * (calls.length : ℚ)
        = (calls.map (fun t => (t.2.2 : ℚ) - (t.2.1 : ℚ))).sum ∧
      (SystemStats.default.finishAll calls).avg_wait_time * (calls.length : ℚ)
        = (calls.map (fun t => (t.2.1 : ℚ) - (t.1 : ℚ))).sum ∧
      (SystemStats.default.finishAll calls).avg_time
        = (SystemStats.default.finishAll calls).avg_exec_time
          + (SystemStats.default.finishAll calls).avg_wait_time := by
  induction calls using List.reverseRecOn with
  | nil => simp [SystemStats.finishAll, SystemStats.default]
  | append_singleton l t ih =>
    have hl : l.length + 1 < 2 ^ 32 := by simpa using hk
    obtain ⟨i1, i2, i3, _⟩ := ih (by omega) (fun x hx => ht x (by simp [hx]))
    obtain ⟨h1, h2, h3⟩ := ht t (by simp)
    have e1 := sizeSub_of_le t.2.2 t.2.1 h3 h2
    have e2 := sizeSub_of_le t.2.1 t.1 (lt_of_le_of_lt h2 h3) h1
    have hmod : (l.length + 1) % 2 ^ 32 = l.length + 1 := Nat.mod_eq_of_lt hl
    have hne : ((l.length : ℚ) + 1) ≠ 0 := by positivity
    have hstep : ∀ s : SystemStats, s.finishAll [t] = s.query_finished 1 t.1 t.2.1 t.2.2 :=
      fun s => rfl
    rw [finishAll_append, hstep]
    generalize SystemStats.default.finishAll l = s at i1 i2 i3 ⊢
    simp only [SystemStats.query_finished, List.length_append, List.length_singleton,
      List.map_append, List.map_cons, List.map_nil, List.sum_append, List.sum_cons, List.sum_nil,
      add_zero]
    rw [i1, hmod, e1, e2]
    push_cast
    refine ⟨rfl, ?_, ?_, trivial⟩
    · rw [div_mul_cancel₀ _ hne, i2]
    · rw [div_mul_cancel₀ _ hne, i3]

theorem finishAll_replicate_counter (t : Nat × Nat × Nat) (n : Nat) (s : SystemStats)
    (hs : s.query_counter < 2 ^ 32) :
    (s.finishAll (List.replicate n t)).query_counter = (s.query_counter + n) % 2 ^ 32 := by
  induction n generalizing s with
  | zero => exact (Nat.mod_eq_of_lt hs).symm
  | succ n ih =>
    have h : s.finishAll (List.replicate (n + 1) t)
        = (s.query_finished 1 t.1 t.2.1 t.2.2).finishAll (List.replicate n t) := rfl
    have hc : (s.query_finished 1 t.1 t.2.1 t.2.2).query_counter
        = (s.query_counter + 1) % 2 ^ 32 := rfl
    rw [h, ih _ (by rw [hc]; exact Nat.mod_lt _ (by norm_num)), hc]
    omega

/-- C26 (as stated, refuted): after `2^32` calls `query_finished(1, 0, 0, 0)` on
a fresh SystemStats (so `k = 2^32 >= 1`, every timestamp triple ordered) the
32-bit member `query_counter` is 0 and not `k`. -/
theorem query_finished_running_mean_counterexample :
    1 ≤ (List.replicate (2 ^ 32) ((0, 0, 0) : Nat × Nat × Nat)).length ∧
      (∀ t ∈ List.replicate (2 ^ 32) ((0, 0, 0) : Nat × Nat × Nat), t.1 ≤ t.2.1 ∧ t.2.1 ≤ t.2.2) ∧
      (SystemStats.default.finishAll (List.replicate (2 ^ 32) (0, 0, 0))).query_counter = 0 ∧
      (SystemStats.default.finishAll (List.replicate (2 ^ 32) (0, 0, 0))).query_counter
        ≠ (List.replicate (2 ^ 32) ((0, 0, 0) : Nat × Nat × Nat)).length := by
  have h := finishAll_replicate_counter (0, 0, 0) (2 ^ 32) SystemStats.default
    (by simp [SystemStats.default])
  have h0 : (SystemStats.default.finishAll (List.replicate (2 ^ 32) (0, 0, 0))).query_counter
      = 0 := by
    rw [h]
    simp [SystemStats.default]
  refine ⟨?_, ?_, h0, ?_⟩
  · rw [List.length_replicate]
    norm_num
  · intro t ht
    rw [List.eq_of_mem_replicate ht]
    exact ⟨le_refl _, le_refl _⟩
  · rw [h0, List.length_replicate]
    norm_num

/-- C26 (amended): starting from a freshly constructed SystemStats, after `k`
calls of `query_finished` with `num_clients = 1`, where `1 <= k < 2^32` (the
32-bit counter has not wrapped) and every call has
`created <= scheduled <= finished`, `avg_exec_time` is the arithmetic mean of
the `k` values `finished - scheduled`, `avg_wait_time` the arithmetic mean of the
`k` values `scheduled - created`, `avg_time` their sum and `query_counter`
equals `k` (doubles taken as exact rationals). -/
theorem query_finished_running_mean (calls : List (Nat × Nat × Nat))
    (hk1 : 1 ≤ calls.length) (hk : calls.length < 2 ^ 32)
    (ht : ∀ t ∈ calls, t.1 ≤ t.2.1 ∧ t.2.1 ≤ t.2.2 ∧ t.2.2 < 2 ^ 64) :
    (SystemStats.default.finishAll calls).avg_exec_time
        = (calls.map (fun t => (t.2.2 : ℚ) - (t.2.1 : ℚ))).sum / (calls.length : ℚ) ∧
      (SystemStats.default.finishAll calls).avg_wait_time
        = (calls.map (fun t => (t.2.1 : ℚ) - (t.1 : ℚ))).sum / (calls.length : ℚ) ∧
      (SystemStats.default.finishAll calls).avg_time
        = (SystemStats.default.finishAll calls).avg_exec_time
          + (SystemStats.default.finishAll calls).avg_wait_time ∧
      (SystemStats.default.finishAll calls).query_counter = calls.length := by
  obtain ⟨i1, i2, i3, i4⟩ := finishAll_invariant calls hk ht
  have hne : (calls.length : ℚ) ≠ 0 := by
    have : (0 : ℚ) < (calls.length : ℚ) := by exact_mod_cast hk1
    exact ne_of_gt this
  refine ⟨?_, ?_, i4, i1⟩
  · rw [← i2, mul_div_cancel_right₀ _ hne]
  · rw [← i3, mul_div_cancel_right₀ _ hne]

/-- Witness for C26 (amended): the two calls (1, 3, 5) and (2, 2, 6). -/
theorem query_finished_running_mean_witness :
    1 ≤ [((1 : Nat), (3 : Nat), (5 : Nat)), (2, 2, 6)].length ∧
      [((1 : Nat), (3 : Nat), (5 : Nat)), (2, 2, 6)].length < 2 ^ 32 ∧
      (SystemStats.default.finishAll [(1, 3, 5), (2, 2, 6)]).avg_exec_time
        = ([((1 : Nat), (3 : Nat), (5 : Nat)), (2, 2, 6)].map
            (fun t => (t.2.2 : ℚ) - (t.2.1 : ℚ))).sum
          / ([((1 : Nat), (3 : Nat), (5 : Nat)), (2, 2, 6)].length : ℚ) :=
  ⟨by decide, by norm_num,
    (query_finished_running_mean [(1, 3, 5), (2, 2, 6)] (by decide) (by norm_num)
      (by
        intro t ht
        simp only [List.mem_cons, List.mem_singleton, List.not_mem_nil, or_false] at ht
        rcases ht with h | h <;> subst h <;> norm_num)).1⟩

namespace Interval

theorem contains_of_Within (x y : Interval) (h : y.Within x) : x.contains y = true := by
  have he : (0 : ℚ) < epsilon := by unfold epsilon; positivity
  obtain ⟨h1, h2⟩ := h
  simp only [contains, Bool.and_eq_true, decide_eq_true_eq]
  constructor <;> linarith

/-- C30: for intervals `i` and `j` with `a <= b`: `i.combine(j)` is well-formed,
contains `i` and `j` (by its bounds and by the method `contains`) and lies within
every interval that contains both; if `i.intersects(j)`, then `i.intersect(j)`
returns the interval from `max(i.a, j.a)` to `min(i.b, j.b)`, which is
well-formed, lies within `i` and `j` and contains every interval lying within
both; if `i` ends where `j` starts they intersect and the result is the
interval from that shared endpoint to itself (its lower bound equals its upper
bound); `combine`, `intersects` and `intersect` give the same result with the
arguments swapped. -/
theorem combine_intersect_bounds (i j : Interval) (hi : i.a ≤ i.b) (hj : j.a ≤ j.b) :
    ((i.combine j).a ≤ (i.combine j).b ∧
      i.Within (i.combine j) ∧ j.Within (i.combine j) ∧
      (i.combine j).contains i = true ∧ (i.combine j).contains j = true ∧
      (∀ k : Interval, i.Within k → j.Within k → (i.combine j).Within k) ∧
      (∀ k : Interval, k.contains i = true → k.contains j = true →
        k.contains (i.combine j) = true)) ∧
    (i.intersects j = true →
      i.intersect j = Except.ok ⟨max i.a j.a, min i.b j.b⟩ ∧
      max i.a j.a ≤ min i.b j.b ∧
      Interval.Within ⟨max i.a j.a, min i.b j.b⟩ i ∧
      Interval.Within ⟨max i.a j.a, min i.b j.b⟩ j ∧
      i.contains ⟨max i.a j.a, min i.b j.b⟩ = true ∧
      j.contains ⟨max i.a j.a, min i.b j.b⟩ = true ∧
      (∀ k : Interval, k.Within i → k.Within j →
        k.Within ⟨max i.a j.a, min i.b j.b⟩) ∧
      (∀ k : Interval, i.contains k = true → j.contains k = true →
        Interval.contains ⟨max i.a j.a, min i.b j.b⟩ k = true)) ∧
    (i.b = j.a →
      i.intersects j = true ∧ i.intersect j = Except.ok ⟨j.a, i.b⟩ ∧
      ∀ r, i.intersect j = Except.ok r → r.a = r.b) ∧
    (i.combine j = j.combine i ∧ i.intersects j = j.intersects i ∧
      i.intersect j = j.intersect i) := by
  have hint : i.intersects j = true ↔ i.a ≤ j.b ∧ j.a ≤ i.b := by
    simp only [intersects, Bool.not_eq_true', Bool.or_eq_false_iff, decide_eq_false_iff_not,
      not_lt]
  have hsymm : i.intersects j = j.intersects i := by
    simp only [intersects]
    rw [Bool.or_comm]
  refine ⟨⟨?_, ?_, ?_, ?_, ?_, ?_, ?_⟩, ?_, ?_, ?_, hsymm, ?_⟩
  · exact le_trans (min_le_left _ _) (le_trans hi (le_max_left _ _))
  · exact ⟨min_le_left _ _, le_max_left _ _⟩
  · exact ⟨min_le_right _ _, le_max_right _ _⟩
  · exact contains_of_Within _ _ ⟨min_le_left _ _, le_max_left _ _⟩
  · exact contains_of_Within _ _ ⟨min_le_right _ _, le_max_right _ _⟩
  · intro k h1 h2
    exact ⟨le_min h1.1 h2.1, max_le h1.2 h2.2⟩
  · intro k h1 h2
    simp only [contains, combine, Bool.and_eq_true, decide_eq_true_eq] at h1 h2 ⊢
    exact ⟨le_min h1.1 h2.1, max_le h1.2 h2.2⟩
  · intro h
    have h' := hint.mp h
    refine ⟨by simp [intersect, h], ?_, ?_, ?_, ?_, ?_, ?_, ?_⟩
    · exact max_le (le_min hi h'.1) (le_min h'.2 hj)
    · exact ⟨le_max_left _ _, min_le_left _ _⟩
    · exact ⟨le_max_right _ _, min_le_right _ _⟩
    · exact contains_of_Within _ _ ⟨le_max_left _ _, min_le_left _ _⟩
    · exact contains_of_Within _ _ ⟨le_max_right _ _, min_le_right _ _⟩
    · intro k h1 h2
      exact ⟨max_le h1.1 h2.1, le_min h1.2 h2.2⟩
    · intro k h1 h2
      simp only [contains, Bool.and_eq_true, decide_eq_true_eq] at h1 h2 ⊢
      constructor
      · rw [sub_le_iff_le_add]
        exact max_le (by linarith [h1.1]) (by linarith [h2.1])
      · rw [ge_iff_le, ← sub_le_iff_le_add]
        exact le_min (by linarith [h1.2]) (by linarith [h2.2])
  · intro h
    have hx : i.intersects j = true := hint.mpr ⟨by rw [← h] at hj; exact le_trans hi hj, by rw [h]⟩
    have hres : i.intersect j = Except.ok ⟨j.a, i.b⟩ := by
      simp only [intersect, hx, Bool.not_true, Bool.false_eq_true, if_false]
      rw [max_eq_right (by rw [← h]; exact hi), min_eq_left (by rw [h]; exact hj)]
    refine ⟨hx, hres, ?_⟩
    intro r hr
    rw [hres] at hr
    have e := Except.ok.inj hr
    rw [← e]
    exact h.symm
  · simp only [combine, min_comm, max_comm]
  · simp only [intersect, hsymm, min_comm, max_comm]

/-- Witness for C30: the intervals [0, 2] and [1, 3]. -/
theorem combine_intersect_bounds_witness :
    (0 : ℚ) ≤ 2 ∧ (1 : ℚ) ≤ 3 ∧
      Interval.intersect ⟨0, 2⟩ ⟨1, 3⟩
        = Except.ok ⟨max (0 : ℚ) 1, min (2 : ℚ) 3⟩ :=
  ⟨by norm_num, by norm_num,
    ((combine_intersect_bounds ⟨0, 2⟩ ⟨1, 3⟩ (by norm_num) (by norm_num)).2.1
      (by simp [intersects])).1⟩

end Interval

/-! ## Claims on PolygonCollection -/

namespace PolygonCollection

theorem offsets_append (o : Nat) (ls : List Nat) (l : Nat) :
    offsets o (ls ++ [l]) = offsets o ls ++ [o + ls.sum + l] := by
  induction ls generalizing o with
  | nil => simp [offsets]
  | cons x xs ih => simp [offsets, ih, Nat.add_assoc]

theorem length_offsets (o : Nat) (ls : List Nat) : (offsets o ls).length = ls.length + 1 := by
  induction ls generalizing o with
  | nil => rfl
  | cons x xs ih => simp [offsets, ih]

theorem getLastD_offsets (o : Nat) (ls : List Nat) (d : Nat) :
    (offsets o ls).getLastD d = o + ls.sum := by
  induction ls using List.reverseRecOn with
  | nil => simp [offsets]
  | append_singleton xs x _ => simp [offsets_append, Nat.add_assoc]

theorem slices_offsets {α : Type} (parts : List (List α)) (pre : List α) :
    slices (offsets pre.length (parts.map List.length)) (pre ++ parts.flatten) = parts := by
  induction parts generalizing pre with
  | nil => simp [slices, offsets]
  | cons p ps ih =>
    have h := ih (pre ++ p)
    simp only [List.length_append, List.append_assoc] at h
    cases hps : ps with
    | nil =>
      simp [slices, offsets]
    | cons q qs =>
      rw [hps] at h
      simp only [slices, List.map_cons, offsets, List.tail_cons, List.zip_cons_cons,
        List.flatten_cons] at h ⊢
      rw [h]
      simp

theorem foldl_addCoordinate (ring : Ring) (out : PolygonCollection) :
    ring.foldl (fun o c => o.addCoordinate c.x c.y) out
      = { out with coordinates := out.coordinates ++ ring } := by
  induction ring generalizing out with
  | nil => simp
  | cons c cs ih =>
    rw [List.foldl_cons, ih]
    simp [addCoordinate]

theorem features_ofFeatures (base : PolygonCollection) (fs : List Feature) :
    (ofFeatures base fs).features = fs := by
  have h1 : (ofFeatures base fs).rings = fs.flatten.flatten := by
    have := slices_offsets fs.flatten.flatten []
    simpa [rings, ofFeatures, shaped] using this
  have h2 : (ofFeatures base fs).polygons = fs.flatten := by
    have := slices_offsets fs.flatten []
    rw [polygons, h1]
    simpa [ofFeatures, shaped] using this
  have := slices_offsets fs []
  rw [features, h2]
  simpa [ofFeatures, shaped] using this

theorem getFeatureCount_ofFeatures (base : PolygonCollection) (fs : List Feature) :
    (ofFeatures base fs).getFeatureCount = fs.length := by
  simp [getFeatureCount, ofFeatures, shaped, length_offsets]

theorem finishRing_ok (pc : PolygonCollection)
    (h1 : 4 ≤ pc.coordinates.length - pc.start_ring.getLastD 0)
    (h2 : pc.coordinates[pc.coordinates.length - 1]? = pc.coordinates[pc.start_ring.getLastD 0]?) :
    pc.finishRing = Except.ok ((pc.start_ring ++ [pc.coordinates.length]).length - 2,
      { pc with start_ring := pc.start_ring ++ [pc.coordinates.length] }) := by
  have h1' : ¬ pc.coordinates.length - pc.start_ring.getLastD 0 < 4 := by omega
  simp only [finishRing, h1', h2, if_false, not_true_eq_false]

theorem finishPolygon_ok (pc : PolygonCollection) (h1 : pc.start_ring.length ≠ 1)
    (h2 : pc.start_polygon.getLastD 0 < pc.start_ring.length) :
    pc.finishPolygon = Except.ok ((pc.start_polygon ++ [pc.start_ring.length - 1]).length - 2,
      { pc with start_polygon := pc.start_polygon ++ [pc.start_ring.length - 1] }) := by
  have h2' : ¬ pc.start_polygon.getLastD 0 ≥ pc.start_ring.length := by omega
  simp only [finishPolygon, h1, h2', or_self, if_false]

theorem finishFeature_ok (pc : PolygonCollection) (h1 : pc.start_polygon.length ≠ 1)
    (h2 : pc.start_feature.getLastD 0 < pc.start_polygon.length) :
    pc.finishFeature = Except.ok ((pc.start_feature ++ [pc.start_polygon.length - 1]).length - 2,
      { pc with start_feature := pc.start_feature ++ [pc.start_polygon.length - 1] }) := by
  have h2' : ¬ pc.start_feature.getLastD 0 ≥ pc.start_polygon.length := by omega
  simp only [finishFeature, h1, h2', or_self, if_false]

theorem copyRing_shaped (base : PolygonCollection) (rs : List Ring) (pl fl : List Nat)
    (ring : Ring) (hv : ValidRing ring) :
    copyRing (shaped base rs pl fl) ring = Except.ok (shaped base (rs ++ [ring]) pl fl) := by
  obtain ⟨h4, hc⟩ := hv
  have hne : ring ≠ [] := by
    intro h
    rw [h] at h4
    simp at h4
  have hback : (offsets 0 (rs.map List.length)).getLastD 0 = rs.flatten.length := by
    rw [getLastD_offsets, List.length_flatten, Nat.zero_add]
  have hlast : (rs.flatten ++ ring)[(rs.flatten ++ ring).length - 1]? = ring.getLast? := by
    rw [← List.getLast?_eq_getElem?, List.getLast?_append_of_ne_nil _ hne]
  have hfirst : (rs.flatten ++ ring)[rs.flatten.length]? = ring.head? := by
    rw [List.getElem?_append_right (le_refl _)]
    simp [List.head?_eq_getElem?]
  rw [copyRing, foldl_addCoordinate]
  have hok := finishRing_ok
    { shaped base rs pl fl with coordinates := (shaped base rs pl fl).coordinates ++ ring }
    (by
      show 4 ≤ (rs.flatten ++ ring).length - (offsets 0 (rs.map List.length)).getLastD 0
      rw [hback, List.length_append, Nat.add_sub_cancel_left]
      exact h4)
    (by
      show (rs.flatten ++ ring)[(rs.flatten ++ ring).length - 1]?
        = (rs.flatten ++ ring)[(offsets 0 (rs.map List.length)).getLastD 0]?
      rw [hback, hlast, hfirst, hc])
  simp only [hok]
  show Except.ok _ = Except.ok _
  congr 1
  simp [shaped, offsets_append, List.length_flatten]

theorem foldlM_copyRing (base : PolygonCollection) (pl fl : List Nat) (polygon : Polygon)
    (hv : ∀ ring ∈ polygon, ValidRing ring) (rs : List Ring) :
    polygon.foldlM copyRing (shaped base rs pl fl)
      = Except.ok (shaped base (rs ++ polygon) pl fl) := by
  induction polygon generalizing rs with
  | nil => simp [pure, Except.pure]
  | cons r rest ih =>
    rw [List.foldlM_cons, copyRing_shaped base rs pl fl r (hv r (by simp))]
    have h := ih (fun x hx => hv x (by simp [hx])) (rs ++ [r])
    simp only [List.append_assoc, List.singleton_append] at h
    exact h

theorem copyPolygon_shaped (base : PolygonCollection) (rs : List Ring) (pl fl : List Nat)
    (polygon : Polygon) (hne : polygon ≠ []) (hv : ∀ ring ∈ polygon, ValidRing ring)
    (hcl : pl.sum = rs.length) :
    copyPolygon (shaped base rs pl fl) polygon
      = Except.ok (shaped base (rs ++ polygon) (pl ++ [polygon.length]) fl) := by
  have hpos : 0 < polygon.length := List.length_pos.mpr hne
  rw [copyPolygon, foldlM_copyRing base pl fl polygon hv rs]
  have hok := finishPolygon_ok (shaped base (rs ++ polygon) pl fl)
    (by
      show (offsets 0 ((rs ++ polygon).map List.length)).length ≠ 1
      rw [length_offsets, List.length_map, List.length_append]
      omega)
    (by
      show (offsets 0 pl).getLastD 0 < (offsets 0 ((rs ++ polygon).map List.length)).length
      rw [getLastD_offsets, length_offsets, List.length_map, List.length_append]
      omega)
  change (do
    let r ← (shaped base (rs ++ polygon) pl fl).finishPolygon
    pure r.2) = _
  rw [hok]
  show Except.ok _ = Except.ok _
  congr 1
  simp [shaped, offsets_append, length_offsets, hcl]

theorem foldlM_copyPolygon (base : PolygonCollection) (fl : List Nat) (feature : Feature)
    (hv : ∀ polygon ∈ feature, polygon ≠ [] ∧ ∀ ring ∈ polygon, ValidRing ring)
    (rs : List Ring) (pl : List Nat) (hcl : pl.sum = rs.length) :
    feature.foldlM copyPolygon (shaped base rs pl fl)
      = Except.ok (shaped base (rs ++ feature.flatten) (pl ++ feature.map List.length) fl) := by
  induction feature generalizing rs pl with
  | nil => simp [pure, Except.pure]
  | cons p rest ih =>
    obtain ⟨hp1, hp2⟩ := hv p (by simp)
    rw [List.foldlM_cons, copyPolygon_shaped base rs pl fl p hp1 hp2 hcl]
    have h := ih (fun x hx => hv x (by simp [hx])) (rs ++ p) (pl ++ [p.length])
      (by simp [hcl])
    simp only [List.append_assoc, List.singleton_append] at h
    simpa using h

theorem copyFeature_shaped (base : PolygonCollection) (rs : List Ring) (pl fl : List Nat)
    (feature : Feature) (hv : ValidFeature feature)
    (hcl : pl.sum = rs.length) (hcf : fl.sum = pl.length) :
    copyFeature (shaped base rs pl fl) feature
      = Except.ok (shaped base (rs ++ feature.flatten) (pl ++ feature.map List.length)
          (fl ++ [feature.length])) := by
  obtain ⟨hne, hv2⟩ := hv
  have hpos : 0 < feature.length := List.length_pos.mpr hne
  rw [copyFeature, foldlM_copyPolygon base fl feature hv2 rs pl hcl]
  have hok := finishFeature_ok
    (shaped base (rs ++ feature.flatten) (pl ++ feature.map List.length) fl)
    (by
      show (offsets 0 (pl ++ feature.map List.length)).length ≠ 1
      rw [length_offsets, List.length_append, List.length_map]
      omega)
    (by
      show (offsets 0 fl).getLastD 0 < (offsets 0 (pl ++ feature.map List.length)).length
      rw [getLastD_offsets, length_offsets, List.length_append, List.length_map]
      omega)
  change (do
    let r ← (shaped base (rs ++ feature.flatten) (pl ++ feature.map List.length) fl).finishFeature
    pure r.2) = _
  rw [hok]
  show Except.ok _ = Except.ok _
  congr 1
  simp [shaped, offsets_append, length_offsets, hcf]

theorem copyFeature_ofFeatures (base : PolygonCollection) (gs : List Feature)
    (feature : Feature) (hv : ValidFeature feature) :
    copyFeature (ofFeatures base gs) feature = Except.ok (ofFeatures base (gs ++ [feature])) := by
  rw [ofFeatures, copyFeature_shaped base _ _ _ feature hv
    (by rw [List.length_flatten]) (by rw [List.length_map, List.length_flatten])]
  simp [ofFeatures]

theorem foldlM_keep (base : PolygonCollection) (fs : List Feature)
    (hv : ∀ f ∈ fs, ValidFeature f) (pre ks : List Bool) (hk : ks.length = fs.length)
    (gs : List Feature) :
    (fs.enumFrom pre.length).foldlM
        (fun out (feature : Nat × Feature) =>
          if (pre ++ ks).getD feature.1 false then copyFeature out feature.2 else pure out)
        (ofFeatures base gs)
      = Except.ok (ofFeatures base (gs ++ keptOf ks fs)) := by
  induction fs generalizing pre ks gs with
  | nil =>
    cases ks with
    | nil => simp [keptOf, pure, Except.pure]
    | cons k kt => simp at hk
  | cons f rest ih =>
    cases ks with
    | nil => simp at hk
    | cons k kt =>
      have hk2 : kt.length = rest.length := by simpa using hk
      have hget : (pre ++ k :: kt).getD pre.length false = k := by
        rw [List.getD_append_right _ _ _ _ (le_refl _)]
        simp
      have hih := ih (fun x hx => hv x (by simp [hx])) (pre ++ [k]) kt hk2
      simp only [List.length_append, List.length_singleton, List.append_assoc,
        List.singleton_append] at hih
      rw [List.enumFrom_cons, List.foldlM_cons]
      simp only [hget]
      cases k with
      | true =>
        simp only [if_true]
        rw [copyFeature_ofFeatures base gs f (hv f (by simp))]
        have h := hih (gs ++ [f])
        simp only [List.append_assoc, List.singleton_append] at h
        simpa [keptOf] using h
      | false =>
        have h := hih gs
        simpa [keptOf, pure, Except.pure] using h

end PolygonCollection

namespace PolygonCollection

theorem keepValues_take {α : Type} (keep : List Bool) (vec : List α) (count : Nat)
    (hk : keep.length = count) (hv : vec.length = count) (n : Nat) (hn : n ≤ count) :
    (List.range n).foldl
        (fun vec_out idx =>
          if keep.getD idx false then
            match vec[idx]? with
            | some v => vec_out ++ [v]
            | none => vec_out
          else vec_out) []
      = keptOf (keep.take n) (vec.take n) := by
  induction n with
  | zero => simp [keptOf]
  | succ n ih =>
    have hnk : n < keep.length := by omega
    have hnv : n < vec.length := by omega
    rw [List.range_succ, List.foldl_append, ih (by omega)]
    have hz : (vec.take (n + 1)).zip (keep.take (n + 1))
        = (vec.take n).zip (keep.take n) ++ [(vec[n], keep[n])] := by
      rw [List.take_succ, List.take_succ, List.getElem?_eq_getElem hnk,
        List.getElem?_eq_getElem hnv]
      simp only [Option.toList]
      rw [List.zip_append (by simp [List.length_take]; omega)]
      rfl
    simp only [List.foldl_cons, List.foldl_nil, keptOf, hz, List.filterMap_append,
      List.getD_eq_getElem?_getD, List.getElem?_eq_getElem hnk, List.getElem?_eq_getElem hnv,
      Option.getD_some]
    cases hkn : keep[n] <;> simp [hkn]

theorem keepValues_eq {α : Type} (keep : List Bool) (vec : List α) (count : Nat)
    (hk : keep.length = count) (hv : vec.length = count) :
    keepValues count keep vec = keptOf keep vec := by
  have h := keepValues_take keep vec count hk hv count (le_refl _)
  rw [List.take_of_length_le (by omega), List.take_of_length_le (by omega)] at h
  exact h

theorem length_keptOf {α : Type} (keep : List Bool) (fs : List α)
    (hk : keep.length = fs.length) : (keptOf keep fs).length = keep.count true := by
  induction fs generalizing keep with
  | nil =>
    cases keep with
    | nil => rfl
    | cons k kt => simp at hk
  | cons f rest ih =>
    cases keep with
    | nil => simp at hk
    | cons k kt =>
      have h := ih kt (by simpa using hk)
      cases k <;> simp [keptOf] at h ⊢ <;> omega

end PolygonCollection

namespace PolygonCollection

theorem filter_ofFeatures (base : PolygonCollection) (fs : List Feature) (keep : List Bool)
    (hv : ∀ f ∈ fs, ValidFeature f) (hk : keep.length = fs.length) :
    filter (ofFeatures base fs) keep
      = Except.ok (ofFeatures
          { construct base.stref with
            global_md_string := base.global_md_string,
            global_md_value := base.global_md_value,
            local_md_string := base.local_md_string.map
              (fun (keyValue : String × List String) =>
                (keyValue.1, keepValues fs.length keep keyValue.2)),
            local_md_value := base.local_md_value.map
              (fun (keyValue : String × List ℚ) =>
                (keyValue.1, keepValues fs.length keep keyValue.2)),
            time_start := if (ofFeatures base fs).hasTime
              then keepTimes fs.length keep base.time_start else [],
            time_end := if (ofFeatures base fs).hasTime
              then keepTimes fs.length keep base.time_end else [] }
          (keptOf keep fs)) := by
  have hfold := foldlM_keep
    { construct base.stref with
      global_md_string := base.global_md_string, global_md_value := base.global_md_value }
    fs hv [] keep hk []
  simp only [List.length_nil, List.nil_append] at hfold
  have hcount : (ofFeatures base fs).getFeatureCount = fs.length :=
    getFeatureCount_ofFeatures base fs
  have hne : ¬ keep.length ≠ (ofFeatures base fs).getFeatureCount := by
    rw [hcount]
    exact not_not.mpr hk
  unfold filter
  simp only [hne, if_false, features_ofFeatures, List.enum]
  have hstart : ({ construct (ofFeatures base fs).stref with
      global_md_string := (ofFeatures base fs).global_md_string,
      global_md_value := (ofFeatures base fs).global_md_value } : PolygonCollection)
      = ofFeatures { construct base.stref with
          global_md_string := base.global_md_string,
          global_md_value := base.global_md_value } [] := rfl
  rw [hstart, hfold, hcount]
  by_cases ht : (ofFeatures base fs).hasTime = true
  · simp only [ht, if_true]
    rfl
  · simp only [ht, if_false]
    rfl

end PolygonCollection

namespace PolygonCollection

/-- C24 (code bug): the unit test `AddSinglePolygonFeature` adds the coordinates
(1,2), (2,3), (1,2), a closed ring of `n = 3` coordinates, to an empty collection
and expects `finishRing`, `finishPolygon` and `finishFeature` to succeed. On
this input `finishRing` throws a FeatureException: it demands 4 coordinates. -/
theorem finishRing_rejects_test_ring :
    3 ≤ ([⟨1, 2⟩, ⟨2, 3⟩, ⟨1, 2⟩] : Ring).length ∧
      ([⟨1, 2⟩, ⟨2, 3⟩, ⟨1, 2⟩] : Ring).getLast? = ([⟨1, 2⟩, ⟨2, 3⟩, ⟨1, 2⟩] : Ring).head? ∧
      ((((construct ⟨[]⟩).addCoordinate 1 2).addCoordinate 2 3).addCoordinate 1 2).finishRing
        = Except.error (Exn.FeatureException
            "Tried to finish ring with less than 3 vertices (4 coordinates)") := by
  refine ⟨by decide, rfl, rfl⟩

/-- What the finish calls do with a single ring: with fewer than 4 coordinates
`finishRing` fails with a FeatureException; for every ring of `n >= 4`
coordinates whose last coordinate equals its first, adding the coordinates to an
empty PolygonCollection and calling `finishRing`, `finishPolygon` and
`finishFeature` succeeds and yields `getFeatureCount() == 1`,
`start_polygon.size() == 2`, `start_ring.size() == 2` and
`coordinates.size() == n`, the one feature holding one polygon with that ring. -/
theorem single_ring_feature (stref : Streamed) (ring : Ring) :
    (ring.length < 4 →
      (ring.foldl (fun o c => o.addCoordinate c.x c.y) (construct stref)).finishRing
        = Except.error (Exn.FeatureException
            "Tried to finish ring with less than 3 vertices (4 coordinates)")) ∧
    (4 ≤ ring.length → ring.getLast? = ring.head? →
      ∃ r1 r2 r3 : Nat × PolygonCollection,
        (ring.foldl (fun o c => o.addCoordinate c.x c.y) (construct stref)).finishRing
            = Except.ok r1 ∧
          r1.2.finishPolygon = Except.ok r2 ∧ r2.2.finishFeature = Except.ok r3 ∧
          r3.2.getFeatureCount = 1 ∧ r3.2.start_polygon.length = 2 ∧
          r3.2.start_ring.length = 2 ∧ r3.2.coordinates.length = ring.length ∧
          r3.2.features = [[[ring]]]) := by
  constructor
  · intro h
    rw [foldl_addCoordinate]
    simp [finishRing, construct, h]
  · intro h4 hc
    have e1 : (⟨stref, ring, [0], [0], [0], [], [], [], [], [], []⟩ : PolygonCollection).finishRing
        = Except.ok (0, ⟨stref, ring, [0, ring.length], [0], [0], [], [], [], [], [], []⟩) :=
      finishRing_ok ⟨stref, ring, [0], [0], [0], [], [], [], [], [], []⟩
        (by simpa using h4)
        (by
          show ring[ring.length - 1]? = ring[0]?
          rw [← List.getLast?_eq_getElem?, hc, List.head?_eq_getElem?])
    have e2 : (⟨stref, ring, [0, ring.length], [0], [0], [], [], [], [], [], []⟩ :
          PolygonCollection).finishPolygon
        = Except.ok (0, ⟨stref, ring, [0, ring.length], [0, 1], [0], [], [], [], [], [], []⟩) :=
      finishPolygon_ok ⟨stref, ring, [0, ring.length], [0], [0], [], [], [], [], [], []⟩
        (by simp) (by simp)
    have e3 : (⟨stref, ring, [0, ring.length], [0, 1], [0], [], [], [], [], [], []⟩ :
          PolygonCollection).finishFeature
        = Except.ok (0, ⟨stref, ring, [0, ring.length], [0, 1], [0, 1], [], [], [], [], [], []⟩) :=
      finishFeature_ok ⟨stref, ring, [0, ring.length], [0, 1], [0], [], [], [], [], [], []⟩
        (by simp) (by simp)
    refine ⟨(0, ⟨stref, ring, [0, ring.length], [0], [0], [], [], [], [], [], []⟩),
      (0, ⟨stref, ring, [0, ring.length], [0, 1], [0], [], [], [], [], [], []⟩),
      (0, ⟨stref, ring, [0, ring.length], [0, 1], [0, 1], [], [], [], [], [], []⟩),
      ?_, e2, e3, ?_, ?_, ?_, ?_, ?_⟩
    · rw [foldl_addCoordinate]
      exact e1
    · rfl
    · rfl
    · rfl
    · rfl
    · have h := features_ofFeatures (construct stref) [[[ring]]]
      simpa [ofFeatures, shaped, offsets, construct] using h

/-- The ring `triangleRing` of four coordinates as an instance of
`single_ring_feature`. -/
theorem single_ring_feature_example :
    4 ≤ triangleRing.length ∧ triangleRing.getLast? = triangleRing.head? ∧
      ∃ r1 r2 r3 : Nat × PolygonCollection,
        (triangleRing.foldl (fun o c => o.addCoordinate c.x c.y) (construct ⟨[]⟩)).finishRing
            = Except.ok r1 ∧
          r1.2.finishPolygon = Except.ok r2 ∧ r2.2.finishFeature = Except.ok r3 ∧
          r3.2.getFeatureCount = 1 ∧ r3.2.start_polygon.length = 2 ∧
          r3.2.start_ring.length = 2 ∧ r3.2.coordinates.length = triangleRing.length ∧
          r3.2.features = [[[triangleRing]]] :=
  ⟨by decide, rfl, (single_ring_feature ⟨[]⟩ triangleRing).2 (by decide) rfl⟩

/-- C25 (as stated, refuted): the collection `emptyPolygonCollection`, built by
calls of the public methods, has 2 features; `filter` with the keep vector
(false, true) of matching size neither fails with an ArgumentException nor
returns the second feature: it throws a FeatureException. -/
theorem filter_keeps_features_counterexample :
    (do
        let a ← copyFeature (construct ⟨[]⟩) [[triangleRing]]
        let b ← a.finishPolygon
        let c ← b.2.finishFeature
        pure c.2) = Except.ok emptyPolygonCollection ∧
      emptyPolygonCollection.getFeatureCount = 2 ∧
      emptyPolygonCollection.features = [[[triangleRing]], [[]]] ∧
      filter emptyPolygonCollection [false, true]
        = Except.error (Exn.FeatureException "Tried to finish polygon with 0 rings") := by
  refine ⟨?_, rfl, ?_, ?_⟩
  · rfl
  · rfl
  · rfl

end PolygonCollection

namespace PolygonCollection

/-- C25 (amended): for every PolygonCollection `pc` that holds the features
`fs` (its coordinates and index vectors are those of `fs` laid out one after the
other), every feature with at least one polygon, every polygon with at least one
ring, every ring with at least 4 coordinates and the last equal to the first,
and whose local metadata vectors hold one value per feature, and for every keep
vector: `filter(keep)` fails with an ArgumentException exactly when
`keep.size()` differs from the feature count; otherwise the result holds exactly
the features whose keep flag is true, in their order, with all their polygons,
rings and coordinates, the feature count is the number of true flags, and every
local metadata vector holds the kept features' values in that order. -/
theorem filter_keeps_features (pc : PolygonCollection) (fs : List Feature) (keep : List Bool)
    (hrep : pc = ofFeatures pc fs) (hv : ∀ f ∈ fs, ValidFeature f)
    (hs : ∀ kv ∈ pc.local_md_string, kv.2.length = fs.length)
    (hvl : ∀ kv ∈ pc.local_md_value, kv.2.length = fs.length) :
    pc.features = fs ∧ pc.getFeatureCount = fs.length ∧
    ((∃ msg, filter pc keep = Except.error (Exn.ArgumentException msg))
      ↔ keep.length ≠ fs.length) ∧
    (keep.length = fs.length →
      ∃ out, filter pc keep = Except.ok out ∧
        out.features = keptOf keep fs ∧
        out.getFeatureCount = keep.count true ∧
        out.local_md_string
          = pc.local_md_string.map
            (fun (kv : String × List String) => (kv.1, keptOf keep kv.2)) ∧
        out.local_md_value
          = pc.local_md_value.map (fun (kv : String × List ℚ) => (kv.1, keptOf keep kv.2)) ∧
        out.global_md_string = pc.global_md_string ∧
        out.global_md_value = pc.global_md_value ∧ out.stref = pc.stref) := by
  have hfeat : pc.features = fs := by
    rw [hrep]
    exact features_ofFeatures pc fs
  have hcount : pc.getFeatureCount = fs.length := by
    rw [hrep]
    exact getFeatureCount_ofFeatures pc fs
  have hok : keep.length = fs.length →
      ∃ out, filter pc keep = Except.ok out ∧
        out.features = keptOf keep fs ∧
        out.getFeatureCount = keep.count true ∧
        out.local_md_string
          = pc.local_md_string.map
            (fun (kv : String × List String) => (kv.1, keptOf keep kv.2)) ∧
        out.local_md_value
          = pc.local_md_value.map (fun (kv : String × List ℚ) => (kv.1, keptOf keep kv.2)) ∧
        out.global_md_string = pc.global_md_string ∧
        out.global_md_value = pc.global_md_value ∧ out.stref = pc.stref := by
    intro hk
    have hf := filter_ofFeatures pc fs keep hv hk
    rw [← hrep] at hf
    refine ⟨_, hf, features_ofFeatures _ _, ?_, ?_, ?_, rfl, rfl, rfl⟩
    · rw [getFeatureCount_ofFeatures, length_keptOf keep fs hk]
    · show pc.local_md_string.map _ = pc.local_md_string.map _
      apply List.map_congr_left
      intro kv hkv
      rw [keepValues_eq keep kv.2 fs.length hk (hs kv hkv)]
    · show pc.local_md_value.map _ = pc.local_md_value.map _
      apply List.map_congr_left
      intro kv hkv
      rw [keepValues_eq keep kv.2 fs.length hk (hvl kv hkv)]
  refine ⟨hfeat, hcount, ?_, hok⟩
  constructor
  · rintro ⟨msg, hmsg⟩ hk
    obtain ⟨out, ho, _⟩ := hok hk
    rw [ho] at hmsg
    cases hmsg
  · intro hk
    refine ⟨"PolygonCollection::filter(): size of filter does not match ("
      ++ toString keep.length ++ " != " ++ toString fs.length ++ ")", ?_⟩
    unfold filter
    simp only [hcount, hk, ne_eq, not_false_eq_true, if_true]

theorem sampleFeatures_valid : ∀ f ∈ sampleFeatures, ValidFeature f := by
  intro f hf
  simp only [sampleFeatures, List.mem_cons, List.mem_singleton, List.not_mem_nil,
    or_false] at hf
  rcases hf with h | h | h | h <;> subst h <;>
    simp [ValidFeature, ValidRing, triangleRing, otherRing]

/-- Witness for C25 (amended): the collection of the unit test of `filter` with
the keep vector (false, true, true, false). -/
theorem filter_keeps_features_witness :
    sampleCollection = ofFeatures sampleCollection sampleFeatures ∧
      [false, true, true, false].length = sampleFeatures.length ∧
      ∃ out, filter sampleCollection [false, true, true, false] = Except.ok out ∧
        out.features = [[[triangleRing], [otherRing]], [[otherRing], [triangleRing]]] ∧
        out.getFeatureCount = 2 ∧
        out.local_md_value = [("test", [41 / 10, 31 / 10])] :=
  have h := (filter_keeps_features sampleCollection sampleFeatures [false, true, true, false]
    rfl sampleFeatures_valid (by simp [sampleCollection, ofFeatures, shaped, construct])
    (by simp [sampleCollection, ofFeatures, shaped, sampleFeatures])).2.2.2 rfl
  ⟨rfl, rfl, by
    obtain ⟨out, h1, h2, h3, _, h5, _⟩ := h
    refine ⟨out, h1, h2, h3, ?_⟩
    rw [h5]
    rfl⟩

end PolygonCollection

/-! ## Further claims on `dissect_by` and on the system statistics -/

namespace Cube
variable {DIM : Nat}

theorem dissectStep_other (fill : Cube DIM) (st : Cube DIM × List (Cube DIM)) (i j : Fin DIM)
    (h : j ≠ i) : (dissectStep fill st i).1.dims j = st.1.dims j := by
  unfold dissectStep dissectLeft dissectRight
  by_cases c1 : (fill.dims i).a > (st.1.dims i).a <;>
    by_cases c2 : (fill.dims i).b < (st.1.dims i).b <;>
    simp [c1, c2, Function.update_noteq h]

theorem dissectStep_length_le (fill : Cube DIM) (st : Cube DIM × List (Cube DIM)) (i : Fin DIM) :
    st.2.length ≤ (dissectStep fill st i).2.length ∧
      (dissectStep fill st i).2.length ≤ st.2.length + 2 := by
  unfold dissectStep dissectLeft dissectRight
  by_cases c1 : (fill.dims i).a > (st.1.dims i).a <;>
    by_cases c2 : (fill.dims i).b < (st.1.dims i).b <;>
    simp [c1, c2]

theorem dissectLoop_length (fill : Cube DIM) (l : List (Fin DIM))
    (st : Cube DIM × List (Cube DIM)) :
    st.2.length ≤ (l.foldl (dissectStep fill) st).2.length ∧
      (l.foldl (dissectStep fill) st).2.length ≤ st.2.length + 2 * l.length := by
  induction l generalizing st with
  | nil => simp
  | cons x xs ih =>
    have h1 := dissectStep_length_le fill st x
    have h2 := ih (dissectStep fill st x)
    rw [List.foldl_cons, List.length_cons]
    omega

end Cube

namespace Cube
variable {DIM : Nat}

theorem WorkInv_update (c fill work : Cube DIM) (h : WorkInv c fill work) (i : Fin DIM)
    (v : Interval) (hv : v.a ≤ v.b ∧ Interval.Within v (c.dims i) ∧
      v.a ≤ (fill.dims i).b ∧ (fill.dims i).a ≤ v.b) :
    WorkInv c fill ⟨Function.update work.dims i v⟩ := by
  intro k
  by_cases hk : k = i
  · subst hk
    simpa using hv
  · simpa [Function.update_noteq hk] using h k

theorem GoodRemainder_update (c fill work : Cube DIM) (h : WorkInv c fill work) (i : Fin DIM)
    (v : Interval) (hv : v.a < v.b ∧ Interval.Within v (c.dims i))
    (hcut : v.b = (fill.dims i).a ∨ v.a = (fill.dims i).b) :
    GoodRemainder c fill ⟨Function.update work.dims i v⟩ := by
  refine ⟨?_, i, by simpa using hv.1, by simpa using hcut⟩
  intro k
  by_cases hk : k = i
  · subst hk
    simpa using ⟨le_of_lt hv.1, hv.2⟩
  · simpa [Function.update_noteq hk] using ⟨(h k).1, (h k).2.1⟩

theorem dissectLeft_good (c fill : Cube DIM) (hf : ∀ k, (fill.dims k).a ≤ (fill.dims k).b)
    (st : Cube DIM × List (Cube DIM)) (i : Fin DIM)
    (hw : WorkInv c fill st.1) (hr : ∀ r ∈ st.2, GoodRemainder c fill r) :
    WorkInv c fill (dissectLeft fill st i).1 ∧
      ∀ r ∈ (dissectLeft fill st i).2, GoodRemainder c fill r := by
  obtain ⟨w1, ⟨w2, w3⟩, w4, w5⟩ := hw i
  unfold dissectLeft
  by_cases c1 : (fill.dims i).a > (st.1.dims i).a
  · simp only [c1, if_true]
    constructor
    · exact WorkInv_update c fill st.1 hw i _
        ⟨w5, ⟨le_trans w2 (le_of_lt c1), w3⟩, hf i, w5⟩
    · intro r hr'
      rcases List.mem_append.mp hr' with h | h
      · exact hr r h
      · rw [List.mem_singleton] at h
        subst h
        exact GoodRemainder_update c fill st.1 hw i _ ⟨c1, ⟨w2, le_trans w5 w3⟩⟩ (Or.inl rfl)
  · simp only [c1, if_false]
    exact ⟨hw, hr⟩

theorem dissectRight_good (c fill : Cube DIM) (hf : ∀ k, (fill.dims k).a ≤ (fill.dims k).b)
    (st : Cube DIM × List (Cube DIM)) (i : Fin DIM)
    (hw : WorkInv c fill st.1) (hr : ∀ r ∈ st.2, GoodRemainder c fill r) :
    WorkInv c fill (dissectRight fill st i).1 ∧
      ∀ r ∈ (dissectRight fill st i).2, GoodRemainder c fill r := by
  obtain ⟨w1, ⟨w2, w3⟩, w4, w5⟩ := hw i
  unfold dissectRight
  by_cases c2 : (fill.dims i).b < (st.1.dims i).b
  · simp only [c2, if_true]
    constructor
    · exact WorkInv_update c fill st.1 hw i _
        ⟨w4, ⟨w2, le_trans (le_of_lt c2) w3⟩, w4, hf i⟩
    · intro r hr'
      rcases List.mem_append.mp hr' with h | h
      · exact hr r h
      · rw [List.mem_singleton] at h
        subst h
        exact GoodRemainder_update c fill st.1 hw i _ ⟨c2, ⟨le_trans w2 w4, w3⟩⟩ (Or.inr rfl)
  · simp only [c2, if_false]
    exact ⟨hw, hr⟩

theorem dissectLoop_good (c fill : Cube DIM) (hf : ∀ k, (fill.dims k).a ≤ (fill.dims k).b)
    (l : List (Fin DIM)) (st : Cube DIM × List (Cube DIM))
    (hw : WorkInv c fill st.1) (hr : ∀ r ∈ st.2, GoodRemainder c fill r) :
    ∀ r ∈ (l.foldl (dissectStep fill) st).2, GoodRemainder c fill r := by
  induction l generalizing st with
  | nil => exact hr
  | cons x xs ih =>
    rw [List.foldl_cons]
    have h1 := dissectLeft_good c fill hf st x hw hr
    have h2 := dissectRight_good c fill hf (dissectLeft fill st x) x h1.1 h1.2
    exact ih (dissectStep fill st x) h2.1 h2.2

/-- C35: for cubes `this` and `fill` of dimension DIM that are well-formed
(lower <= upper on every axis) and intersect, `this.dissect_by(fill)` returns at
most `2 * DIM` cubes; each of them is well-formed and lies inside `this` on every
axis, and has strictly positive extent on an axis on which it ends at the lower
bound of `fill` or starts at the upper bound of `fill` (the axis of its cut). -/
theorem dissect_by_remainders (c fill : Cube DIM)
    (hc : ∀ k, (c.dims k).a ≤ (c.dims k).b) (hf : ∀ k, (fill.dims k).a ≤ (fill.dims k).b)
    (hi : c.intersects fill = true) :
    ∃ res, c.dissect_by fill = Except.ok res ∧ res.length ≤ 2 * DIM ∧
      ∀ r ∈ res,
        (∀ k, (r.dims k).a ≤ (r.dims k).b ∧ (c.dims k).a ≤ (r.dims k).a ∧
          (r.dims k).b ≤ (c.dims k).b) ∧
        ∃ i, (r.dims i).a < (r.dims i).b ∧
          ((r.dims i).b = (fill.dims i).a ∨ (r.dims i).a = (fill.dims i).b) := by
  rw [dissect_by_eq]
  by_cases hcont : fill.contains c = true
  · exact ⟨[], by simp [hcont], by simp, by simp⟩
  · have hw : WorkInv c fill c := by
      intro k
      have hk := (intersects_iff c fill).mp hi k
      simp only [Interval.intersects, Bool.not_eq_true', Bool.or_eq_false_iff,
        decide_eq_false_iff_not, not_lt] at hk
      exact ⟨hc k, ⟨le_refl _, le_refl _⟩, hk.1, hk.2⟩
    refine ⟨((List.finRange DIM).foldl (dissectStep fill) (c, [])).2, by simp [hcont, hi], ?_, ?_⟩
    · have := (dissectLoop_length fill (List.finRange DIM) (c, [])).2
      simpa using this
    · intro r hr
      have := dissectLoop_good c fill hf (List.finRange DIM) (c, []) hw (by simp) r hr
      exact ⟨fun k => ⟨(this.1 k).1, (this.1 k).2.1, (this.1 k).2.2⟩, this.2⟩

/-- Witness for C35: the unit square dissected by a square in its middle. -/
theorem dissect_by_remainders_witness :
    (∀ k, (unitSquare.dims k).a ≤ (unitSquare.dims k).b) ∧
      (∀ k, (innerSquare.dims k).a ≤ (innerSquare.dims k).b) ∧
      unitSquare.intersects innerSquare = true ∧
      ∃ res, unitSquare.dissect_by innerSquare = Except.ok res ∧ res.length ≤ 2 * 2 :=
  have h1 : ∀ k, (unitSquare.dims k).a ≤ (unitSquare.dims k).b := by
    simp [Fin.forall_fin_two, unitSquare]
  have h2 : ∀ k, (innerSquare.dims k).a ≤ (innerSquare.dims k).b := by
    simp [Fin.forall_fin_two, innerSquare]
    norm_num
  have h3 : unitSquare.intersects innerSquare = true := by
    simp [Cube.intersects, List.finRange, innerSquare, unitSquare, Interval.intersects]
    norm_num
  let ⟨res, hres, hlen, _⟩ := dissect_by_remainders unitSquare innerSquare h1 h2 h3
  ⟨h1, h2, h3, res, hres, hlen⟩

end Cube

theorem StdMap.lookup_emplace_self (m : StdMap Nat Nat) (k v : Nat)
    (h : m.lookup k = none) : (StdMap.emplace m k v).lookup k = some v := by
  induction m with
  | nil => simp [StdMap.emplace, List.lookup]
  | cons p t ih =>
    obtain ⟨k0, v0⟩ := p
    by_cases hk : k = k0
    · subst hk
      simp [List.lookup] at h
    · have hb : (k == k0) = false := by simpa using hk
      have ht : t.lookup k = none := by simpa [List.lookup, hb] using h
      unfold StdMap.emplace
      by_cases hlt : k < k0
      · simp [hlt, List.lookup]
      · simp [hlt, hk, List.lookup, hb, ih ht]

theorem StdMap.lookup_emplace_other (m : StdMap Nat Nat) (k v j : Nat) (hj : j ≠ k) :
    (StdMap.emplace m k v).lookup j = m.lookup j := by
  have hb : (j == k) = false := by simpa using hj
  induction m with
  | nil => simp [StdMap.emplace, List.lookup, hb]
  | cons p t ih =>
    obtain ⟨k0, v0⟩ := p
    unfold StdMap.emplace
    by_cases hlt : k < k0
    · simp [hlt, List.lookup, hb]
    · by_cases hk : k = k0
      · simp [hlt, hk]
      · simp only [hlt, hk, if_false, List.lookup]
        rw [ih]

theorem StdMap.sum_emplace (m : StdMap Nat Nat) (k v : Nat) (h : m.lookup k = none) :
    ((StdMap.emplace m k v).map Prod.snd).sum = (m.map Prod.snd).sum + v := by
  induction m with
  | nil => simp [StdMap.emplace]
  | cons p t ih =>
    obtain ⟨k0, v0⟩ := p
    by_cases hk : k = k0
    · subst hk
      simp [List.lookup] at h
    · have hb : (k == k0) = false := by simpa using hk
      have ht : t.lookup k = none := by simpa [List.lookup, hb] using h
      unfold StdMap.emplace
      by_cases hlt : k < k0
      · simp [hlt]
        omega
      · simp [hlt, hk, ih ht]
        omega

theorem StdMap.lookup_incrementAt_self (m : StdMap Nat Nat) (k v : Nat)
    (h : m.lookup k = some v) : (StdMap.incrementAt m k).lookup k = some ((v + 1) % 2 ^ 64) := by
  induction m with
  | nil => simp [List.lookup] at h
  | cons p t ih =>
    obtain ⟨k0, v0⟩ := p
    unfold StdMap.incrementAt
    by_cases hk : k = k0
    · subst hk
      simp [List.lookup] at h
      simp [List.lookup, h]
    · have hb : (k == k0) = false := by simpa using hk
      have ht : t.lookup k = some v := by simpa [List.lookup, hb] using h
      simp [hk, List.lookup, hb, ih ht]

theorem StdMap.lookup_incrementAt_other (m : StdMap Nat Nat) (k j : Nat) (hj : j ≠ k) :
    (StdMap.incrementAt m k).lookup j = m.lookup j := by
  induction m with
  | nil => simp [StdMap.incrementAt]
  | cons p t ih =>
    obtain ⟨k0, v0⟩ := p
    unfold StdMap.incrementAt
    by_cases hk : k = k0
    · subst hk
      have hb : (j == k) = false := by simpa using hj
      simp [List.lookup, hb]
    · simp only [hk, if_false, List.lookup]
      rw [ih]

theorem StdMap.sum_incrementAt (m : StdMap Nat Nat) (k v : Nat) (h : m.lookup k = some v)
    (hv : v + 1 < 2 ^ 64) :
    ((StdMap.incrementAt m k).map Prod.snd).sum = (m.map Prod.snd).sum + 1 := by
  induction m with
  | nil => simp [List.lookup] at h
  | cons p t ih =>
    obtain ⟨k0, v0⟩ := p
    unfold StdMap.incrementAt
    by_cases hk : k = k0
    · subst hk
      simp [List.lookup] at h
      subst h
      simp [Nat.mod_eq_of_lt hv]
      omega
    · have hb : (k == k0) = false := by simpa using hk
      have ht : t.lookup k = some v := by simpa [List.lookup, hb] using h
      simp [hk, ih ht]
      omega

theorem StdMap.lookup_le_sum (m : StdMap Nat Nat) (k v : Nat) (h : m.lookup k = some v) :
    v ≤ (m.map Prod.snd).sum := by
  induction m with
  | nil => simp [List.lookup] at h
  | cons p t ih =>
    obtain ⟨k0, v0⟩ := p
    by_cases hk : k = k0
    · subst hk
      simp [List.lookup] at h
      subst h
      simp
    · have hb : (k == k0) = false := by simpa using hk
      have ht : t.lookup k = some v := by simpa [List.lookup, hb] using h
      have := ih ht
      simp
      omega

namespace SystemStats

theorem scheduled_sum (s : SystemStats) (n : Nat) (hinv : s.countSum = s.queries_scheduled)
    (hb : s.countSum + 1 < 2 ^ 32) :
    (s.scheduled n).countSum = s.countSum + 1 ∧
      (s.scheduled n).queries_scheduled = s.queries_scheduled + 1 := by
  have hq : (s.queries_scheduled + 1) % 2 ^ 32 = s.queries_scheduled + 1 := by
    rw [← hinv]
    exact Nat.mod_eq_of_lt hb
  unfold scheduled countSum
  cases hl : s.node_to_queries.lookup n with
  | none => simp only [hl, hq, StdMap.sum_emplace _ n 1 hl, and_self]
  | some v =>
    have hv : v ≤ s.countSum := StdMap.lookup_le_sum _ n v hl
    simp only [hl, hq, StdMap.sum_incrementAt _ n v hl (by omega), and_self]

theorem run_other (s : SystemStats) (call : Call) (h : call.isScheduled = false) :
    ((call.run s).countSum = s.countSum ∧
        (call.run s).queries_scheduled = s.queries_scheduled) ∨
      ((call.run s).countSum = 0 ∧ (call.run s).queries_scheduled = 0) := by
  cases call with
  | issued => left; exact ⟨rfl, rfl⟩
  | scheduled n => simp [Call.isScheduled] at h
  | add_query r => left; exact ⟨rfl, rfl⟩
  | query_finished a b c d => left; exact ⟨rfl, rfl⟩
  | reset => right; exact ⟨rfl, rfl⟩

theorem runAll_sum (calls : List Call) (s : SystemStats)
    (hinv : s.countSum = s.queries_scheduled)
    (hb : s.countSum + calls.countP Call.isScheduled < 2 ^ 32) :
    (runAll s calls).countSum = (runAll s calls).queries_scheduled := by
  induction calls generalizing s with
  | nil => exact hinv
  | cons call rest ih =>
    rw [runAll, List.foldl_cons]
    cases hc : call.isScheduled with
    | true =>
      rw [List.countP_cons_of_pos _ _ hc] at hb
      cases call with
      | scheduled n =>
        have h := scheduled_sum s n hinv (by omega)
        exact ih (s.scheduled n) (by rw [h.1, h.2, hinv]) (by rw [h.1]; omega)
      | _ => simp [Call.isScheduled] at hc
    | false =>
      rw [List.countP_cons_of_neg _ _ (by simp [hc])] at hb
      rcases run_other s call hc with h | h
      · exact ih (call.run s) (by rw [h.1, h.2, hinv]) (by rw [h.1]; exact hb)
      · exact ih (call.run s) (by rw [h.1, h.2]) (by rw [h.1]; omega)

/-- C36: in every SystemStats state reached from a freshly constructed one by
calls of `issued`, `scheduled`, `add_query`, `query_finished` and `reset`, of
which fewer than `2^32` are calls of `scheduled` (the 32-bit counter has not
wrapped), the sum of all counts in `node_to_queries` equals `queries_scheduled`;
`scheduled(n)` inserts node `n` with count 1 if it is absent, raises its count
by exactly 1 otherwise (within the 64 bits of the count) and leaves the count of
every other node as it is; `reset` restores the freshly constructed state. -/
theorem scheduled_counts :
    (∀ calls : List Call, calls.countP Call.isScheduled < 2 ^ 32 →
      (runAll SystemStats.default calls).countSum
        = (runAll SystemStats.default calls).queries_scheduled) ∧
    (∀ (s : SystemStats) (n : Nat),
      (s.node_to_queries.lookup n = none →
        (s.scheduled n).node_to_queries.lookup n = some 1) ∧
      (∀ v, s.node_to_queries.lookup n = some v → v + 1 < 2 ^ 64 →
        (s.scheduled n).node_to_queries.lookup n = some (v + 1)) ∧
      (∀ j, j ≠ n → (s.scheduled n).node_to_queries.lookup j = s.node_to_queries.lookup j)) ∧
    (∀ s : SystemStats, s.reset = SystemStats.default) := by
  refine ⟨?_, ?_, ?_⟩
  · intro calls h
    exact runAll_sum calls SystemStats.default rfl (by simpa [countSum, SystemStats.default] using h)
  · intro s n
    refine ⟨?_, ?_, ?_⟩
    · intro h
      simp only [scheduled, h]
      exact StdMap.lookup_emplace_self _ n 1 h
    · intro v h hv
      simp only [scheduled, h]
      rw [StdMap.lookup_incrementAt_self _ n v h, Nat.mod_eq_of_lt hv]
    · intro j hj
      unfold scheduled
      cases h : s.node_to_queries.lookup n with
      | none => simp only [h]; exact StdMap.lookup_emplace_other _ n 1 j hj
      | some v => simp only [h]; exact StdMap.lookup_incrementAt_other _ n j hj
  · intro s
    rfl

/-- Witness for C36: three calls of `scheduled` on two nodes and one call of
`issued`. -/
theorem scheduled_counts_witness :
    [Call.scheduled 7, Call.issued, Call.scheduled 3, Call.scheduled 7].countP Call.isScheduled
        < 2 ^ 32 ∧
      (runAll SystemStats.default
          [Call.scheduled 7, Call.issued, Call.scheduled 3, Call.scheduled 7]).countSum
        = (runAll SystemStats.default
          [Call.scheduled 7, Call.issued, Call.scheduled 3, Call.scheduled 7]).queries_scheduled :=
  ⟨by decide, scheduled_counts.1 _ (by decide)⟩

end SystemStats

/-! ## Further claims on the connections -/

/-- C37: for each connection kind, `input()` called with no read pending on a
command byte that is not acceptable (the protocol state does not accept
commands, or the byte is unknown) returns normally and leaves the connection as
it was except that `faulty` is set: the exception of `process_command` is not
propagated, and the protocol state and the flags `reading` and `writing` are
unchanged. For every kind the same holds when the peer has closed the
connection, so that no command byte is available. -/
theorem unacceptable_command_sets_faulty :
    (∀ (c : ClientConnection) (cmd : ClientCommand) (rd : ReadResult),
      c.reading = false →
      (c.state ≠ ClientState.IDLE ∨ ∃ b, cmd = ClientCommand.unknown b) →
      ClientConnection.input (CommandResult.byte cmd) rd c
        = (Except.ok (), { c with faulty := true })) ∧
    (∀ (c : WorkerConnection) (cmd : WorkerCommand) (rd : ReadResult),
      c.reading = false →
      ((c.state ≠ WorkerState.PROCESSING ∧ c.state ≠ WorkerState.WAITING_DELIVERY) ∨
        ∃ b, cmd = WorkerCommand.unknown b) →
      WorkerConnection.input (CommandResult.byte cmd) rd c
        = (Except.ok (), { c with faulty := true })) ∧
    (∀ (c : ControlConnection) (cmd : ControlCommand) (rd : ReadResult),
      c.reading = false →
      ((c.state ≠ ControlState.IDLE ∧ c.state ≠ ControlState.REORGANIZING ∧
          c.state ≠ ControlState.STATS_REQUESTED) ∨ ∃ b, cmd = ControlCommand.unknown b) →
      ControlConnection.input (CommandResult.byte cmd) rd c
        = (Except.ok (), { c with faulty := true })) ∧
    (∀ (c : DeliveryConnection) (cmd : DeliveryCommand) (rd : ReadResult),
      c.reading = false →
      ((c.state ≠ DeliveryState.IDLE ∧ c.state ≠ DeliveryState.AWAITING_MOVE_CONFIRM) ∨
        ∃ b, cmd = DeliveryCommand.unknown b) →
      DeliveryConnection.input (CommandResult.byte cmd) rd c
        = (Except.ok (), { c with faulty := true })) ∧
    (∀ (S D C : Type) (rf : BinaryReadBuffer → Op S D Unit)
        (pc : C → ReadResult → Op S D Unit) (rd : ReadResult) (c : Connection S D),
      c.reading = false →
      BaseConnection.input rf pc CommandResult.closed rd c
        = (Except.ok (), { c with faulty := true })) := by
  refine ⟨?_, ?_, ?_, ?_, ?_⟩
  · intro c cmd rd hr h
    rw [ClientConnection.input, input_command _ _ cmd rd c hr]
    by_cases hs : c.state ≠ ClientState.IDLE
    · simp [ClientConnection.process_command, Op.run_bind, Op.run_get, hs, Op.run_throw]
    · rcases h with h | ⟨b, hb⟩
      · exact absurd h hs
      · subst hb
        simp only [ne_eq, not_and_or, not_not] at hs
        simp [ClientConnection.process_command, Op.run_bind, Op.run_get, hs, Op.run_throw]
  · intro c cmd rd hr h
    rw [WorkerConnection.input, input_command _ _ cmd rd c hr]
    by_cases hs : c.state ≠ WorkerState.PROCESSING ∧ c.state ≠ WorkerState.WAITING_DELIVERY
    · simp [WorkerConnection.process_command, Op.run_bind, Op.run_get, hs, Op.run_throw]
    · rcases h with h | ⟨b, hb⟩
      · exact absurd h hs
      · subst hb
        simp only [ne_eq, not_and_or, not_not] at hs
        rcases hs with hs | hs <;> simp [WorkerConnection.process_command, Op.run_bind, Op.run_get, hs, Op.run_throw]
  · intro c cmd rd hr h
    rw [ControlConnection.input, input_command _ _ cmd rd c hr]
    by_cases hs : c.state ≠ ControlState.IDLE ∧ c.state ≠ ControlState.REORGANIZING ∧
        c.state ≠ ControlState.STATS_REQUESTED
    · simp [ControlConnection.process_command, Op.run_bind, Op.run_get, hs, Op.run_throw]
    · rcases h with h | ⟨b, hb⟩
      · exact absurd h hs
      · subst hb
        simp only [ne_eq, not_and_or, not_not] at hs
        rcases hs with hs | hs | hs <;> simp [ControlConnection.process_command, Op.run_bind, Op.run_get, hs, Op.run_throw]
  · intro c cmd rd hr h
    rw [DeliveryConnection.input, input_command _ _ cmd rd c hr]
    by_cases hs : c.state ≠ DeliveryState.IDLE ∧ c.state ≠ DeliveryState.AWAITING_MOVE_CONFIRM
    · simp [DeliveryConnection.process_command, Op.run_bind, Op.run_get, hs, Op.run_throw]
    · rcases h with h | ⟨b, hb⟩
      · exact absurd h hs
      · subst hb
        simp only [ne_eq, not_and_or, not_not] at hs
        rcases hs with hs | hs <;> simp [DeliveryConnection.process_command, Op.run_bind, Op.run_get, hs, Op.run_throw]
  · intro S D C rf pc rd c hr
    exact BaseConnection.input_no_command rf pc _ rd c hr (by simp)

/-- Witness for C37: a freshly constructed client connection receives the unknown
byte 200. -/
theorem unacceptable_command_sets_faulty_witness :
    (ClientConnection.construct 1).reading = false ∧
      ClientConnection.input (CommandResult.byte (ClientCommand.unknown 200)) ReadResult.pending
          (ClientConnection.construct 1)
        = (Except.ok (), { ClientConnection.construct 1 with faulty := true }) :=
  ⟨rfl, unacceptable_command_sets_faulty.1 (ClientConnection.construct 1)
    (ClientCommand.unknown 200) ReadResult.pending rfl (Or.inr ⟨200, rfl⟩)⟩

theorem BaseConnection.begin_write_error {S D : Type} (wf : Op S D Unit) (w : NBWriter)
    (wr : WriteResult) (c : Connection S D) (e : Exn)
    (he : (BaseConnection.begin_write wf w wr c).1 = Except.error e)
    (hr : c.reading = false) (hw : c.writing = false) :
    (wf { c with writer := some w, writing := false }).1 = Except.error e := by
  obtain ⟨id, w0, r0, f, rdr, wtr, st, d⟩ := c
  simp only at hr hw
  subst hr
  subst hw
  cases wr with
  | finished =>
    show (wf ⟨id, false, false, f, rdr, some w, st, d⟩).1 = _
    revert he
    simp only [BaseConnection.begin_write, BaseConnection.output, Op.run_bind, Op.run_get,
      Op.run_modify, Bool.not_false, Bool.and_self, if_true]
    generalize wf ⟨id, false, false, f, rdr, some w, st, d⟩ = x
    rcases x with ⟨r, c1⟩
    cases r with
    | ok a => simp
    | error e1 => simp
  | error =>
    simp [BaseConnection.begin_write, BaseConnection.output, Op.run_bind, Op.run_get,
      Op.run_modify] at he
  | pending =>
    simp [BaseConnection.begin_write, BaseConnection.output, Op.run_bind, Op.run_get,
      Op.run_modify, Op.run_pure] at he

theorem BaseConnection.begin_write_busy {S D : Type} (wf : Op S D Unit) (w : NBWriter)
    (wr : WriteResult) (c : Connection S D) (h : ¬ (c.reading = false ∧ c.writing = false)) :
    BaseConnection.begin_write wf w wr c
      = (Except.error (Exn.IllegalStateException
          "Cannot start nb-write. Another read or write action is in progress."), c) := by
  obtain ⟨id, w0, r0, f, rdr, wtr, st, d⟩ := c
  cases w0 <;> cases r0 <;>
    simp [BaseConnection.begin_write, Op.run_bind, Op.run_get, Op.run_throw] at h ⊢

theorem ClientConnection.failed_action_client (call : ClientConnection.Call)
    (h : call.isAction = true) (c : ClientConnection) (e : Exn)
    (he : (call.op c).1 = Except.error e) :
    (call.op c).2 = { c with state := (call.op c).2.state } ∧
      (c.reading = false ∧ c.writing = false → (call.op c).2 = c) := by
  cases call with
  | input cmd rd => simp [ClientConnection.Call.isAction] at h
  | output wr => simp [ClientConnection.Call.isAction] at h
  | begin_read reader rd => simp [ClientConnection.Call.isAction] at h
  | begin_write writer wr => simp [ClientConnection.Call.isAction] at h
  | send_response response wr =>
    by_cases hs : c.state = ClientState.AWAIT_RESPONSE
    · by_cases hf : c.reading = false ∧ c.writing = false
      · exfalso
        simp only [ClientConnection.Call.op, ClientConnection.send_response, Op.run_bind,
          Op.run_get, hs, if_true, Op.run_modify, ClientConnection.begin_write] at he
        have h1 := BaseConnection.begin_write_error _ _ _ _ e he hf.1 hf.2
        simp [ClientConnection.write_finished, ClientConnection.reset, Op.run_bind, Op.run_get, Op.run_modify] at h1
      · refine ⟨?_, fun hrw => absurd hrw hf⟩
        simp only [ClientConnection.Call.op, ClientConnection.send_response, Op.run_bind,
          Op.run_get, hs, if_true, Op.run_modify, ClientConnection.begin_write]
        rw [BaseConnection.begin_write_busy _ _ _ { c with state := ClientState.WRITING_RESPONSE } hf]
    · have h2 : ((ClientConnection.Call.send_response response wr).op c).2 = c := by
        simp [ClientConnection.Call.op, ClientConnection.send_response, Op.run_bind, Op.run_get, hs, Op.run_throw]
      rw [h2]
      exact ⟨rfl, fun _ => rfl⟩
  | send_error message wr =>
    by_cases hs : c.state = ClientState.AWAIT_RESPONSE
    · by_cases hf : c.reading = false ∧ c.writing = false
      · exfalso
        simp only [ClientConnection.Call.op, ClientConnection.send_error, Op.run_bind,
          Op.run_get, hs, if_true, Op.run_modify, ClientConnection.begin_write] at he
        have h1 := BaseConnection.begin_write_error _ _ _ _ e he hf.1 hf.2
        simp [ClientConnection.write_finished, ClientConnection.reset, Op.run_bind, Op.run_get, Op.run_modify] at h1
      · refine ⟨?_, fun hrw => absurd hrw hf⟩
        simp only [ClientConnection.Call.op, ClientConnection.send_error, Op.run_bind,
          Op.run_get, hs, if_true, Op.run_modify, ClientConnection.begin_write]
        rw [BaseConnection.begin_write_busy _ _ _ { c with state := ClientState.WRITING_RESPONSE } hf]
    · have h2 : ((ClientConnection.Call.send_error message wr).op c).2 = c := by
        simp [ClientConnection.Call.op, ClientConnection.send_error, Op.run_bind, Op.run_get, hs, Op.run_throw]
      rw [h2]
      exact ⟨rfl, fun _ => rfl⟩

theorem WorkerConnection.failed_action_worker (call : WorkerConnection.Call)
    (h : call.isAction = true) (c : WorkerConnection) (e : Exn)
    (he : (call.op c).1 = Except.error e) :
    (call.op c).2 = { c with state := (call.op c).2.state } ∧
      (c.reading = false ∧ c.writing = false → (call.op c).2 = c) := by
  cases call with
  | input cmd rd => simp [WorkerConnection.Call.isAction] at h
  | output wr => simp [WorkerConnection.Call.isAction] at h
  | begin_read reader rd => simp [WorkerConnection.Call.isAction] at h
  | begin_write writer wr => simp [WorkerConnection.Call.isAction] at h
  | process_request command request wr =>
    by_cases hs : c.state = WorkerState.IDLE
    · by_cases hf : c.reading = false ∧ c.writing = false
      · exfalso
        simp only [WorkerConnection.Call.op, WorkerConnection.process_request, Op.run_bind,
          Op.run_get, hs, if_true, Op.run_modify, WorkerConnection.begin_write] at he
        have h1 := BaseConnection.begin_write_error _ _ _ _ e he hf.1 hf.2
        simp [WorkerConnection.write_finished, Op.run_bind, Op.run_get, Op.run_modify] at h1
      · refine ⟨?_, fun hrw => absurd hrw hf⟩
        simp only [WorkerConnection.Call.op, WorkerConnection.process_request, Op.run_bind,
          Op.run_get, hs, if_true, Op.run_modify, WorkerConnection.begin_write]
        rw [BaseConnection.begin_write_busy _ _ _ { c with state := WorkerState.SENDING_REQUEST } hf]
    · have h2 : ((WorkerConnection.Call.process_request command request wr).op c).2 = c := by
        simp [WorkerConnection.Call.op, WorkerConnection.process_request, Op.run_bind, Op.run_get, hs, Op.run_throw]
      rw [h2]
      exact ⟨rfl, fun _ => rfl⟩
  | raster_cached =>
    by_cases hs : c.state = WorkerState.NEW_RASTER_ENTRY
    · exfalso
      simp [WorkerConnection.Call.op, WorkerConnection.raster_cached,
        Op.run_bind, Op.run_get, hs, Op.run_modify] at he
    · have h2 : ((WorkerConnection.Call.raster_cached).op c).2 = c := by
        simp [WorkerConnection.Call.op, WorkerConnection.raster_cached, Op.run_bind, Op.run_get, hs, Op.run_throw]
      rw [h2]
      exact ⟨rfl, fun _ => rfl⟩
  | send_hit cr wr =>
    by_cases hs : c.state = WorkerState.RASTER_QUERY_REQUESTED
    · by_cases hf : c.reading = false ∧ c.writing = false
      · exfalso
        simp only [WorkerConnection.Call.op, WorkerConnection.send_hit, Op.run_bind,
          Op.run_get, hs, if_true, Op.run_modify, WorkerConnection.begin_write] at he
        have h1 := BaseConnection.begin_write_error _ _ _ _ e he hf.1 hf.2
        simp [WorkerConnection.write_finished, Op.run_bind, Op.run_get, Op.run_modify] at h1
      · refine ⟨?_, fun hrw => absurd hrw hf⟩
        simp only [WorkerConnection.Call.op, WorkerConnection.send_hit, Op.run_bind,
          Op.run_get, hs, if_true, Op.run_modify, WorkerConnection.begin_write]
        rw [BaseConnection.begin_write_busy _ _ _ { c with state := WorkerState.SENDING_QUERY_RESPONSE } hf]
    · have h2 : ((WorkerConnection.Call.send_hit cr wr).op c).2 = c := by
        simp [WorkerConnection.Call.op, WorkerConnection.send_hit, Op.run_bind, Op.run_get, hs, Op.run_throw]
      rw [h2]
      exact ⟨rfl, fun _ => rfl⟩
  | send_partial_hit pr wr =>
    by_cases hs : c.state = WorkerState.RASTER_QUERY_REQUESTED
    · by_cases hf : c.reading = false ∧ c.writing = false
      · exfalso
        simp only [WorkerConnection.Call.op, WorkerConnection.send_partial_hit, Op.run_bind,
          Op.run_get, hs, if_true, Op.run_modify, WorkerConnection.begin_write] at he
        have h1 := BaseConnection.begin_write_error _ _ _ _ e he hf.1 hf.2
        simp [WorkerConnection.write_finished, Op.run_bind, Op.run_get, Op.run_modify] at h1
      · refine ⟨?_, fun hrw => absurd hrw hf⟩
        simp only [WorkerConnection.Call.op, WorkerConnection.send_partial_hit, Op.run_bind,
          Op.run_get, hs, if_true, Op.run_modify, WorkerConnection.begin_write]
        rw [BaseConnection.begin_write_busy _ _ _ { c with state := WorkerState.SENDING_QUERY_RESPONSE } hf]
    · have h2 : ((WorkerConnection.Call.send_partial_hit pr wr).op c).2 = c := by
        simp [WorkerConnection.Call.op, WorkerConnection.send_partial_hit, Op.run_bind, Op.run_get, hs, Op.run_throw]
      rw [h2]
      exact ⟨rfl, fun _ => rfl⟩
  | send_miss wr =>
    by_cases hs : c.state = WorkerState.RASTER_QUERY_REQUESTED
    · by_cases hf : c.reading = false ∧ c.writing = false
      · exfalso
        simp only [WorkerConnection.Call.op, WorkerConnection.send_miss, Op.run_bind,
          Op.run_get, hs, if_true, Op.run_modify, WorkerConnection.begin_write] at he
        have h1 := BaseConnection.begin_write_error _ _ _ _ e he hf.1 hf.2
        simp [WorkerConnection.write_finished, Op.run_bind, Op.run_get, Op.run_modify] at h1
      · refine ⟨?_, fun hrw => absurd hrw hf⟩
        simp only [WorkerConnection.Call.op, WorkerConnection.send_miss, Op.run_bind,
          Op.run_get, hs, if_true, Op.run_modify, WorkerConnection.begin_write]
        rw [BaseConnection.begin_write_busy _ _ _ { c with state := WorkerState.SENDING_QUERY_RESPONSE } hf]
    · have h2 : ((WorkerConnection.Call.send_miss wr).op c).2 = c := by
        simp [WorkerConnection.Call.op, WorkerConnection.send_miss, Op.run_bind, Op.run_get, hs, Op.run_throw]
      rw [h2]
      exact ⟨rfl, fun _ => rfl⟩
  | send_delivery_qty qty wr =>
    by_cases hs : c.state = WorkerState.DONE
    · by_cases hf : c.reading = false ∧ c.writing = false
      · exfalso
        simp only [WorkerConnection.Call.op, WorkerConnection.send_delivery_qty, Op.run_bind,
          Op.run_get, hs, if_true, Op.run_modify, WorkerConnection.begin_write] at he
        have h1 := BaseConnection.begin_write_error _ _ _ _ e he hf.1 hf.2
        simp [WorkerConnection.write_finished, Op.run_bind, Op.run_get, Op.run_modify] at h1
      · refine ⟨?_, fun hrw => absurd hrw hf⟩
        simp only [WorkerConnection.Call.op, WorkerConnection.send_delivery_qty, Op.run_bind,
          Op.run_get, hs, if_true, Op.run_modify, WorkerConnection.begin_write]
        rw [BaseConnection.begin_write_busy _ _ _ { c with state := WorkerState.SENDING_DELIVERY_QTY } hf]
    · have h2 : ((WorkerConnection.Call.send_delivery_qty qty wr).op c).2 = c := by
        simp [WorkerConnection.Call.op, WorkerConnection.send_delivery_qty, Op.run_bind, Op.run_get, hs, Op.run_throw]
      rw [h2]
      exact ⟨rfl, fun _ => rfl⟩
  | release =>
    by_cases hs : c.state = WorkerState.DELIVERY_READY ∨ c.state = WorkerState.ERROR
    · exfalso
      simp [WorkerConnection.Call.op, WorkerConnection.release, WorkerConnection.reset,
        Op.run_bind, Op.run_get, hs, Op.run_modify] at he
    · have h2 : ((WorkerConnection.Call.release).op c).2 = c := by
        simp [WorkerConnection.Call.op, WorkerConnection.release, Op.run_bind, Op.run_get, hs, Op.run_throw]
      rw [h2]
      exact ⟨rfl, fun _ => rfl⟩

theorem ControlConnection.failed_action_control (call : ControlConnection.Call)
    (h : call.isAction = true) (c : ControlConnection) (e : Exn)
    (he : (call.op c).1 = Except.error e) :
    (call.op c).2 = { c with state := (call.op c).2.state } ∧
      (c.reading = false ∧ c.writing = false → (call.op c).2 = c) := by
  cases call with
  | input cmd rd => simp [ControlConnection.Call.isAction] at h
  | output wr => simp [ControlConnection.Call.isAction] at h
  | begin_read reader rd => simp [ControlConnection.Call.isAction] at h
  | begin_write writer wr => simp [ControlConnection.Call.isAction] at h
  | send_reorg desc wr =>
    by_cases hs : c.state = ControlState.IDLE
    · by_cases hf : c.reading = false ∧ c.writing = false
      · exfalso
        simp only [ControlConnection.Call.op, ControlConnection.send_reorg, Op.run_bind,
          Op.run_get, hs, if_true, Op.run_modify, ControlConnection.begin_write] at he
        have h1 := BaseConnection.begin_write_error _ _ _ _ e he hf.1 hf.2
        simp [ControlConnection.write_finished, Op.run_bind, Op.run_get, Op.run_modify] at h1
      · refine ⟨?_, fun hrw => absurd hrw hf⟩
        simp only [ControlConnection.Call.op, ControlConnection.send_reorg, Op.run_bind,
          Op.run_get, hs, if_true, Op.run_modify, ControlConnection.begin_write]
        rw [BaseConnection.begin_write_busy _ _ _ { c with state := ControlState.SENDING_REORG } hf]
    · have h2 : ((ControlConnection.Call.send_reorg desc wr).op c).2 = c := by
        simp [ControlConnection.Call.op, ControlConnection.send_reorg, Op.run_bind, Op.run_get, hs, Op.run_throw]
      rw [h2]
      exact ⟨rfl, fun _ => rfl⟩
  | confirm_reorg wr =>
    by_cases hs : c.state = ControlState.REORG_RESULT_READ
    · by_cases hf : c.reading = false ∧ c.writing = false
      · exfalso
        simp only [ControlConnection.Call.op, ControlConnection.confirm_reorg, Op.run_bind,
          Op.run_get, hs, if_true, Op.run_modify, ControlConnection.begin_write] at he
        have h1 := BaseConnection.begin_write_error _ _ _ _ e he hf.1 hf.2
        simp [ControlConnection.write_finished, Op.run_bind, Op.run_get, Op.run_modify] at h1
      · refine ⟨?_, fun hrw => absurd hrw hf⟩
        simp only [ControlConnection.Call.op, ControlConnection.confirm_reorg, Op.run_bind,
          Op.run_get, hs, if_true, Op.run_modify, ControlConnection.begin_write]
        rw [BaseConnection.begin_write_busy _ _ _ { c with state := ControlState.SENDING_REORG_CONFIRM } hf]
    · have h2 : ((ControlConnection.Call.confirm_reorg wr).op c).2 = c := by
        simp [ControlConnection.Call.op, ControlConnection.confirm_reorg, Op.run_bind, Op.run_get, hs, Op.run_throw]
      rw [h2]
      exact ⟨rfl, fun _ => rfl⟩
  | send_get_stats wr =>
    by_cases hs : c.state = ControlState.IDLE
    · by_cases hf : c.reading = false ∧ c.writing = false
      · exfalso
        simp only [ControlConnection.Call.op, ControlConnection.send_get_stats, Op.run_bind,
          Op.run_get, hs, if_true, Op.run_modify, ControlConnection.begin_write] at he
        have h1 := BaseConnection.begin_write_error _ _ _ _ e he hf.1 hf.2
        simp [ControlConnection.write_finished, Op.run_bind, Op.run_get, Op.run_modify] at h1
      · refine ⟨?_, fun hrw => absurd hrw hf⟩
        simp only [ControlConnection.Call.op, ControlConnection.send_get_stats, Op.run_bind,
          Op.run_get, hs, if_true, Op.run_modify, ControlConnection.begin_write]
        rw [BaseConnection.begin_write_busy _ _ _ { c with state := ControlState.SENDING_STATS_REQUEST } hf]
    · have h2 : ((ControlConnection.Call.send_get_stats wr).op c).2 = c := by
        simp [ControlConnection.Call.op, ControlConnection.send_get_stats, Op.run_bind, Op.run_get, hs, Op.run_throw]
      rw [h2]
      exact ⟨rfl, fun _ => rfl⟩
  | release =>
    by_cases hs : c.state = ControlState.REORG_FINISHED ∨ c.state = ControlState.STATS_RECEIVED
    · exfalso
      simp [ControlConnection.Call.op, ControlConnection.release, ControlConnection.reset,
        Op.run_bind, Op.run_get, hs, Op.run_modify] at he
    · have h2 : ((ControlConnection.Call.release).op c).2 = c := by
        simp [ControlConnection.Call.op, ControlConnection.release, Op.run_bind, Op.run_get, hs, Op.run_throw]
      rw [h2]
      exact ⟨rfl, fun _ => rfl⟩

theorem DeliveryConnection.failed_action_delivery (call : DeliveryConnection.Call)
    (h : call.isAction = true) (c : DeliveryConnection) (e : Exn)
    (he : (call.op c).1 = Except.error e) :
    (call.op c).2 = { c with state := (call.op c).2.state } ∧
      (c.reading = false ∧ c.writing = false → (call.op c).2 = c) := by
  cases call with
  | input cmd rd => simp [DeliveryConnection.Call.isAction] at h
  | output wr => simp [DeliveryConnection.Call.isAction] at h
  | begin_read reader rd => simp [DeliveryConnection.Call.isAction] at h
  | begin_write writer wr => simp [DeliveryConnection.Call.isAction] at h
  | send_raster raster wr =>
    by_cases hs : c.state = DeliveryState.RASTER_CACHE_REQUEST_READ ∨
        c.state = DeliveryState.DELIVERY_REQUEST_READ
    · by_cases hf : c.reading = false ∧ c.writing = false
      · exfalso
        simp only [DeliveryConnection.Call.op, DeliveryConnection.send_raster, Op.run_bind,
          Op.run_get, hs, if_true, Op.run_modify, DeliveryConnection.begin_write] at he
        have h1 := BaseConnection.begin_write_error _ _ _ _ e he hf.1 hf.2
        simp [DeliveryConnection.write_finished, Op.run_bind, Op.run_get, Op.run_modify] at h1
      · refine ⟨?_, fun hrw => absurd hrw hf⟩
        simp only [DeliveryConnection.Call.op, DeliveryConnection.send_raster, Op.run_bind,
          Op.run_get, hs, if_true, Op.run_modify, DeliveryConnection.begin_write]
        rw [BaseConnection.begin_write_busy _ _ _ { c with state := DeliveryState.SENDING_RASTER } hf]
    · have h2 : ((DeliveryConnection.Call.send_raster raster wr).op c).2 = c := by
        simp [DeliveryConnection.Call.op, DeliveryConnection.send_raster, Op.run_bind, Op.run_get, hs, Op.run_throw]
      rw [h2]
      exact ⟨rfl, fun _ => rfl⟩
  | send_error msg wr =>
    by_cases hs : c.state = DeliveryState.RASTER_CACHE_REQUEST_READ ∨
        c.state = DeliveryState.DELIVERY_REQUEST_READ ∨
        c.state = DeliveryState.RASTER_MOVE_REQUEST_READ ∨
        c.state = DeliveryState.SENDING_RASTER ∨
        c.state = DeliveryState.SENDING_RASTER_MOVE
    · by_cases hf : c.reading = false ∧ c.writing = false
      · exfalso
        simp only [DeliveryConnection.Call.op, DeliveryConnection.send_error, Op.run_bind,
          Op.run_get, hs, if_true, Op.run_modify, DeliveryConnection.begin_write] at he
        have h1 := BaseConnection.begin_write_error _ _ _ _ e he hf.1 hf.2
        simp [DeliveryConnection.write_finished, Op.run_bind, Op.run_get, Op.run_modify] at h1
      · refine ⟨?_, fun hrw => absurd hrw hf⟩
        simp only [DeliveryConnection.Call.op, DeliveryConnection.send_error, Op.run_bind,
          Op.run_get, hs, if_true, Op.run_modify, DeliveryConnection.begin_write]
        rw [BaseConnection.begin_write_busy _ _ _ { c with state := DeliveryState.SENDING_ERROR } hf]
    · have h2 : ((DeliveryConnection.Call.send_error msg wr).op c).2 = c := by
        simp [DeliveryConnection.Call.op, DeliveryConnection.send_error, Op.run_bind, Op.run_get, hs, Op.run_throw]
      rw [h2]
      exact ⟨rfl, fun _ => rfl⟩
  | send_raster_move raster wr =>
    by_cases hs : c.state = DeliveryState.RASTER_MOVE_REQUEST_READ
    · by_cases hf : c.reading = false ∧ c.writing = false
      · exfalso
        simp only [DeliveryConnection.Call.op, DeliveryConnection.send_raster_move, Op.run_bind,
          Op.run_get, hs, if_true, Op.run_modify, DeliveryConnection.begin_write] at he
        have h1 := BaseConnection.begin_write_error _ _ _ _ e he hf.1 hf.2
        simp [DeliveryConnection.write_finished, Op.run_bind, Op.run_get, Op.run_modify] at h1
      · refine ⟨?_, fun hrw => absurd hrw hf⟩
        simp only [DeliveryConnection.Call.op, DeliveryConnection.send_raster_move, Op.run_bind,
          Op.run_get, hs, if_true, Op.run_modify, DeliveryConnection.begin_write]
        rw [BaseConnection.begin_write_busy _ _ _ { c with state := DeliveryState.SENDING_RASTER_MOVE } hf]
    · have h2 : ((DeliveryConnection.Call.send_raster_move raster wr).op c).2 = c := by
        simp [DeliveryConnection.Call.op, DeliveryConnection.send_raster_move, Op.run_bind, Op.run_get, hs, Op.run_throw]
      rw [h2]
      exact ⟨rfl, fun _ => rfl⟩
  | release =>
    by_cases hs : c.state = DeliveryState.MOVE_DONE
    · exfalso
      simp [DeliveryConnection.Call.op, DeliveryConnection.release,
        Op.run_bind, Op.run_get, hs, Op.run_modify] at he
    · have h2 : ((DeliveryConnection.Call.release).op c).2 = c := by
        simp [DeliveryConnection.Call.op, DeliveryConnection.release, Op.run_bind, Op.run_get, hs, Op.run_throw]
      rw [h2]
      exact ⟨rfl, fun _ => rfl⟩

namespace BaseConnection

variable {S D C : Type}

theorem input_reading_payload (P : Connection S D → Prop) (hP : OnStateData P)
    (rf : BinaryReadBuffer → Op S D Unit) (hrf : ∀ s, Preserves P (rf s)) (rd : ReadResult) :
    Preserves P (input_reading rf rd) := by
  intro c hc
  cases rd with
  | finished stream =>
    simp only [input_reading, Op.run_bind, Op.run_modify]
    have h := hrf stream { c with reading := false } (hP c _ rfl rfl hc)
    rcases hr : rf stream { c with reading := false } with ⟨r, c1⟩
    rw [hr] at h
    cases r with
    | ok a => exact hP c1 _ rfl rfl h
    | error e => exact h
  | error =>
    simp only [input_reading, Op.run_bind, Op.run_modify]
    exact hP c _ rfl rfl hc
  | pending => simpa [input_reading, Op.run_pure] using hc

theorem output_payload (P : Connection S D → Prop) (hP : OnStateData P)
    (wf : Op S D Unit) (hwf : Preserves P wf) (wr : WriteResult) :
    Preserves P (output wf wr) := by
  intro c hc
  by_cases hw : c.writing = true
  · cases wr with
    | finished =>
      simp only [output, Op.run_bind, Op.run_get, hw, if_true, Op.run_modify]
      have h := hwf { c with writing := false } (hP c _ rfl rfl hc)
      rcases hr : wf { c with writing := false } with ⟨r, c1⟩
      rw [hr] at h
      cases r with
      | ok a => exact hP c1 _ rfl rfl h
      | error e => exact h
    | error =>
      simp only [output, Op.run_bind, Op.run_get, hw, if_true, Op.run_modify]
      exact hP c _ rfl rfl hc
    | pending => simpa [output, Op.run_bind, Op.run_get, hw, Op.run_pure] using hc
  · simpa [output, Op.run_bind, Op.run_get, hw, Op.run_throw] using hc

theorem begin_read_payload (P : Connection S D → Prop) (hP : OnStateData P)
    (rf : BinaryReadBuffer → Op S D Unit) (hrf : ∀ s, Preserves P (rf s))
    (reader : NBReader) (rd : ReadResult) :
    Preserves P (begin_read rf reader rd) := by
  intro c hc
  by_cases hg : (!c.writing && !c.reading) = true
  · simp only [begin_read, Op.run_bind, Op.run_get, hg, if_true, Op.run_modify]
    exact input_reading_payload P hP rf hrf rd _ (hP c _ rfl rfl hc)
  · simp only [begin_read, Op.run_bind, Op.run_get, hg, Op.run_throw]
    exact hc

theorem begin_write_payload (P : Connection S D → Prop) (hP : OnStateData P)
    (wf : Op S D Unit) (hwf : Preserves P wf) (writer : NBWriter) (wr : WriteResult) :
    Preserves P (begin_write wf writer wr) := by
  intro c hc
  by_cases hg : (!c.writing && !c.reading) = true
  · simp only [begin_write, Op.run_bind, Op.run_get, hg, if_true, Op.run_modify]
    exact output_payload P hP wf hwf wr _ (hP c _ rfl rfl hc)
  · simp only [begin_write, Op.run_bind, Op.run_get, hg, Op.run_throw]
    exact hc

theorem input_payload (P : Connection S D → Prop) (hP : OnStateData P)
    (rf : BinaryReadBuffer → Op S D Unit) (hrf : ∀ s, Preserves P (rf s))
    (pc : C → ReadResult → Op S D Unit) (hpc : ∀ b rd, Preserves P (pc b rd))
    (cmd : CommandResult C) (rd : ReadResult) :
    Preserves P (input rf pc cmd rd) := by
  intro c hc
  by_cases hr : c.reading = true
  · rw [input_while_reading rf pc cmd rd c hr]
    exact input_reading_payload P hP rf hrf rd c hc
  · have hr2 : c.reading = false := by simpa using hr
    cases cmd with
    | byte b =>
      rw [input_command rf pc b rd c hr2]
      have h := hpc b rd c hc
      rcases hm : pc b rd c with ⟨r, c1⟩
      rw [hm] at h
      cases r with
      | ok a => exact h
      | error e => exact hP c1 _ rfl rfl h
    | closed =>
      rw [input_no_command rf pc _ rd c hr2 (by simp)]
      exact hP c _ rfl rfl hc
    | threw e =>
      rw [input_no_command rf pc _ rd c hr2 (by simp)]
      exact hP c _ rfl rfl hc

end BaseConnection

namespace ClientConnection

theorem payload_onStateData_client : OnStateData PayloadPresent := by
  intro c c1 hs hd hc
  unfold PayloadPresent at hc ⊢
  rw [hs, hd]
  exact hc

theorem read_finished_payload_client (s : BinaryReadBuffer) :
    Preserves PayloadPresent (read_finished s) := by
  intro c hc
  obtain ⟨id, w, r, f, rdr, wtr, st, d⟩ := c
  cases st <;>
    simp_all [PayloadPresent, read_finished, Op.run_bind, Op.run_get, Op.run_modify,
      Op.run_throw]

theorem write_finished_payload_client : Preserves PayloadPresent write_finished := by
  intro c hc
  obtain ⟨id, w, r, f, rdr, wtr, st, d⟩ := c
  cases st <;>
    simp_all [PayloadPresent, write_finished, reset, Op.run_bind, Op.run_get, Op.run_modify,
      Op.run_throw]

theorem process_command_payload_client (cmd : ClientCommand) (rd : ReadResult) :
    Preserves PayloadPresent (process_command cmd rd) := by
  intro c hc
  by_cases hs : c.state ≠ ClientState.IDLE
  · simpa [process_command, Op.run_bind, Op.run_get, hs, Op.run_throw] using hc
  · cases cmd with
    | CMD_GET_RASTER =>
      simp only [process_command, Op.run_bind, Op.run_get, hs, if_false, Op.run_modify]
      exact BaseConnection.begin_read_payload _ payload_onStateData_client _ read_finished_payload_client
        _ _ _ (by simp [PayloadPresent])
    | unknown b =>
      simp only [process_command, Op.run_bind, Op.run_get]
      split_ifs
      all_goals simpa [Op.run_throw] using hc

theorem call_payload_client (call : Call) : Preserves PayloadPresent call.op := by
  intro c hc
  cases call with
  | input cmd rd =>
    exact BaseConnection.input_payload _ payload_onStateData_client _ read_finished_payload_client _
      process_command_payload_client cmd rd c hc
  | output wr =>
    exact BaseConnection.output_payload _ payload_onStateData_client _ write_finished_payload_client wr c hc
  | begin_read reader rd =>
    exact BaseConnection.begin_read_payload _ payload_onStateData_client _ read_finished_payload_client
      reader rd c hc
  | begin_write writer wr =>
    exact BaseConnection.begin_write_payload _ payload_onStateData_client _ write_finished_payload_client
      writer wr c hc
  | send_response response wr =>
    by_cases hs : c.state = ClientState.AWAIT_RESPONSE
    · simp only [Call.op, send_response, Op.run_bind, Op.run_get, hs, if_true, Op.run_modify]
      exact BaseConnection.begin_write_payload _ payload_onStateData_client _ write_finished_payload_client
        _ _ _ (by simp [PayloadPresent])
    · simpa [Call.op, send_response, Op.run_bind, Op.run_get, hs, Op.run_throw] using hc
  | send_error message wr =>
    by_cases hs : c.state = ClientState.AWAIT_RESPONSE
    · simp only [Call.op, send_error, Op.run_bind, Op.run_get, hs, if_true, Op.run_modify]
      exact BaseConnection.begin_write_payload _ payload_onStateData_client _ write_finished_payload_client
        _ _ _ (by simp [PayloadPresent])
    · simpa [Call.op, send_error, Op.run_bind, Op.run_get, hs, Op.run_throw] using hc

end ClientConnection

namespace WorkerConnection

theorem payload_onStateData_worker : OnStateData PayloadPresent := by
  intro c c1 hs hd hc
  unfold PayloadPresent at hc ⊢
  rw [hs, hd]
  exact hc

theorem read_finished_payload_worker (s : BinaryReadBuffer) :
    Preserves PayloadPresent (read_finished s) := by
  intro c hc
  obtain ⟨id, w, r, f, rdr, wtr, st, d⟩ := c
  cases st
  case READING_DELIVERY_ID =>
    simp only [read_finished, Op.run_bind, Op.run_get]
    rcases readStream_run (readUInt 8) s
      (⟨id, w, r, f, rdr, wtr, WorkerState.READING_DELIVERY_ID, d⟩ : WorkerConnection)
      with ⟨x, hx⟩ | ⟨e, he⟩
    · rw [hx]; simp [Op.run_modify, PayloadPresent]
    · rw [he]; exact hc
  case READING_ERROR =>
    simp only [read_finished, Op.run_bind, Op.run_get]
    rcases readStream_run readString s
      (⟨id, w, r, f, rdr, wtr, WorkerState.READING_ERROR, d⟩ : WorkerConnection)
      with ⟨x, hx⟩ | ⟨e, he⟩
    · rw [hx]; simp [Op.run_modify, PayloadPresent]
    · rw [he]; exact hc
  all_goals
    simp_all [PayloadPresent, read_finished, Op.run_bind, Op.run_get, Op.run_modify,
      Op.run_throw]

theorem write_finished_payload_worker : Preserves PayloadPresent write_finished := by
  intro c hc
  obtain ⟨id, w, r, f, rdr, wtr, st, d⟩ := c
  cases st <;>
    simp_all [PayloadPresent, write_finished, Op.run_bind, Op.run_get, Op.run_modify,
      Op.run_throw]

theorem process_command_payload_worker (cmd : WorkerCommand) (rd : ReadResult) :
    Preserves PayloadPresent (process_command cmd rd) := by
  intro c hc
  by_cases hs : c.state ≠ WorkerState.PROCESSING ∧ c.state ≠ WorkerState.WAITING_DELIVERY
  · simpa [process_command, Op.run_bind, Op.run_get, hs, Op.run_throw] using hc
  · cases cmd with
    | RESP_RESULT_READY =>
      simp only [process_command, Op.run_bind, Op.run_get, hs, if_false, Op.run_modify]
      simp [PayloadPresent]
    | RESP_DELIVERY_READY =>
      simp only [process_command, Op.run_bind, Op.run_get, hs, if_false, Op.run_modify]
      exact BaseConnection.begin_read_payload _ payload_onStateData_worker _ read_finished_payload_worker
        _ _ _ (by simp [PayloadPresent])
    | CMD_QUERY_RASTER_CACHE =>
      simp only [process_command, Op.run_bind, Op.run_get, hs, if_false, Op.run_modify]
      exact BaseConnection.begin_read_payload _ payload_onStateData_worker _ read_finished_payload_worker
        _ _ _ (by simp [PayloadPresent])
    | RESP_NEW_RASTER_CACHE_ENTRY =>
      simp only [process_command, Op.run_bind, Op.run_get, hs, if_false, Op.run_modify]
      exact BaseConnection.begin_read_payload _ payload_onStateData_worker _ read_finished_payload_worker
        _ _ _ (by simp [PayloadPresent])
    | RESP_ERROR =>
      simp only [process_command, Op.run_bind, Op.run_get, hs, if_false, Op.run_modify]
      exact BaseConnection.begin_read_payload _ payload_onStateData_worker _ read_finished_payload_worker
        _ _ _ (by simp [PayloadPresent])
    | unknown b =>
      simp only [process_command, Op.run_bind, Op.run_get]
      split_ifs
      all_goals simpa [Op.run_throw] using hc

theorem call_payload_worker (call : Call) : Preserves PayloadPresent call.op := by
  intro c hc
  cases call with
  | input cmd rd =>
    exact BaseConnection.input_payload _ payload_onStateData_worker _ read_finished_payload_worker _
      process_command_payload_worker cmd rd c hc
  | output wr =>
    exact BaseConnection.output_payload _ payload_onStateData_worker _ write_finished_payload_worker wr c hc
  | begin_read reader rd =>
    exact BaseConnection.begin_read_payload _ payload_onStateData_worker _ read_finished_payload_worker
      reader rd c hc
  | begin_write writer wr =>
    exact BaseConnection.begin_write_payload _ payload_onStateData_worker _ write_finished_payload_worker
      writer wr c hc
  | process_request command request wr =>
    by_cases hs : c.state = WorkerState.IDLE
    · simp only [Call.op, process_request, Op.run_bind, Op.run_get, hs, if_true, Op.run_modify]
      exact BaseConnection.begin_write_payload _ payload_onStateData_worker _ write_finished_payload_worker
        _ _ _ (by simp [PayloadPresent])
    · simpa [Call.op, process_request, Op.run_bind, Op.run_get, hs, Op.run_throw] using hc
  | raster_cached =>
    by_cases hs : c.state = WorkerState.NEW_RASTER_ENTRY
    · simp [Call.op, raster_cached, reset, Op.run_bind, Op.run_get, hs, Op.run_modify, PayloadPresent]
    · simpa [Call.op, raster_cached, Op.run_bind, Op.run_get, hs, Op.run_throw] using hc
  | send_hit cr wr =>
    by_cases hs : c.state = WorkerState.RASTER_QUERY_REQUESTED
    · simp only [Call.op, send_hit, Op.run_bind, Op.run_get, hs, if_true, Op.run_modify]
      exact BaseConnection.begin_write_payload _ payload_onStateData_worker _ write_finished_payload_worker
        _ _ _ (by simp [PayloadPresent])
    · simpa [Call.op, send_hit, Op.run_bind, Op.run_get, hs, Op.run_throw] using hc
  | send_partial_hit pr wr =>
    by_cases hs : c.state = WorkerState.RASTER_QUERY_REQUESTED
    · simp only [Call.op, send_partial_hit, Op.run_bind, Op.run_get, hs, if_true, Op.run_modify]
      exact BaseConnection.begin_write_payload _ payload_onStateData_worker _ write_finished_payload_worker
        _ _ _ (by simp [PayloadPresent])
    · simpa [Call.op, send_partial_hit, Op.run_bind, Op.run_get, hs, Op.run_throw] using hc
  | send_miss wr =>
    by_cases hs : c.state = WorkerState.RASTER_QUERY_REQUESTED
    · simp only [Call.op, send_miss, Op.run_bind, Op.run_get, hs, if_true, Op.run_modify]
      exact BaseConnection.begin_write_payload _ payload_onStateData_worker _ write_finished_payload_worker
        _ _ _ (by simp [PayloadPresent])
    · simpa [Call.op, send_miss, Op.run_bind, Op.run_get, hs, Op.run_throw] using hc
  | send_delivery_qty qty wr =>
    by_cases hs : c.state = WorkerState.DONE
    · simp only [Call.op, send_delivery_qty, Op.run_bind, Op.run_get, hs, if_true, Op.run_modify]
      exact BaseConnection.begin_write_payload _ payload_onStateData_worker _ write_finished_payload_worker
        _ _ _ (by simp [PayloadPresent])
    · simpa [Call.op, send_delivery_qty, Op.run_bind, Op.run_get, hs, Op.run_throw] using hc
  | release =>
    by_cases hs : c.state = WorkerState.DELIVERY_READY ∨ c.state = WorkerState.ERROR
    · simp [Call.op, release, reset, Op.run_bind, Op.run_get, hs, Op.run_modify, PayloadPresent]
    · simpa [Call.op, release, Op.run_bind, Op.run_get, hs, Op.run_throw] using hc

end WorkerConnection

namespace ControlConnection

theorem payload_onStateData_control : OnStateData PayloadPresent := by
  intro c c1 hs hd hc
  unfold PayloadPresent at hc ⊢
  rw [hs, hd]
  exact hc

theorem read_finished_payload_control (s : BinaryReadBuffer) :
    Preserves PayloadPresent (read_finished s) := by
  intro c hc
  obtain ⟨id, w, r, f, rdr, wtr, st, d⟩ := c
  cases st
  all_goals
    simp_all [PayloadPresent, read_finished, Op.run_bind, Op.run_get, Op.run_modify,
      Op.run_throw]

theorem write_finished_payload_control : Preserves PayloadPresent write_finished := by
  intro c hc
  obtain ⟨id, w, r, f, rdr, wtr, st, d⟩ := c
  cases st <;>
    simp_all [PayloadPresent, write_finished, Op.run_bind, Op.run_get, Op.run_modify,
      Op.run_throw]

theorem process_command_payload_control (cmd : ControlCommand) (rd : ReadResult) :
    Preserves PayloadPresent (process_command cmd rd) := by
  intro c hc
  by_cases hs : c.state ≠ ControlState.IDLE ∧ c.state ≠ ControlState.REORGANIZING ∧
      c.state ≠ ControlState.STATS_REQUESTED
  · simpa [process_command, Op.run_bind, Op.run_get, hs, Op.run_throw] using hc
  · cases cmd with
    | RESP_REORG_ITEM_MOVED =>
      simp only [process_command, Op.run_bind, Op.run_get, hs, if_false, Op.run_modify]
      exact BaseConnection.begin_read_payload _ payload_onStateData_control _ read_finished_payload_control
        _ _ _ (by simp [PayloadPresent])
    | RESP_REORG_DONE =>
      simp only [process_command, Op.run_bind, Op.run_get, hs, if_false, Op.run_modify]
      simp [PayloadPresent]
    | RESP_STATS =>
      simp only [process_command, Op.run_bind, Op.run_get, hs, if_false, Op.run_modify]
      exact BaseConnection.begin_read_payload _ payload_onStateData_control _ read_finished_payload_control
        _ _ _ (by simp [PayloadPresent])
    | unknown b =>
      simp only [process_command, Op.run_bind, Op.run_get]
      split_ifs
      all_goals simpa [Op.run_throw] using hc

theorem call_payload_control (call : Call) : Preserves PayloadPresent call.op := by
  intro c hc
  cases call with
  | input cmd rd =>
    exact BaseConnection.input_payload _ payload_onStateData_control _ read_finished_payload_control _
      process_command_payload_control cmd rd c hc
  | output wr =>
    exact BaseConnection.output_payload _ payload_onStateData_control _ write_finished_payload_control wr c hc
  | begin_read reader rd =>
    exact BaseConnection.begin_read_payload _ payload_onStateData_control _ read_finished_payload_control
      reader rd c hc
  | begin_write writer wr =>
    exact BaseConnection.begin_write_payload _ payload_onStateData_control _ write_finished_payload_control
      writer wr c hc
  | send_reorg desc wr =>
    by_cases hs : c.state = ControlState.IDLE
    · simp only [Call.op, send_reorg, Op.run_bind, Op.run_get, hs, if_true, Op.run_modify]
      exact BaseConnection.begin_write_payload _ payload_onStateData_control _ write_finished_payload_control
        _ _ _ (by simp [PayloadPresent])
    · simpa [Call.op, send_reorg, Op.run_bind, Op.run_get, hs, Op.run_throw] using hc
  | confirm_reorg wr =>
    by_cases hs : c.state = ControlState.REORG_RESULT_READ
    · simp only [Call.op, confirm_reorg, Op.run_bind, Op.run_get, hs, if_true, Op.run_modify]
      exact BaseConnection.begin_write_payload _ payload_onStateData_control _ write_finished_payload_control
        _ _ _ (by simp [PayloadPresent])
    · simpa [Call.op, confirm_reorg, Op.run_bind, Op.run_get, hs, Op.run_throw] using hc
  | send_get_stats wr =>
    by_cases hs : c.state = ControlState.IDLE
    · simp only [Call.op, send_get_stats, Op.run_bind, Op.run_get, hs, if_true, Op.run_modify]
      exact BaseConnection.begin_write_payload _ payload_onStateData_control _ write_finished_payload_control
        _ _ _ (by simp [PayloadPresent])
    · simpa [Call.op, send_get_stats, Op.run_bind, Op.run_get, hs, Op.run_throw] using hc
  | release =>
    by_cases hs : c.state = ControlState.REORG_FINISHED ∨ c.state = ControlState.STATS_RECEIVED
    · simp [Call.op, release, reset, Op.run_bind, Op.run_get, hs, Op.run_modify, PayloadPresent]
    · simpa [Call.op, release, Op.run_bind, Op.run_get, hs, Op.run_throw] using hc

end ControlConnection

/-- C33: in every state reached from the constructor by any sequence of calls,
the payload a getter hands out is present in the state that permits the getter.
A client connection in AWAIT_RESPONSE has request type RASTER and `get_request`
returns a stored request; a worker connection returns a result in
DELIVERY_READY, a raster query in RASTER_QUERY_REQUESTED and a new raster entry
in NEW_RASTER_ENTRY; a control connection returns a reorg result in
REORG_RESULT_READ and stats in STATS_RECEIVED. No getter returns an unset
pointer. -/
theorem getter_payload_present :
    (∀ (id : Nat) (calls : List ClientConnection.Call),
      (runCalls ClientConnection.Call.op calls (ClientConnection.construct id)).state
          = ClientState.AWAIT_RESPONSE →
        ClientConnection.get_request_type
            (runCalls ClientConnection.Call.op calls (ClientConnection.construct id))
          = Except.ok RequestType.RASTER ∧
        ∃ request, ClientConnection.get_request
            (runCalls ClientConnection.Call.op calls (ClientConnection.construct id))
          = Except.ok (some request)) ∧
    (∀ (id : Nat) (node : Node) (calls : List WorkerConnection.Call),
      ((runCalls WorkerConnection.Call.op calls (WorkerConnection.construct id node)).state
          = WorkerState.DELIVERY_READY →
        ∃ result, WorkerConnection.get_result
            (runCalls WorkerConnection.Call.op calls (WorkerConnection.construct id node))
          = Except.ok (some result)) ∧
      ((runCalls WorkerConnection.Call.op calls (WorkerConnection.construct id node)).state
          = WorkerState.RASTER_QUERY_REQUESTED →
        ∃ query, WorkerConnection.get_raster_query
            (runCalls WorkerConnection.Call.op calls (WorkerConnection.construct id node))
          = Except.ok (some query)) ∧
      ((runCalls WorkerConnection.Call.op calls (WorkerConnection.construct id node)).state
          = WorkerState.NEW_RASTER_ENTRY →
        ∃ entry, WorkerConnection.get_new_raster_entry
            (runCalls WorkerConnection.Call.op calls (WorkerConnection.construct id node))
          = Except.ok (some entry))) ∧
    (∀ (id : Nat) (node : Node) (calls : List ControlConnection.Call),
      ((runCalls ControlConnection.Call.op calls (ControlConnection.construct id node)).state
          = ControlState.REORG_RESULT_READ →
        ∃ result, ControlConnection.get_result
            (runCalls ControlConnection.Call.op calls (ControlConnection.construct id node))
          = Except.ok (some result)) ∧
      ((runCalls ControlConnection.Call.op calls (ControlConnection.construct id node)).state
          = ControlState.STATS_RECEIVED →
        ∃ stats, ControlConnection.get_stats
            (runCalls ControlConnection.Call.op calls (ControlConnection.construct id node))
          = Except.ok (some stats))) := by
  refine ⟨?_, ?_, ?_⟩
  · intro id calls hs
    have h := runCalls_preserves ClientConnection.Call.op ClientConnection.PayloadPresent
      ClientConnection.call_payload_client calls (ClientConnection.construct id)
      (by simp [ClientConnection.PayloadPresent, ClientConnection.construct,
        BaseConnection.construct])
    generalize runCalls ClientConnection.Call.op calls (ClientConnection.construct id) = c
      at h hs
    obtain ⟨h1, h2⟩ := h.1 hs
    obtain ⟨request, hr⟩ := Option.isSome_iff_exists.mp h1
    exact ⟨by simp [ClientConnection.get_request_type, hs, h2],
      request, by simp [ClientConnection.get_request, hs, h2, hr]⟩
  · intro id node calls
    have h := runCalls_preserves WorkerConnection.Call.op WorkerConnection.PayloadPresent
      WorkerConnection.call_payload_worker calls (WorkerConnection.construct id node)
      (by simp [WorkerConnection.PayloadPresent, WorkerConnection.construct,
        BaseConnection.construct])
    generalize runCalls WorkerConnection.Call.op calls (WorkerConnection.construct id node) = c
      at h
    refine ⟨fun hs => ?_, fun hs => ?_, fun hs => ?_⟩
    · obtain ⟨x, hx⟩ := Option.isSome_iff_exists.mp (h.1 hs)
      exact ⟨x, by simp [WorkerConnection.get_result, hs, hx]⟩
    · obtain ⟨x, hx⟩ := Option.isSome_iff_exists.mp (h.2.1 hs)
      exact ⟨x, by simp [WorkerConnection.get_raster_query, hs, hx]⟩
    · obtain ⟨x, hx⟩ := Option.isSome_iff_exists.mp (h.2.2 hs)
      exact ⟨x, by simp [WorkerConnection.get_new_raster_entry, hs, hx]⟩
  · intro id node calls
    have h := runCalls_preserves ControlConnection.Call.op ControlConnection.PayloadPresent
      ControlConnection.call_payload_control calls (ControlConnection.construct id node)
      (by simp [ControlConnection.PayloadPresent, ControlConnection.construct,
        BaseConnection.construct])
    generalize runCalls ControlConnection.Call.op calls (ControlConnection.construct id node)
      = c at h
    refine ⟨fun hs => ?_, fun hs => ?_⟩
    · obtain ⟨x, hx⟩ := Option.isSome_iff_exists.mp (h.1 hs)
      exact ⟨x, by simp [ControlConnection.get_result, hs, hx]⟩
    · obtain ⟨x, hx⟩ := Option.isSome_iff_exists.mp (h.2 hs)
      exact ⟨x, by simp [ControlConnection.get_stats, hs, hx]⟩

/-- Witness for C33: a client connection that received CMD_GET_RASTER and read
the request bytes [1, 2] at once is in AWAIT_RESPONSE. -/
theorem getter_payload_present_witness :
    (runCalls ClientConnection.Call.op
        [ClientConnection.Call.input (CommandResult.byte ClientCommand.CMD_GET_RASTER)
          (ReadResult.finished [1, 2])]
        (ClientConnection.construct 1)).state = ClientState.AWAIT_RESPONSE ∧
      ClientConnection.get_request_type (runCalls ClientConnection.Call.op
        [ClientConnection.Call.input (CommandResult.byte ClientCommand.CMD_GET_RASTER)
          (ReadResult.finished [1, 2])]
        (ClientConnection.construct 1)) = Except.ok RequestType.RASTER :=
  ⟨rfl, (getter_payload_present.1 1
    [ClientConnection.Call.input (CommandResult.byte ClientCommand.CMD_GET_RASTER)
      (ReadResult.finished [1, 2])] rfl).1⟩

theorem FlagsFollowState.reading_false {S D : Type} {isR isS : S → Bool} {c : Connection S D}
    (hc : FlagsFollowState isR isS c) (h : isR c.state = false) : c.reading = false := by
  cases hcf : c.reading with
  | false => rfl
  | true => rw [hc.1 hcf] at h; exact absurd h (by simp)

theorem FlagsFollowState.writing_false {S D : Type} {isR isS : S → Bool} {c : Connection S D}
    (hc : FlagsFollowState isR isS c) (h : isS c.state = false) : c.writing = false := by
  cases hcf : c.writing with
  | false => rfl
  | true => rw [hc.2 hcf] at h; exact absurd h (by simp)

theorem FlagsFollowState.of_idle {S D : Type} (isR isS : S → Bool) (c : Connection S D)
    (hr : c.reading = false) (hw : c.writing = false) : FlagsFollowState isR isS c :=
  ⟨fun h => absurd (hr ▸ h) (by simp), fun h => absurd (hw ▸ h) (by simp)⟩

namespace BaseConnection
variable {S D C : Type}

theorem input_reading_still (rf : BinaryReadBuffer → Op S D Unit)
    (hrf : ∀ s, KeepsFlags (rf s)) (rd : ReadResult) (c : Connection S D)
    (h : (input_reading rf rd c).2.reading = true) : (input_reading rf rd c).2 = c := by
  cases rd with
  | finished stream =>
    exfalso
    revert h
    simp only [input_reading, Op.run_bind, Op.run_modify]
    have h := hrf stream { c with reading := false }
    rcases hr : rf stream { c with reading := false } with ⟨r, c1⟩
    rw [hr] at h
    cases r <;> simp_all [Op.run_modify]
  | error => simp [input_reading, Op.run_bind, Op.run_modify] at h
  | pending => simp [input_reading, Op.run_pure]

theorem output_still (wf : Op S D Unit) (hwf : KeepsFlags wf) (wr : WriteResult)
    (c : Connection S D) (h : (output wf wr c).2.writing = true) : (output wf wr c).2 = c := by
  by_cases hw : c.writing = true
  · cases wr with
    | finished =>
      exfalso
      revert h
      simp only [output, Op.run_bind, Op.run_get, hw, if_true, Op.run_modify]
      have h := hwf { c with writing := false }
      rcases hr : wf { c with writing := false } with ⟨r, c1⟩
      rw [hr] at h
      cases r <;> simp_all [Op.run_modify]
    | error => simp [output, Op.run_bind, Op.run_get, hw, Op.run_modify] at h
    | pending => simp [output, Op.run_bind, Op.run_get, hw, Op.run_pure]
  · simp [output, Op.run_bind, Op.run_get, hw, Op.run_throw]

theorem input_reading_follows (isR isS : S → Bool) (rf : BinaryReadBuffer → Op S D Unit)
    (hrf : ∀ s, KeepsFlags (rf s)) (rd : ReadResult) (c : Connection S D)
    (hc : FlagsFollowState isR isS c) (hw : c.writing = false) :
    FlagsFollowState isR isS (input_reading rf rd c).2 := by
  refine ⟨fun h => ?_, fun h => ?_⟩
  · have e := input_reading_still rf hrf rd c h
    rw [e] at h ⊢
    exact hc.1 h
  · rw [(input_reading_flags rf hrf rd c).2, hw] at h
    exact absurd h (by simp)

theorem output_follows (isR isS : S → Bool) (hdis : ∀ s, isR s = true → isS s = true → False)
    (wf : Op S D Unit) (hwf : KeepsFlags wf) (wr : WriteResult) (c : Connection S D)
    (hc : FlagsFollowState isR isS c) :
    FlagsFollowState isR isS (output wf wr c).2 := by
  refine ⟨fun h => ?_, fun h => ?_⟩
  · rw [(output_flags wf hwf wr c).1] at h
    have hw : (output wf wr c).2.writing = false := by
      by_contra hw2
      have hw3 : (output wf wr c).2.writing = true := by simpa using hw2
      exact hdis _ (hc.1 h) (hc.2 ((output_flags wf hwf wr c).2 hw3))
    by_cases hcw : c.writing = true
    · exact absurd (hc.2 hcw) (fun h2 => hdis _ (hc.1 h) h2)
    · have h3 : (output wf wr c).2 = c := by
        simp [output, Op.run_bind, Op.run_get, hcw, Op.run_throw]
      rw [h3]
      exact hc.1 h
  · have e := output_still wf hwf wr c h
    rw [e] at h ⊢
    exact hc.2 h

theorem begin_read_follows (isR isS : S → Bool) (rf : BinaryReadBuffer → Op S D Unit)
    (hrf : ∀ s, KeepsFlags (rf s)) (reader : NBReader) (rd : ReadResult) (c : Connection S D)
    (hw : c.writing = false) (hs : isR c.state = true) :
    FlagsFollowState isR isS (begin_read rf reader rd c).2 := by
  have hc : FlagsFollowState isR isS c := ⟨fun _ => hs, fun h => by simp [hw] at h⟩
  by_cases hg : (!c.writing && !c.reading) = true
  · simp only [begin_read, Op.run_bind, Op.run_get, hg, if_true, Op.run_modify]
    exact input_reading_follows isR isS rf hrf rd _ ⟨fun _ => hs, hc.2⟩ hw
  · simp only [begin_read, Op.run_bind, Op.run_get, hg, Op.run_throw]
    exact hc

theorem begin_write_follows (isR isS : S → Bool) (wf : Op S D Unit) (hwf : KeepsFlags wf)
    (writer : NBWriter) (wr : WriteResult) (c : Connection S D)
    (hr : c.reading = false) (hs : isS c.state = true) :
    FlagsFollowState isR isS (begin_write wf writer wr c).2 := by
  have hc : FlagsFollowState isR isS c := ⟨fun h => by simp [hr] at h, fun _ => hs⟩
  by_cases hg : (!c.writing && !c.reading) = true
  · simp only [begin_write, Op.run_bind, Op.run_get, hg, if_true, Op.run_modify]
    refine ⟨fun h => ?_, fun h => ?_⟩
    · rw [(output_flags wf hwf wr _).1] at h
      simp [hr] at h
    · rw [output_still wf hwf wr _ h]
      exact hs
  · simp only [begin_write, Op.run_bind, Op.run_get, hg, Op.run_throw]
    exact hc

theorem input_follows (isR isS : S → Bool) (hdis : ∀ s, isR s = true → isS s = true → False)
    (rf : BinaryReadBuffer → Op S D Unit) (hrf : ∀ s, KeepsFlags (rf s))
    (pc : C → ReadResult → Op S D Unit)
    (hpc : ∀ b rd, Preserves (FlagsFollowState isR isS) (pc b rd))
    (cmd : CommandResult C) (rd : ReadResult) :
    Preserves (FlagsFollowState isR isS) (input rf pc cmd rd) := by
  intro c hc
  by_cases hr : c.reading = true
  · rw [input_while_reading rf pc cmd rd c hr]
    have hw : c.writing = false := by
      by_contra hw2
      have hw3 : c.writing = true := by simpa using hw2
      exact hdis _ (hc.1 hr) (hc.2 hw3)
    exact input_reading_follows isR isS rf hrf rd c hc hw
  · have hr2 : c.reading = false := by simpa using hr
    cases cmd with
    | byte b =>
      rw [input_command rf pc b rd c hr2]
      have h := hpc b rd c hc
      rcases hm : pc b rd c with ⟨r, c1⟩
      rw [hm] at h
      cases r with
      | ok a => exact h
      | error e => exact h
    | closed =>
      rw [input_no_command rf pc _ rd c hr2 (by simp)]
      exact hc
    | threw e =>
      rw [input_no_command rf pc _ rd c hr2 (by simp)]
      exact hc

end BaseConnection

theorem ClientState.reading_not_sending_client (s : ClientState) (h1 : s.isReading = true)
    (h2 : s.isSending = true) : False := by
  cases s <;> simp [ClientState.isReading, ClientState.isSending] at h1 h2

namespace ClientConnection

theorem process_command_follows_client (cmd : ClientCommand) (rd : ReadResult) :
    Preserves (FlagsFollowState ClientState.isReading ClientState.isSending) (process_command cmd rd) := by
  intro c hc
  by_cases hs : c.state ≠ ClientState.IDLE
  · simpa [process_command, Op.run_bind, Op.run_get, hs, Op.run_throw] using hc
  · have hs2 : c.state = ClientState.IDLE := by
      simp only [ne_eq, not_and_or, not_not] at hs
      exact hs
    have hr : c.reading = false := hc.reading_false (by rw [hs2]; rfl)
    have hw : c.writing = false := hc.writing_false (by rw [hs2]; rfl)
    cases cmd with
    | CMD_GET_RASTER =>
      simp only [process_command, Op.run_bind, Op.run_get, hs, if_false, Op.run_modify]
      exact BaseConnection.begin_read_follows _ _ _ read_finished_keepsFlags_client
        _ _ _ (by exact hw) (by rfl)
    | unknown b =>
      simp only [process_command, Op.run_bind, Op.run_get]
      split_ifs
      all_goals simpa [Op.run_throw] using hc

theorem call_follows_client (call : Call) (hd : call.direct = false) :
    Preserves (FlagsFollowState ClientState.isReading ClientState.isSending) call.op := by
  intro c hc
  cases call with
  | input cmd rd =>
    exact BaseConnection.input_follows _ _ ClientState.reading_not_sending_client _
      read_finished_keepsFlags_client _ process_command_follows_client cmd rd c hc
  | output wr =>
    exact BaseConnection.output_follows _ _ ClientState.reading_not_sending_client _
      write_finished_keepsFlags_client wr c hc
  | begin_read reader rd => simp [Call.direct] at hd
  | begin_write writer wr => simp [Call.direct] at hd
  | send_response response wr =>
    by_cases hs : c.state = ClientState.AWAIT_RESPONSE
    · have hr : c.reading = false := hc.reading_false (by rw [hs]; rfl)
      simp only [Call.op, send_response, Op.run_bind, Op.run_get, hs, if_true, Op.run_modify]
      exact BaseConnection.begin_write_follows _ _ _ write_finished_keepsFlags_client
        _ _ _ (by exact hr) (by rfl)
    · simpa [Call.op, send_response, Op.run_bind, Op.run_get, hs, Op.run_throw] using hc
  | send_error message wr =>
    by_cases hs : c.state = ClientState.AWAIT_RESPONSE
    · have hr : c.reading = false := hc.reading_false (by rw [hs]; rfl)
      simp only [Call.op, send_error, Op.run_bind, Op.run_get, hs, if_true, Op.run_modify]
      exact BaseConnection.begin_write_follows _ _ _ write_finished_keepsFlags_client
        _ _ _ (by exact hr) (by rfl)
    · simpa [Call.op, send_error, Op.run_bind, Op.run_get, hs, Op.run_throw] using hc

end ClientConnection

theorem WorkerState.reading_not_sending_worker (s : WorkerState) (h1 : s.isReading = true)
    (h2 : s.isSending = true) : False := by
  cases s <;> simp [WorkerState.isReading, WorkerState.isSending] at h1 h2

namespace WorkerConnection

theorem process_command_follows_worker (cmd : WorkerCommand) (rd : ReadResult) :
    Preserves (FlagsFollowState WorkerState.isReading WorkerState.isSending) (process_command cmd rd) := by
  intro c hc
  by_cases hs : c.state ≠ WorkerState.PROCESSING ∧ c.state ≠ WorkerState.WAITING_DELIVERY
  · simpa [process_command, Op.run_bind, Op.run_get, hs, Op.run_throw] using hc
  · have hs2 : c.state = WorkerState.PROCESSING ∨ c.state = WorkerState.WAITING_DELIVERY := by
      simp only [ne_eq, not_and_or, not_not] at hs
      exact hs
    have hr : c.reading = false := hc.reading_false (by rcases hs2 with hs2 | hs2 <;> rw [hs2] <;> rfl)
    have hw : c.writing = false := hc.writing_false (by rcases hs2 with hs2 | hs2 <;> rw [hs2] <;> rfl)
    cases cmd with
    | RESP_RESULT_READY =>
      simp only [process_command, Op.run_bind, Op.run_get, hs, if_false, Op.run_modify]
      exact FlagsFollowState.of_idle _ _ _ (by exact hr) (by exact hw)
    | RESP_DELIVERY_READY =>
      simp only [process_command, Op.run_bind, Op.run_get, hs, if_false, Op.run_modify]
      exact BaseConnection.begin_read_follows _ _ _ read_finished_keepsFlags_worker
        _ _ _ (by exact hw) (by rfl)
    | CMD_QUERY_RASTER_CACHE =>
      simp only [process_command, Op.run_bind, Op.run_get, hs, if_false, Op.run_modify]
      exact BaseConnection.begin_read_follows _ _ _ read_finished_keepsFlags_worker
        _ _ _ (by exact hw) (by rfl)
    | RESP_NEW_RASTER_CACHE_ENTRY =>
      simp only [process_command, Op.run_bind, Op.run_get, hs, if_false, Op.run_modify]
      exact BaseConnection.begin_read_follows _ _ _ read_finished_keepsFlags_worker
        _ _ _ (by exact hw) (by rfl)
    | RESP_ERROR =>
      simp only [process_command, Op.run_bind, Op.run_get, hs, if_false, Op.run_modify]
      exact BaseConnection.begin_read_follows _ _ _ read_finished_keepsFlags_worker
        _ _ _ (by exact hw) (by rfl)
    | unknown b =>
      simp only [process_command, Op.run_bind, Op.run_get]
      split_ifs
      all_goals simpa [Op.run_throw] using hc

theorem call_follows_worker (call : Call) (hd : call.direct = false) :
    Preserves (FlagsFollowState WorkerState.isReading WorkerState.isSending) call.op := by
  intro c hc
  cases call with
  | input cmd rd =>
    exact BaseConnection.input_follows _ _ WorkerState.reading_not_sending_worker _
      read_finished_keepsFlags_worker _ process_command_follows_worker cmd rd c hc
  | output wr =>
    exact BaseConnection.output_follows _ _ WorkerState.reading_not_sending_worker _
      write_finished_keepsFlags_worker wr c hc
  | begin_read reader rd => simp [Call.direct] at hd
  | begin_write writer wr => simp [Call.direct] at hd
  | process_request command request wr =>
    by_cases hs : c.state = WorkerState.IDLE
    · have hr : c.reading = false := hc.reading_false (by rw [hs]; rfl)
      simp only [Call.op, process_request, Op.run_bind, Op.run_get, hs, if_true, Op.run_modify]
      exact BaseConnection.begin_write_follows _ _ _ write_finished_keepsFlags_worker
        _ _ _ (by exact hr) (by rfl)
    · simpa [Call.op, process_request, Op.run_bind, Op.run_get, hs, Op.run_throw] using hc
  | raster_cached =>
    by_cases hs : c.state = WorkerState.NEW_RASTER_ENTRY
    · have hr : c.reading = false := hc.reading_false (by rw [hs]; rfl)
      have hw : c.writing = false := hc.writing_false (by rw [hs]; rfl)
      simp only [Call.op, raster_cached, Op.run_bind, Op.run_get, hs, if_true, Op.run_modify]
      exact FlagsFollowState.of_idle _ _ _ (by exact hr) (by exact hw)
    · simpa [Call.op, raster_cached, Op.run_bind, Op.run_get, hs, Op.run_throw] using hc
  | send_hit cr wr =>
    by_cases hs : c.state = WorkerState.RASTER_QUERY_REQUESTED
    · have hr : c.reading = false := hc.reading_false (by rw [hs]; rfl)
      simp only [Call.op, send_hit, Op.run_bind, Op.run_get, hs, if_true, Op.run_modify]
      exact BaseConnection.begin_write_follows _ _ _ write_finished_keepsFlags_worker
        _ _ _ (by exact hr) (by rfl)
    · simpa [Call.op, send_hit, Op.run_bind, Op.run_get, hs, Op.run_throw] using hc
  | send_partial_hit pr wr =>
    by_cases hs : c.state = WorkerState.RASTER_QUERY_REQUESTED
    · have hr : c.reading = false := hc.reading_false (by rw [hs]; rfl)
      simp only [Call.op, send_partial_hit, Op.run_bind, Op.run_get, hs, if_true, Op.run_modify]
      exact BaseConnection.begin_write_follows _ _ _ write_finished_keepsFlags_worker
        _ _ _ (by exact hr) (by rfl)
    · simpa [Call.op, send_partial_hit, Op.run_bind, Op.run_get, hs, Op.run_throw] using hc
  | send_miss wr =>
    by_cases hs : c.state = WorkerState.RASTER_QUERY_REQUESTED
    · have hr : c.reading = false := hc.reading_false (by rw [hs]; rfl)
      simp only [Call.op, send_miss, Op.run_bind, Op.run_get, hs, if_true, Op.run_modify]
      exact BaseConnection.begin_write_follows _ _ _ write_finished_keepsFlags_worker
        _ _ _ (by exact hr) (by rfl)
    · simpa [Call.op, send_miss, Op.run_bind, Op.run_get, hs, Op.run_throw] using hc
  | send_delivery_qty qty wr =>
    by_cases hs : c.state = WorkerState.DONE
    · have hr : c.reading = false := hc.reading_false (by rw [hs]; rfl)
      simp only [Call.op, send_delivery_qty, Op.run_bind, Op.run_get, hs, if_true, Op.run_modify]
      exact BaseConnection.begin_write_follows _ _ _ write_finished_keepsFlags_worker
        _ _ _ (by exact hr) (by rfl)
    · simpa [Call.op, send_delivery_qty, Op.run_bind, Op.run_get, hs, Op.run_throw] using hc
  | release =>
    by_cases hs : c.state = WorkerState.DELIVERY_READY ∨ c.state = WorkerState.ERROR
    · have hr : c.reading = false := hc.reading_false (by rcases hs with hs | hs <;> rw [hs] <;> rfl)
      have hw : c.writing = false := hc.writing_false (by rcases hs with hs | hs <;> rw [hs] <;> rfl)
      simp only [Call.op, release, reset, Op.run_bind, Op.run_get, hs, if_true, Op.run_modify]
      exact FlagsFollowState.of_idle _ _ _ (by exact hr) (by exact hw)
    · simpa [Call.op, release, Op.run_bind, Op.run_get, hs, Op.run_throw] using hc

end WorkerConnection

theorem ControlState.reading_not_sending_control (s : ControlState) (h1 : s.isReading = true)
    (h2 : s.isSending = true) : False := by
  cases s <;> simp [ControlState.isReading, ControlState.isSending] at h1 h2

namespace ControlConnection

theorem process_command_follows_control (cmd : ControlCommand) (rd : ReadResult) :
    Preserves (FlagsFollowState ControlState.isReading ControlState.isSending) (process_command cmd rd) := by
  intro c hc
  by_cases hs : c.state ≠ ControlState.IDLE ∧ c.state ≠ ControlState.REORGANIZING ∧
      c.state ≠ ControlState.STATS_REQUESTED
  · simpa [process_command, Op.run_bind, Op.run_get, hs, Op.run_throw] using hc
  · have hs2 : c.state = ControlState.IDLE ∨ c.state = ControlState.REORGANIZING ∨
      c.state = ControlState.STATS_REQUESTED := by
      simp only [ne_eq, not_and_or, not_not] at hs
      exact hs
    have hr : c.reading = false := hc.reading_false (by rcases hs2 with hs2 | hs2 | hs2 <;> rw [hs2] <;> rfl)
    have hw : c.writing = false := hc.writing_false (by rcases hs2 with hs2 | hs2 | hs2 <;> rw [hs2] <;> rfl)
    cases cmd with
    | RESP_REORG_ITEM_MOVED =>
      simp only [process_command, Op.run_bind, Op.run_get, hs, if_false, Op.run_modify]
      exact BaseConnection.begin_read_follows _ _ _ read_finished_keepsFlags_control
        _ _ _ (by exact hw) (by rfl)
    | RESP_REORG_DONE =>
      simp only [process_command, Op.run_bind, Op.run_get, hs, if_false, Op.run_modify]
      exact FlagsFollowState.of_idle _ _ _ (by exact hr) (by exact hw)
    | RESP_STATS =>
      simp only [process_command, Op.run_bind, Op.run_get, hs, if_false, Op.run_modify]
      exact BaseConnection.begin_read_follows _ _ _ read_finished_keepsFlags_control
        _ _ _ (by exact hw) (by rfl)
    | unknown b =>
      simp only [process_command, Op.run_bind, Op.run_get]
      split_ifs
      all_goals simpa [Op.run_throw] using hc

theorem call_follows_control (call : Call) (hd : call.direct = false) :
    Preserves (FlagsFollowState ControlState.isReading ControlState.isSending) call.op := by
  intro c hc
  cases call with
  | input cmd rd =>
    exact BaseConnection.input_follows _ _ ControlState.reading_not_sending_control _
      read_finished_keepsFlags_control _ process_command_follows_control cmd rd c hc
  | output wr =>
    exact BaseConnection.output_follows _ _ ControlState.reading_not_sending_control _
      write_finished_keepsFlags_control wr c hc
  | begin_read reader rd => simp [Call.direct] at hd
  | begin_write writer wr => simp [Call.direct] at hd
  | send_reorg desc wr =>
    by_cases hs : c.state = ControlState.IDLE
    · have hr : c.reading = false := hc.reading_false (by rw [hs]; rfl)
      simp only [Call.op, send_reorg, Op.run_bind, Op.run_get, hs, if_true, Op.run_modify]
      exact BaseConnection.begin_write_follows _ _ _ write_finished_keepsFlags_control
        _ _ _ (by exact hr) (by rfl)
    · simpa [Call.op, send_reorg, Op.run_bind, Op.run_get, hs, Op.run_throw] using hc
  | confirm_reorg wr =>
    by_cases hs : c.state = ControlState.REORG_RESULT_READ
    · have hr : c.reading = false := hc.reading_false (by rw [hs]; rfl)
      simp only [Call.op, confirm_reorg, Op.run_bind, Op.run_get, hs, if_true, Op.run_modify]
      exact BaseConnection.begin_write_follows _ _ _ write_finished_keepsFlags_control
        _ _ _ (by exact hr) (by rfl)
    · simpa [Call.op, confirm_reorg, Op.run_bind, Op.run_get, hs, Op.run_throw] using hc
  | send_get_stats wr =>
    by_cases hs : c.state = ControlState.IDLE
    · have hr : c.reading = false := hc.reading_false (by rw [hs]; rfl)
      simp only [Call.op, send_get_stats, Op.run_bind, Op.run_get, hs, if_true, Op.run_modify]
      exact BaseConnection.begin_write_follows _ _ _ write_finished_keepsFlags_control
        _ _ _ (by exact hr) (by rfl)
    · simpa [Call.op, send_get_stats, Op.run_bind, Op.run_get, hs, Op.run_throw] using hc
  | release =>
    by_cases hs : c.state = ControlState.REORG_FINISHED ∨ c.state = ControlState.STATS_RECEIVED
    · have hr : c.reading = false := hc.reading_false (by rcases hs with hs | hs <;> rw [hs] <;> rfl)
      have hw : c.writing = false := hc.writing_false (by rcases hs with hs | hs <;> rw [hs] <;> rfl)
      simp only [Call.op, release, reset, Op.run_bind, Op.run_get, hs, if_true, Op.run_modify]
      exact FlagsFollowState.of_idle _ _ _ (by exact hr) (by exact hw)
    · simpa [Call.op, release, Op.run_bind, Op.run_get, hs, Op.run_throw] using hc

end ControlConnection

theorem DeliveryState.reading_not_sending_delivery (s : DeliveryState) (h1 : s.isReading = true)
    (h2 : s.isSending = true) : False := by
  cases s <;> simp [DeliveryState.isReading, DeliveryState.isSending] at h1 h2

namespace DeliveryConnection

theorem process_command_follows_delivery (cmd : DeliveryCommand) (rd : ReadResult) :
    Preserves (FlagsFollowState DeliveryState.isReading DeliveryState.isSending) (process_command cmd rd) := by
  intro c hc
  by_cases hs : c.state ≠ DeliveryState.IDLE ∧ c.state ≠ DeliveryState.AWAITING_MOVE_CONFIRM
  · simpa [process_command, Op.run_bind, Op.run_get, hs, Op.run_throw] using hc
  · have hs2 : c.state = DeliveryState.IDLE ∨ c.state = DeliveryState.AWAITING_MOVE_CONFIRM := by
      simp only [ne_eq, not_and_or, not_not] at hs
      exact hs
    have hr : c.reading = false := hc.reading_false (by rcases hs2 with hs2 | hs2 <;> rw [hs2] <;> rfl)
    have hw : c.writing = false := hc.writing_false (by rcases hs2 with hs2 | hs2 <;> rw [hs2] <;> rfl)
    cases cmd with
    | CMD_GET =>
      simp only [process_command, Op.run_bind, Op.run_get, hs, if_false, Op.run_modify]
      exact BaseConnection.begin_read_follows _ _ _ read_finished_keepsFlags_delivery
        _ _ _ (by exact hw) (by rfl)
    | CMD_GET_CACHED_RASTER =>
      simp only [process_command, Op.run_bind, Op.run_get, hs, if_false, Op.run_modify]
      exact BaseConnection.begin_read_follows _ _ _ read_finished_keepsFlags_delivery
        _ _ _ (by exact hw) (by rfl)
    | CMD_MOVE_RASTER =>
      simp only [process_command, Op.run_bind, Op.run_get, hs, if_false, Op.run_modify]
      exact BaseConnection.begin_read_follows _ _ _ read_finished_keepsFlags_delivery
        _ _ _ (by exact hw) (by rfl)
    | CMD_MOVE_DONE =>
      simp only [process_command, Op.run_bind, Op.run_get, hs, if_false, Op.run_modify]
      exact FlagsFollowState.of_idle _ _ _ (by exact hr) (by exact hw)
    | unknown b =>
      simp only [process_command, Op.run_bind, Op.run_get]
      split_ifs
      all_goals simpa [Op.run_throw] using hc

theorem call_follows_delivery (call : Call) (hd : call.direct = false) :
    Preserves (FlagsFollowState DeliveryState.isReading DeliveryState.isSending) call.op := by
  intro c hc
  cases call with
  | input cmd rd =>
    exact BaseConnection.input_follows _ _ DeliveryState.reading_not_sending_delivery _
      read_finished_keepsFlags_delivery _ process_command_follows_delivery cmd rd c hc
  | output wr =>
    exact BaseConnection.output_follows _ _ DeliveryState.reading_not_sending_delivery _
      write_finished_keepsFlags_delivery wr c hc
  | begin_read reader rd => simp [Call.direct] at hd
  | begin_write writer wr => simp [Call.direct] at hd
  | send_raster raster wr =>
    by_cases hs : c.state = DeliveryState.RASTER_CACHE_REQUEST_READ ∨
        c.state = DeliveryState.DELIVERY_REQUEST_READ
    · have hr : c.reading = false := hc.reading_false (by rcases hs with hs | hs <;> rw [hs] <;> rfl)
      simp only [Call.op, send_raster, Op.run_bind, Op.run_get, hs, if_true, Op.run_modify]
      exact BaseConnection.begin_write_follows _ _ _ write_finished_keepsFlags_delivery
        _ _ _ (by exact hr) (by rfl)
    · simpa [Call.op, send_raster, Op.run_bind, Op.run_get, hs, Op.run_throw] using hc
  | send_error msg wr =>
    by_cases hs : c.state = DeliveryState.RASTER_CACHE_REQUEST_READ ∨
        c.state = DeliveryState.DELIVERY_REQUEST_READ ∨
        c.state = DeliveryState.RASTER_MOVE_REQUEST_READ ∨
        c.state = DeliveryState.SENDING_RASTER ∨
        c.state = DeliveryState.SENDING_RASTER_MOVE
    · have hr : c.reading = false := hc.reading_false (by rcases hs with hs | hs | hs | hs | hs <;> rw [hs] <;> rfl)
      simp only [Call.op, send_error, Op.run_bind, Op.run_get, hs, if_true, Op.run_modify]
      exact BaseConnection.begin_write_follows _ _ _ write_finished_keepsFlags_delivery
        _ _ _ (by exact hr) (by rfl)
    · simpa [Call.op, send_error, Op.run_bind, Op.run_get, hs, Op.run_throw] using hc
  | send_raster_move raster wr =>
    by_cases hs : c.state = DeliveryState.RASTER_MOVE_REQUEST_READ
    · have hr : c.reading = false := hc.reading_false (by rw [hs]; rfl)
      simp only [Call.op, send_raster_move, Op.run_bind, Op.run_get, hs, if_true, Op.run_modify]
      exact BaseConnection.begin_write_follows _ _ _ write_finished_keepsFlags_delivery
        _ _ _ (by exact hr) (by rfl)
    · simpa [Call.op, send_raster_move, Op.run_bind, Op.run_get, hs, Op.run_throw] using hc
  | release =>
    by_cases hs : c.state = DeliveryState.MOVE_DONE
    · have hr : c.reading = false := hc.reading_false (by rw [hs]; rfl)
      have hw : c.writing = false := hc.writing_false (by rw [hs]; rfl)
      simp only [Call.op, release, Op.run_bind, Op.run_get, hs, if_true, Op.run_modify]
      exact FlagsFollowState.of_idle _ _ _ (by exact hr) (by exact hw)
    · simpa [Call.op, release, Op.run_bind, Op.run_get, hs, Op.run_throw] using hc

end DeliveryConnection

theorem runCalls_preserves_of {S D K : Type} (op : K → Op S D Unit) (P : Connection S D → Prop)
    (good : K → Prop) (h : ∀ k, good k → Preserves P (op k)) (calls : List K)
    (hcalls : ∀ k ∈ calls, good k) (c : Connection S D) (hc : P c) :
    P (runCalls op calls c) := by
  induction calls generalizing c with
  | nil => exact hc
  | cons k ks ih =>
    exact ih (fun k1 hk1 => hcalls k1 (List.mem_cons_of_mem _ hk1)) _
      (h k (hcalls k (List.mem_cons_self _ _)) c hc)

theorem flags_clear_of_follows {S D : Type} (isR isS : S → Bool) (c : Connection S D)
    (hc : FlagsFollowState isR isS c) :
    FlagsFollowState isR isS c ∧
      (isR c.state = false → isS c.state = false → c.reading = false ∧ c.writing = false) :=
  ⟨hc, fun h1 h2 => ⟨hc.reading_false h1, hc.writing_false h2⟩⟩

/-- C32 (as stated, refuted): the delivery connection `sendingDelivery` is
reached from the constructor by `input()` and `send_raster`; it is in state
SENDING_RASTER with `writing` set, and in this state the state check of the
action `send_error` lets the call through (the state becomes SENDING_ERROR). So
a flag is set in a state in which an action is permitted to start a write. -/
theorem flags_follow_state_counterexample :
    sendingDelivery.state = DeliveryState.SENDING_RASTER ∧
      sendingDelivery.writing = true ∧
      (DeliveryConnection.send_error [] WriteResult.pending sendingDelivery).2.state
        = DeliveryState.SENDING_ERROR := by
  refine ⟨rfl, rfl, rfl⟩

/-- C32 (amended): in every state of a client, worker, control or delivery
connection reached from its constructor by calls of `input()`, `output()` and
the actions, `reading` is set only in the READING_* states of the kind and
`writing` only in its SENDING_* / WRITING_* states. Hence both flags are clear
in every state that is neither: these are all states in which a command byte is
accepted, and all states in which an action is permitted, except SENDING_RASTER
and SENDING_RASTER_MOVE, in which `DeliveryConnection::send_error` is permitted
too. -/
theorem flags_follow_state :
    (∀ (id : Nat) (calls : List ClientConnection.Call),
      (∀ k ∈ calls, k.direct = false) →
      FlagsFollowState ClientState.isReading ClientState.isSending
          (runCalls ClientConnection.Call.op calls (ClientConnection.construct id)) ∧
        ((runCalls ClientConnection.Call.op calls
              (ClientConnection.construct id)).state.isReading = false →
          (runCalls ClientConnection.Call.op calls
              (ClientConnection.construct id)).state.isSending = false →
          (runCalls ClientConnection.Call.op calls (ClientConnection.construct id)).reading
              = false ∧
            (runCalls ClientConnection.Call.op calls (ClientConnection.construct id)).writing
              = false)) ∧
    (∀ (id : Nat) (node : Node) (calls : List WorkerConnection.Call),
      (∀ k ∈ calls, k.direct = false) →
      FlagsFollowState WorkerState.isReading WorkerState.isSending
          (runCalls WorkerConnection.Call.op calls (WorkerConnection.construct id node)) ∧
        ((runCalls WorkerConnection.Call.op calls
              (WorkerConnection.construct id node)).state.isReading = false →
          (runCalls WorkerConnection.Call.op calls
              (WorkerConnection.construct id node)).state.isSending = false →
          (runCalls WorkerConnection.Call.op calls (WorkerConnection.construct id node)).reading
              = false ∧
            (runCalls WorkerConnection.Call.op calls (WorkerConnection.construct id node)).writing
              = false)) ∧
    (∀ (id : Nat) (node : Node) (calls : List ControlConnection.Call),
      (∀ k ∈ calls, k.direct = false) →
      FlagsFollowState ControlState.isReading ControlState.isSending
          (runCalls ControlConnection.Call.op calls (ControlConnection.construct id node)) ∧
        ((runCalls ControlConnection.Call.op calls
              (ControlConnection.construct id node)).state.isReading = false →
          (runCalls ControlConnection.Call.op calls
              (ControlConnection.construct id node)).state.isSending = false →
          (runCalls ControlConnection.Call.op calls (ControlConnection.construct id node)).reading
              = false ∧
            (runCalls ControlConnection.Call.op calls
              (ControlConnection.construct id node)).writing = false)) ∧
    (∀ (id : Nat) (calls : List DeliveryConnection.Call),
      (∀ k ∈ calls, k.direct = false) →
      FlagsFollowState DeliveryState.isReading DeliveryState.isSending
          (runCalls DeliveryConnection.Call.op calls (DeliveryConnection.construct id)) ∧
        ((runCalls DeliveryConnection.Call.op calls
              (DeliveryConnection.construct id)).state.isReading = false →
          (runCalls DeliveryConnection.Call.op calls
              (DeliveryConnection.construct id)).state.isSending = false →
          (runCalls DeliveryConnection.Call.op calls (DeliveryConnection.construct id)).reading
              = false ∧
            (runCalls DeliveryConnection.Call.op calls (DeliveryConnection.construct id)).writing
              = false)) := by
  refine ⟨?_, ?_, ?_, ?_⟩
  · intro id calls hcalls
    exact flags_clear_of_follows _ _ _ (runCalls_preserves_of _ _ (fun k => k.direct = false)
      ClientConnection.call_follows_client calls hcalls _
      (FlagsFollowState.of_idle _ _ _ rfl rfl))
  · intro id node calls hcalls
    exact flags_clear_of_follows _ _ _ (runCalls_preserves_of _ _ (fun k => k.direct = false)
      WorkerConnection.call_follows_worker calls hcalls _
      (FlagsFollowState.of_idle _ _ _ rfl rfl))
  · intro id node calls hcalls
    exact flags_clear_of_follows _ _ _ (runCalls_preserves_of _ _ (fun k => k.direct = false)
      ControlConnection.call_follows_control calls hcalls _
      (FlagsFollowState.of_idle _ _ _ rfl rfl))
  · intro id calls hcalls
    exact flags_clear_of_follows _ _ _ (runCalls_preserves_of _ _ (fun k => k.direct = false)
      DeliveryConnection.call_follows_delivery calls hcalls _
      (FlagsFollowState.of_idle _ _ _ rfl rfl))

/-- Witness for C32 (amended): a delivery connection that received
CMD_GET_CACHED_RASTER and whose read of the key is still incomplete. -/
theorem flags_follow_state_witness :
    (∀ k ∈ [DeliveryConnection.Call.input
          (CommandResult.byte DeliveryCommand.CMD_GET_CACHED_RASTER) ReadResult.pending],
        k.direct = false) ∧
      (runCalls DeliveryConnection.Call.op
        [DeliveryConnection.Call.input
          (CommandResult.byte DeliveryCommand.CMD_GET_CACHED_RASTER) ReadResult.pending]
        (DeliveryConnection.construct 1)).reading = true ∧
      FlagsFollowState DeliveryState.isReading DeliveryState.isSending
        (runCalls DeliveryConnection.Call.op
          [DeliveryConnection.Call.input
            (CommandResult.byte DeliveryCommand.CMD_GET_CACHED_RASTER) ReadResult.pending]
          (DeliveryConnection.construct 1)) :=
  ⟨by simp [DeliveryConnection.Call.direct], rfl,
    (flags_follow_state.2.2.2 1 _ (by simp [DeliveryConnection.Call.direct])).1⟩

theorem ClientConnection.failed_action_reached_client (call : ClientConnection.Call)
    (h : call.isAction = true) (c : ClientConnection)
    (hc : FlagsFollowState ClientState.isReading ClientState.isSending c) (e : Exn)
    (he : (call.op c).1 = Except.error e) :
    (call.op c).2 = c := by
  cases call with
  | input cmd rd => simp [ClientConnection.Call.isAction] at h
  | output wr => simp [ClientConnection.Call.isAction] at h
  | begin_read reader rd => simp [ClientConnection.Call.isAction] at h
  | begin_write writer wr => simp [ClientConnection.Call.isAction] at h
  | send_response response wr =>
    by_cases hs : c.state = ClientState.AWAIT_RESPONSE
    · have hf : c.reading = false ∧ c.writing = false := ⟨hc.reading_false (by rw [hs]; rfl), hc.writing_false (by rw [hs]; rfl)⟩
      exact (ClientConnection.failed_action_client _ h c e he).2 hf
    · simp [ClientConnection.Call.op, ClientConnection.send_response, Op.run_bind, Op.run_get, hs, Op.run_throw]
  | send_error message wr =>
    by_cases hs : c.state = ClientState.AWAIT_RESPONSE
    · have hf : c.reading = false ∧ c.writing = false := ⟨hc.reading_false (by rw [hs]; rfl), hc.writing_false (by rw [hs]; rfl)⟩
      exact (ClientConnection.failed_action_client _ h c e he).2 hf
    · simp [ClientConnection.Call.op, ClientConnection.send_error, Op.run_bind, Op.run_get, hs, Op.run_throw]

theorem WorkerConnection.failed_action_reached_worker (call : WorkerConnection.Call)
    (h : call.isAction = true) (c : WorkerConnection)
    (hc : FlagsFollowState WorkerState.isReading WorkerState.isSending c) (e : Exn)
    (he : (call.op c).1 = Except.error e) :
    (call.op c).2 = c := by
  cases call with
  | input cmd rd => simp [WorkerConnection.Call.isAction] at h
  | output wr => simp [WorkerConnection.Call.isAction] at h
  | begin_read reader rd => simp [WorkerConnection.Call.isAction] at h
  | begin_write writer wr => simp [WorkerConnection.Call.isAction] at h
  | process_request command request wr =>
    by_cases hs : c.state = WorkerState.IDLE
    · have hf : c.reading = false ∧ c.writing = false := ⟨hc.reading_false (by rw [hs]; rfl), hc.writing_false (by rw [hs]; rfl)⟩
      exact (WorkerConnection.failed_action_worker _ h c e he).2 hf
    · simp [WorkerConnection.Call.op, WorkerConnection.process_request, Op.run_bind, Op.run_get, hs, Op.run_throw]
  | raster_cached =>
    by_cases hs : c.state = WorkerState.NEW_RASTER_ENTRY
    · have hf : c.reading = false ∧ c.writing = false := ⟨hc.reading_false (by rw [hs]; rfl), hc.writing_false (by rw [hs]; rfl)⟩
      exact (WorkerConnection.failed_action_worker _ h c e he).2 hf
    · simp [WorkerConnection.Call.op, WorkerConnection.raster_cached, Op.run_bind, Op.run_get, hs, Op.run_throw]
  | send_hit cr wr =>
    by_cases hs : c.state = WorkerState.RASTER_QUERY_REQUESTED
    · have hf : c.reading = false ∧ c.writing = false := ⟨hc.reading_false (by rw [hs]; rfl), hc.writing_false (by rw [hs]; rfl)⟩
      exact (WorkerConnection.failed_action_worker _ h c e he).2 hf
    · simp [WorkerConnection.Call.op, WorkerConnection.send_hit, Op.run_bind, Op.run_get, hs, Op.run_throw]
  | send_partial_hit pr wr =>
    by_cases hs : c.state = WorkerState.RASTER_QUERY_REQUESTED
    · have hf : c.reading = false ∧ c.writing = false := ⟨hc.reading_false (by rw [hs]; rfl), hc.writing_false (by rw [hs]; rfl)⟩
      exact (WorkerConnection.failed_action_worker _ h c e he).2 hf
    · simp [WorkerConnection.Call.op, WorkerConnection.send_partial_hit, Op.run_bind, Op.run_get, hs, Op.run_throw]
  | send_miss wr =>
    by_cases hs : c.state = WorkerState.RASTER_QUERY_REQUESTED
    · have hf : c.reading = false ∧ c.writing = false := ⟨hc.reading_false (by rw [hs]; rfl), hc.writing_false (by rw [hs]; rfl)⟩
      exact (WorkerConnection.failed_action_worker _ h c e he).2 hf
    · simp [WorkerConnection.Call.op, WorkerConnection.send_miss, Op.run_bind, Op.run_get, hs, Op.run_throw]
  | send_delivery_qty qty wr =>
    by_cases hs : c.state = WorkerState.DONE
    · have hf : c.reading = false ∧ c.writing = false := ⟨hc.reading_false (by rw [hs]; rfl), hc.writing_false (by rw [hs]; rfl)⟩
      exact (WorkerConnection.failed_action_worker _ h c e he).2 hf
    · simp [WorkerConnection.Call.op, WorkerConnection.send_delivery_qty, Op.run_bind, Op.run_get, hs, Op.run_throw]
  | release =>
    by_cases hs : c.state = WorkerState.DELIVERY_READY ∨ c.state = WorkerState.ERROR
    · have hf : c.reading = false ∧ c.writing = false := by
        rcases hs with hs | hs <;>
          exact ⟨hc.reading_false (by rw [hs]; rfl), hc.writing_false (by rw [hs]; rfl)⟩
      exact (WorkerConnection.failed_action_worker _ h c e he).2 hf
    · simp [WorkerConnection.Call.op, WorkerConnection.release, Op.run_bind, Op.run_get, hs, Op.run_throw]

theorem ControlConnection.failed_action_reached_control (call : ControlConnection.Call)
    (h : call.isAction = true) (c : ControlConnection)
    (hc : FlagsFollowState ControlState.isReading ControlState.isSending c) (e : Exn)
    (he : (call.op c).1 = Except.error e) :
    (call.op c).2 = c := by
  cases call with
  | input cmd rd => simp [ControlConnection.Call.isAction] at h
  | output wr => simp [ControlConnection.Call.isAction] at h
  | begin_read reader rd => simp [ControlConnection.Call.isAction] at h
  | begin_write writer wr => simp [ControlConnection.Call.isAction] at h
  | send_reorg desc wr =>
    by_cases hs : c.state = ControlState.IDLE
    · have hf : c.reading = false ∧ c.writing = false := ⟨hc.reading_false (by rw [hs]; rfl), hc.writing_false (by rw [hs]; rfl)⟩
      exact (ControlConnection.failed_action_control _ h c e he).2 hf
    · simp [ControlConnection.Call.op, ControlConnection.send_reorg, Op.run_bind, Op.run_get, hs, Op.run_throw]
  | confirm_reorg wr =>
    by_cases hs : c.state = ControlState.REORG_RESULT_READ
    · have hf : c.reading = false ∧ c.writing = false := ⟨hc.reading_false (by rw [hs]; rfl), hc.writing_false (by rw [hs]; rfl)⟩
      exact (ControlConnection.failed_action_control _ h c e he).2 hf
    · simp [ControlConnection.Call.op, ControlConnection.confirm_reorg, Op.run_bind, Op.run_get, hs, Op.run_throw]
  | send_get_stats wr =>
    by_cases hs : c.state = ControlState.IDLE
    · have hf : c.reading = false ∧ c.writing = false := ⟨hc.reading_false (by rw [hs]; rfl), hc.writing_false (by rw [hs]; rfl)⟩
      exact (ControlConnection.failed_action_control _ h c e he).2 hf
    · simp [ControlConnection.Call.op, ControlConnection.send_get_stats, Op.run_bind, Op.run_get, hs, Op.run_throw]
  | release =>
    by_cases hs : c.state = ControlState.REORG_FINISHED ∨ c.state = ControlState.STATS_RECEIVED
    · have hf : c.reading = false ∧ c.writing = false := by
        rcases hs with hs | hs <;>
          exact ⟨hc.reading_false (by rw [hs]; rfl), hc.writing_false (by rw [hs]; rfl)⟩
      exact (ControlConnection.failed_action_control _ h c e he).2 hf
    · simp [ControlConnection.Call.op, ControlConnection.release, Op.run_bind, Op.run_get, hs, Op.run_throw]

theorem DeliveryConnection.failed_action_reached_delivery (call : DeliveryConnection.Call)
    (h : call.isAction = true) (c : DeliveryConnection)
    (hc : FlagsFollowState DeliveryState.isReading DeliveryState.isSending c) (e : Exn)
    (he : (call.op c).1 = Except.error e) :
    (call.op c).2 = c ∨
      ∃ msg wr, call = DeliveryConnection.Call.send_error msg wr ∧
        (c.state = DeliveryState.SENDING_RASTER ∨ c.state = DeliveryState.SENDING_RASTER_MOVE) ∧
        c.writing = true ∧
        (call.op c).2 = { c with state := DeliveryState.SENDING_ERROR } := by
  cases call with
  | input cmd rd => simp [DeliveryConnection.Call.isAction] at h
  | output wr => simp [DeliveryConnection.Call.isAction] at h
  | begin_read reader rd => simp [DeliveryConnection.Call.isAction] at h
  | begin_write writer wr => simp [DeliveryConnection.Call.isAction] at h
  | send_raster raster wr =>
    refine Or.inl ?_
    by_cases hs : c.state = DeliveryState.RASTER_CACHE_REQUEST_READ ∨
        c.state = DeliveryState.DELIVERY_REQUEST_READ
    · have hf : c.reading = false ∧ c.writing = false := by
        rcases hs with hs | hs <;>
          exact ⟨hc.reading_false (by rw [hs]; rfl), hc.writing_false (by rw [hs]; rfl)⟩
      exact (DeliveryConnection.failed_action_delivery _ h c e he).2 hf
    · simp [DeliveryConnection.Call.op, DeliveryConnection.send_raster, Op.run_bind, Op.run_get, hs, Op.run_throw]
  | send_error msg wr =>
    by_cases hs : c.state = DeliveryState.RASTER_CACHE_REQUEST_READ ∨
        c.state = DeliveryState.DELIVERY_REQUEST_READ ∨
        c.state = DeliveryState.RASTER_MOVE_REQUEST_READ ∨
        c.state = DeliveryState.SENDING_RASTER ∨
        c.state = DeliveryState.SENDING_RASTER_MOVE
    · by_cases hf : c.reading = false ∧ c.writing = false
      · exact Or.inl ((DeliveryConnection.failed_action_delivery _ h c e he).2 hf)
      · have hstate : c.state = DeliveryState.SENDING_RASTER ∨
            c.state = DeliveryState.SENDING_RASTER_MOVE := by
          rcases hs with hs | hs | hs | hs | hs
          · exact absurd ⟨hc.reading_false (by rw [hs]; rfl), hc.writing_false (by rw [hs]; rfl)⟩ hf
          · exact absurd ⟨hc.reading_false (by rw [hs]; rfl), hc.writing_false (by rw [hs]; rfl)⟩ hf
          · exact absurd ⟨hc.reading_false (by rw [hs]; rfl), hc.writing_false (by rw [hs]; rfl)⟩ hf
          · exact Or.inl hs
          · exact Or.inr hs
        have hr : c.reading = false := by
          rcases hstate with hs1 | hs1 <;> exact hc.reading_false (by rw [hs1]; rfl)
        have hw : c.writing = true := by
          cases hcw : c.writing with
          | true => rfl
          | false => exact absurd ⟨hr, hcw⟩ hf
        refine Or.inr ⟨msg, wr, rfl, hstate, hw, ?_⟩
        simp only [DeliveryConnection.Call.op, DeliveryConnection.send_error, Op.run_bind,
          Op.run_get, hs, if_true, Op.run_modify, DeliveryConnection.begin_write]
        rw [BaseConnection.begin_write_busy _ _ _ { c with state := DeliveryState.SENDING_ERROR } hf]
    · refine Or.inl ?_
      simp [DeliveryConnection.Call.op, DeliveryConnection.send_error, Op.run_bind, Op.run_get, hs, Op.run_throw]
  | send_raster_move raster wr =>
    refine Or.inl ?_
    by_cases hs : c.state = DeliveryState.RASTER_MOVE_REQUEST_READ
    · have hf : c.reading = false ∧ c.writing = false := ⟨hc.reading_false (by rw [hs]; rfl), hc.writing_false (by rw [hs]; rfl)⟩
      exact (DeliveryConnection.failed_action_delivery _ h c e he).2 hf
    · simp [DeliveryConnection.Call.op, DeliveryConnection.send_raster_move, Op.run_bind, Op.run_get, hs, Op.run_throw]
  | release =>
    refine Or.inl ?_
    by_cases hs : c.state = DeliveryState.MOVE_DONE
    · have hf : c.reading = false ∧ c.writing = false := ⟨hc.reading_false (by rw [hs]; rfl), hc.writing_false (by rw [hs]; rfl)⟩
      exact (DeliveryConnection.failed_action_delivery _ h c e he).2 hf
    · simp [DeliveryConnection.Call.op, DeliveryConnection.release, Op.run_bind, Op.run_get, hs, Op.run_throw]

/-- C31 (as stated, refuted): a delivery connection that is sending a raster
(state SENDING_RASTER, the write still in progress) passes the state check of
`send_error`; the call sets the state to SENDING_ERROR and then fails in
`begin_write` with an IllegalStateException, so the protocol state after the
failed call is not the one before it. -/
theorem failed_action_keeps_connection_counterexample :
    sendingDelivery.state = DeliveryState.SENDING_RASTER ∧
      (DeliveryConnection.send_error [] WriteResult.pending sendingDelivery).1
        = Except.error (Exn.IllegalStateException
            "Cannot start nb-write. Another read or write action is in progress.") ∧
      (DeliveryConnection.send_error [] WriteResult.pending sendingDelivery).2.state
        = DeliveryState.SENDING_ERROR := by
  refine ⟨rfl, rfl, rfl⟩

/-- C31 (amended): for each of the four connection kinds, in every state reached
from the constructor by calls of `input()`, `output()` and the actions:
whenever an action (`send_*`, `process_request`, `raster_cached`,
`confirm_reorg`, `release`) fails with an exception, the connection, that is its
protocol state, its flags and its stored payloads, is exactly what it was before
the call. The one exception is `send_error` on a delivery connection in state
SENDING_RASTER or SENDING_RASTER_MOVE whose write is still in progress: it fails
in `begin_write` after it has set the state to SENDING_ERROR; there too the
flags and the payloads are unchanged. (The getters are functions of the
connection and cannot change it.) -/
theorem failed_action_keeps_connection :
    (∀ (id : Nat) (calls : List ClientConnection.Call) (call : ClientConnection.Call) (e : Exn),
      (∀ k ∈ calls, k.direct = false) → call.isAction = true →
      (call.op (runCalls ClientConnection.Call.op calls (ClientConnection.construct id))).1 = Except.error e →
      (call.op (runCalls ClientConnection.Call.op calls (ClientConnection.construct id))).2
        = runCalls ClientConnection.Call.op calls (ClientConnection.construct id)) ∧
    (∀ (id : Nat) (node : Node) (calls : List WorkerConnection.Call) (call : WorkerConnection.Call) (e : Exn),
      (∀ k ∈ calls, k.direct = false) → call.isAction = true →
      (call.op (runCalls WorkerConnection.Call.op calls (WorkerConnection.construct id node))).1 = Except.error e →
      (call.op (runCalls WorkerConnection.Call.op calls (WorkerConnection.construct id node))).2
        = runCalls WorkerConnection.Call.op calls (WorkerConnection.construct id node)) ∧
    (∀ (id : Nat) (node : Node) (calls : List ControlConnection.Call) (call : ControlConnection.Call) (e : Exn),
      (∀ k ∈ calls, k.direct = false) → call.isAction = true →
      (call.op (runCalls ControlConnection.Call.op calls (ControlConnection.construct id node))).1 = Except.error e →
      (call.op (runCalls ControlConnection.Call.op calls (ControlConnection.construct id node))).2
        = runCalls ControlConnection.Call.op calls (ControlConnection.construct id node)) ∧
    (∀ (id : Nat) (calls : List DeliveryConnection.Call) (call : DeliveryConnection.Call) (e : Exn),
      (∀ k ∈ calls, k.direct = false) → call.isAction = true →
      (call.op (runCalls DeliveryConnection.Call.op calls (DeliveryConnection.construct id))).1 = Except.error e →
      ((call.op (runCalls DeliveryConnection.Call.op calls (DeliveryConnection.construct id))).2
          = runCalls DeliveryConnection.Call.op calls (DeliveryConnection.construct id) ∨
        ∃ msg wr, call = DeliveryConnection.Call.send_error msg wr ∧
          ((runCalls DeliveryConnection.Call.op calls (DeliveryConnection.construct id)).state = DeliveryState.SENDING_RASTER ∨
            (runCalls DeliveryConnection.Call.op calls (DeliveryConnection.construct id)).state = DeliveryState.SENDING_RASTER_MOVE) ∧
          (runCalls DeliveryConnection.Call.op calls (DeliveryConnection.construct id)).writing = true ∧
          (call.op (runCalls DeliveryConnection.Call.op calls (DeliveryConnection.construct id))).2
            = { runCalls DeliveryConnection.Call.op calls (DeliveryConnection.construct id) with
                state := DeliveryState.SENDING_ERROR })) := by
  refine ⟨?_, ?_, ?_, ?_⟩
  · intro id calls call e hcalls h he
    exact ClientConnection.failed_action_reached_client call h _
      (runCalls_preserves_of _ _ (fun k => k.direct = false)
        ClientConnection.call_follows_client calls hcalls _ (FlagsFollowState.of_idle _ _ _ rfl rfl)) e he
  · intro id node calls call e hcalls h he
    exact WorkerConnection.failed_action_reached_worker call h _
      (runCalls_preserves_of _ _ (fun k => k.direct = false)
        WorkerConnection.call_follows_worker calls hcalls _ (FlagsFollowState.of_idle _ _ _ rfl rfl)) e he
  · intro id node calls call e hcalls h he
    exact ControlConnection.failed_action_reached_control call h _
      (runCalls_preserves_of _ _ (fun k => k.direct = false)
        ControlConnection.call_follows_control calls hcalls _ (FlagsFollowState.of_idle _ _ _ rfl rfl)) e he
  · intro id calls call e hcalls h he
    exact DeliveryConnection.failed_action_reached_delivery call h _
      (runCalls_preserves_of _ _ (fun k => k.direct = false)
        DeliveryConnection.call_follows_delivery calls hcalls _ (FlagsFollowState.of_idle _ _ _ rfl rfl)) e he

/-- Witness for C31 (amended): a client connection that received
CMD_GET_RASTER and whose read of the request is incomplete is in state
READING_REQUEST; `send_error` fails there at its state check, and the connection
is unchanged. -/
theorem failed_action_keeps_connection_witness :
    (∀ k ∈ [ClientConnection.Call.input (CommandResult.byte ClientCommand.CMD_GET_RASTER)
          ReadResult.pending], k.direct = false) ∧
      (ClientConnection.Call.send_error [] WriteResult.pending).isAction = true ∧
      (runCalls ClientConnection.Call.op
        [ClientConnection.Call.input (CommandResult.byte ClientCommand.CMD_GET_RASTER)
          ReadResult.pending] (ClientConnection.construct 1)).state
        = ClientState.READING_REQUEST ∧
      ((ClientConnection.Call.send_error [] WriteResult.pending).op
        (runCalls ClientConnection.Call.op
          [ClientConnection.Call.input (CommandResult.byte ClientCommand.CMD_GET_RASTER)
            ReadResult.pending] (ClientConnection.construct 1))).1
        = Except.error (Exn.IllegalStateException "Can only send error in state: AWAIT_RESPONSE") ∧
      ((ClientConnection.Call.send_error [] WriteResult.pending).op
        (runCalls ClientConnection.Call.op
          [ClientConnection.Call.input (CommandResult.byte ClientCommand.CMD_GET_RASTER)
            ReadResult.pending] (ClientConnection.construct 1))).2
        = runCalls ClientConnection.Call.op
          [ClientConnection.Call.input (CommandResult.byte ClientCommand.CMD_GET_RASTER)
            ReadResult.pending] (ClientConnection.construct 1) :=
  ⟨by simp [ClientConnection.Call.direct], rfl, rfl, rfl,
    failed_action_keeps_connection.1 1
      [ClientConnection.Call.input (CommandResult.byte ClientCommand.CMD_GET_RASTER)
        ReadResult.pending]
      (ClientConnection.Call.send_error [] WriteResult.pending) _
      (by simp [ClientConnection.Call.direct]) rfl rfl⟩

theorem BaseConnection.begin_read_error {S D : Type} (rf : BinaryReadBuffer → Op S D Unit)
    (reader : NBReader) (rd : ReadResult) (c : Connection S D) (e : Exn)
    (he : (BaseConnection.begin_read rf reader rd c).1 = Except.error e)
    (hr : c.reading = false) (hw : c.writing = false) :
    ∃ stream, rd = ReadResult.finished stream ∧
      (rf stream { c with reader := some reader, reading := false }).1 = Except.error e := by
  have hg : (!c.writing && !c.reading) = true := by simp [hr, hw]
  simp only [BaseConnection.begin_read, Op.run_bind, Op.run_get, hg, if_true,
    Op.run_modify] at he
  cases rd with
  | finished stream =>
    refine ⟨stream, rfl, ?_⟩
    simp only [BaseConnection.input_reading, Op.run_bind, Op.run_modify] at he
    rcases hm : rf stream { c with reader := some reader, reading := false } with ⟨r, c1⟩
    simp only [hm] at he
    cases r with
    | ok a => simp [Op.run_modify] at he
    | error e2 => simpa using he
  | error => simp [BaseConnection.input_reading, Op.run_bind, Op.run_modify] at he
  | pending => simp [BaseConnection.input_reading, Op.run_pure] at he

theorem readStream_readUInt_error {S D : Type} (n : Nat) (stream : BinaryReadBuffer)
    (c : Connection S D) (e : Exn)
    (h : ((BaseConnection.readStream (readUInt n) stream : Op S D Nat) c).1 = Except.error e) :
    e = Exn.NetworkException "BinaryReadBuffer: not enough data to read" := by
  unfold BaseConnection.readStream readUInt at h
  by_cases hl : stream.length < n
  · simp only [hl, if_true, Op.run_throw] at h
    exact (Except.error.inj h).symm
  · simp [hl, Op.run_pure] at h

theorem readStream_readString_error {S D : Type} (stream : BinaryReadBuffer)
    (c : Connection S D) (e : Exn)
    (h : ((BaseConnection.readStream readString stream : Op S D (List Byte)) c).1
      = Except.error e) :
    e = Exn.NetworkException "BinaryReadBuffer: not enough data to read" := by
  unfold BaseConnection.readStream at h
  rcases hr : readString stream with e1 | ⟨x, rest⟩
  · simp only [hr, Op.run_throw] at h
    have he : e1 = e := Except.error.inj h
    subst he
    unfold readString readUInt at hr
    simp only [bind, StateT.bind, Except.bind] at hr
    by_cases hl : stream.length < 8
    · simp only [hl, if_true] at hr
      exact (Except.error.inj hr).symm
    · simp only [hl, if_false] at hr
      split at hr
      · exact (Except.error.inj hr).symm
      · simp at hr
  · simp [hr, Op.run_pure] at h

theorem ClientConnection.write_finished_sending_client (c : ClientConnection)
    (hs : c.state.isSending = true) : (ClientConnection.write_finished c).1 = Except.ok () := by
  obtain ⟨id, w, r, f, rdr, wtr, st, d⟩ := c
  cases st <;> simp [ClientState.isSending] at hs
  all_goals simp [ClientConnection.write_finished, ClientConnection.reset, Op.run_bind, Op.run_get, Op.run_modify]

theorem ClientConnection.read_finished_reading_client (stream : BinaryReadBuffer) (c : ClientConnection)
    (hs : c.state.isReading = true) (e : Exn)
    (he : (ClientConnection.read_finished stream c).1 = Except.error e) :
    e = Exn.NetworkException "BinaryReadBuffer: not enough data to read" := by
  obtain ⟨id, w, r, f, rdr, wtr, st, d⟩ := c
  cases st with
  | READING_REQUEST =>
    simp [ClientConnection.read_finished, Op.run_bind, Op.run_get, Op.run_modify] at he
  | _ => simp [ClientState.isReading] at hs

theorem ClientConnection.begin_at_call_site_client (c : ClientConnection) (reader : NBReader) (writer : NBWriter)
    (rd : ReadResult) (wr : WriteResult) (hr : c.reading = false) (hw : c.writing = false) :
    (c.state.isReading = true → ∀ e, (ClientConnection.begin_read reader rd c).1 = Except.error e →
      e = Exn.NetworkException "BinaryReadBuffer: not enough data to read") ∧
    (c.state.isSending = true → (ClientConnection.begin_write writer wr c).1 = Except.ok ()) := by
  constructor
  · intro hs e he
    obtain ⟨stream, _, h1⟩ := BaseConnection.begin_read_error _ _ _ _ e he hr hw
    exact ClientConnection.read_finished_reading_client stream
      { c with reader := some reader, reading := false } hs e h1
  · intro hs
    rcases hres : (ClientConnection.begin_write writer wr c).1 with e | u
    · have h1 := BaseConnection.begin_write_error _ _ _ _ e hres hr hw
      rw [ClientConnection.write_finished_sending_client { c with writer := some writer, writing := false } hs] at h1
      exact absurd h1 (by simp)
    · rfl

theorem WorkerConnection.write_finished_sending_worker (c : WorkerConnection)
    (hs : c.state.isSending = true) : (WorkerConnection.write_finished c).1 = Except.ok () := by
  obtain ⟨id, w, r, f, rdr, wtr, st, d⟩ := c
  cases st <;> simp [WorkerState.isSending] at hs
  all_goals simp [WorkerConnection.write_finished, Op.run_bind, Op.run_get, Op.run_modify]

theorem WorkerConnection.read_finished_reading_worker (stream : BinaryReadBuffer) (c : WorkerConnection)
    (hs : c.state.isReading = true) (e : Exn)
    (he : (WorkerConnection.read_finished stream c).1 = Except.error e) :
    e = Exn.NetworkException "BinaryReadBuffer: not enough data to read" := by
  obtain ⟨id, w, r, f, rdr, wtr, st, d⟩ := c
  cases st with
  | READING_DELIVERY_ID =>
    simp only [WorkerConnection.read_finished, Op.run_bind, Op.run_get] at he
    rcases hx : (BaseConnection.readStream (readUInt 8) stream : Op WorkerState WorkerData Nat)
        ⟨id, w, r, f, rdr, wtr, WorkerState.READING_DELIVERY_ID, d⟩ with ⟨res, c1⟩
    rw [hx] at he
    cases res with
    | ok a => simp [Op.run_modify] at he
    | error e1 =>
      have h1 := readStream_readUInt_error 8 stream _ e1 (by rw [hx])
      simp at he
      rw [← he]
      exact h1
  | READING_RASTER_QUERY =>
    simp [WorkerConnection.read_finished, Op.run_bind, Op.run_get, Op.run_modify] at he
  | READING_RASTER_ENTRY =>
    simp [WorkerConnection.read_finished, Op.run_bind, Op.run_get, Op.run_modify] at he
  | READING_ERROR =>
    simp only [WorkerConnection.read_finished, Op.run_bind, Op.run_get] at he
    rcases hx : (BaseConnection.readStream readString stream : Op WorkerState WorkerData (List Byte))
        ⟨id, w, r, f, rdr, wtr, WorkerState.READING_ERROR, d⟩ with ⟨res, c1⟩
    rw [hx] at he
    cases res with
    | ok a => simp [Op.run_modify] at he
    | error e1 =>
      have h1 := readStream_readString_error stream _ e1 (by rw [hx])
      simp at he
      rw [← he]
      exact h1
  | _ => simp [WorkerState.isReading] at hs

theorem WorkerConnection.begin_at_call_site_worker (c : WorkerConnection) (reader : NBReader) (writer : NBWriter)
    (rd : ReadResult) (wr : WriteResult) (hr : c.reading = false) (hw : c.writing = false) :
    (c.state.isReading = true → ∀ e, (WorkerConnection.begin_read reader rd c).1 = Except.error e →
      e = Exn.NetworkException "BinaryReadBuffer: not enough data to read") ∧
    (c.state.isSending = true → (WorkerConnection.begin_write writer wr c).1 = Except.ok ()) := by
  constructor
  · intro hs e he
    obtain ⟨stream, _, h1⟩ := BaseConnection.begin_read_error _ _ _ _ e he hr hw
    exact WorkerConnection.read_finished_reading_worker stream
      { c with reader := some reader, reading := false } hs e h1
  · intro hs
    rcases hres : (WorkerConnection.begin_write writer wr c).1 with e | u
    · have h1 := BaseConnection.begin_write_error _ _ _ _ e hres hr hw
      rw [WorkerConnection.write_finished_sending_worker { c with writer := some writer, writing := false } hs] at h1
      exact absurd h1 (by simp)
    · rfl

theorem ControlConnection.write_finished_sending_control (c : ControlConnection)
    (hs : c.state.isSending = true) : (ControlConnection.write_finished c).1 = Except.ok () := by
  obtain ⟨id, w, r, f, rdr, wtr, st, d⟩ := c
  cases st <;> simp [ControlState.isSending] at hs
  all_goals simp [ControlConnection.write_finished, Op.run_bind, Op.run_get, Op.run_modify]

theorem ControlConnection.read_finished_reading_control (stream : BinaryReadBuffer) (c : ControlConnection)
    (hs : c.state.isReading = true) (e : Exn)
    (he : (ControlConnection.read_finished stream c).1 = Except.error e) :
    e = Exn.NetworkException "BinaryReadBuffer: not enough data to read" := by
  obtain ⟨id, w, r, f, rdr, wtr, st, d⟩ := c
  cases st with
  | READING_REORG_RESULT =>
    simp [ControlConnection.read_finished, Op.run_bind, Op.run_get, Op.run_modify] at he
  | READING_STATS =>
    simp [ControlConnection.read_finished, Op.run_bind, Op.run_get, Op.run_modify] at he
  | _ => simp [ControlState.isReading] at hs

theorem ControlConnection.begin_at_call_site_control (c : ControlConnection) (reader : NBReader) (writer : NBWriter)
    (rd : ReadResult) (wr : WriteResult) (hr : c.reading = false) (hw : c.writing = false) :
    (c.state.isReading = true → ∀ e, (ControlConnection.begin_read reader rd c).1 = Except.error e →
      e = Exn.NetworkException "BinaryReadBuffer: not enough data to read") ∧
    (c.state.isSending = true → (ControlConnection.begin_write writer wr c).1 = Except.ok ()) := by
  constructor
  · intro hs e he
    obtain ⟨stream, _, h1⟩ := BaseConnection.begin_read_error _ _ _ _ e he hr hw
    exact ControlConnection.read_finished_reading_control stream
      { c with reader := some reader, reading := false } hs e h1
  · intro hs
    rcases hres : (ControlConnection.begin_write writer wr c).1 with e | u
    · have h1 := BaseConnection.begin_write_error _ _ _ _ e hres hr hw
      rw [ControlConnection.write_finished_sending_control { c with writer := some writer, writing := false } hs] at h1
      exact absurd h1 (by simp)
    · rfl

theorem DeliveryConnection.write_finished_sending_delivery (c : DeliveryConnection)
    (hs : c.state.isSending = true) : (DeliveryConnection.write_finished c).1 = Except.ok () := by
  obtain ⟨id, w, r, f, rdr, wtr, st, d⟩ := c
  cases st <;> simp [DeliveryState.isSending] at hs
  all_goals simp [DeliveryConnection.write_finished, Op.run_bind, Op.run_get, Op.run_modify]

theorem DeliveryConnection.read_finished_reading_delivery (stream : BinaryReadBuffer) (c : DeliveryConnection)
    (hs : c.state.isReading = true) (e : Exn)
    (he : (DeliveryConnection.read_finished stream c).1 = Except.error e) :
    e = Exn.NetworkException "BinaryReadBuffer: not enough data to read" := by
  obtain ⟨id, w, r, f, rdr, wtr, st, d⟩ := c
  cases st with
  | READING_DELIVERY_REQUEST =>
    simp only [DeliveryConnection.read_finished, Op.run_bind, Op.run_get] at he
    rcases hx : (BaseConnection.readStream (readUInt 8) stream : Op DeliveryState DeliveryData Nat)
        ⟨id, w, r, f, rdr, wtr, DeliveryState.READING_DELIVERY_REQUEST, d⟩ with ⟨res, c1⟩
    rw [hx] at he
    cases res with
    | ok a => simp [Op.run_modify] at he
    | error e1 =>
      have h1 := readStream_readUInt_error 8 stream _ e1 (by rw [hx])
      simp at he
      rw [← he]
      exact h1
  | READING_RASTER_CACHE_REQUEST =>
    simp [DeliveryConnection.read_finished, Op.run_bind, Op.run_get, Op.run_modify] at he
  | READING_RASTER_MOVE_REQUEST =>
    simp [DeliveryConnection.read_finished, Op.run_bind, Op.run_get, Op.run_modify] at he
  | _ => simp [DeliveryState.isReading] at hs

theorem DeliveryConnection.begin_at_call_site_delivery (c : DeliveryConnection) (reader : NBReader) (writer : NBWriter)
    (rd : ReadResult) (wr : WriteResult) (hr : c.reading = false) (hw : c.writing = false) :
    (c.state.isReading = true → ∀ e, (DeliveryConnection.begin_read reader rd c).1 = Except.error e →
      e = Exn.NetworkException "BinaryReadBuffer: not enough data to read") ∧
    (c.state.isSending = true → (DeliveryConnection.begin_write writer wr c).1 = Except.ok ()) := by
  constructor
  · intro hs e he
    obtain ⟨stream, _, h1⟩ := BaseConnection.begin_read_error _ _ _ _ e he hr hw
    exact DeliveryConnection.read_finished_reading_delivery stream
      { c with reader := some reader, reading := false } hs e h1
  · intro hs
    rcases hres : (DeliveryConnection.begin_write writer wr c).1 with e | u
    · have h1 := BaseConnection.begin_write_error _ _ _ _ e hres hr hw
      rw [DeliveryConnection.write_finished_sending_delivery { c with writer := some writer, writing := false } hs] at h1
      exact absurd h1 (by simp)
    · rfl

/-- C15: `begin_read` and `begin_write` fail with the IllegalStateException of
their guard whenever the reading flag or the writing flag is set, and the failed
call leaves the connection, the pending reader and writer and both flags
included, as it was. With neither flag set they do not fail with an
IllegalStateException where the code calls them: every call of `begin_write` in
connection.cpp follows the assignment of a SENDING_* or WRITING_* state, and in
such a state the call returns normally; every call of `begin_read` follows the
assignment of a READING_* state, and in such a state the call can fail only with
the NetworkException of a completed read whose bytes do not decode. -/
theorem begin_read_begin_write_guard :
    (∀ (S D : Type) (rf : BinaryReadBuffer → Op S D Unit) (wf : Op S D Unit)
        (reader : NBReader) (writer : NBWriter) (rd : ReadResult) (wr : WriteResult)
        (c : Connection S D), c.reading = true ∨ c.writing = true →
      BaseConnection.begin_read rf reader rd c = (Except.error (Exn.IllegalStateException
        "Cannot start nb-read. Another read or write action is in progress."), c) ∧
      BaseConnection.begin_write wf writer wr c = (Except.error (Exn.IllegalStateException
        "Cannot start nb-write. Another read or write action is in progress."), c)) ∧
    (∀ (c : ClientConnection) (reader : NBReader) (writer : NBWriter) (rd : ReadResult)
        (wr : WriteResult), c.reading = false → c.writing = false →
      (c.state.isReading = true → ∀ e, (ClientConnection.begin_read reader rd c).1 = Except.error e →
        e = Exn.NetworkException "BinaryReadBuffer: not enough data to read") ∧
      (c.state.isSending = true → (ClientConnection.begin_write writer wr c).1 = Except.ok ())) ∧
    (∀ (c : WorkerConnection) (reader : NBReader) (writer : NBWriter) (rd : ReadResult)
        (wr : WriteResult), c.reading = false → c.writing = false →
      (c.state.isReading = true → ∀ e, (WorkerConnection.begin_read reader rd c).1 = Except.error e →
        e = Exn.NetworkException "BinaryReadBuffer: not enough data to read") ∧
      (c.state.isSending = true → (WorkerConnection.begin_write writer wr c).1 = Except.ok ())) ∧
    (∀ (c : ControlConnection) (reader : NBReader) (writer : NBWriter) (rd : ReadResult)
        (wr : WriteResult), c.reading = false → c.writing = false →
      (c.state.isReading = true → ∀ e, (ControlConnection.begin_read reader rd c).1 = Except.error e →
        e = Exn.NetworkException "BinaryReadBuffer: not enough data to read") ∧
      (c.state.isSending = true → (ControlConnection.begin_write writer wr c).1 = Except.ok ())) ∧
    (∀ (c : DeliveryConnection) (reader : NBReader) (writer : NBWriter) (rd : ReadResult)
        (wr : WriteResult), c.reading = false → c.writing = false →
      (c.state.isReading = true → ∀ e, (DeliveryConnection.begin_read reader rd c).1 = Except.error e →
        e = Exn.NetworkException "BinaryReadBuffer: not enough data to read") ∧
      (c.state.isSending = true → (DeliveryConnection.begin_write writer wr c).1 = Except.ok ())) := by
  refine ⟨?_, ?_, ?_, ?_, ?_⟩
  · intro S D rf wf reader writer rd wr c h
    have hg : (!c.writing && !c.reading) = false := by
      rcases h with h | h <;> simp [h]
    constructor
    · simp only [BaseConnection.begin_read, Op.run_bind, Op.run_get, hg, Bool.false_eq_true,
        ↓reduceIte, Op.run_throw]
    · simp only [BaseConnection.begin_write, Op.run_bind, Op.run_get, hg, Bool.false_eq_true,
        ↓reduceIte, Op.run_throw]
  · intro c reader writer rd wr hr hw
    exact ClientConnection.begin_at_call_site_client c reader writer rd wr hr hw
  · intro c reader writer rd wr hr hw
    exact WorkerConnection.begin_at_call_site_worker c reader writer rd wr hr hw
  · intro c reader writer rd wr hr hw
    exact ControlConnection.begin_at_call_site_control c reader writer rd wr hr hw
  · intro c reader writer rd wr hr hw
    exact DeliveryConnection.begin_at_call_site_delivery c reader writer rd wr hr hw

/-- Witness for C15: a client connection with a read pending. -/
theorem begin_read_begin_write_guard_witness :
    (readingClient.reading = true ∨ readingClient.writing = true) ∧
      BaseConnection.begin_write ClientConnection.write_finished (NBWriter.NBRasterWriter ⟨[]⟩)
        WriteResult.finished readingClient = (Except.error (Exn.IllegalStateException
          "Cannot start nb-write. Another read or write action is in progress."),
          readingClient) :=
  have h : readingClient.reading = true ∨ readingClient.writing = true := Or.inl rfl
  ⟨h, (begin_read_begin_write_guard.1 _ _ ClientConnection.read_finished
    ClientConnection.write_finished NBReader.NBStringReader (NBWriter.NBRasterWriter ⟨[]⟩)
    ReadResult.pending WriteResult.finished readingClient h).2⟩

/-! ## Further claims on PolygonCollection -/

namespace PolygonCollection

theorem keepTimes_inner (count : Nat) (keep : List Bool) (time : List ℚ) (acc : List ℚ) :
    (List.range count).foldl
        (fun acc idx =>
          if keep.getD idx false then
            match time[idx]? with
            | some t => acc ++ [t]
            | none => acc
          else acc) acc
      = acc ++ keepValues count keep time := by
  unfold keepValues
  induction count with
  | zero => simp
  | succ n ih =>
    rw [List.range_succ, List.foldl_append, List.foldl_append, ih]
    simp only [List.foldl_cons, List.foldl_nil]
    cases hk : keep.getD n false <;> cases ht : time[n]? <;>
      simp only [hk, ht, if_true, if_false, Bool.false_eq_true, List.append_assoc]

theorem keepTimes_eq (count : Nat) (keep : List Bool) (time : List ℚ) :
    keepTimes count keep time
      = (List.replicate count (keepValues count keep time)).flatten := by
  unfold keepTimes
  have h : ∀ n : Nat, (List.range n).foldl
      (fun acc _ =>
        (List.range count).foldl
          (fun acc idx =>
            if keep.getD idx false then
              match time[idx]? with
              | some t => acc ++ [t]
              | none => acc
            else acc) acc) []
      = (List.replicate n (keepValues count keep time)).flatten := by
    intro n
    induction n with
    | zero => simp
    | succ n ih =>
      rw [List.range_succ, List.foldl_append, ih]
      simp only [List.foldl_cons, List.foldl_nil]
      rw [keepTimes_inner, List.replicate_succ']
      simp
  exact h count

/-- C38 (code bug): `filter` on the collection `timedCollection` (four features
with the start times 1, 2, 3, 4 and the end times 5, 6, 7, 8) with the keep vector
(false, true, true, false) returns a collection of two features whose time arrays
hold eight entries each: the kept times 2, 3 (and 6, 7) four times over, once for
every pass of the outer loop over the feature count. -/
theorem filter_repeats_times :
    timedCollection.hasTime = true ∧
      timedCollection.getFeatureCount = 4 ∧
      ∃ out, filter timedCollection [false, true, true, false] = Except.ok out ∧
        out.getFeatureCount = 2 ∧
        out.time_start = [2, 3, 2, 3, 2, 3, 2, 3] ∧
        out.time_end = [6, 7, 6, 7, 6, 7, 6, 7] := by
  have h := filter_ofFeatures timedCollection sampleFeatures [false, true, true, false]
    sampleFeatures_valid rfl
  have h0 : ofFeatures timedCollection sampleFeatures = timedCollection := rfl
  rw [h0] at h
  refine ⟨rfl, rfl, _, h, ?_, ?_, ?_⟩
  · rw [getFeatureCount_ofFeatures]
    rfl
  · show (if timedCollection.hasTime then keepTimes sampleFeatures.length
      [false, true, true, false] timedCollection.time_start else []) = _
    rfl
  · show (if timedCollection.hasTime then keepTimes sampleFeatures.length
      [false, true, true, false] timedCollection.time_end else []) = _
    rfl

/-- C39 (code bug): starting from the empty collection, after the four
coordinates of `triangleRing` and `finishRing`, the first `finishPolygon` succeeds
and so does a second one, although no ring was finished in between:
`start_polygon` becomes [0, 1, 1]. Likewise `finishFeature` then succeeds twice in
a row, and `start_feature` becomes [0, 2, 2]. -/
theorem finish_accepts_empty_parts :
    (triangleRing.foldl (fun o c => o.addCoordinate c.x c.y)
        (construct ⟨[]⟩)).finishRing
      = Except.ok (0, { construct ⟨[]⟩ with
          coordinates := triangleRing, start_ring := [0, 4] }) ∧
    finishPolygon { construct ⟨[]⟩ with coordinates := triangleRing, start_ring := [0, 4] }
      = Except.ok (0, { construct ⟨[]⟩ with
          coordinates := triangleRing, start_ring := [0, 4], start_polygon := [0, 1] }) ∧
    finishPolygon { construct ⟨[]⟩ with
        coordinates := triangleRing, start_ring := [0, 4], start_polygon := [0, 1] }
      = Except.ok (1, { construct ⟨[]⟩ with
          coordinates := triangleRing, start_ring := [0, 4], start_polygon := [0, 1, 1] }) ∧
    finishFeature { construct ⟨[]⟩ with
        coordinates := triangleRing, start_ring := [0, 4], start_polygon := [0, 1, 1] }
      = Except.ok (0, { construct ⟨[]⟩ with
          coordinates := triangleRing, start_ring := [0, 4], start_polygon := [0, 1, 1],
          start_feature := [0, 2] }) ∧
    finishFeature { construct ⟨[]⟩ with
        coordinates := triangleRing, start_ring := [0, 4], start_polygon := [0, 1, 1],
        start_feature := [0, 2] }
      = Except.ok (1, { construct ⟨[]⟩ with
          coordinates := triangleRing, start_ring := [0, 4], start_polygon := [0, 1, 1],
          start_feature := [0, 2, 2] }) := by
  refine ⟨rfl, rfl, rfl, rfl, rfl⟩

namespace PointInCollectionBulkTester

theorem foldl_loopPrev {α : Type} (f : α → Nat → Nat → α) (x0 : α) (j0 k : Nat) :
    (List.range k).foldl (fun (s : α × Nat) i => (f s.1 i s.2, i)) (x0, j0)
      = ((List.range k).foldl (fun x i => f x i (loopPrev j0 i)) x0,
          if k = 0 then j0 else k - 1) := by
  induction k with
  | zero => simp
  | succ n ih =>
    rw [List.range_succ, List.foldl_append, List.foldl_append, ih]
    simp only [List.foldl_cons, List.foldl_nil]
    cases n <;> simp [loopPrev]

theorem precalculateRingStep_collection (t : PointInCollectionBulkTester) (start i j : Nat) :
    (precalculateRingStep t start i j).polygonCollection = t.polygonCollection := by
  unfold precalculateRingStep
  simp only
  split <;> rfl

theorem precalculateRingStep_constants (t : PointInCollectionBulkTester) (start i j : Nat) :
    (precalculateRingStep t start i j).constants
      = Function.update t.constants ((start + i) % 2 ^ 64)
          (ringConstant t.polygonCollection start i j) := by
  unfold precalculateRingStep ringConstant
  simp only
  split <;> rfl

theorem precalculateRingStep_multiples (t : PointInCollectionBulkTester) (start i j : Nat) :
    (precalculateRingStep t start i j).multiples
      = Function.update t.multiples ((start + i) % 2 ^ 64)
          (ringMultiple t.polygonCollection start i j) := by
  unfold precalculateRingStep ringMultiple
  simp only
  split <;> rfl

theorem precalculate_fold (t : PointInCollectionBulkTester) (start j0 k : Nat)
    (hk : start + k ≤ 2 ^ 64) :
    ((List.range k).foldl (fun x i => precalculateRingStep x start i (loopPrev j0 i))
        t).polygonCollection = t.polygonCollection ∧
    (∀ idx, (∀ i, i < k → idx ≠ start + i) →
      ((List.range k).foldl (fun x i => precalculateRingStep x start i (loopPrev j0 i))
          t).constants idx = t.constants idx ∧
      ((List.range k).foldl (fun x i => precalculateRingStep x start i (loopPrev j0 i))
          t).multiples idx = t.multiples idx) ∧
    (∀ i, i < k →
      ((List.range k).foldl (fun x i => precalculateRingStep x start i (loopPrev j0 i))
          t).constants (start + i) = ringConstant t.polygonCollection start i (loopPrev j0 i) ∧
      ((List.range k).foldl (fun x i => precalculateRingStep x start i (loopPrev j0 i))
          t).multiples (start + i)
        = ringMultiple t.polygonCollection start i (loopPrev j0 i)) := by
  induction k with
  | zero => simp
  | succ n ih =>
    obtain ⟨ih1, ih2, ih3⟩ := ih (by omega)
    rw [List.range_succ, List.foldl_append]
    simp only [List.foldl_cons, List.foldl_nil]
    generalize (List.range n).foldl
      (fun x i => precalculateRingStep x start i (loopPrev j0 i)) t = T at ih1 ih2 ih3 ⊢
    have hmod : (start + n) % 2 ^ 64 = start + n := Nat.mod_eq_of_lt (by omega)
    rw [precalculateRingStep_collection, precalculateRingStep_constants,
      precalculateRingStep_multiples, hmod, ih1]
    refine ⟨rfl, ?_, ?_⟩
    · intro idx hidx
      have h1 : idx ≠ start + n := hidx n (by omega)
      rw [Function.update_noteq h1, Function.update_noteq h1]
      exact ih2 idx (fun i hi => hidx i (by omega))
    · intro i hi
      by_cases hin : i = n
      · subst hin
        rw [Function.update_same, Function.update_same]
        exact ⟨rfl, rfl⟩
      · have h1 : start + i ≠ start + n := by omega
        rw [Function.update_noteq h1, Function.update_noteq h1]
        exact ih3 i (by omega)

theorem pointInRingStep_eq (t : PointInCollectionBulkTester) (coordinate : Coordinate)
    (start i j : Nat) (oddNodes : Bool)
    (hc : t.constants ((start + i) % 2 ^ 64) = ringConstant t.polygonCollection start i j)
    (hm : t.multiples ((start + i) % 2 ^ 64) = ringMultiple t.polygonCollection start i j) :
    t.pointInRingStep coordinate start oddNodes i j
      = t.polygonCollection.pointInRingStep coordinate start oddNodes i j := by
  unfold pointInRingStep PolygonCollection.pointInRingStep
  simp only
  rw [hc, hm]
  unfold ringConstant ringMultiple
  simp only
  generalize t.polygonCollection.coordinateAt ((start + i) % 2 ^ 64) = c_i
  generalize t.polygonCollection.coordinateAt ((start + j) % 2 ^ 64) = c_j
  by_cases hy : (c_i.y < coordinate.y ∧ c_j.y ≥ coordinate.y)
      ∨ (c_j.y < coordinate.y ∧ c_i.y ≥ coordinate.y)
  · have hne : c_j.y ≠ c_i.y := by
      rcases hy with ⟨h1, h2⟩ | ⟨h1, h2⟩
      · exact ne_of_gt (lt_of_lt_of_le h1 h2)
      · exact ne_of_lt (lt_of_lt_of_le h1 h2)
    have hd : c_j.y - c_i.y ≠ 0 := sub_ne_zero.mpr hne
    have halg : coordinate.y * ((c_j.x - c_i.x) / (c_j.y - c_i.y))
        + (c_i.x - (c_i.y * c_j.x) / (c_j.y - c_i.y) + (c_i.y * c_i.x) / (c_j.y - c_i.y))
        = c_i.x + (coordinate.y - c_i.y) / (c_j.y - c_i.y) * (c_j.x - c_i.x) := by
      field_simp
      ring
    simp only [hy, if_true, hne, if_false, halg]
    by_cases hlt : c_i.x + (coordinate.y - c_i.y) / (c_j.y - c_i.y) * (c_j.x - c_i.x)
        < coordinate.x
    · simp [hlt]
    · simp [hlt]
  · simp only [hy, if_false]

theorem numberOfCorners_eq (start stop : Nat) (h1 : start + 1 ≤ stop) :
    sizeDiff (sizeDiff stop start) 1 = stop - start - 1 := by
  have e1 : sizeDiff stop start = stop - start := by
    unfold sizeDiff
    exact if_pos (by omega)
  have e2 : sizeDiff (stop - start) 1 = stop - start - 1 := by
    unfold sizeDiff
    exact if_pos (by omega)
  rw [e1, e2]

theorem precalculateRing_eq (t : PointInCollectionBulkTester) (start stop : Nat)
    (h1 : start + 1 ≤ stop) :
    t.precalculateRing start stop
      = (List.range (stop - start - 1)).foldl
          (fun x i => precalculateRingStep x start i
            (loopPrev (sizeDiff (stop - start - 1) 1) i)) t := by
  unfold precalculateRing
  simp only
  rw [numberOfCorners_eq start stop h1]
  exact congrArg Prod.fst
    (foldl_loopPrev (fun x i j => precalculateRingStep x start i j) t _ _)

theorem triangle_pointInRing :
    triangleCollection.pointInRing ⟨5 / 4, 5 / 2⟩ 0 4 = true ∧
      triangleCollection.pointInRing ⟨3, 5 / 2⟩ 0 4 = false := by
  have hc : triangleCollection.coordinates = triangleRing := rfl
  constructor <;>
  · simp only [PolygonCollection.pointInRing, sizeDiff, List.range, List.range.loop,
      List.foldl, PolygonCollection.pointInRingStep, coordinateAt, hc, triangleRing]
    norm_num [List.range, List.range.loop]

/-- C40: for a ring of the collection with at least one corner (the coordinate
indices `start` up to `stop - 1` with `start + 2 ≤ stop`, inside the coordinate
vector, whose size is a `size_t`) and every query coordinate,
`PointInCollectionBulkTester::pointInRing` on the tester left by
`precalculateRing` for this ring returns what `PolygonCollection::pointInRing`
returns, the arithmetic being exact. `precalculateRing` keeps the collection and
writes `constants` and `multiples` at the indices `start` up to `stop - 2` only,
and every tester that agrees with its result on these indices gives the same
answer, so precalculating further rings does not change it. -/
theorem bulk_pointInRing_agrees (t : PointInCollectionBulkTester) (coordinate : Coordinate)
    (start stop : Nat) (h1 : start + 2 ≤ stop)
    (h2 : stop ≤ t.polygonCollection.coordinates.length)
    (h3 : t.polygonCollection.coordinates.length < 2 ^ 64) :
    (t.precalculateRing start stop).pointInRing coordinate start stop
        = t.polygonCollection.pointInRing coordinate start stop ∧
      (t.precalculateRing start stop).polygonCollection = t.polygonCollection ∧
      (∀ idx, idx < start ∨ stop - 1 ≤ idx →
        (t.precalculateRing start stop).constants idx = t.constants idx ∧
        (t.precalculateRing start stop).multiples idx = t.multiples idx) ∧
      (∀ t1 : PointInCollectionBulkTester, t1.polygonCollection = t.polygonCollection →
        (∀ idx, start ≤ idx → idx < stop - 1 →
          t1.constants idx = (t.precalculateRing start stop).constants idx ∧
          t1.multiples idx = (t.precalculateRing start stop).multiples idx) →
        t1.pointInRing coordinate start stop
          = t.polygonCollection.pointInRing coordinate start stop) := by
  have hs : stop < 2 ^ 64 := lt_of_le_of_lt h2 h3
  have hpre := precalculate_fold t start (sizeDiff (stop - start - 1) 1)
    (stop - start - 1) (by omega)
  rw [← precalculateRing_eq t start stop (by omega)] at hpre
  obtain ⟨hp1, hp2, hp3⟩ := hpre
  have hgen : ∀ t1 : PointInCollectionBulkTester, t1.polygonCollection = t.polygonCollection →
      (∀ idx, start ≤ idx → idx < stop - 1 →
        t1.constants idx = (t.precalculateRing start stop).constants idx ∧
        t1.multiples idx = (t.precalculateRing start stop).multiples idx) →
      t1.pointInRing coordinate start stop
        = t.polygonCollection.pointInRing coordinate start stop := by
    intro t1 hpc hagree
    unfold pointInRing PolygonCollection.pointInRing
    simp only
    rw [numberOfCorners_eq start stop (by omega)]
    have e1 := congrArg Prod.fst (foldl_loopPrev
      (fun x i j => t1.pointInRingStep coordinate start x i j) false
      (sizeDiff (stop - start - 1) 1) (stop - start - 1))
    have e2 := congrArg Prod.fst (foldl_loopPrev
      (fun x i j => t.polygonCollection.pointInRingStep coordinate start x i j) false
      (sizeDiff (stop - start - 1) 1) (stop - start - 1))
    refine e1.trans (Eq.trans ?_ e2.symm)
    apply List.foldl_ext
    intro oddNodes i hi
    have hi2 : i < stop - start - 1 := List.mem_range.mp hi
    have hmod : (start + i) % 2 ^ 64 = start + i := Nat.mod_eq_of_lt (by omega)
    have ha := hagree (start + i) (by omega) (by omega)
    have hv := hp3 i hi2
    rw [← hpc]
    apply pointInRingStep_eq
    · rw [hmod, ha.1, hv.1, hpc]
    · rw [hmod, ha.2, hv.2, hpc]
  refine ⟨hgen _ hp1 (fun idx _ _ => ⟨rfl, rfl⟩), hp1, ?_, hgen⟩
  intro idx hidx
  exact hp2 idx (fun i hi => by omega)

/-- Witness for C40: the ring of `triangleCollection` and the point
(5/4, 5/2), which lies inside it; the point (3, 5/2) lies outside. -/
theorem bulk_pointInRing_agrees_witness :
    0 + 2 ≤ 4 ∧ 4 ≤ triangleCollection.coordinates.length ∧
      (precalculateRing ⟨triangleCollection, fun _ => 0, fun _ => 0⟩ 0 4).pointInRing
          ⟨5 / 4, 5 / 2⟩ 0 4
        = triangleCollection.pointInRing ⟨5 / 4, 5 / 2⟩ 0 4 ∧
      triangleCollection.pointInRing ⟨5 / 4, 5 / 2⟩ 0 4 = true ∧
      triangleCollection.pointInRing ⟨3, 5 / 2⟩ 0 4 = false :=
  ⟨by decide, by decide,
    (bulk_pointInRing_agrees ⟨triangleCollection, fun _ => 0, fun _ => 0⟩ ⟨5 / 4, 5 / 2⟩ 0 4
      (by decide) (by decide) (by decide)).1,
    triangle_pointInRing.1, triangle_pointInRing.2⟩

end PointInCollectionBulkTester
end PolygonCollection

/-! ## Claims that turn on infinite or NaN bounds -/

namespace Dbl

theorem epsilon_pos : (0 : ℚ) < Mapping.epsilon := by
  unfold Mapping.epsilon
  positivity

theorem min_self (a : Dbl) : Dbl.min a a = a := by simp [Dbl.min]

theorem max_self (a : Dbl) : Dbl.max a a = a := by simp [Dbl.max]

theorem near_self (a : Dbl) :
    Dbl.lt (Dbl.abs (Dbl.sub a a)) Dbl.epsilon = a.isFinite := by
  cases a <;> simp [Dbl.sub, Dbl.abs, Dbl.lt, Dbl.epsilon, Dbl.isFinite, epsilon_pos]

theorem le_sub_epsilon_self (a : Dbl) :
    Dbl.le (Dbl.sub a Dbl.epsilon) a = !a.isNaN := by
  cases a <;> simp [Dbl.sub, Dbl.le, Dbl.epsilon, Dbl.isNaN, le_of_lt epsilon_pos]

theorem le_self_add_epsilon (a : Dbl) :
    Dbl.le a (Dbl.add a Dbl.epsilon) = !a.isNaN := by
  cases a <;> simp [Dbl.add, Dbl.le, Dbl.epsilon, Dbl.isNaN, le_of_lt epsilon_pos]

theorem lt_self (a : Dbl) : Dbl.lt a a = false := by
  cases a <;> simp [Dbl.lt]

theorem lt_of_not_le_sub (x y : Dbl) (hx : x.isNaN = false) (hy : y.isNaN = false)
    (h : Dbl.le (Dbl.sub x Dbl.epsilon) y = false) : Dbl.lt y x = true := by
  have he := epsilon_pos
  cases x <;> cases y <;>
    simp_all [Dbl.sub, Dbl.le, Dbl.lt, Dbl.epsilon, Dbl.isNaN]
  linarith

theorem lt_of_not_le_add (x y : Dbl) (hx : x.isNaN = false) (hy : y.isNaN = false)
    (h : Dbl.le y (Dbl.add x Dbl.epsilon) = false) : Dbl.lt x y = true := by
  have he := epsilon_pos
  cases x <;> cases y <;>
    simp_all [Dbl.add, Dbl.le, Dbl.lt, Dbl.epsilon, Dbl.isNaN]
  linarith

end Dbl

namespace IEEE

namespace Interval

/-- C5 (as stated, refuted): the constructor accepts any two doubles. For the
interval with the bounds `a = 2`, `b = 1`, `i.intersect(i)` throws an
ArgumentException. For the interval `[0, +inf]`, `i.intersect(i)` succeeds and
returns `[0, +inf]`, yet `operator==` does not find it equal to `i`:
`inf - inf` is NaN, and `NaN < epsilon` is false. -/
theorem intersect_self_counterexample :
    Interval.intersect ⟨Dbl.fin 2, Dbl.fin 1⟩ ⟨Dbl.fin 2, Dbl.fin 1⟩
        = Except.error (Exn.ArgumentException "Cannot intersect disjunct intervals") ∧
      Interval.intersect ⟨Dbl.fin 0, Dbl.posInf⟩ ⟨Dbl.fin 0, Dbl.posInf⟩
        = Except.ok ⟨Dbl.fin 0, Dbl.posInf⟩ ∧
      Interval.opEq ⟨Dbl.fin 0, Dbl.posInf⟩ ⟨Dbl.fin 0, Dbl.posInf⟩ = false := by
  refine ⟨?_, ?_, ?_⟩
  · simp [Interval.intersect, Interval.intersects, Dbl.lt]
  · simp [Interval.intersect, Interval.intersects, Dbl.lt, Dbl.max, Dbl.min]
  · simp [Interval.opEq, Dbl.sub, Dbl.abs, Dbl.lt]

/-- C5 (amended): for every Interval `i`, `i.intersect(i)` succeeds and returns
an interval equal to `i` under `operator==` exactly when both bounds of `i` are
finite and `i.a <= i.b`. -/
theorem intersect_self (i : Interval) :
    (∃ r, i.intersect i = Except.ok r ∧ r.opEq i = true) ↔
      (i.a.isFinite = true ∧ i.b.isFinite = true ∧ Dbl.le i.a i.b = true) := by
  obtain ⟨a, b⟩ := i
  have hself : Interval.opEq ⟨a, b⟩ ⟨a, b⟩ = (a.isFinite && b.isFinite) := by
    simp [Interval.opEq, Dbl.near_self]
  constructor
  · rintro ⟨r, hr, heq⟩
    by_cases hi : Interval.intersects ⟨a, b⟩ ⟨a, b⟩ = true
    · simp only [Interval.intersect, hi, Bool.not_true, Bool.false_eq_true, if_false,
        Except.ok.injEq, Dbl.max_self, Dbl.min_self] at hr
      subst hr
      rw [hself] at heq
      simp only [Bool.and_eq_true] at heq
      refine ⟨heq.1, heq.2, ?_⟩
      obtain ⟨ha, hb⟩ := heq
      cases a <;> cases b <;> simp_all [Interval.intersects, Dbl.lt, Dbl.le, Dbl.isFinite]
    · simp [Interval.intersect, hi] at hr
  · rintro ⟨ha, hb, hab⟩
    refine ⟨⟨a, b⟩, ?_, ?_⟩
    · have hi : Interval.intersects ⟨a, b⟩ ⟨a, b⟩ = true := by
        cases a <;> cases b <;> simp_all [Interval.intersects, Dbl.lt, Dbl.le, Dbl.isFinite]
      simp [Interval.intersect, hi, Dbl.max_self, Dbl.min_self]
    · rw [hself]
      simp [ha, hb]

/-- Witness for C5 (amended): the interval `[1, 2]`. -/
theorem intersect_self_witness :
    ∃ r, Interval.intersect ⟨Dbl.fin 1, Dbl.fin 2⟩ ⟨Dbl.fin 1, Dbl.fin 2⟩ = Except.ok r ∧
      r.opEq ⟨Dbl.fin 1, Dbl.fin 2⟩ = true :=
  (intersect_self ⟨Dbl.fin 1, Dbl.fin 2⟩).mpr ⟨rfl, rfl, by simp [Dbl.le]⟩

/-- C6 (as stated, refuted): for the interval `[0, +inf]`, `i.combine(i)` is
not equal to `i` under `operator==` (`inf - inf` is NaN); for the interval
`[NaN, 0]`, `i.contains(i)` is false (every comparison with NaN is false). -/
theorem combine_self_and_contains_self_counterexample :
    (Interval.combine ⟨Dbl.fin 0, Dbl.posInf⟩ ⟨Dbl.fin 0, Dbl.posInf⟩).opEq
        ⟨Dbl.fin 0, Dbl.posInf⟩ = false ∧
      Interval.contains ⟨Dbl.nan, Dbl.fin 0⟩ ⟨Dbl.nan, Dbl.fin 0⟩ = false := by
  constructor
  · simp [Interval.combine, Interval.opEq, Dbl.min, Dbl.max, Dbl.sub, Dbl.abs, Dbl.lt]
  · simp [Interval.contains, Dbl.sub, Dbl.le]

/-- C6 (amended): for every Interval `i`, `i.combine(i)` equals `i` under
`operator==` exactly when both bounds of `i` are finite, and `i.contains(i)` is
true exactly when neither bound of `i` is NaN. -/
theorem combine_self_and_contains_self (i : Interval) :
    ((i.combine i).opEq i = true ↔ (i.a.isFinite = true ∧ i.b.isFinite = true)) ∧
      (i.contains i = true ↔ (i.a.isNaN = false ∧ i.b.isNaN = false)) := by
  obtain ⟨a, b⟩ := i
  constructor
  · simp [Interval.combine, Interval.opEq, Dbl.min_self, Dbl.max_self, Dbl.near_self]
  · simp [Interval.contains, Dbl.le_sub_epsilon_self, Dbl.le_self_add_epsilon]

/-- Witness for C6 (amended): the interval `[1, 2]` for `combine` and
`operator==`, the interval `[-inf, +inf]` for `contains`. -/
theorem combine_self_and_contains_self_witness :
    (Interval.combine ⟨Dbl.fin 1, Dbl.fin 2⟩ ⟨Dbl.fin 1, Dbl.fin 2⟩).opEq
        ⟨Dbl.fin 1, Dbl.fin 2⟩ = true ∧
      Interval.contains ⟨Dbl.negInf, Dbl.posInf⟩ ⟨Dbl.negInf, Dbl.posInf⟩ = true :=
  ⟨(combine_self_and_contains_self ⟨Dbl.fin 1, Dbl.fin 2⟩).1.mpr ⟨rfl, rfl⟩,
    (combine_self_and_contains_self ⟨Dbl.negInf, Dbl.posInf⟩).2.mpr ⟨rfl, rfl⟩⟩

end Interval

end IEEE

namespace IEEE
namespace Cube

variable {DIM : Nat}

theorem contains_iff_ieee (c o : Cube DIM) :
    c.contains o = true ↔ ∀ i, (c.dims i).contains (o.dims i) = true := by
  simp [contains, foldl_and_eq_all]

theorem set_dimension_fin_ieee (c : Cube DIM) (i : Fin DIM) (a b : Dbl) :
    c.set_dimension (i.val : Int) a b = Except.ok ⟨Function.update c.dims i ⟨a, b⟩⟩ := by
  have h : ¬ (((i.val : Int) < 0) ∨ ((i.val : Int) ≥ DIM)) := by
    have := i.isLt
    omega
  simp [set_dimension, h]

theorem dissectBody_eq_ieee (fill : Cube DIM) (st : Cube DIM × List (Cube DIM)) (i : Fin DIM) :
    dissectBody fill st i = Except.ok (dissectStep fill st i) := by
  unfold dissectBody dissectStep
  by_cases h1 : Dbl.lt (st.1.dims i).a (fill.dims i).a = true
  · by_cases h2 : Dbl.lt (fill.dims i).b (st.1.dims i).b = true
    · simp [h1, h2, set_dimension_fin_ieee, bind, Except.bind, pure, Except.pure]
    · simp [h1, h2, set_dimension_fin_ieee, bind, Except.bind, pure, Except.pure]
  · by_cases h2 : Dbl.lt (fill.dims i).b (st.1.dims i).b = true
    · simp [h1, h2, set_dimension_fin_ieee, bind, Except.bind, pure, Except.pure]
    · simp [h1, h2, set_dimension_fin_ieee, bind, Except.bind, pure, Except.pure]

theorem dissect_by_eq_ieee (c fill : Cube DIM) :
    c.dissect_by fill =
      if fill.contains c then Except.ok []
      else if !c.intersects fill then
        Except.error (Exn.ArgumentException "Filling cube must intersect this cube for dissection")
      else Except.ok ((List.finRange DIM).foldl (dissectStep fill) (c, [])).2 := by
  unfold dissect_by
  rw [foldlM_ok (dissectBody fill) (dissectStep fill) (dissectBody_eq_ieee fill)]
  rfl

theorem dissectStep_other_ieee (fill : Cube DIM) (st : Cube DIM × List (Cube DIM))
    (i j : Fin DIM) (h : j ≠ i) : (dissectStep fill st i).1.dims j = st.1.dims j := by
  unfold dissectStep
  by_cases c1 : Dbl.lt (st.1.dims i).a (fill.dims i).a = true <;>
    by_cases c2 : Dbl.lt (fill.dims i).b (st.1.dims i).b = true <;>
    simp [c1, c2, Function.update_noteq h]

theorem dissectStep_length_ieee (fill : Cube DIM) (st : Cube DIM × List (Cube DIM))
    (i : Fin DIM) :
    st.2.length ≤ (dissectStep fill st i).2.length := by
  unfold dissectStep
  by_cases c1 : Dbl.lt (st.1.dims i).a (fill.dims i).a = true <;>
    by_cases c2 : Dbl.lt (fill.dims i).b (st.1.dims i).b = true <;>
    simp [c1, c2]

theorem dissectLoop_length_ieee (fill : Cube DIM) (l : List (Fin DIM))
    (st : Cube DIM × List (Cube DIM)) :
    st.2.length ≤ (l.foldl (dissectStep fill) st).2.length := by
  induction l generalizing st with
  | nil => simp
  | cons x xs ih =>
    have h1 := dissectStep_length_ieee fill st x
    have h2 := ih (dissectStep fill st x)
    rw [List.foldl_cons]
    omega

theorem dissectStep_pushes_ieee (fill : Cube DIM) (st : Cube DIM × List (Cube DIM))
    (i : Fin DIM)
    (hf : (fill.dims i).a.isNaN = false ∧ (fill.dims i).b.isNaN = false)
    (hs : (st.1.dims i).a.isNaN = false ∧ (st.1.dims i).b.isNaN = false)
    (h : (fill.dims i).contains (st.1.dims i) = false) :
    st.2.length < (dissectStep fill st i).2.length := by
  have h1 : Dbl.lt (st.1.dims i).a (fill.dims i).a = true ∨
      Dbl.lt (fill.dims i).b (st.1.dims i).b = true := by
    simp only [Interval.contains, Bool.and_eq_false_iff] at h
    rcases h with h | h
    · exact Or.inl (Dbl.lt_of_not_le_sub _ _ hf.1 hs.1 h)
    · exact Or.inr (Dbl.lt_of_not_le_add _ _ hf.2 hs.2 h)
  unfold dissectStep
  by_cases c1 : Dbl.lt (st.1.dims i).a (fill.dims i).a = true
  · by_cases c2 : Dbl.lt (fill.dims i).b (st.1.dims i).b = true <;> simp [c1, c2]
  · have c2 : Dbl.lt (fill.dims i).b (st.1.dims i).b = true := by
      rcases h1 with h | h
      · exact absurd h c1
      · exact h
    simp [c1, c2]

theorem dissectLoop_pushes_ieee (fill : Cube DIM) (l : List (Fin DIM))
    (st : Cube DIM × List (Cube DIM)) (i : Fin DIM) (hi : i ∈ l)
    (hf : (fill.dims i).a.isNaN = false ∧ (fill.dims i).b.isNaN = false)
    (hs : (st.1.dims i).a.isNaN = false ∧ (st.1.dims i).b.isNaN = false)
    (hnodup : l.Nodup)
    (h : (fill.dims i).contains (st.1.dims i) = false) :
    st.2.length < (l.foldl (dissectStep fill) st).2.length := by
  induction l generalizing st with
  | nil => simp at hi
  | cons x xs ih =>
    rw [List.foldl_cons]
    by_cases hx : i = x
    · subst hx
      have h1 := dissectStep_pushes_ieee fill st i hf hs h
      have h2 := dissectLoop_length_ieee fill xs (dissectStep fill st i)
      omega
    · have hmem : i ∈ xs := by
        rcases List.mem_cons.mp hi with h0 | h0
        · exact absurd h0 hx
        · exact h0
      have hd := dissectStep_other_ieee fill st x i hx
      have h1 := ih (dissectStep fill st x) hmem (by rw [hd]; exact hs)
        (List.nodup_cons.mp hnodup).2 (by rw [hd]; exact h)
      have h2 := dissectStep_length_ieee fill st x
      omega

/-- C34 (as stated, refuted): for `this = [NaN, NaN] x [0, 1]` and
`fill = [0, 1] x [0, 1]`, `this.intersects(fill)` is true and
`fill.contains(this)` is false (every comparison with NaN is false), and
`this.dissect_by(fill)` returns the empty list: neither cut fires. -/
theorem dissect_by_empty_iff_counterexample :
    nanSquare.intersects unitSquare = true ∧ unitSquare.contains nanSquare = false ∧
      nanSquare.dissect_by unitSquare = Except.ok [] := by
  have h1 : nanSquare.intersects unitSquare = true := by
    simp [intersects, List.finRange, nanSquare, unitSquare, Interval.intersects, Dbl.lt]
  have h2 : unitSquare.contains nanSquare = false := by
    simp [contains, List.finRange, nanSquare, unitSquare, Interval.contains, Dbl.le, Dbl.sub,
      Dbl.epsilon]
  refine ⟨h1, h2, ?_⟩
  rw [dissect_by_eq_ieee, h2, h1]
  simp [List.finRange, dissectStep, nanSquare, unitSquare, Dbl.lt]

/-- C34 (amended): for all cubes `this` and `fill` none of whose bounds is NaN,
with `this.intersects(fill)` true and `fill.contains(this)` false,
`this.dissect_by(fill)` returns a non-empty list; and whenever `dissect_by`
returns a list for such cubes, the list is empty exactly when
`fill.contains(this)` holds. -/
theorem dissect_by_empty_iff (c fill : Cube DIM) (hc : c.NoNaN) (hf : fill.NoNaN) :
    (c.intersects fill = true → fill.contains c = false →
      ∃ res, c.dissect_by fill = Except.ok res ∧ res ≠ []) ∧
    (∀ res, c.dissect_by fill = Except.ok res → (res = [] ↔ fill.contains c = true)) := by
  have key : c.intersects fill = true → fill.contains c = false →
      ((List.finRange DIM).foldl (dissectStep fill) (c, [])).2 ≠ [] := by
    intro _ hcon
    have hex : ∃ i, (fill.dims i).contains (c.dims i) = false := by
      by_contra hn
      have hall : ∀ i, (fill.dims i).contains (c.dims i) = true := by
        intro i
        by_contra hi'
        exact hn ⟨i, by simpa using hi'⟩
      rw [(contains_iff_ieee fill c).mpr hall] at hcon
      exact Bool.noConfusion hcon
    obtain ⟨i, hi'⟩ := hex
    have hlen := dissectLoop_pushes_ieee fill (List.finRange DIM) (c, []) i
      (List.mem_finRange i) (hf i) (hc i) (List.nodup_finRange DIM) hi'
    intro hnil
    rw [hnil] at hlen
    simp at hlen
  constructor
  · intro hi hcon
    refine ⟨_, ?_, key hi hcon⟩
    rw [dissect_by_eq_ieee]
    simp [hi, hcon]
  · intro res hres
    rw [dissect_by_eq_ieee] at hres
    by_cases hcon : fill.contains c = true
    · simp only [hcon, if_true, Except.ok.injEq] at hres
      simp [hcon, hres.symm]
    · have hcon2 : fill.contains c = false := by simpa using hcon
      by_cases hi : c.intersects fill = true
      · simp only [hcon2, hi, Bool.false_eq_true, if_false, Bool.not_true,
          Except.ok.injEq] at hres
        have := key hi hcon2
        rw [hres] at this
        simp [hcon2, this]
      · have hi2 : c.intersects fill = false := by simpa using hi
        simp [hcon2, hi2] at hres

/-- Witness for C34 (amended): the unit square dissected by its left half. -/
theorem dissect_by_empty_iff_witness :
    unitSquare.NoNaN ∧ leftHalf.NoNaN ∧
      unitSquare.intersects leftHalf = true ∧ leftHalf.contains unitSquare = false ∧
      ∃ res, unitSquare.dissect_by leftHalf = Except.ok res ∧ res ≠ [] :=
  have n1 : unitSquare.NoNaN := fun _ => ⟨rfl, rfl⟩
  have n2 : leftHalf.NoNaN := by
    intro k
    fin_cases k <;> exact ⟨rfl, rfl⟩
  have h1 : unitSquare.intersects leftHalf = true := by
    simp [intersects, List.finRange, leftHalf, unitSquare, Interval.intersects, Dbl.lt]
  have h2 : leftHalf.contains unitSquare = false := by
    simp [contains, List.finRange, leftHalf, unitSquare, Interval.contains, Dbl.le, Dbl.sub,
      Dbl.add, Dbl.epsilon, epsilon]
    norm_num
  ⟨n1, n2, h1, h2, (dissect_by_empty_iff unitSquare leftHalf n1 n2).1 h1 h2⟩

end Cube
end IEEE

/-! ## Claims that turn on rounding -/

theorem roundHalfEven_intCast (z : ℤ) : roundHalfEven (z : ℚ) = z := by
  simp [roundHalfEven]

theorem roundHalfEven_near (x : ℚ) (z : ℤ) (h1 : (z : ℚ) - 1 / 2 < x) (h2 : x < z + 1 / 2) :
    roundHalfEven x = z := by
  by_cases hx : (z : ℚ) ≤ x
  · have hf : ⌊x⌋ = z := Int.floor_eq_iff.mpr ⟨hx, by linarith⟩
    have : x - (z : ℚ) < 1 / 2 := by linarith
    simp only [roundHalfEven, hf, this, if_true]
  · have hx2 : x < z := lt_of_not_le hx
    have hf : ⌊x⌋ = z - 1 := Int.floor_eq_iff.mpr ⟨by push_cast; linarith, by push_cast; linarith⟩
    have h3 : ¬ (x - ((z - 1 : ℤ) : ℚ) < 1 / 2) := by push_cast; linarith
    have h4 : 1 / 2 < x - ((z - 1 : ℤ) : ℚ) := by push_cast; linarith
    simp only [roundHalfEven, hf, h3, h4, if_false, if_true]
    ring

theorem roundHalfEven_tie (x : ℚ) (f : ℤ) (h : x = f + 1 / 2) :
    roundHalfEven x = if f % 2 = 0 then f else f + 1 := by
  have hf : ⌊x⌋ = f := Int.floor_eq_iff.mpr ⟨by linarith, by linarith⟩
  have h3 : ¬ (x - (f : ℚ) < 1 / 2) := by linarith
  have h4 : ¬ (1 / 2 < x - (f : ℚ)) := by linarith
  simp only [roundHalfEven, hf, h3, h4, if_false]

namespace Dbl

theorem ulpExponent_eq (q : ℚ) (e : ℤ) (h1 : (2 : ℚ) ^ e ≤ |q|) (h2 : |q| < (2 : ℚ) ^ (e + 1)) :
    ulpExponent q = Max.max (e - 52) (-1074) := by
  have hpos : (0 : ℚ) < |q| := lt_of_lt_of_le (by positivity) h1
  have ha : e ≤ Int.log 2 |q| :=
    (Int.zpow_le_iff_le_log (by norm_num) hpos).mp (by exact_mod_cast h1)
  have hb : Int.log 2 |q| < e + 1 :=
    (Int.lt_zpow_iff_log_lt (by norm_num) hpos).mp (by exact_mod_cast h2)
  have : Int.log 2 |q| = e := by omega
  rw [ulpExponent, this]

theorem ofRat_eq (q : ℚ) (e u z : ℤ) (h1 : (2 : ℚ) ^ e ≤ |q|) (h2 : |q| < (2 : ℚ) ^ (e + 1))
    (hu : Max.max (e - 52) (-1074) = u)
    (hz : roundHalfEven (q / 2 ^ u) = z) (hr : |(z : ℚ) * 2 ^ u| < 2 ^ 1024) :
    ofRat q = fin ((z : ℚ) * 2 ^ u) := by
  have hpos : (0 : ℚ) < |q| := lt_of_lt_of_le (by positivity) h1
  have hq : q ≠ 0 := abs_pos.mp hpos
  have hue := ulpExponent_eq q e h1 h2
  rw [hu] at hue
  simp only [ofRat, hq, if_false, hue, hz, not_le.mpr hr]

theorem ofRat_eq_of_pos (q : ℚ) (e u z : ℤ) (h1 : (2 : ℚ) ^ e ≤ q) (h2 : q < (2 : ℚ) ^ (e + 1))
    (hu : Max.max (e - 52) (-1074) = u)
    (hz : roundHalfEven (q / 2 ^ u) = z) (hr0 : 0 ≤ (z : ℚ) * 2 ^ u)
    (hr : (z : ℚ) * 2 ^ u < 2 ^ 1024) :
    ofRat q = fin ((z : ℚ) * 2 ^ u) := by
  have hpos : (0 : ℚ) < q := lt_of_lt_of_le (by positivity) h1
  exact ofRat_eq q e u z (by rw [abs_of_pos hpos]; exact h1) (by rw [abs_of_pos hpos]; exact h2)
    hu hz (by rw [abs_of_nonneg hr0]; exact hr)

theorem ofRat_zero : ofRat 0 = fin 0 := by
  simp [ofRat]

theorem ofRat_natCast (n : ℕ) (h : n ≤ 2 ^ 53) : ofRat (n : ℚ) = fin (n : ℚ) := by
  rcases Nat.eq_zero_or_pos n with h0 | hpos
  · subst h0
    simp [ofRat]
  rcases Nat.lt_or_ge n (2 ^ 53) with hlt | hge
  · have hn0 : n ≠ 0 := by omega
    have hlog : Nat.log 2 n < 53 := Nat.log_lt_of_lt_pow hn0 hlt
    obtain ⟨k, hk⟩ : ∃ k : ℕ, Nat.log 2 n + k = 52 := ⟨52 - Nat.log 2 n, by omega⟩
    have hle : 2 ^ Nat.log 2 n ≤ n := Nat.pow_log_le_self 2 hn0
    have hlt2 : n < 2 ^ (Nat.log 2 n + 1) := Nat.lt_pow_succ_log_self (by norm_num) n
    have e1 : (2 : ℚ) ^ ((Nat.log 2 n : ℕ) : ℤ) ≤ |(n : ℚ)| := by
      rw [abs_of_nonneg (by positivity), zpow_natCast]
      exact_mod_cast hle
    have e2 : |(n : ℚ)| < (2 : ℚ) ^ (((Nat.log 2 n : ℕ) : ℤ) + 1) := by
      rw [abs_of_nonneg (by positivity)]
      have : (((Nat.log 2 n : ℕ) : ℤ) + 1) = ((Nat.log 2 n + 1 : ℕ) : ℤ) := by push_cast; ring
      rw [this, zpow_natCast]
      exact_mod_cast hlt2
    have hu : Max.max (((Nat.log 2 n : ℕ) : ℤ) - 52) (-1074) = -(k : ℤ) := by
      have : ((Nat.log 2 n : ℕ) : ℤ) - 52 = -(k : ℤ) := by omega
      rw [this]
      exact max_eq_left (by omega)
    have hdiv : (n : ℚ) / 2 ^ (-(k : ℤ)) = ((n * 2 ^ k : ℕ) : ℤ) := by
      rw [zpow_neg, zpow_natCast]
      push_cast
      field_simp
    have hz : roundHalfEven ((n : ℚ) / 2 ^ (-(k : ℤ))) = ((n * 2 ^ k : ℕ) : ℤ) := by
      rw [hdiv]
      exact roundHalfEven_intCast _
    have hval : (((n * 2 ^ k : ℕ) : ℤ) : ℚ) * 2 ^ (-(k : ℤ)) = (n : ℚ) := by
      rw [zpow_neg, zpow_natCast]
      push_cast
      field_simp
    have hr : |(((n * 2 ^ k : ℕ) : ℤ) : ℚ) * 2 ^ (-(k : ℤ))| < 2 ^ 1024 := by
      rw [hval, abs_of_nonneg (by positivity)]
      have : (n : ℚ) < 2 ^ 53 := by exact_mod_cast hlt
      calc (n : ℚ) < 2 ^ 53 := this
        _ < 2 ^ 1024 := by norm_num
    rw [ofRat_eq (n : ℚ) _ _ _ e1 e2 hu hz hr, hval]
  · have hn : n = 2 ^ 53 := le_antisymm h hge
    subst hn
    have e1 : (2 : ℚ) ^ (53 : ℤ) ≤ |((2 ^ 53 : ℕ) : ℚ)| := by norm_num
    have e2 : |((2 ^ 53 : ℕ) : ℚ)| < (2 : ℚ) ^ ((53 : ℤ) + 1) := by norm_num
    have hz : roundHalfEven (((2 ^ 53 : ℕ) : ℚ) / 2 ^ (1 : ℤ)) = 2 ^ 52 := by
      have : ((2 ^ 53 : ℕ) : ℚ) / 2 ^ (1 : ℤ) = ((2 ^ 52 : ℤ) : ℚ) := by norm_num
      rw [this]
      exact roundHalfEven_intCast _
    have hr : |((2 ^ 52 : ℤ) : ℚ) * 2 ^ (1 : ℤ)| < 2 ^ 1024 := by norm_num
    rw [ofRat_eq _ 53 1 (2 ^ 52) e1 e2 (by norm_num) hz hr]
    norm_num

end Dbl

namespace Dbl

theorem ofRat_of_isDouble (q : ℚ) (h : isDouble q = true) : ofRat q = fin q := by
  simpa [isDouble] using h

theorem isDouble_natCast (n : ℕ) (h : n ≤ 2 ^ 53) : isDouble (n : ℚ) = true := by
  simp [isDouble, ofRat_natCast n h]

theorem ofRat_two_pow_64_pred : ofRat ((18446744073709551615 : ℕ) : ℚ) = fin (2 ^ 64) := by
  have hz : roundHalfEven (((18446744073709551615 : ℕ) : ℚ) / 2 ^ (11 : ℤ)) = 2 ^ 53 :=
    roundHalfEven_near _ _ (by norm_num) (by norm_num)
  rw [ofRat_eq_of_pos _ 63 11 (2 ^ 53) (by norm_num) (by norm_num) (by norm_num) hz (by norm_num) (by norm_num)]
  norm_num

theorem ofRat_two_pow_64 : ofRat (2 ^ 64) = fin (2 ^ 64) := by
  have hz : roundHalfEven ((2 ^ 64 : ℚ) / 2 ^ (12 : ℤ)) = 2 ^ 52 := by
    have : (2 ^ 64 : ℚ) / 2 ^ (12 : ℤ) = ((2 ^ 52 : ℤ) : ℚ) := by norm_num
    rw [this]
    exact roundHalfEven_intCast _
  rw [ofRat_eq_of_pos _ 64 12 (2 ^ 52) (by norm_num) (by norm_num) (by norm_num) hz (by norm_num) (by norm_num)]
  norm_num

theorem ofRat_two_pow_53_succ : ofRat ((9007199254740993 : ℕ) : ℚ) = fin (2 ^ 53) := by
  have hz : roundHalfEven (((9007199254740993 : ℕ) : ℚ) / 2 ^ (1 : ℤ)) = 2 ^ 52 := by
    rw [roundHalfEven_tie _ (2 ^ 52) (by norm_num)]
    norm_num
  rw [ofRat_eq_of_pos _ 53 1 (2 ^ 52) (by norm_num) (by norm_num) (by norm_num) hz (by norm_num) (by norm_num)]
  norm_num

theorem ofRat_tenth : ofRat tenth = fin tenth := by
  have hz : roundHalfEven (tenth / 2 ^ (-56 : ℤ)) = 7205759403792794 := by
    have : tenth / 2 ^ (-56 : ℤ) = ((7205759403792794 : ℤ) : ℚ) := by norm_num [tenth]
    rw [this]
    exact roundHalfEven_intCast _
  rw [ofRat_eq_of_pos _ (-4) (-56) 7205759403792794 (by norm_num [tenth]) (by norm_num [tenth])
    (by norm_num) hz (by norm_num) (by norm_num)]
  norm_num [tenth]

theorem ofRat_two_tenths : ofRat (tenth + tenth) = fin (tenth + tenth) := by
  have hz : roundHalfEven ((tenth + tenth) / 2 ^ (-55 : ℤ)) = 7205759403792794 := by
    have : (tenth + tenth) / 2 ^ (-55 : ℤ) = ((7205759403792794 : ℤ) : ℚ) := by norm_num [tenth]
    rw [this]
    exact roundHalfEven_intCast _
  rw [ofRat_eq_of_pos _ (-3) (-55) 7205759403792794 (by norm_num [tenth]) (by norm_num [tenth])
    (by norm_num) hz (by norm_num) (by norm_num)]
  norm_num [tenth]

theorem ofRat_three_tenths :
    ofRat (tenth + tenth + tenth) = fin (5404319552844596 / 2 ^ 54) := by
  have hz : roundHalfEven ((tenth + tenth + tenth) / 2 ^ (-54 : ℤ)) = 5404319552844596 := by
    rw [roundHalfEven_tie _ 5404319552844595 (by norm_num [tenth])]
    norm_num
  rw [ofRat_eq_of_pos _ (-2) (-54) 5404319552844596 (by norm_num [tenth]) (by norm_num [tenth])
    (by norm_num) hz (by norm_num) (by norm_num)]
  norm_num

theorem ofRat_third_of_sum :
    ofRat (5404319552844596 / 2 ^ 54 / ((3 : ℕ) : ℚ)) = fin (7205759403792795 / 2 ^ 56) := by
  have hz : roundHalfEven ((5404319552844596 / 2 ^ 54 / ((3 : ℕ) : ℚ)) / 2 ^ (-56 : ℤ))
      = 7205759403792795 :=
    roundHalfEven_near _ _ (by norm_num) (by norm_num)
  rw [ofRat_eq_of_pos _ (-4) (-56) 7205759403792795 (by norm_num) (by norm_num)
    (by norm_num) hz (by norm_num) (by norm_num)]
  norm_num

end Dbl

namespace IEEE

namespace SystemStats

theorem first_call_average (d : ℕ) (x : ℚ) (h1 : Dbl.ofRat (d : ℚ) = Dbl.fin x)
    (h2 : Dbl.ofRat x = Dbl.fin x) :
    Dbl.round (Dbl.div
      (Dbl.round (Dbl.add
        (Dbl.round (Dbl.mul (Dbl.fin 0) (Dbl.ofRat ((0 : ℕ) : ℚ))))
        (Dbl.ofRat (d : ℚ))))
      (Dbl.ofRat (((0 + 1) % 2 ^ 32 : ℕ) : ℚ))) = Dbl.fin x := by
  have e0 : Dbl.ofRat ((0 : ℕ) : ℚ) = Dbl.fin 0 := by simp [Dbl.ofRat]
  have e1 : Dbl.ofRat (((0 + 1) % 2 ^ 32 : ℕ) : ℚ) = Dbl.fin 1 := by
    have := Dbl.ofRat_natCast 1 (by norm_num)
    simpa using this
  rw [e0, e1, h1]
  simp only [Dbl.mul, Dbl.round, Dbl.add, Dbl.div, mul_zero, zero_add, Dbl.ofRat_zero,
    one_ne_zero, if_false, div_one, h2]

/-- C13 (as stated, refuted): on a fresh SystemStats the call
`query_finished(1, 0, 1, 0)` (created 0, scheduled 1, finished 0) leaves
`avg_exec_time` at `2^64`: the `size_t` difference wraps to `2^64 - 1` and the
conversion to double rounds it. The call `query_finished(1, 1, 0, 0)` leaves
`avg_wait_time` at `2^64` in the same way. The call
`query_finished(1, 0, 0, 2^53 + 1)` leaves `avg_exec_time` at `2^53`, not at
`finished - scheduled = 2^53 + 1`, which is no double. The call
`query_finished(1, 0, 1, 2^53 + 1)` leaves `avg_exec_time = 2^53` and
`avg_wait_time = 1`, and `avg_time` at `2^53`, not at their sum. -/
theorem query_finished_first_call_counterexample :
    (SystemStats.default.query_finished 1 0 1 0).avg_exec_time = Dbl.fin (2 ^ 64) ∧
      (SystemStats.default.query_finished 1 1 0 0).avg_wait_time = Dbl.fin (2 ^ 64) ∧
      (SystemStats.default.query_finished 1 0 0 9007199254740993).avg_exec_time
        = Dbl.fin (2 ^ 53) ∧
      (2 : ℚ) ^ 53 ≠ ((9007199254740993 : ℕ) : ℚ) - ((0 : ℕ) : ℚ) ∧
      (SystemStats.default.query_finished 1 0 1 9007199254740993).avg_exec_time
        = Dbl.fin (2 ^ 53) ∧
      (SystemStats.default.query_finished 1 0 1 9007199254740993).avg_wait_time = Dbl.fin 1 ∧
      (SystemStats.default.query_finished 1 0 1 9007199254740993).avg_time
        = Dbl.fin (2 ^ 53) := by
  have s1 : Mapping.SystemStats.sizeSub 0 1 = 18446744073709551615 := by
    norm_num [Mapping.SystemStats.sizeSub]
  have s2 : Mapping.SystemStats.sizeSub 9007199254740993 0 = 9007199254740993 := by
    norm_num [Mapping.SystemStats.sizeSub]
  have s3 : Mapping.SystemStats.sizeSub 9007199254740993 1 = 9007199254740992 := by
    norm_num [Mapping.SystemStats.sizeSub]
  have s4 : Mapping.SystemStats.sizeSub 1 0 = 1 := by
    norm_num [Mapping.SystemStats.sizeSub]
  have p53 : Dbl.ofRat (2 ^ 53) = Dbl.fin (2 ^ 53) := by
    have := Dbl.ofRat_natCast (2 ^ 53) (le_refl _)
    simpa using this
  have p53n : Dbl.ofRat ((9007199254740992 : ℕ) : ℚ) = Dbl.fin (2 ^ 53) := by
    have := Dbl.ofRat_natCast 9007199254740992 (by norm_num)
    rw [this]
    norm_num
  have p1 : Dbl.ofRat ((1 : ℕ) : ℚ) = Dbl.fin 1 := by
    have := Dbl.ofRat_natCast 1 (by norm_num)
    simpa using this
  have p1q : Dbl.ofRat (1 : ℚ) = Dbl.fin 1 := by simpa using p1
  have a1 : (SystemStats.default.query_finished 1 0 1 0).avg_exec_time = Dbl.fin (2 ^ 64) := by
    show Dbl.round (Dbl.div (Dbl.round (Dbl.add (Dbl.round (Dbl.mul (Dbl.fin 0)
      (Dbl.ofRat ((0 : ℕ) : ℚ)))) (Dbl.ofRat (Mapping.SystemStats.sizeSub 0 1 : ℚ))))
      (Dbl.ofRat (((0 + 1) % 2 ^ 32 : ℕ) : ℚ))) = _
    rw [s1]
    exact first_call_average _ _ Dbl.ofRat_two_pow_64_pred Dbl.ofRat_two_pow_64
  have a1w : (SystemStats.default.query_finished 1 1 0 0).avg_wait_time = Dbl.fin (2 ^ 64) := by
    show Dbl.round (Dbl.div (Dbl.round (Dbl.add (Dbl.round (Dbl.mul (Dbl.fin 0)
      (Dbl.ofRat ((0 : ℕ) : ℚ)))) (Dbl.ofRat (Mapping.SystemStats.sizeSub 0 1 : ℚ))))
      (Dbl.ofRat (((0 + 1) % 2 ^ 32 : ℕ) : ℚ))) = _
    rw [s1]
    exact first_call_average _ _ Dbl.ofRat_two_pow_64_pred Dbl.ofRat_two_pow_64
  have a2 : (SystemStats.default.query_finished 1 0 0 9007199254740993).avg_exec_time
      = Dbl.fin (2 ^ 53) := by
    show Dbl.round (Dbl.div (Dbl.round (Dbl.add (Dbl.round (Dbl.mul (Dbl.fin 0)
      (Dbl.ofRat ((0 : ℕ) : ℚ)))) (Dbl.ofRat (Mapping.SystemStats.sizeSub 9007199254740993 0 : ℚ))))
      (Dbl.ofRat (((0 + 1) % 2 ^ 32 : ℕ) : ℚ))) = _
    rw [s2]
    exact first_call_average _ _ Dbl.ofRat_two_pow_53_succ p53
  have a3 : (SystemStats.default.query_finished 1 0 1 9007199254740993).avg_exec_time
      = Dbl.fin (2 ^ 53) := by
    show Dbl.round (Dbl.div (Dbl.round (Dbl.add (Dbl.round (Dbl.mul (Dbl.fin 0)
      (Dbl.ofRat ((0 : ℕ) : ℚ)))) (Dbl.ofRat (Mapping.SystemStats.sizeSub 9007199254740993 1 : ℚ))))
      (Dbl.ofRat (((0 + 1) % 2 ^ 32 : ℕ) : ℚ))) = _
    rw [s3]
    exact first_call_average _ _ p53n p53
  have a4 : (SystemStats.default.query_finished 1 0 1 9007199254740993).avg_wait_time
      = Dbl.fin 1 := by
    show Dbl.round (Dbl.div (Dbl.round (Dbl.add (Dbl.round (Dbl.mul (Dbl.fin 0)
      (Dbl.ofRat ((0 : ℕ) : ℚ)))) (Dbl.ofRat (Mapping.SystemStats.sizeSub 1 0 : ℚ))))
      (Dbl.ofRat (((0 + 1) % 2 ^ 32 : ℕ) : ℚ))) = _
    rw [s4]
    exact first_call_average _ _ p1 p1q
  have a5 : (SystemStats.default.query_finished 1 0 1 9007199254740993).avg_time
      = Dbl.fin (2 ^ 53) := by
    show Dbl.round (Dbl.add
      (SystemStats.default.query_finished 1 0 1 9007199254740993).avg_exec_time
      (SystemStats.default.query_finished 1 0 1 9007199254740993).avg_wait_time) = _
    rw [a3, a4]
    show Dbl.ofRat (2 ^ 53 + 1) = _
    have := Dbl.ofRat_two_pow_53_succ
    have e : ((9007199254740993 : ℕ) : ℚ) = 2 ^ 53 + 1 := by norm_num
    rw [e] at this
    exact this
  exact ⟨a1, a1w, a2, by norm_num, a3, a4, a5⟩

/-- C13 (amended): on a freshly constructed SystemStats, one call
`query_finished(1, created, scheduled, finished)` leaves `query_counter` equal
to 1. It leaves `avg_exec_time` equal to `finished - scheduled` if
`scheduled <= finished` and that difference is a double, `avg_wait_time` equal
to `scheduled - created` if `created <= scheduled` and that difference is a
double, and `avg_time` equal to the sum of the two averages if that sum is a
double. All three hold whenever `created <= scheduled <= finished` and
`finished - created <= 2^53`. -/
theorem query_finished_first_call (created scheduled finished : Nat) :
    (SystemStats.default.query_finished 1 created scheduled finished).query_counter = 1 ∧
    (finished < 2 ^ 64 → scheduled ≤ finished →
      Dbl.isDouble ((finished : ℚ) - (scheduled : ℚ)) = true →
      (SystemStats.default.query_finished 1 created scheduled finished).avg_exec_time
        = Dbl.fin ((finished : ℚ) - (scheduled : ℚ))) ∧
    (scheduled < 2 ^ 64 → created ≤ scheduled →
      Dbl.isDouble ((scheduled : ℚ) - (created : ℚ)) = true →
      (SystemStats.default.query_finished 1 created scheduled finished).avg_wait_time
        = Dbl.fin ((scheduled : ℚ) - (created : ℚ))) ∧
    (∀ x y : ℚ,
      (SystemStats.default.query_finished 1 created scheduled finished).avg_exec_time
        = Dbl.fin x →
      (SystemStats.default.query_finished 1 created scheduled finished).avg_wait_time
        = Dbl.fin y →
      Dbl.isDouble (x + y) = true →
      (SystemStats.default.query_finished 1 created scheduled finished).avg_time
        = Dbl.fin (x + y)) ∧
    (finished < 2 ^ 64 → created ≤ scheduled → scheduled ≤ finished →
      finished - created ≤ 2 ^ 53 →
      (SystemStats.default.query_finished 1 created scheduled finished).avg_exec_time
          = Dbl.fin ((finished : ℚ) - (scheduled : ℚ)) ∧
        (SystemStats.default.query_finished 1 created scheduled finished).avg_wait_time
          = Dbl.fin ((scheduled : ℚ) - (created : ℚ)) ∧
        (SystemStats.default.query_finished 1 created scheduled finished).avg_time
          = Dbl.fin (((finished : ℚ) - (scheduled : ℚ))
              + ((scheduled : ℚ) - (created : ℚ)))) := by
  have hexec : finished < 2 ^ 64 → scheduled ≤ finished →
      Dbl.isDouble ((finished : ℚ) - (scheduled : ℚ)) = true →
      (SystemStats.default.query_finished 1 created scheduled finished).avg_exec_time
        = Dbl.fin ((finished : ℚ) - (scheduled : ℚ)) := by
    intro hf h2 d1
    have e1 := Mapping.sizeSub_of_le finished scheduled hf h2
    have r1 := Dbl.ofRat_of_isDouble _ d1
    show Dbl.round (Dbl.div (Dbl.round (Dbl.add (Dbl.round (Dbl.mul (Dbl.fin 0)
      (Dbl.ofRat ((0 : ℕ) : ℚ))))
      (Dbl.ofRat (Mapping.SystemStats.sizeSub finished scheduled : ℚ))))
      (Dbl.ofRat (((0 + 1) % 2 ^ 32 : ℕ) : ℚ))) = _
    exact first_call_average _ _ (by rw [e1]; exact r1) r1
  have hwait : scheduled < 2 ^ 64 → created ≤ scheduled →
      Dbl.isDouble ((scheduled : ℚ) - (created : ℚ)) = true →
      (SystemStats.default.query_finished 1 created scheduled finished).avg_wait_time
        = Dbl.fin ((scheduled : ℚ) - (created : ℚ)) := by
    intro hs h1 d2
    have e2 := Mapping.sizeSub_of_le scheduled created hs h1
    have r2 := Dbl.ofRat_of_isDouble _ d2
    show Dbl.round (Dbl.div (Dbl.round (Dbl.add (Dbl.round (Dbl.mul (Dbl.fin 0)
      (Dbl.ofRat ((0 : ℕ) : ℚ))))
      (Dbl.ofRat (Mapping.SystemStats.sizeSub scheduled created : ℚ))))
      (Dbl.ofRat (((0 + 1) % 2 ^ 32 : ℕ) : ℚ))) = _
    exact first_call_average _ _ (by rw [e2]; exact r2) r2
  have hsum : ∀ x y : ℚ,
      (SystemStats.default.query_finished 1 created scheduled finished).avg_exec_time
        = Dbl.fin x →
      (SystemStats.default.query_finished 1 created scheduled finished).avg_wait_time
        = Dbl.fin y →
      Dbl.isDouble (x + y) = true →
      (SystemStats.default.query_finished 1 created scheduled finished).avg_time
        = Dbl.fin (x + y) := by
    intro x y hx hy d3
    show Dbl.round (Dbl.add
      (SystemStats.default.query_finished 1 created scheduled finished).avg_exec_time
      (SystemStats.default.query_finished 1 created scheduled finished).avg_wait_time) = _
    rw [hx, hy]
    exact Dbl.ofRat_of_isDouble _ d3
  refine ⟨rfl, hexec, hwait, hsum, ?_⟩
  intro hf h1 h2 hle
  have c1 : ((finished : ℚ) - (scheduled : ℚ)) = ((finished - scheduled : ℕ) : ℚ) := by
    rw [Nat.cast_sub h2]
  have c2 : ((scheduled : ℚ) - (created : ℚ)) = ((scheduled - created : ℕ) : ℚ) := by
    rw [Nat.cast_sub h1]
  have c3 : ((finished : ℚ) - (scheduled : ℚ)) + ((scheduled : ℚ) - (created : ℚ))
      = ((finished - created : ℕ) : ℚ) := by
    rw [Nat.cast_sub (le_trans h1 h2)]
    ring
  have d1 : Dbl.isDouble ((finished : ℚ) - (scheduled : ℚ)) = true := by
    rw [c1]
    exact Dbl.isDouble_natCast _ (by omega)
  have d2 : Dbl.isDouble ((scheduled : ℚ) - (created : ℚ)) = true := by
    rw [c2]
    exact Dbl.isDouble_natCast _ (by omega)
  have d3 : Dbl.isDouble (((finished : ℚ) - (scheduled : ℚ))
      + ((scheduled : ℚ) - (created : ℚ))) = true := by
    rw [c3]
    exact Dbl.isDouble_natCast _ hle
  have a1 := hexec hf h2 d1
  have a2 := hwait (lt_of_le_of_lt h2 hf) h1 d2
  exact ⟨a1, a2, hsum _ _ a1 a2 d3⟩

/-- Witness for C13 (amended): created 1, scheduled 3, finished 5. -/
theorem query_finished_first_call_witness :
    5 < 2 ^ 64 ∧ 1 ≤ 3 ∧ 3 ≤ 5 ∧ 5 - 1 ≤ 2 ^ 53 ∧
      (SystemStats.default.query_finished 1 1 3 5).avg_exec_time
        = Dbl.fin (((5 : ℕ) : ℚ) - ((3 : ℕ) : ℚ)) ∧
      (SystemStats.default.query_finished 1 1 3 5).avg_time
        = Dbl.fin ((((5 : ℕ) : ℚ) - ((3 : ℕ) : ℚ)) + (((3 : ℕ) : ℚ) - ((1 : ℕ) : ℚ))) :=
  have h := (query_finished_first_call 1 3 5).2.2.2.2 (by norm_num) (by norm_num)
    (by norm_num) (by norm_num)
  ⟨by norm_num, by norm_num, by norm_num, by norm_num, h.1, h.2.2⟩

end SystemStats

namespace QueryStats

theorem addAll_snoc (q : QueryStats) (l : List Dbl) (r : Dbl) :
    addAll q (l ++ [r]) = (addAll q l).add_query r := by
  simp [addAll, List.foldl_append]

theorem addAll_counters (rs : List Dbl) :
    (addAll default rs).queries = rs.length % 2 ^ 64 ∧
      (addAll default rs).ratios
        = rs.foldl (fun acc r => Dbl.round (Dbl.add acc r)) (Dbl.fin 0) ∧
      (addAll default rs).single_local_hits = 0 ∧
      (addAll default rs).multi_local_hits = 0 ∧
      (addAll default rs).multi_local_partials = 0 ∧
      (addAll default rs).single_remote_hits = 0 ∧
      (addAll default rs).multi_remote_hits = 0 ∧
      (addAll default rs).multi_remote_partials = 0 ∧
      (addAll default rs).misses = 0 ∧
      (addAll default rs).result_bytes = 0 := by
  induction rs using List.reverseRecOn with
  | nil => simp [addAll, default]
  | append_singleton l r ih =>
    obtain ⟨i1, i2, f1, f2, f3, f4, f5, f6, f7, f8⟩ := ih
    rw [addAll_snoc]
    refine ⟨?_, ?_, f1, f2, f3, f4, f5, f6, f7, f8⟩
    · simp only [add_query, i1, List.length_append, List.length_singleton]
      omega
    · simp only [add_query, i2, List.foldl_append, List.foldl_cons, List.foldl_nil]

theorem exact_sum (qs : List ℚ)
    (h : ∀ k, k ≤ qs.length → Dbl.isDouble ((qs.take k).sum) = true) :
    (qs.map Dbl.fin).foldl (fun acc r => Dbl.round (Dbl.add acc r)) (Dbl.fin 0)
      = Dbl.fin qs.sum := by
  induction qs using List.reverseRecOn with
  | nil => simp
  | append_singleton l r ih =>
    have hl : ∀ k, k ≤ l.length → Dbl.isDouble ((l.take k).sum) = true := by
      intro k hk
      have := h k (by simp; omega)
      rwa [List.take_append_of_le_length hk] at this
    have hlast := h (l ++ [r]).length (le_refl _)
    rw [List.take_length] at hlast
    rw [List.map_append, List.foldl_append, ih hl]
    simp only [List.map_cons, List.map_nil, List.foldl_cons, List.foldl_nil, Dbl.add,
      Dbl.round]
    rw [List.sum_append, List.sum_singleton] at hlast ⊢
    exact Dbl.ofRat_of_isDouble _ hlast

/-- C27 (as stated, refuted): three calls `add_query(0.1)` on a fresh
QueryStats, `0.1` being the double `3602879701896397 / 2^55`: the third
addition is rounded, and `get_hit_ratio()` returns the double
`7205759403792795 / 2^56` (printed 0.10000000000000002), which is not
`(r1 + r2 + r3) / 3`. -/
theorem add_query_running_sum_counterexample :
    Dbl.isDouble Dbl.tenth = true ∧
      (addAll default [Dbl.fin Dbl.tenth, Dbl.fin Dbl.tenth, Dbl.fin Dbl.tenth]).get_hit_ratio
        = Dbl.fin (7205759403792795 / 2 ^ 56) ∧
      (7205759403792795 / 2 ^ 56 : ℚ) ≠ (Dbl.tenth + Dbl.tenth + Dbl.tenth) / 3 := by
  refine ⟨by simp [Dbl.isDouble, Dbl.ofRat_tenth], ?_, by norm_num [Dbl.tenth]⟩
  have e3 : Dbl.ofRat ((3 : ℕ) : ℚ) = Dbl.fin ((3 : ℕ) : ℚ) := Dbl.ofRat_natCast 3 (by norm_num)
  have hq : (addAll default [Dbl.fin Dbl.tenth, Dbl.fin Dbl.tenth, Dbl.fin Dbl.tenth]).queries
      = 3 := rfl
  have hr : (addAll default [Dbl.fin Dbl.tenth, Dbl.fin Dbl.tenth, Dbl.fin Dbl.tenth]).ratios
      = Dbl.fin (5404319552844596 / 2 ^ 54) := by
    show Dbl.round (Dbl.add (Dbl.round (Dbl.add (Dbl.round (Dbl.add (Dbl.fin 0)
      (Dbl.fin Dbl.tenth))) (Dbl.fin Dbl.tenth))) (Dbl.fin Dbl.tenth)) = _
    simp only [Dbl.add, Dbl.round, zero_add, Dbl.ofRat_tenth, Dbl.ofRat_two_tenths,
      Dbl.ofRat_three_tenths]
  have h3 : ((3 : ℕ) : ℚ) ≠ 0 := by norm_num
  simp only [get_hit_ratio, hq, hr, e3, Dbl.div, Dbl.round, h3, if_false, Nat.ofNat_pos,
    gt_iff_lt, if_true, Dbl.ofRat_third_of_sum]

/-- C27 (amended): starting from a freshly constructed QueryStats, after
`add_query(r1)`, ..., `add_query(rn)` with `n >= 1` (and `n` within the range of
the 64-bit member `queries`), `queries` equals `n`, and the counters of hits,
partial hits and misses and `result_bytes` are all still 0. `get_hit_ratio()`
returns the rounded quotient of the sum accumulated in call order, every
addition rounded, by `n`. It equals `(r1 + ... + rn) / n` when the ratios are
finite and every partial sum `r1 + ... + rk`, the count `n` and the quotient are
doubles, so that no operation rounds. -/
theorem add_query_running_sum (rs : List Dbl) (hn1 : 1 ≤ rs.length) (hn : rs.length < 2 ^ 64) :
    (addAll default rs).queries = rs.length ∧
      (addAll default rs).get_hit_ratio
        = Dbl.round (Dbl.div
            (rs.foldl (fun acc r => Dbl.round (Dbl.add acc r)) (Dbl.fin 0))
            (Dbl.ofRat (rs.length : ℚ))) ∧
      (∀ qs : List ℚ, rs = qs.map Dbl.fin →
        (∀ k, k ≤ qs.length → Dbl.isDouble ((qs.take k).sum) = true) →
        Dbl.isDouble (qs.length : ℚ) = true →
        Dbl.isDouble (qs.sum / (qs.length : ℚ)) = true →
        (addAll default rs).get_hit_ratio = Dbl.fin (qs.sum / (qs.length : ℚ))) ∧
      (addAll default rs).single_local_hits = 0 ∧
      (addAll default rs).multi_local_hits = 0 ∧
      (addAll default rs).multi_local_partials = 0 ∧
      (addAll default rs).single_remote_hits = 0 ∧
      (addAll default rs).multi_remote_hits = 0 ∧
      (addAll default rs).multi_remote_partials = 0 ∧
      (addAll default rs).misses = 0 ∧
      (addAll default rs).result_bytes = 0 := by
  obtain ⟨i1, i2, hf⟩ := addAll_counters rs
  have hq : (addAll default rs).queries = rs.length := by
    rw [i1, Nat.mod_eq_of_lt hn]
  have hpos : rs.length > 0 := by omega
  have hg : (addAll default rs).get_hit_ratio
      = Dbl.round (Dbl.div
          (rs.foldl (fun acc r => Dbl.round (Dbl.add acc r)) (Dbl.fin 0))
          (Dbl.ofRat (rs.length : ℚ))) := by
    simp only [get_hit_ratio, hq, hpos, if_true, i2]
  refine ⟨hq, hg, ?_, hf⟩
  intro qs hrs hsum hlen hquot
  rw [hg, hrs, exact_sum qs hsum, List.length_map, Dbl.ofRat_of_isDouble _ hlen]
  have hne : (qs.length : ℚ) ≠ 0 := by
    have : qs.length = rs.length := by rw [hrs, List.length_map]
    rw [this]
    exact_mod_cast (by omega : rs.length ≠ 0)
  simp only [Dbl.div, hne, if_false, Dbl.round]
  exact Dbl.ofRat_of_isDouble _ hquot

end QueryStats

end IEEE

theorem Dbl.ofRat_half : Dbl.ofRat (1 / 2) = Dbl.fin (1 / 2) := by
  have hz : roundHalfEven ((1 / 2 : ℚ) / 2 ^ (-53 : ℤ)) = 2 ^ 52 := by
    have : (1 / 2 : ℚ) / 2 ^ (-53 : ℤ) = ((2 ^ 52 : ℤ) : ℚ) := by norm_num
    rw [this]
    exact roundHalfEven_intCast _
  rw [Dbl.ofRat_eq_of_pos _ (-1) (-53) (2 ^ 52) (by norm_num) (by norm_num) (by norm_num) hz
    (by norm_num) (by norm_num)]
  norm_num

/-- Witness for C27 (amended): the two ratios 1 and 0, with hit ratio 1/2. -/
theorem IEEE.QueryStats.add_query_running_sum_witness :
    1 ≤ [Dbl.fin 1, Dbl.fin 0].length ∧ [Dbl.fin 1, Dbl.fin 0].length < 2 ^ 64 ∧
      (IEEE.QueryStats.addAll IEEE.QueryStats.default [Dbl.fin 1, Dbl.fin 0]).get_hit_ratio
        = Dbl.fin (([1, 0] : List ℚ).sum / (([1, 0] : List ℚ).length : ℚ)) :=
  ⟨by decide, by norm_num,
    (IEEE.QueryStats.add_query_running_sum [Dbl.fin 1, Dbl.fin 0] (by decide) (by norm_num)).2.2.1
      [1, 0] rfl
      (by
        intro k hk
        have h0 : Dbl.isDouble ((0 : ℕ) : ℚ) = true := Dbl.isDouble_natCast 0 (by norm_num)
        have h1 : Dbl.isDouble ((1 : ℕ) : ℚ) = true := Dbl.isDouble_natCast 1 (by norm_num)
        simp only [List.length_cons, List.length_nil] at hk
        interval_cases k
        · simpa using h0
        · simpa using h1
        · simpa using h1)
      (by
        have h2 : Dbl.isDouble ((2 : ℕ) : ℚ) = true := Dbl.isDouble_natCast 2 (by norm_num)
        simpa using h2)
      (by
        have e : (([1, 0] : List ℚ).sum / (([1, 0] : List ℚ).length : ℚ)) = 1 / 2 := by
          norm_num
        rw [e]
        unfold Dbl.isDouble
        rw [Dbl.ofRat_half]
        exact decide_eq_true rfl)⟩

end Mapping
